import Mathlib

/-!
# Road network and A* path finder (Exp3_Graph/pathfinder.hpp, pathfinder.cpp)

Shallow embedding of the classes point2d, location, city and plat.

Modelling conventions
* double has two embeddings. In the first, used for the theorems about the
  structure of the network and of the search (ids, roads, paths, contents of the
  containers), double is idealised as ℚ (exact arithmetic, no NaN, no rounding).
  In the second (section "Double precision", names beginning with dbl.) a double
  is a value of IEEE 754 binary64: every operation rounds to the nearest double,
  ties to even, an overflow gives an infinity, NaN compares unequal to everything,
  and static_cast<int> is undefined out of the range of int. The theorems that
  depend on rounding, on NaN or on the range of int (utm_zone, find_path from a
  place to itself, the scenario of two places, the length of a road, the
  heuristic) are stated about the second embedding.
* The libm functions std::sqrt, std::sin, std::cos and std::tan are not part of
  the repository and are fields of env, so every theorem holds for whatever
  values they return, or under the stated assumption on them.
* size_t is Nat reduced modulo 2^64 where arithmetic is done, unsigned is
  Nat reduced modulo 2^32.
* std::unordered_map<size_t, V> is an association list List (Nat × V):
  find returns the first entry of a key, operator[] assignment replaces that
  entry in place or appends a new one, erase drops the entries of a key.
  Where the source iterates over a hash container and the result depends on
  the iteration order (the scan of all_nodes and the loop over roads() in
  astar_search) the order is the corresponding field of env; std::priority_queue
  is a list whose tie-breaking among entries of equal f is a field of env too.
* std::shared_ptr<T> is a value of T (no object is shared between two owners),
  a null pointer is none.
* A method that mutates returns the new state next to its result; an exception
  is Except.error, returned together with the state at the throw.
-/

namespace chr

/-! ## Containers -/

/-- Entry lookup of unordered_map::find: the value of the first entry of key k. -/
def umap_find {β : Type} : List (Nat × β) → Nat → Option β
  | [], _ => none
  | (k1, v) :: m, k => if k1 = k then some v else umap_find m k

/-- Assignment m[k] = v: overwrite the entry of k, or add one. -/
def umap_set {β : Type} : List (Nat × β) → Nat → β → List (Nat × β)
  | [], k, v => [(k, v)]
  | (k1, v1) :: m, k, v => if k1 = k then (k, v) :: m else (k1, v1) :: umap_set m k v

/-- Removal unordered_map::erase(k): the map without the entries of k. -/
def umap_erase {β : Type} (m : List (Nat × β)) (k : Nat) : List (Nat × β) :=
  m.filter (fun e => decide (e.1 ≠ k))

/-- Keys of a map. -/
def umap_keys {β : Type} (m : List (Nat × β)) : List Nat := m.map Prod.fst

/-! ## point2d -/

/-- Errors thrown by the source: std::invalid_argument and std::runtime_error. -/
inductive error where
  | invalid_argument (what : String)
  | runtime_error (what : String)
  deriving DecidableEq, Repr

/-- Class point2d. -/
structure point2d where
  x_ : ℚ
  y_ : ℚ
  deriving DecidableEq

/-- Entry of the A* bookkeeping, struct plat::astar_node. -/
structure astar_node where
  g : ℚ
  f : ℚ
  parent : Nat
  deriving DecidableEq

/-- What the platform decides: the libm functions and the order in which hash
containers and the binary heap present their entries. -/
structure env where
  sqrt : ℚ → ℚ
  sin : ℚ → ℚ
  cos : ℚ → ℚ
  tan : ℚ → ℚ
  nodes_order : List (Nat × astar_node) → List (Nat × astar_node)
  roads_order : List (Nat × ℚ) → List (Nat × ℚ)
  queue_order : List astar_node → List astar_node

/-- An iteration visits every entry exactly once: the three orders are permutations. -/
def env.lawful (E : env) : Prop :=
  (∀ l, (E.nodes_order l).Perm l) ∧ (∀ l, (E.roads_order l).Perm l) ∧
    (∀ l, (E.queue_order l).Perm l)

/-- Difference point2d::operator-. -/
def point2d.sub (a b : point2d) : point2d := ⟨a.x_ - b.x_, a.y_ - b.y_⟩

/-- Length point2d::norm. -/
def point2d.norm (E : env) (a : point2d) : ℚ := E.sqrt (a.x_ * a.x_ + a.y_ * a.y_)

/-- Distance point2d::distance_to: (other - *this).norm(). -/
def point2d.distance_to (E : env) (a other : point2d) : ℚ := (other.sub a).norm E

/-! ## location -/

def UTM_K0 : ℚ := 0.9996
def M_PI : ℚ := 3.1415829535898
def WGS84_A : ℚ := 6378137.0
def WGS84_E2 : ℚ := 0.00669437999013

/-- Conversion static_cast<int> of a double: truncation towards zero. -/
def cast_int (q : ℚ) : ℤ := if 0 ≤ q then ⌊q⌋ else ⌈q⌉

/-- Class location. -/
structure location where
  id_ : Nat
  name_ : String
  globe_ : point2d
  plane_ : point2d
  roads_ : List (Nat × ℚ)
  deriving DecidableEq

/-- Static location::utm_zone. -/
def location.utm_zone (lon : ℚ) : ℤ := cast_int ((lon + 180.0) / 6.0) + 1

/-- Static location::wgs84_to_utm. -/
def location.wgs84_to_utm (E : env) (lon lat : ℚ) : point2d :=
  let lat_rad := lat * M_PI / 180.0
  let lon_rad := lon * M_PI / 180.0
  let zone := location.utm_zone lon
  let lon_origin : ℚ := ((zone - 1 : ℤ) : ℚ) * 6.0 - 180.0 + 3.0
  let lon_origin_rad := lon_origin * M_PI / 180.0
  let e2 := WGS84_E2
  let e4 := e2 * e2
  let e6 := e4 * e2
  let A0 := 1 - e2 / 4 - 3 * e4 / 64 - 5 * e6 / 256
  let A2 := 3.0 / 8.0 * (e2 + e4 / 4 + 15 * e6 / 128)
  let A4 := 15.0 / 256.0 * (e4 + 3 * e6 / 4)
  let A6 := 35 * e6 / 3072
  let M := WGS84_A * (A0 * lat_rad - A2 * E.sin (2 * lat_rad) + A4 * E.sin (4 * lat_rad)
    - A6 * E.sin (6 * lat_rad))
  let N := WGS84_A / E.sqrt (1 - e2 * E.sin lat_rad * E.sin lat_rad)
  let T := E.tan lat_rad * E.tan lat_rad
  let C := e2 / (1 - e2) * E.cos lat_rad * E.cos lat_rad
  let A := (lon_rad - lon_origin_rad) * E.cos lat_rad
  let x := UTM_K0 * N * (A + (1 - T + C) * A * A * A / 6
    + (5 - 18 * T + T * T + 72 * C - 58 * e2) * A * A * A * A * A / 120)
  let y := UTM_K0 * (M + N * E.tan lat_rad * (A * A / 2
    + (5 - T + 9 * C + 4 * C * C) * A * A * A * A / 24
    + (61 - 58 * T + T * T + 600 * C - 330 * e2) * A * A * A * A * A * A / 720))
  let x := x + 500000.0
  let y := if lat < 0 then y + 10000000.0 else y
  ⟨x, y⟩

/-- Constructor location::location(id, name, globe_coordinate). -/
def location.init (E : env) (id : Nat) (name : String) (globe_coordinate : point2d) :
    Except error location :=
  if id = 0 then .error (.invalid_argument "地点ID不可为0")
  else .ok ⟨id, name, globe_coordinate,
    location.wgs84_to_utm E globe_coordinate.y_ globe_coordinate.x_, []⟩

/-- Method location::add_road: roads_[id] = plane_.distance_to(plane_coordinate). -/
def location.add_road (E : env) (l : location) (id : Nat) (plane_coordinate : point2d) :
    location :=
  { l with roads_ := umap_set l.roads_ id (l.plane_.distance_to E plane_coordinate) }

/-- Method location::remove_road: roads_.erase(id) > 0. -/
def location.remove_road (l : location) (id : Nat) : Bool × location :=
  ((umap_find l.roads_ id).isSome, { l with roads_ := umap_erase l.roads_ id })

/-- Method location::has_road_to. -/
def location.has_road_to (l : location) (id : Nat) : Bool := (umap_find l.roads_ id).isSome

/-- Method location::road_length_to: the stored weight, 0.0 when there is none. -/
def location.road_length_to (l : location) (id : Nat) : ℚ :=
  match umap_find l.roads_ id with
  | some d => d
  | none => 0.0

/-! ## city -/

/-- Class city. -/
structure city where
  id_ : Nat
  name_ : String
  places_ : List (Nat × location)
  deriving DecidableEq

/-- Static city::place_id: ((size_t)(city_id) << 32) + place_serial, both arguments
unsigned. -/
def city.place_id (city_id place_serial : Nat) : Nat :=
  ((((city_id % 2 ^ 32) <<< 32) % 2 ^ 64) + place_serial % 2 ^ 32) % 2 ^ 64

/-- Constructor city::city(id, name). -/
def city.init (id : Nat) (name : String) : Except error city :=
  if id = 0 then .error (.invalid_argument "城市ID不可为0") else .ok ⟨id, name, []⟩

/-- Method city::has_place. -/
def city.has_place (c : city) (id : Nat) : Bool := (umap_find c.places_ id).isSome

/-- Method city::place: the location, none for nullptr. -/
def city.place (c : city) (id : Nat) : Option location := umap_find c.places_ id

/-- Method city::local_place. -/
def city.local_place (c : city) (serial : Nat) : Option location :=
  umap_find c.places_ (city.place_id c.id_ serial)

/-- Method city::add_place. The right-hand side of the assignment is evaluated first
(C++17), so a throwing constructor leaves places_ as it was. -/
def city.add_place (E : env) (c : city) (id : Nat) (name : String) (globe_coordinate : point2d) :
    Except error location × city :=
  if c.has_place id then (.error (.invalid_argument "地点ID已存在"), c)
  else match location.init E id name globe_coordinate with
    | .error e => (.error e, c)
    | .ok l => (.ok l, { c with places_ := umap_set c.places_ id l })

/-- Method city::add_local_place. -/
def city.add_local_place (E : env) (c : city) (serial : Nat) (name : String)
    (globe_coordinate : point2d) : Except error location × city :=
  let id := city.place_id c.id_ serial
  if c.has_place id then (.error (.invalid_argument "地点ID已存在"), c)
  else match location.init E id name globe_coordinate with
    | .error e => (.error e, c)
    | .ok l => (.ok l, { c with places_ := umap_set c.places_ id l })

/-- Method city::remove_place: every place of the city drops its road to id, then the
entry of id is erased. -/
def city.remove_place (c : city) (id : Nat) : Bool × city :=
  if !c.has_place id then (false, c)
  else
    let scrubbed := c.places_.map (fun e => (e.1, (e.2.remove_road id).2))
    (decide (0 < (scrubbed.filter (fun e => decide (e.1 = id))).length),
      { c with places_ := umap_erase scrubbed id })

/-- Method city::remove_local_place. -/
def city.remove_local_place (c : city) (serial : Nat) : Bool × city :=
  let id := city.place_id c.id_ serial
  if !c.has_place id then (false, c)
  else
    let scrubbed := c.places_.map (fun e => (e.1, (e.2.remove_road id).2))
    (decide (0 < (scrubbed.filter (fun e => decide (e.1 = id))).length),
      { c with places_ := umap_erase scrubbed id })

/-- Method city::add_road. -/
def city.add_road (E : env) (c : city) (from_id to_id : Nat) : Except error ℚ × city :=
  match c.place from_id, c.place to_id with
  | some from_place, some to_place =>
    let from_place1 := from_place.add_road E to_place.id_ to_place.plane_
    (.ok (from_place1.road_length_to to_id),
      { c with places_ := umap_set c.places_ from_id from_place1 })
  | _, _ => (.error (.invalid_argument "地点ID不存在"), c)

/-- Method city::add_bidirectional_road. -/
def city.add_bidirectional_road (E : env) (c : city) (from_id to_id : Nat) :
    Except error ℚ × city :=
  match c.add_road E from_id to_id with
  | (.error e, c1) => (.error e, c1)
  | (.ok dist1, c1) =>
    match c1.add_road E to_id from_id with
    | (.error e, c2) => (.error e, c2)
    | (.ok dist2, c2) => (.ok (max dist1 dist2), c2)

/-- Method city::add_intercity_road. -/
def city.add_intercity_road (E : env) (c : city) (from_id to_id : Nat)
    (plane_coordinate : point2d) : Except error ℚ × city :=
  match c.place from_id with
  | none => (.error (.invalid_argument "地点ID不存在"), c)
  | some from_place =>
    let from_place1 := from_place.add_road E to_id plane_coordinate
    (.ok (from_place1.road_length_to to_id),
      { c with places_ := umap_set c.places_ from_id from_place1 })

/-- Method city::has_road. -/
def city.has_road (c : city) (from_id to_id : Nat) : Bool :=
  match c.place from_id with
  | some from_place => from_place.has_road_to to_id
  | none => false

/-- Method city::road_length. -/
def city.road_length (c : city) (from_id to_id : Nat) : ℚ :=
  match c.place from_id with
  | some from_place => from_place.road_length_to to_id
  | none => 0.0

/-! ## plat -/

/-- Class plat: the towns. -/
structure plat where
  towns_ : List (Nat × city)
  deriving DecidableEq

/-- The high half of a place id as the source takes it: unsigned town_id = id >> 32. -/
def town_of (id : Nat) : Nat := (id >>> 32) % 2 ^ 32

/-- Method plat::town. -/
def plat.town (P : plat) (id : Nat) : Option city := umap_find P.towns_ id

/-- Method plat::has_town. -/
def plat.has_town (P : plat) (id : Nat) : Bool := (umap_find P.towns_ id).isSome

/-- Method plat::place. -/
def plat.place (P : plat) (id : Nat) : Option location :=
  match umap_find P.towns_ (town_of id) with
  | none => none
  | some t => t.place id

/-- Method plat::add_town. The city is constructed before towns_[id] is touched. -/
def plat.add_town (P : plat) (id : Nat) (name : String) : Except error city × plat :=
  if P.has_town id then (.error (.invalid_argument "城市ID已存在"), P)
  else match city.init id name with
    | .error e => (.error e, P)
    | .ok c => (.ok c, { P with towns_ := umap_set P.towns_ id c })

/-- Method plat::remove_town: towns_.erase(id) > 0. -/
def plat.remove_town (P : plat) (id : Nat) : Bool × plat :=
  ((umap_find P.towns_ id).isSome, { P with towns_ := umap_erase P.towns_ id })

/-- Method plat::add_road. -/
def plat.add_road (E : env) (P : plat) (from_id to_id : Nat) : Except error ℚ × plat :=
  let from_town_id := town_of from_id
  let to_town_id := town_of to_id
  match P.town from_town_id with
  | none => (.error (.invalid_argument "起点所在城市不存在"), P)
  | some from_town =>
    if from_town_id = to_town_id then
      let r := from_town.add_road E from_id to_id
      (r.1, { P with towns_ := umap_set P.towns_ from_town_id r.2 })
    else
      match P.place to_id with
      | none => (.error (.invalid_argument "终点地点不存在"), P)
      | some to_place =>
        let r := from_town.add_intercity_road E from_id to_id to_place.plane_
        (r.1, { P with towns_ := umap_set P.towns_ from_town_id r.2 })

/-- Method plat::add_bidirectional_road. -/
def plat.add_bidirectional_road (E : env) (P : plat) (from_id to_id : Nat) :
    Except error ℚ × plat :=
  let from_town_id := town_of from_id
  let to_town_id := town_of to_id
  if from_town_id = to_town_id then
    match P.town from_town_id with
    | none => (.error (.invalid_argument "城市不存在"), P)
    | some town_ptr =>
      let r := town_ptr.add_bidirectional_road E from_id to_id
      (r.1, { P with towns_ := umap_set P.towns_ from_town_id r.2 })
  else
    match P.add_road E from_id to_id with
    | (.error e, P1) => (.error e, P1)
    | (.ok dist1, P1) =>
      match P1.add_road E to_id from_id with
      | (.error e, P2) => (.error e, P2)
      | (.ok dist2, P2) => (.ok (max dist1 dist2), P2)

/-- Method plat::has_road. -/
def plat.has_road (P : plat) (from_id to_id : Nat) : Bool :=
  match P.place from_id with
  | some from_place => from_place.has_road_to to_id
  | none => false

/-- Method plat::road_length. -/
def plat.road_length (P : plat) (from_id to_id : Nat) : ℚ :=
  match P.place from_id with
  | some from_place => from_place.road_length_to to_id
  | none => 0.0

/-- The network after a method has changed, in place, the city that plat::town(id)
points to: callers reach a zone through the shared_ptr returned by town(id) and call its
methods (add_local_place, remove_local_place, ...) on the stored object. -/
def plat.set_town (P : plat) (id : Nat) (c : city) : plat := ⟨umap_set P.towns_ id c⟩

/-! ## A* search -/

/-- Comparison astar_node::operator>: on f alone. -/
def astar_node.gt (a other : astar_node) : Bool := decide (a.f > other.f)

/-- Comparison astar_node::operator==: g, f and parent. -/
def astar_node.eq (a other : astar_node) : Bool :=
  decide (a.g = other.g) && decide (a.f = other.f) && decide (a.parent = other.parent)

/-- Static astar_node::heuristic. -/
def astar_node.heuristic (E : env) (a b : point2d) : ℚ := a.distance_to E b

/-- First entry of a list that no later entry beats under operator>. -/
def pq_min : List astar_node → Option astar_node
  | [] => none
  | a :: l =>
    match pq_min l with
    | none => some a
    | some b => if a.gt b then some b else some a

/-- Call open_list.top() of the min-queue std::priority_queue<astar_node, vector,
greater<>>: an entry of least f, none when the queue is empty. -/
def pq_top (E : env) (open_list : List astar_node) : Option astar_node :=
  pq_min (E.queue_order open_list)

/-- The scan of astar_search that recovers the id of the popped entry: the key of the
first entry of all_nodes, in iteration order, whose node equals curr_node; 0 when there
is none. -/
def scan_id (E : env) (all_nodes : List (Nat × astar_node)) (curr_node : astar_node) : Nat :=
  match (E.nodes_order all_nodes).find? (fun e => e.2.eq curr_node) with
  | some e => e.1
  | none => 0

/-- Read access all_nodes[k]: a missing key is first inserted with a zeroed node. -/
def umap_index (m : List (Nat × astar_node)) (k : Nat) :
    astar_node × List (Nat × astar_node) :=
  match umap_find m k with
  | some v => (v, m)
  | none => (⟨0, 0, 0⟩, m ++ [(k, ⟨0, 0, 0⟩)])

/-- Local variables of astar_search. -/
structure astar_state where
  open_list : List astar_node
  all_nodes : List (Nat × astar_node)
  closed_set : List Nat
  deriving DecidableEq

/-- Test !all_nodes.count(neighbor_id) || g_new < all_nodes[neighbor_id].g of
astar_search: the neighbour is new, or g_new improves on its recorded g. -/
def astar_improves (all_nodes : List (Nat × astar_node)) (neighbor_id : Nat) (g_new : ℚ) : Bool :=
  match umap_find all_nodes neighbor_id with
  | none => true
  | some n => decide (g_new < n.g)

/-- Body of the loop over curr_place->roads() in astar_search, for one road. -/
def astar_relax (E : env) (P : plat) (goal : location) (curr_id : Nat) (s : astar_state)
    (road : Nat × ℚ) : astar_state :=
  let neighbor_id := road.1
  let distance := road.2
  if s.closed_set.contains neighbor_id then s
  else match P.place neighbor_id with
    | none => s
    | some neighbor_place =>
      let r := umap_index s.all_nodes curr_id
      let g_new := r.1.g + distance
      let h_new := astar_node.heuristic E neighbor_place.plane_ goal.plane_
      if astar_improves r.2 neighbor_id g_new then
        let f_new := g_new + h_new
        { open_list := s.open_list ++ [⟨g_new, f_new, curr_id⟩],
          all_nodes := umap_set r.2 neighbor_id ⟨g_new, f_new, curr_id⟩,
          closed_set := s.closed_set }
      else { s with all_nodes := r.2 }

/-- The loop of plat::reconstruct_path; path is the vector built so far, in push_back
order. The source loop has no bound; none stands for a walk longer than the fuel. -/
def reconstruct_loop (nodes : List (Nat × astar_node)) : Nat → Nat → List Nat → Option (List Nat)
  | 0, _, _ => none
  | fuel + 1, curr_id, path =>
    if curr_id = 0 then some path
    else
      match umap_find nodes curr_id with
      | none => some (path ++ [curr_id])
      | some n => reconstruct_loop nodes fuel n.parent (path ++ [curr_id])

/-- Method plat::reconstruct_path: the parent walk from end_id, reversed. A walk over
pairwise different keys takes at most nodes.length + 1 rounds. -/
def plat.reconstruct_path (nodes : List (Nat × astar_node)) (end_id : Nat) : Option (List Nat) :=
  (reconstruct_loop nodes (nodes.length + 2) end_id []).map List.reverse

/-- The while loop of plat::astar_search; none stands for a run longer than the fuel. -/
def astar_loop (E : env) (P : plat) (goal : location) : Nat → astar_state → Option (List Nat)
  | 0, _ => none
  | fuel + 1, s =>
    match pq_top E s.open_list with
    | none => some []
    | some curr_node =>
      let open1 := s.open_list.erase curr_node
      let curr_id := scan_id E s.all_nodes curr_node
      if curr_id = goal.id_ then plat.reconstruct_path s.all_nodes goal.id_
      else if s.closed_set.contains curr_id then
        astar_loop E P goal fuel { s with open_list := open1 }
      else
        let closed1 := curr_id :: s.closed_set
        match P.place curr_id with
        | none => astar_loop E P goal fuel ⟨open1, s.all_nodes, closed1⟩
        | some curr_place =>
          astar_loop E P goal fuel
            ((E.roads_order curr_place.roads_).foldl (astar_relax E P goal curr_id)
              ⟨open1, s.all_nodes, closed1⟩)

/-- The ids whose roads the while loop of plat::astar_search scans, in order: the loop of
astar_loop, with the same tests and the same states, returning the list of the expanded
ids in place of the path. -/
def astar_expanded (E : env) (P : plat) (goal : location) : Nat → astar_state → List Nat
  | 0, _ => []
  | fuel + 1, s =>
    match pq_top E s.open_list with
    | none => []
    | some curr_node =>
      let open1 := s.open_list.erase curr_node
      let curr_id := scan_id E s.all_nodes curr_node
      if curr_id = goal.id_ then []
      else if s.closed_set.contains curr_id then
        astar_expanded E P goal fuel { s with open_list := open1 }
      else
        let closed1 := curr_id :: s.closed_set
        match P.place curr_id with
        | none => astar_expanded E P goal fuel ⟨open1, s.all_nodes, closed1⟩
        | some curr_place =>
          curr_id :: astar_expanded E P goal fuel
            ((E.roads_order curr_place.roads_).foldl (astar_relax E P goal curr_id)
              ⟨open1, s.all_nodes, closed1⟩)

/-- Number of roads stored in the network. -/
def plat.road_count (P : plat) : Nat :=
  (P.towns_.map (fun t => (t.2.places_.map (fun e => e.2.roads_.length)).sum)).sum

/-- Method plat::astar_search. Every round pops one queue entry and at most one entry per
stored road is ever pushed on top of the initial one, so road_count + 2 rounds are
enough for the loop to end. -/
def plat.astar_search (E : env) (P : plat) (start goal : location) : Option (List Nat) :=
  let h_start := astar_node.heuristic E start.plane_ goal.plane_
  astar_loop E P goal (P.road_count + 2)
    ⟨[⟨0, h_start, 0⟩], [(start.id_, ⟨0, h_start, 0⟩)], []⟩

/-- The ids expanded by the search of plat::find_path(from_id, to_id). -/
def plat.expanded (E : env) (P : plat) (from_id to_id : Nat) : List Nat :=
  match P.place from_id, P.place to_id with
  | some start_place, some goal_place =>
    astar_expanded E P goal_place (P.road_count + 2)
      ⟨[⟨0, astar_node.heuristic E start_place.plane_ goal_place.plane_, 0⟩],
        [(start_place.id_, ⟨0, astar_node.heuristic E start_place.plane_ goal_place.plane_, 0⟩)],
        []⟩
  | _, _ => []

/-- Method plat::find_path. -/
def plat.find_path (E : env) (P : plat) (from_id to_id : Nat) : Option (List Nat) :=
  match P.place from_id, P.place to_id with
  | some start_place, some goal_place => P.astar_search E start_place goal_place
  | _, _ => some []

/-! ## Text search -/

/-- Call std::transform(s.begin(), s.end(), s.begin(), ::tolower): the characters of s with
the ASCII capitals turned into small letters. -/
def to_lower (s : String) : List Char := s.data.map Char.toLower

/-- Test hay.find(needle) != std::string::npos: needle starts at some position of hay. -/
def str_find : List Char → List Char → Bool
  | [], needle => needle.isPrefixOf []
  | c :: hay, needle => needle.isPrefixOf (c :: hay) || str_find hay needle

/-- Comparison operator< of std::string: lexicographic, the characters compared by their
unsigned values; a proper initial part is less. -/
def str_less : List Char → List Char → Bool
  | _, [] => false
  | [], _ :: _ => true
  | a :: as, b :: bs =>
    decide (a.toNat < b.toNat) || (decide (a.toNat = b.toNat) && str_less as bs)

/-- Inner loop of plat::fuzzy_find_places over the places of one town: a matching place is
appended to results as (place id, town name + " " + place name). -/
def fuzzy_scan_town (lower_keyword : List Char) (town : city) (results : List (Nat × String)) :
    List (Nat × String) :=
  town.places_.foldl (fun acc e =>
    if str_find (to_lower (town.name_ ++ e.2.name_)) lower_keyword then
      acc ++ [(e.1, town.name_ ++ " " ++ e.2.name_)]
    else acc) results

/-- Method plat::fuzzy_find_places. std::sort with the comparator a.second < b.second is
taken as insertion sort, an entry going before the first one that is not less than it: the
source leaves open which of two entries with equal display strings comes first. -/
def plat.fuzzy_find_places (P : plat) (keyword : String) : List (Nat × String) :=
  if keyword = "" then []
  else
    let lower_keyword := to_lower keyword
    let results := P.towns_.foldl (fun acc t => fuzzy_scan_town lower_keyword t.2 acc) []
    results.insertionSort (fun a b => str_less b.2.data a.2.data = false)

/-! ## Persistence

The file is modelled by its records: an array of city records, each with id, name, place
records and road records. The text layer (operator<< and the line parser) is taken to
write and read every number and every name exactly. -/

/-- Place record of the file: id, name, longitude, latitude. -/
structure place_record where
  id : Nat
  name : String
  longitude : ℚ
  latitude : ℚ
  deriving DecidableEq

/-- Road record of the file: from, to, bidirectional. -/
structure road_record where
  from_id : Nat
  to_id : Nat
  bidirectional : Bool
  deriving DecidableEq

/-- City record of the file: id, name, places, roads. -/
structure city_record where
  id : Nat
  name : String
  places : List place_record
  roads : List road_record
  deriving DecidableEq

/-- Body of the road loops of plat::save_all_cities_as_json for the road from_id -> to_id
of a town: nothing when the reverse road is in saved_roads, else a record flagged
bidirectional when to_id is a place of the town with a road back. -/
def save_road (town : city) (from_id : Nat) (acc : List road_record × List (Nat × Nat))
    (to_id : Nat) : List road_record × List (Nat × Nat) :=
  if acc.2.contains (to_id, from_id) then acc
  else
    let is_bidirectional : Bool :=
      match umap_find town.places_ to_id with
      | some to_place => (umap_find to_place.roads_ from_id).isSome
      | none => false
    (acc.1 ++ [⟨from_id, to_id, is_bidirectional⟩], (from_id, to_id) :: acc.2)

/-- Road records written for one town. -/
def city.save_roads (town : city) : List road_record :=
  (town.places_.foldl (fun acc from_e =>
    from_e.2.roads_.foldl (fun acc1 to_e => save_road town from_e.1 acc1 to_e.1) acc)
    ([], [])).1

/-- Method plat::save_all_cities_as_json: the records written. -/
def plat.save_all_cities_as_json (P : plat) : List city_record :=
  P.towns_.map (fun t =>
    ⟨t.1, t.2.name_,
      t.2.places_.map (fun e => ⟨e.1, e.2.name_, e.2.globe_.y_, e.2.globe_.x_⟩),
      t.2.save_roads⟩)

/-- Place records of a city object of the file, read into current_city: a record with
id 0 or an empty name is skipped, the others go through add_place; an exception ends the
load. -/
def load_places (E : env) : city → List place_record → Except error Unit × city
  | c, [] => (.ok (), c)
  | c, r :: rest =>
    if r.id % 2 ^ 64 ≠ 0 ∧ r.name ≠ "" then
      match c.add_place E (r.id % 2 ^ 64) r.name ⟨r.latitude, r.longitude⟩ with
      | (.error e, c1) => (.error e, c1)
      | (.ok _, c1) => load_places E c1 rest
    else load_places E c rest

/-- Road records of a city object of the file, read into current_city: a record with
from or to 0 is skipped, the others go through the city-level add_bidirectional_road or
add_road of current_city. -/
def load_roads (E : env) : city → List road_record → Except error Unit × city
  | c, [] => (.ok (), c)
  | c, r :: rest =>
    if r.from_id % 2 ^ 64 ≠ 0 ∧ r.to_id % 2 ^ 64 ≠ 0 then
      match (if r.bidirectional then c.add_bidirectional_road E (r.from_id % 2 ^ 64) (r.to_id % 2 ^ 64)
        else c.add_road E (r.from_id % 2 ^ 64) (r.to_id % 2 ^ 64)) with
      | (.error e, c1) => (.error e, c1)
      | (.ok _, c1) => load_roads E c1 rest
    else load_roads E c rest

/-- One city object of the file. With id 0 or an empty name no city is made and its
places and roads are skipped; else the city is stored in towns_ and filled in place. -/
def load_city (E : env) (P : plat) (r : city_record) : Except error Unit × plat :=
  let current_city_id := r.id % 2 ^ 32
  if current_city_id ≠ 0 ∧ r.name ≠ "" then
    match load_places E ⟨current_city_id, r.name, []⟩ r.places with
    | (.error e, c1) => (.error e, P.set_town current_city_id c1)
    | (.ok _, c1) =>
      match load_roads E c1 r.roads with
      | (.error e, c2) => (.error e, P.set_town current_city_id c2)
      | (.ok _, c2) => (.ok (), P.set_town current_city_id c2)
  else (.ok (), P)

/-- The loop of plat::load_all_cities_from_json over the city objects. -/
def load_cities (E : env) : plat → List city_record → Except error Unit × plat
  | P, [] => (.ok (), P)
  | P, r :: rest =>
    match load_city E P r with
    | (.error e, P1) => (.error e, P1)
    | (.ok _, P1) => load_cities E P1 rest

/-- Method plat::load_all_cities_from_json: towns_.clear(), then the city objects. -/
def plat.load_all_cities_from_json (E : env) (_P : plat) (file : List city_record) :
    Except error Unit × plat :=
  load_cities E ⟨[]⟩ file

/-! ## Well-formed networks -/

/-- What the constructors and add operations establish for a city: a nonzero id, one
entry per key, and every location stored under its own nonzero id. -/
def city.wf (c : city) : Prop :=
  c.id_ ≠ 0 ∧ (umap_keys c.places_).Nodup ∧ ∀ e ∈ c.places_, e.2.id_ = e.1 ∧ e.1 ≠ 0

/-- The same for the whole network: one entry per town id, every city stored under its
own id. -/
def plat.wf (P : plat) : Prop :=
  (umap_keys P.towns_).Nodup ∧ ∀ t ∈ P.towns_, t.2.id_ = t.1 ∧ t.2.wf

instance city.wf_decidable (c : city) : Decidable c.wf := by
  unfold city.wf
  infer_instance

instance plat.wf_decidable (P : plat) : Decidable P.wf := by
  unfold plat.wf
  infer_instance

/-- A road leads from u to v: plat::has_road(u, v). -/
def plat.road (P : plat) (u v : Nat) : Prop := P.has_road u v = true

/-- There is a directed path of roads from u to v. -/
def plat.reachable (P : plat) (u v : Nat) : Prop := Relation.ReflTransGen P.road u v

/-- Every consecutive pair of the path is joined by a road. -/
def plat.is_route (P : plat) (path : List Nat) : Prop := List.Chain' P.road path

/-- What holds of the bookkeeping of astar_search from the second round on, s0 being the
id of the start: the start is closed and keeps parent 0; every other recorded id has a
nonzero recorded parent with a road from that parent to it; every recorded id can be
reached from the start. -/
def astar_inv (P : plat) (s0 : Nat) (s : astar_state) : Prop :=
  s0 ∈ s.closed_set ∧
  (∃ n, umap_find s.all_nodes s0 = some n ∧ n.parent = 0) ∧
  (∀ k n, umap_find s.all_nodes k = some n → k ≠ s0 →
    n.parent ≠ 0 ∧ P.road n.parent k ∧ (umap_find s.all_nodes n.parent).isSome = true) ∧
  (∀ k n, umap_find s.all_nodes k = some n → P.reachable s0 k)

/-- What holds of the closed set and the recorded parents of astar_search, the list
closed_set holding the closed ids from the last closed to the first: no id is closed
twice, the goal is not closed, every closed id other than 0 is recorded, no key of
all_nodes is recorded twice, and every recorded parent other than 0 is closed, before the
id it is recorded for when that id is closed as well. -/
def astar_acyclic (goal_id : Nat) (s : astar_state) : Prop :=
  s.closed_set.Nodup ∧ goal_id ∉ s.closed_set ∧
  (umap_keys s.all_nodes).Nodup ∧
  (∀ k ∈ s.closed_set, k ≠ 0 → (umap_find s.all_nodes k).isSome = true) ∧
  (∀ k n, umap_find s.all_nodes k = some n → n.parent ≠ 0 →
    n.parent ∈ s.closed_set ∧
    ∀ pre post, s.closed_set = pre ++ k :: post → n.parent ∈ post)

/-- Number of roads stored on places whose id is not closed: a bound on the queue entries
that can still be pushed. -/
def plat.pending (P : plat) (closed : List Nat) : Nat :=
  (P.towns_.map (fun t =>
    (t.2.places_.map (fun e => if closed.contains e.1 then 0 else e.2.roads_.length)).sum)).sum

/-- The path leads from from_id to to_id along roads. -/
def plat.is_path_between (P : plat) (from_id to_id : Nat) (path : List Nat) : Prop :=
  path.head? = some from_id ∧ path.getLast? = some to_id ∧ P.is_route path

/-! ## Sample data -/

/-- A sample platform: square roots exact on squares of integers, Taylor polynomials
for the trigonometric functions, containers iterated in insertion order. -/
def sample_env : env where
  sqrt := fun q => (Nat.sqrt q.num.toNat : ℚ) / (Nat.sqrt q.den : ℚ)
  sin := fun x => x - x * x * x / 6
  cos := fun x => 1 - x * x / 2
  tan := fun x => x + x * x * x / 3
  nodes_order := fun l => l
  roads_order := fun l => l
  queue_order := fun l => l

/-- The empty network. -/
def plat.empty : plat := ⟨[]⟩

/-- Scenario of the specification on the sample platform: plat::add_town(1, "Capital"),
then add_local_place for serial 1 at (lon 116.00, lat 39.90) and serial 2 at (lon 116.01,
lat 39.90); a globe point is (latitude, longitude). -/
def capital_town : city :=
  ((((⟨1, "Capital", []⟩ : city).add_local_place sample_env 1 "A" ⟨39.90, 116.00⟩).2).add_local_place
    sample_env 2 "B" ⟨39.90, 116.01⟩).2

/-- The network holding capital_town alone, no road yet. -/
def capital_net : plat := ⟨umap_set (plat.empty.add_town 1 "Capital").2.towns_ 1 capital_town⟩

/-- Id of serial 1 of zone 1. -/
def capital_id1 : Nat := city.place_id 1 1

/-- Id of serial 2 of zone 1. -/
def capital_id2 : Nat := city.place_id 1 2

/-- The scenario after plat::add_bidirectional_road(id1, id2). -/
def capital_road_net : plat :=
  (capital_net.add_bidirectional_road sample_env capital_id1 capital_id2).2

/-- Id of the start S of the twin network: zone 1, serial 1. -/
def twin_s : Nat := city.place_id 1 1

/-- Id of G: zone 1, serial 2. -/
def twin_g : Nat := city.place_id 1 2

/-- Id of H: zone 1, serial 3. -/
def twin_h : Nat := city.place_id 1 3

/-- Zone 1 "Twin" after city::add_place of S at (lon 116.00, lat 39.90) and of G and H,
both at (lon 116.01, lat 39.90). -/
def twin_town (E : env) : city :=
  ((((((⟨1, "Twin", []⟩ : city).add_place E twin_s "S" ⟨39.90, 116.00⟩).2).add_place E twin_g "G"
    ⟨39.90, 116.01⟩).2).add_place E twin_h "H" ⟨39.90, 116.01⟩).2

/-- The twin network: the single zone twin_town, then plat::add_road(S, G) and
plat::add_road(S, H). -/
def twin_net (E : env) : plat :=
  ((((plat.mk [(1, twin_town E)]).add_road E twin_s twin_g).2).add_road E twin_s twin_h).2

/-- Id of the place of zone 1 in the two-zone sample. -/
def duo_a : Nat := city.place_id 1 1

/-- Id of the place of zone 2 in the two-zone sample. -/
def duo_b : Nat := city.place_id 2 1

/-- Zone 1 "East" with one place. -/
def duo_east : city :=
  ((⟨1, "East", []⟩ : city).add_local_place sample_env 1 "A" ⟨39.90, 116.00⟩).2

/-- Zone 2 "West" with one place. -/
def duo_west : city :=
  ((⟨2, "West", []⟩ : city).add_local_place sample_env 1 "B" ⟨31.20, 121.40⟩).2

/-- Two zones with one place each, before any road. -/
def duo_base : plat :=
  (((((plat.empty.add_town 1 "East").2).set_town 1 duo_east).add_town 2 "West").2).set_town 2
    duo_west

/-- The two zones after plat::add_road(A, B), a road across zones. -/
def duo_net : plat := (duo_base.add_road sample_env duo_a duo_b).2

/-- Zone 1 after add_town(1, "Capital") and, on the zone, add_local_place(0, "A", ...):
the serial 0 is taken. -/
def zero_serial_net : plat :=
  ((plat.empty.add_town 1 "Capital").2).set_town 1
    ((⟨1, "Capital", []⟩ : city).add_local_place sample_env 0 "A" ⟨39.90, 116.00⟩).2

/-- Zone 1 after add_town(1, "Capital") and, on the zone, add_place(5, "A", ...): the id 5
is taken as it is. -/
def low_id_net : plat :=
  ((plat.empty.add_town 1 "Capital").2).set_town 1
    ((⟨1, "Capital", []⟩ : city).add_place sample_env 5 "A" ⟨39.90, 116.00⟩).2

/-- The sample platform with one change: the entries of all_nodes are iterated in the
reverse order. -/
def reverse_env : env := { sample_env with nodes_order := List.reverse }

/-! ## Reachable networks -/

/-- Network states reached from the empty network by plat::add_town and, on a zone
reached through plat::town, city::add_place and city::add_local_place. -/
inductive plat.built (E : env) : plat → Prop where
  | empty : plat.built E plat.empty
  | add_town (P : plat) (id : Nat) (name : String) :
      plat.built E P → plat.built E (P.add_town id name).2
  | add_place (P : plat) (zone_id : Nat) (c : city) (id : Nat) (name : String) (globe : point2d) :
      plat.built E P → P.town zone_id = some c →
      plat.built E (P.set_town zone_id (c.add_place E id name globe).2)
  | add_local_place (P : plat) (zone_id : Nat) (c : city) (serial : Nat) (name : String)
      (globe : point2d) :
      plat.built E P → P.town zone_id = some c →
      plat.built E (P.set_town zone_id (c.add_local_place E serial name globe).2)

/-- Zones made by the constructor city(id, name), id an unsigned value, and grown by
city::add_place and city::add_local_place. -/
inductive city.built (E : env) : city → Prop where
  | init (id : Nat) (name : String) (c : city) :
      id < 2 ^ 32 → city.init id name = .ok c → city.built E c
  | add_place (c : city) (id : Nat) (name : String) (globe : point2d) :
      city.built E c → city.built E (c.add_place E id name globe).2
  | add_local_place (c : city) (serial : Nat) (name : String) (globe : point2d) :
      city.built E c → city.built E (c.add_local_place E serial name globe).2

/-- Zones made by the constructor city(id, name), id an unsigned value, and changed by the
public operations of city: add_place for an id (a size_t value) of this zone, that is with
id >> 32 equal to the id of the zone, add_local_place, remove_place, remove_local_place,
add_road, add_bidirectional_road and add_intercity_road. -/
inductive city.built_own (E : env) : city → Prop where
  | init (id : Nat) (name : String) (c : city) :
      id < 2 ^ 32 → city.init id name = .ok c → city.built_own E c
  | add_place (c : city) (id : Nat) (name : String) (globe : point2d) :
      city.built_own E c → id < 2 ^ 64 → id >>> 32 = c.id_ →
      city.built_own E (c.add_place E id name globe).2
  | add_local_place (c : city) (serial : Nat) (name : String) (globe : point2d) :
      city.built_own E c → city.built_own E (c.add_local_place E serial name globe).2
  | remove_place (c : city) (id : Nat) :
      city.built_own E c → city.built_own E (c.remove_place id).2
  | remove_local_place (c : city) (serial : Nat) :
      city.built_own E c → city.built_own E (c.remove_local_place serial).2
  | add_road (c : city) (from_id to_id : Nat) :
      city.built_own E c → city.built_own E (c.add_road E from_id to_id).2
  | add_bidirectional_road (c : city) (from_id to_id : Nat) :
      city.built_own E c → city.built_own E (c.add_bidirectional_road E from_id to_id).2
  | add_intercity_road (c : city) (from_id to_id : Nat) (plane : point2d) :
      city.built_own E c → city.built_own E (c.add_intercity_road E from_id to_id plane).2

/-- Zone 1 as load_all_cities_from_json builds it from a file with two places of zone 1:
add_place with the stored ids, followed here by add_local_place of a third place. -/
def own_id_town : city :=
  ((((((⟨1, "Capital", []⟩ : city).add_place sample_env (city.place_id 1 1) "A"
    ⟨39.90, 116.00⟩).2).add_place sample_env (city.place_id 1 2) "B" ⟨39.90, 116.01⟩).2).add_local_place
    sample_env 3 "C" ⟨39.90, 116.02⟩).2

/-- Every key of the zone is an id of the zone. -/
def city.keys_own (c : city) : Prop :=
  c.id_ < 2 ^ 32 ∧ c.id_ ≠ 0 ∧ ∀ e ∈ c.places_, e.1 >>> 32 = c.id_ ∧ e.1 < 2 ^ 64

/-- Zone 1 after add_place(5, "A", ...). -/
def low_id_town : city :=
  ((⟨1, "Capital", []⟩ : city).add_place sample_env 5 "A" ⟨39.90, 116.00⟩).2

/-- Network states reached from the empty network by plat::add_town (the id an unsigned
value), plat::remove_town, city::add_local_place and city::remove_local_place on a zone
reached through plat::town, plat::add_road, plat::add_bidirectional_road, and
location::remove_road on a place reached through plat::town and city::place. -/
inductive plat.reached (E : env) : plat → Prop where
  | empty : plat.reached E plat.empty
  | add_town (P : plat) (id : Nat) (name : String) :
      id < 2 ^ 32 → plat.reached E P → plat.reached E (P.add_town id name).2
  | remove_town (P : plat) (id : Nat) :
      plat.reached E P → plat.reached E (P.remove_town id).2
  | add_local_place (P : plat) (zone_id : Nat) (c : city) (serial : Nat) (name : String)
      (globe : point2d) :
      plat.reached E P → P.town zone_id = some c →
      plat.reached E (P.set_town zone_id (c.add_local_place E serial name globe).2)
  | remove_local_place (P : plat) (zone_id : Nat) (c : city) (serial : Nat) :
      plat.reached E P → P.town zone_id = some c →
      plat.reached E (P.set_town zone_id (c.remove_local_place serial).2)
  | add_road (P : plat) (from_id to_id : Nat) :
      plat.reached E P → plat.reached E (P.add_road E from_id to_id).2
  | add_bidirectional_road (P : plat) (from_id to_id : Nat) :
      plat.reached E P → plat.reached E (P.add_bidirectional_road E from_id to_id).2
  | remove_road (P : plat) (zone_id : Nat) (c : city) (from_id to_id : Nat) (l : location) :
      plat.reached E P → P.town zone_id = some c → c.place from_id = some l →
      plat.reached E (P.set_town zone_id
        ⟨c.id_, c.name_, umap_set c.places_ from_id (l.remove_road to_id).2⟩)

/-- Every place of the zone is stored under an id of the zone, and every road of such a
place that leads to an id of the zone leads to a place of the zone and is weighted with
the distance of the two planar points. -/
def city.roads_ok (E : env) (c : city) : Prop :=
  ∀ e ∈ c.places_, town_of e.1 = c.id_ ∧
    ∀ r ∈ e.2.roads_, town_of r.1 = c.id_ →
      ∃ lv, c.place r.1 = some lv ∧ r.2 = e.2.plane_.distance_to E lv.plane_

/-- The same for every zone of the network, the zone ids being unsigned values. -/
def plat.roads_ok (E : env) (P : plat) : Prop :=
  ∀ t ∈ P.towns_, t.1 < 2 ^ 32 ∧ t.2.roads_ok E

/-! ## Expression evaluators (DsAa01)

The classes of chrtoken.h, chrexpression.cpp and chrvalidator.cpp. A double is a rational
number, the functions of libm are fields of a structure, a std::stack is a list with its
top first, and a vector of token pointers is a list of tokens. -/

/-- The functions of libm that the operators apply. -/
structure libm where
  pow : ℚ → ℚ → ℚ
  sin : ℚ → ℚ
  cos : ℚ → ℚ
  tan : ℚ → ℚ
  asin : ℚ → ℚ
  acos : ℚ → ℚ
  atan : ℚ → ℚ
  log10 : ℚ → ℚ
  log : ℚ → ℚ
  sqrt : ℚ → ℚ
  cbrt : ℚ → ℚ
  tgamma : ℚ → ℚ
  fmod : ℚ → ℚ → ℚ

def natural_constant : ℚ := 2.718281828459
def pi : ℚ := 3.1415826535898
def phi : ℚ := 0.61803398875

/-- The classes derived from operator_token, one constructor for each. -/
inductive operator_token where
  | plus_token
  | minus_token
  | multiply_token
  | divide_token
  | posite_token
  | negate_token
  | exponent_token
  | left_parentheses_token
  | right_parentheses_token
  | sine_token
  | cosine_token
  | tangent_token
  | cotangent_token
  | secant_token
  | cosecant_token
  | arcsine_token
  | arccosine_token
  | arctangent_token
  | arccotangent_token
  | arcsecant_token
  | arccosecant_token
  | common_logarithm_token
  | natural_logarithm_token
  | square_root_token
  | cubic_root_token
  | factorial_token
  | modulo_token
  | degree_token
  | radian_token
  deriving DecidableEq

/-- Class basic_token with its two kinds: number_token and operator_token. -/
inductive basic_token where
  | number_token (value : ℚ)
  | op (o : operator_token)
  deriving DecidableEq

/-- Virtual operator_token::operand_num. -/
def operator_token.operand_num : operator_token → Nat
  | .plus_token => 2
  | .minus_token => 2
  | .multiply_token => 2
  | .divide_token => 2
  | .exponent_token => 2
  | .modulo_token => 2
  | .left_parentheses_token => 0
  | .right_parentheses_token => 0
  | _ => 1

/-- Virtual operator_token::priority. -/
def operator_token.priority : operator_token → Nat
  | .plus_token => 1
  | .minus_token => 1
  | .multiply_token => 3
  | .divide_token => 3
  | .posite_token => 4
  | .negate_token => 4
  | .exponent_token => 5
  | .left_parentheses_token => 0
  | .right_parentheses_token => 0
  | .factorial_token => 6
  | .modulo_token => 2
  | _ => 7

/-- Virtual operator_token::is_suffix_operator. -/
def operator_token.is_suffix_operator : operator_token → Bool
  | .factorial_token => true
  | _ => false

/-- Virtual operator_token::apply. -/
def operator_token.apply (M : libm) : operator_token → ℚ → ℚ → ℚ
  | .plus_token, left, right => left + right
  | .minus_token, left, right => left - right
  | .multiply_token, left, right => left * right
  | .divide_token, left, right => left / right
  | .posite_token, left, _ => left
  | .negate_token, left, _ => -left
  | .exponent_token, left, right => M.pow left right
  | .left_parentheses_token, _, _ => 0
  | .right_parentheses_token, _, _ => 0
  | .sine_token, left, _ => M.sin left
  | .cosine_token, left, _ => M.cos left
  | .tangent_token, left, _ => M.tan left
  | .cotangent_token, left, _ => 1.0 / M.tan left
  | .secant_token, left, _ => 1.0 / M.cos left
  | .cosecant_token, left, _ => 1.0 / M.sin left
  | .arcsine_token, left, _ => M.asin left
  | .arccosine_token, left, _ => M.acos left
  | .arctangent_token, left, _ => M.atan left
  | .arccotangent_token, left, _ => M.atan (1.0 / left)
  | .arcsecant_token, left, _ => M.acos (1.0 / left)
  | .arccosecant_token, left, _ => M.asin (1.0 / left)
  | .common_logarithm_token, left, _ => M.log10 left
  | .natural_logarithm_token, left, _ => M.log left
  | .square_root_token, left, _ => M.sqrt left
  | .cubic_root_token, left, _ => M.cbrt left
  | .factorial_token, left, _ => M.tgamma (left + 1)
  | .modulo_token, left, right => M.fmod left right
  | .degree_token, left, _ => left / pi * 180
  | .radian_token, left, _ => left / 180 * pi

/-- How an evaluation fails: a std::runtime_error that is thrown, or a top() or pop() on
an empty std::stack, which the source does not guard and which is undefined behaviour. -/
inductive eval_error where
  | runtime_error (what : String)
  | stack_underflow
  deriving DecidableEq

/-- Static basic_expression::calculate on the operand stack, top first. -/
def basic_expression.calculate (M : libm) (operand_stack : List ℚ) (op : operator_token) :
    Except eval_error (List ℚ) :=
  let operands := op.operand_num
  if operands = 0 then .error (.runtime_error "计算时出现零操作数运算符")
  else if operands = 1 then
    match operand_stack with
    | left :: rest => .ok (op.apply M left 0 :: rest)
    | [] => .error .stack_underflow
  else if operands = 2 then
    match operand_stack with
    | right :: left :: rest => .ok (op.apply M left right :: rest)
    | _ => .error .stack_underflow
  else .error (.runtime_error "计算时出现操作数多于两个的运算符")

/-- The loop of infix_expression::evaluate at a right parenthesis: operators are applied
and popped up to the first left parenthesis, which is popped as well. -/
def infix_close (M : libm) : List ℚ → List operator_token →
    Except eval_error (List ℚ × List operator_token)
  | operand_stack, [] => .ok (operand_stack, [])
  | operand_stack, top :: operator_stack =>
    if top = .left_parentheses_token then .ok (operand_stack, operator_stack)
    else
      match basic_expression.calculate M operand_stack top with
      | .error e => .error e
      | .ok operand_stack1 => infix_close M operand_stack1 operator_stack

/-- The loop of infix_expression::evaluate at any other operator op: the operators on top
whose priority is at least that of op are applied and popped. -/
def infix_reduce (M : libm) (op : operator_token) : List ℚ → List operator_token →
    Except eval_error (List ℚ × List operator_token)
  | operand_stack, [] => .ok (operand_stack, [])
  | operand_stack, top :: operator_stack =>
    if top.priority ≥ op.priority then
      match basic_expression.calculate M operand_stack top with
      | .error e => .error e
      | .ok operand_stack1 => infix_reduce M op operand_stack1 operator_stack
    else .ok (operand_stack, top :: operator_stack)

/-- The loop of infix_expression::evaluate over the tokens. -/
def infix_loop (M : libm) : List basic_token → List ℚ → List operator_token →
    Except eval_error (List ℚ × List operator_token)
  | [], operand_stack, operator_stack => .ok (operand_stack, operator_stack)
  | .number_token value :: tokens, operand_stack, operator_stack =>
    infix_loop M tokens (value :: operand_stack) operator_stack
  | .op op :: tokens, operand_stack, operator_stack =>
    if op = .left_parentheses_token then
      infix_loop M tokens operand_stack (op :: operator_stack)
    else if op = .right_parentheses_token then
      match infix_close M operand_stack operator_stack with
      | .error e => .error e
      | .ok r => infix_loop M tokens r.1 r.2
    else
      match infix_reduce M op operand_stack operator_stack with
      | .error e => .error e
      | .ok r => infix_loop M tokens r.1 (op :: r.2)

/-- The last loop of infix_expression::evaluate: the operators left are applied. -/
def infix_flush (M : libm) : List ℚ → List operator_token → Except eval_error (List ℚ)
  | operand_stack, [] => .ok operand_stack
  | operand_stack, top :: operator_stack =>
    match basic_expression.calculate M operand_stack top with
    | .error e => .error e
    | .ok operand_stack1 => infix_flush M operand_stack1 operator_stack

/-- The end of both evaluate methods: the one value on the operand stack. -/
def evaluate_result : List ℚ → Except eval_error ℚ
  | [value] => .ok value
  | _ => .error (.runtime_error "运算结束时出错，操作数栈不只有一个元素")

/-- Method infix_expression::evaluate on the tokens of _content. -/
def infix_expression.evaluate (M : libm) (content : List basic_token) : Except eval_error ℚ :=
  match infix_loop M content [] [] with
  | .error e => .error e
  | .ok r =>
    match infix_flush M r.1 r.2 with
    | .error e => .error e
    | .ok operand_stack => evaluate_result operand_stack

/-- The loop of the constructor of postfix_expression at a right parenthesis; content is
the vector _content built so far. -/
def postfix_close : List operator_token → List basic_token →
    List operator_token × List basic_token
  | [], content => ([], content)
  | top :: op_stack, content =>
    if top = .left_parentheses_token then (op_stack, content)
    else postfix_close op_stack (content ++ [.op top])

/-- The loop of the constructor of postfix_expression at any other operator op. -/
def postfix_reduce (op : operator_token) : List operator_token → List basic_token →
    List operator_token × List basic_token
  | [], content => ([], content)
  | top :: op_stack, content =>
    if top.priority ≥ op.priority then postfix_reduce op op_stack (content ++ [.op top])
    else (top :: op_stack, content)

/-- The loop of the constructor of postfix_expression over the tokens of the infix
expression. -/
def postfix_loop : List basic_token → List operator_token → List basic_token →
    List operator_token × List basic_token
  | [], op_stack, content => (op_stack, content)
  | .number_token value :: tokens, op_stack, content =>
    postfix_loop tokens op_stack (content ++ [.number_token value])
  | .op op :: tokens, op_stack, content =>
    if op = .left_parentheses_token then postfix_loop tokens (op :: op_stack) content
    else if op = .right_parentheses_token then
      postfix_loop tokens (postfix_close op_stack content).1 (postfix_close op_stack content).2
    else
      postfix_loop tokens (op :: (postfix_reduce op op_stack content).1)
        (postfix_reduce op op_stack content).2

/-- The last loop of the constructor of postfix_expression: the operators left are
appended. -/
def postfix_flush : List operator_token → List basic_token → List basic_token
  | [], content => content
  | top :: op_stack, content => postfix_flush op_stack (content ++ [.op top])

/-- Constructor of postfix_expression: the content made from the tokens of the infix
expression of the same string. -/
def postfix_expression.init (infix_tokens : List basic_token) : List basic_token :=
  postfix_flush (postfix_loop infix_tokens [] []).1 (postfix_loop infix_tokens [] []).2

/-- The loop of postfix_expression::evaluate. -/
def postfix_eval_loop (M : libm) : List basic_token → List ℚ → Except eval_error (List ℚ)
  | [], operand_stack => .ok operand_stack
  | .number_token value :: tokens, operand_stack =>
    postfix_eval_loop M tokens (value :: operand_stack)
  | .op op :: tokens, operand_stack =>
    match basic_expression.calculate M operand_stack op with
    | .error e => .error e
    | .ok operand_stack1 => postfix_eval_loop M tokens operand_stack1

/-- Method postfix_expression::evaluate on the tokens of _content. -/
def postfix_expression.evaluate (M : libm) (content : List basic_token) :
    Except eval_error ℚ :=
  match postfix_eval_loop M content [] with
  | .error e => .error e
  | .ok operand_stack => evaluate_result operand_stack

/-! ## Expression validator (DsAa01)

The checks of chrvalidator.cpp on the vector of tokens. std::regex_match is a match of the
whole token against the pattern; the patterns are built from the regular expressions
below. The split of the input string into tokens by the regex iteration of tokenize is not
part of the model: the functions take the tokens. -/

/-- Regular expressions, as far as the patterns of the source need them. -/
inductive regex where
  | empty : regex
  | eps : regex
  | set (p : Char → Bool) : regex
  | seq (a b : regex) : regex
  | alt (a b : regex) : regex
  | star (a : regex) : regex

/-- The expression matches the empty string. -/
def regex.nullable : regex → Bool
  | .empty => false
  | .eps => true
  | .set _ => false
  | .seq a b => a.nullable && b.nullable
  | .alt a b => a.nullable || b.nullable
  | .star _ => true

/-- What is left to match after the character c. -/
def regex.deriv (c : Char) : regex → regex
  | .empty => .empty
  | .eps => .empty
  | .set p => if p c then .eps else .empty
  | .seq a b =>
    if a.nullable then .alt (.seq (a.deriv c) b) (b.deriv c) else .seq (a.deriv c) b
  | .alt a b => .alt (a.deriv c) (b.deriv c)
  | .star a => .seq (a.deriv c) (.star a)

/-- Call std::regex_match(token, pattern): the whole token matches. -/
def regex_match (token : String) (pattern : regex) : Bool :=
  (token.data.foldl (fun r c => r.deriv c) pattern).nullable

/-- One of the characters of a string, as a class [...]. -/
def regex.one_of (chars : String) : regex := .set (fun c => chars.data.contains c)

/-- The characters of a string in a row. -/
def regex.lit (text : String) : regex :=
  text.data.foldr (fun c r => .seq (.set (fun d => d == c)) r) .eps

/-- Repetition a+. -/
def regex.plus (a : regex) : regex := .seq a (.star a)

/-- Option a?. -/
def regex.opt (a : regex) : regex := .alt a .eps

/-- Class \d. -/
def regex.digit : regex := regex.one_of "0123456789"

/-- Class [0-9A-Fa-f]. -/
def regex.hex_digit : regex := regex.one_of "0123456789ABCDEFabcdef"

/-- Pattern [+\-*/^()!%]. -/
def operator_pattern : regex := regex.one_of "+-*/^()!%"

/-- Pattern 0b[01]+(\.[01]*)?. -/
def binary_pattern : regex :=
  .seq (regex.lit "0b") (.seq (regex.plus (regex.one_of "01"))
    (regex.opt (.seq (regex.lit ".") (.star (regex.one_of "01")))))

/-- Pattern 0o[0-7]+(\.[0-7]*)?. -/
def octal_pattern : regex :=
  .seq (regex.lit "0o") (.seq (regex.plus (regex.one_of "01234567"))
    (regex.opt (.seq (regex.lit ".") (.star (regex.one_of "01234567")))))

/-- Pattern 0x[0-9A-Fa-f]+(\.[0-9A-Fa-f]*)?. -/
def hexadecimal_pattern : regex :=
  .seq (regex.lit "0x") (.seq (regex.plus regex.hex_digit)
    (regex.opt (.seq (regex.lit ".") (.star regex.hex_digit))))

/-- Pattern (\d+\.?\d*|\.\d+). -/
def mantissa_pattern : regex :=
  .alt (.seq (regex.plus regex.digit) (.seq (regex.opt (regex.lit ".")) (.star regex.digit)))
    (.seq (regex.lit ".") (regex.plus regex.digit))

/-- Pattern [eE][-+]?\d+. -/
def exponent_pattern : regex :=
  .seq (regex.one_of "eE") (.seq (regex.opt (regex.one_of "-+")) (regex.plus regex.digit))

/-- Pattern (\d+\.?\d*|\.\d+)([eE][-+]?\d+)?. -/
def decimal_pattern : regex := .seq mantissa_pattern (regex.opt exponent_pattern)

/-- Pattern of expression_tokenizer::is_number: the four kinds of literals, the three
constants, and the empty alternative that ends the pattern string. -/
def number_pattern : regex :=
  .alt binary_pattern (.alt octal_pattern (.alt hexadecimal_pattern (.alt decimal_pattern
    (.alt (regex.lit "PI") (.alt (regex.lit "E") (.alt (regex.lit "PHI") .eps))))))

/-- Pattern 0[bxo][0-9A-Fa-f.]+ of the factorial check. -/
def radix_pattern : regex :=
  .seq (regex.lit "0") (.seq (regex.one_of "bxo")
    (regex.plus (regex.one_of "0123456789ABCDEFabcdef.")))

/-- Pattern [+-]?(\d+\.?\d*|\.\d+)[eE][-+]?\d+ of the number format check. -/
def scientific_pattern : regex :=
  .seq (regex.opt (regex.one_of "+-")) (.seq mantissa_pattern exponent_pattern)

/-- Static member expression_tokenizer::functions. -/
def expression_tokenizer.functions : List String :=
  ["sin", "cos", "tan", "cot", "sec", "csc", "arcsin", "arccos", "arctan", "arccot", "arcsec",
    "arccsc", "ln", "lg", "deg", "rad", "sqrt", "cbrt"]

/-- Static member expression_tokenizer::constants. -/
def expression_tokenizer.constants : List String := ["PI", "E", "PHI"]

/-- Static expression_tokenizer::is_operator. -/
def expression_tokenizer.is_operator (token : String) : Bool :=
  regex_match token operator_pattern

/-- Static expression_tokenizer::is_function. -/
def expression_tokenizer.is_function (token : String) : Bool :=
  expression_tokenizer.functions.contains token

/-- Static expression_tokenizer::is_constant. -/
def expression_tokenizer.is_constant (token : String) : Bool :=
  expression_tokenizer.constants.contains token

/-- Static expression_tokenizer::is_number. -/
def expression_tokenizer.is_number (token : String) : Bool :=
  regex_match token number_pattern

/-- Method expression_tokenizer::proceess_unary_operators: the token at index i for every
i, a "+" or "-" replaced by "pos" or "neg" where it stands first, or after an operator
other than ")" and "!", or after a function name. -/
def expression_tokenizer.proceess_unary_operators (tokens : List String) : List String :=
  (List.range tokens.length).map (fun i =>
    let token := tokens.getD i ""
    if token = "+" ∨ token = "-" then
      if i = 0 ∨ (0 < i ∧ (expression_tokenizer.is_operator (tokens.getD (i - 1) "") = true ∧
          tokens.getD (i - 1) "" ≠ ")" ∧ tokens.getD (i - 1) "" ≠ "!")) ∨
          expression_tokenizer.is_function (tokens.getD (i - 1) "") = true then
        (if token = "+" then "pos" else "neg")
      else token
    else token)

/-- The loop of expression_validator::check_parentheses: paren_stack holds the indices of
the open parentheses, errors what add_error has got. -/
def check_parentheses_loop (tokens : List String) :
    List Nat → List Nat × List (String × String) → List Nat × List (String × String)
  | [], acc => acc
  | i :: rest, (paren_stack, errors) =>
    if tokens.getD i "" = "(" then check_parentheses_loop tokens rest (i :: paren_stack, errors)
    else if tokens.getD i "" = ")" then
      match paren_stack with
      | [] => check_parentheses_loop tokens rest
          ([], errors ++ [(toString i, "存在多余的右括弧")])
      | _ :: paren_stack1 => check_parentheses_loop tokens rest (paren_stack1, errors)
    else check_parentheses_loop tokens rest (paren_stack, errors)

/-- Method expression_validator::check_parentheses: the errors it adds. -/
def expression_validator.check_parentheses (tokens : List String) : List (String × String) :=
  let r := check_parentheses_loop tokens (List.range tokens.length) ([], [])
  r.2 ++ r.1.map (fun i => (toString i, "存在多余的左括弧"))

/-- Method expression_validator::check_operator_sequence: the errors it adds. -/
def expression_validator.check_operator_sequence (tokens : List String) :
    List (String × String) :=
  let binary_operators : List String := ["+", "-", "*", "/", "^", "%"]
  let unary_operators : List String := ["pos", "neg"]
  (List.range tokens.length).flatMap (fun i =>
    let token := tokens.getD i ""
    (if binary_operators.contains token then
      if i = 0 then [(toString i, "表达式以二元运算符开头")]
      else if i = tokens.length - 1 then [(toString i, "表达式以运算符结尾")]
      else if binary_operators.contains (tokens.getD (i - 1) "") then
        [(toString i, "表达式含有连续二元运算符")]
      else []
    else []) ++
    (if unary_operators.contains token then
      if i = tokens.length - 1 then [(toString i, "表达式以运算符结尾")]
      else if i ≠ 0 ∧ unary_operators.contains (tokens.getD (i - 1) "") = true then
        [(toString i, "表达式含有连续一元运算符")]
      else []
    else []) ++
    (if token = "!" then
      if i = 0 then [(toString i, "表达式以阶乘运算符开头")]
      else
        let prev := tokens.getD (i - 1) ""
        if !(regex_match prev decimal_pattern || regex_match prev radix_pattern ||
            decide (prev = ")") || decide (prev = "PI") || decide (prev = "E") ||
            decide (prev = "PHI")) then
          [(toString i, "阶乘运算符前面必须是数字、常量或表达式")]
        else []
    else []))

/-- Call token.starts_with(text). -/
def starts_with (token text : String) : Bool := text.data.isPrefixOf token.data

/-- Method expression_validator::check_number_format: the errors it adds. -/
def expression_validator.check_number_format (tokens : List String) : List (String × String) :=
  (List.range tokens.length).flatMap (fun i =>
    let token := tokens.getD i ""
    if expression_tokenizer.is_number token && !expression_tokenizer.is_constant token then
      if 0 < i ∧ expression_tokenizer.is_number (tokens.getD (i - 1) "") = true then
        [(tokens.getD (i - 1) "" ++ token, "表达式含有连续数字")]
      else
        (if (token.data.contains 'e' || token.data.contains 'E') && !starts_with token "0x" &&
            !starts_with token "0o" && !starts_with token "0b" then
          if !regex_match token scientific_pattern then [(token, "科学计数法格式错误")] else []
        else []) ++
        (if starts_with token "0b" && !regex_match token binary_pattern then
          [(token, "二进制格式错误")]
        else if starts_with token "0o" && !regex_match token octal_pattern then
          [(token, "八进制格式错误")]
        else if starts_with token "0x" && !regex_match token hexadecimal_pattern then
          [(token, "十六进制格式错误")]
        else [])
    else [])

/-- Method expression_validator::check_function_usage: the errors it adds. -/
def expression_validator.check_function_usage (tokens : List String) : List (String × String) :=
  (List.range tokens.length).flatMap (fun i =>
    let token := tokens.getD i ""
    if expression_tokenizer.functions.contains token then
      if i + 1 ≥ tokens.length ∨ tokens.getD (i + 1) "" ≠ "(" then
        [(token, "函数名未紧跟左括号")]
      else []
    else [])

/-- Method expression_validator::validate_expression from the point where tokenize has
split the string into raw_tokens without an error: the unary operators are marked, the
four checks run, and the expression is valid when no error was added. -/
def expression_validator.validate_expression (raw_tokens : List String) : Bool :=
  let tokens := expression_tokenizer.proceess_unary_operators raw_tokens
  (expression_validator.check_parentheses tokens ++
    expression_validator.check_operator_sequence tokens ++
    expression_validator.check_number_format tokens ++
    expression_validator.check_function_usage tokens).isEmpty

/-- The tokens that the tokenizer hands to the constructor of infix_expression. -/
def expression_validator.tokens (raw_tokens : List String) : List String :=
  expression_tokenizer.proceess_unary_operators raw_tokens

/-- Function token_type_to_operator_token after string_to_operator_token_type. -/
def string_to_operator_token (operator_str : String) : Except eval_error operator_token :=
  if operator_str = "(" then .ok .left_parentheses_token
  else if operator_str = ")" then .ok .right_parentheses_token
  else if operator_str = "+" then .ok .plus_token
  else if operator_str = "-" then .ok .minus_token
  else if operator_str = "*" then .ok .multiply_token
  else if operator_str = "/" then .ok .divide_token
  else if operator_str = "pos" then .ok .posite_token
  else if operator_str = "neg" then .ok .negate_token
  else if operator_str = "^" then .ok .exponent_token
  else if operator_str = "sin" then .ok .sine_token
  else if operator_str = "cos" then .ok .cosine_token
  else if operator_str = "tan" then .ok .tangent_token
  else if operator_str = "cot" then .ok .cotangent_token
  else if operator_str = "sec" then .ok .secant_token
  else if operator_str = "csc" then .ok .cosecant_token
  else if operator_str = "arcsin" then .ok .arcsine_token
  else if operator_str = "arccos" then .ok .arccosine_token
  else if operator_str = "arctan" then .ok .arctangent_token
  else if operator_str = "arccot" then .ok .arccotangent_token
  else if operator_str = "arcsec" then .ok .arcsecant_token
  else if operator_str = "arccsc" then .ok .arccosecant_token
  else if operator_str = "lg" then .ok .common_logarithm_token
  else if operator_str = "ln" then .ok .natural_logarithm_token
  else if operator_str = "sqrt" then .ok .square_root_token
  else if operator_str = "cbrt" then .ok .cubic_root_token
  else if operator_str = "!" then .ok .factorial_token
  else if operator_str = "%" then .ok .modulo_token
  else if operator_str = "deg" then .ok .degree_token
  else if operator_str = "rad" then .ok .radian_token
  else .error (.runtime_error "位置的运算符令牌")

/-- The loop of the constructor of infix_expression over the tokens of a valid
expression; number_value stands for the value that the constructor computes for a number
token (std::stod, the conversion of a binary, octal or hexadecimal literal, or one of the
constants). -/
def infix_expression.init (number_value : String → ℚ) :
    List String → Except eval_error (List basic_token)
  | [] => .ok []
  | token :: tokens =>
    if expression_tokenizer.is_number token then
      match infix_expression.init number_value tokens with
      | .error e => .error e
      | .ok content => .ok (.number_token (number_value token) :: content)
    else
      match string_to_operator_token token with
      | .error e => .error e
      | .ok op =>
        match infix_expression.init number_value tokens with
        | .error e => .error e
        | .ok content => .ok (.op op :: content)

/-! ## Double precision

A second embedding of the arithmetic of the path finder, in which a double is a value of
IEEE 754 binary64: the result of an operation is the exact result rounded to the nearest
double (ties to even), an overflow gives an infinity, and NaN is a value that compares
unequal to everything. Each operation of the source is rounded on its own: a product and
a sum are not contracted into one rounding, and no intermediate result is kept in a wider
format. The sign of a zero is not kept. The theorems that depend on rounding, on the range
of int or on NaN are stated about this embedding. -/

/-- A value of type double: a finite number, an infinity (negative or not) or NaN. -/
inductive double where
  | fin (q : ℚ)
  | inf (negative : Bool)
  | nan
  deriving DecidableEq

/-- Nearest integer of a nonnegative number, a tie going to the even one. -/
def round_even (x : ℚ) : ℤ :=
  if x - ⌊x⌋ < 1 / 2 then ⌊x⌋
  else if 1 / 2 < x - ⌊x⌋ then ⌊x⌋ + 1
  else if ⌊x⌋ % 2 = 0 then ⌊x⌋ else ⌊x⌋ + 1

/-- Exponent of the unit in the last place of the doubles around a > 0: 52 below the
binary exponent of a, and -1074 for the subnormal numbers. -/
def double.ulp_exp (a : ℚ) : ℤ := max (Int.log 2 a - 52) (-1074)

/-- The double nearest to a nonnegative number a, as a number without bound. -/
def double.round_abs (a : ℚ) : ℚ :=
  (round_even (a / 2 ^ double.ulp_exp a) : ℚ) * 2 ^ double.ulp_exp a

/-- Rounding of an exact result to double: to the nearest double, ties to even; a
magnitude that rounds to 2^1024 or more overflows to the infinity of its sign. -/
def double.round (q : ℚ) : double :=
  if double.round_abs |q| < 2 ^ 1024 then
    .fin (if q < 0 then -double.round_abs |q| else double.round_abs |q|)
  else .inf (decide (q < 0))

/-- A literal of type double, or the conversion of an int: the nearest double. -/
def double.lit (q : ℚ) : double := double.round q

/-- Unary minus. -/
def double.neg : double → double
  | .fin a => .fin (-a)
  | .inf s => .inf (!s)
  | .nan => .nan

/-- Sum of two doubles. -/
def double.add : double → double → double
  | .fin a, .fin b => double.round (a + b)
  | .fin _, .inf s => .inf s
  | .inf s, .fin _ => .inf s
  | .inf s, .inf t => if s = t then .inf s else .nan
  | _, _ => .nan

/-- Difference of two doubles. -/
def double.sub (a b : double) : double := a.add b.neg

/-- Product of two doubles. -/
def double.mul : double → double → double
  | .fin a, .fin b => double.round (a * b)
  | .fin a, .inf s => if a = 0 then .nan else .inf (xor (decide (a < 0)) s)
  | .inf s, .fin b => if b = 0 then .nan else .inf (xor s (decide (b < 0)))
  | .inf s, .inf t => .inf (xor s t)
  | _, _ => .nan

/-- Quotient of two doubles; a zero divisor counts as +0. -/
def double.div : double → double → double
  | .fin a, .fin b =>
    if b = 0 then (if a = 0 then .nan else .inf (decide (a < 0))) else double.round (a / b)
  | .fin _, .inf _ => .fin 0
  | .inf s, .fin b => .inf (xor s (decide (b < 0)))
  | _, _ => .nan

instance : Add double := ⟨double.add⟩
instance : Sub double := ⟨double.sub⟩
instance : Mul double := ⟨double.mul⟩
instance : Div double := ⟨double.div⟩
instance : Neg double := ⟨double.neg⟩

/-- Comparison a < b of two doubles: false when one of them is NaN. -/
def double.lt : double → double → Bool
  | .fin a, .fin b => decide (a < b)
  | .fin _, .inf s => !s
  | .inf s, .fin _ => s
  | .inf s, .inf t => s && !t
  | _, _ => false

/-- Comparison a == b of two doubles: false when one of them is NaN. -/
def double.eq : double → double → Bool
  | .fin a, .fin b => decide (a = b)
  | .inf s, .inf t => s == t
  | _, _ => false

/-- Comparison a <= b of two doubles: false when one of them is NaN. -/
def double.le (a b : double) : Bool := a.lt b || a.eq b

/-- Call std::max(a, b): (a < b) ? b : a. -/
def double.max (a b : double) : double := if a.lt b then b else a

/-- Call std::sqrt, f being the square root of the platform on the nonnegative numbers:
NaN for a negative argument. -/
def double.sqrt (f : ℚ → ℚ) : double → double
  | .fin a => if a < 0 then .nan else double.round (f a)
  | .inf s => if s then .nan else .inf false
  | .nan => .nan

/-- Call std::sin, std::cos or std::tan, f being the function of the platform on the
numbers: NaN for an infinity and for NaN. -/
def double.trig (f : ℚ → ℚ) : double → double
  | .fin a => double.round (f a)
  | _ => .nan

/-- The value is a number: neither an infinity nor NaN. -/
def double.is_finite : double → Bool
  | .fin _ => true
  | _ => false

/-- The value is NaN. -/
def double.is_nan : double → Bool
  | .nan => true
  | _ => false

/-- Conversion static_cast<int> of a double: truncation towards zero; the behaviour is
undefined (none) when the truncated value is not a value of int, for an infinity and for
NaN. -/
def double.to_int : double → Option ℤ
  | .fin q =>
    if -2 ^ 31 ≤ cast_int q ∧ cast_int q < 2 ^ 31 then some (cast_int q) else none
  | _ => none

/-- A double that is a nonnegative number or +infinity. -/
def double.is_nonneg (d : double) : Prop := (∃ v : ℚ, 0 ≤ v ∧ d = .fin v) ∨ d = .inf false

/-! ## The road network on doubles

The classes point2d, location, city and plat and the search of plat::find_path once more,
with the coordinates, the road lengths and the bookkeeping of the search of type double.
The ids, the containers and the errors are those of the first embedding. -/

/-- Class point2d, the coordinates of type double. -/
structure dbl.point2d where
  x_ : double
  y_ : double
  deriving DecidableEq

/-- Entry of the A* bookkeeping, struct plat::astar_node, g and f of type double. -/
structure dbl.astar_node where
  g : double
  f : double
  parent : Nat
  deriving DecidableEq

/-- What the platform decides: the values of std::sqrt, std::sin, std::cos and std::tan
at the numbers, before they are rounded to double, and the order in which hash containers
and the binary heap present their entries. -/
structure dbl.env where
  sqrt : ℚ → ℚ
  sin : ℚ → ℚ
  cos : ℚ → ℚ
  tan : ℚ → ℚ
  nodes_order : List (Nat × dbl.astar_node) → List (Nat × dbl.astar_node)
  roads_order : List (Nat × double) → List (Nat × double)
  queue_order : List dbl.astar_node → List dbl.astar_node

/-- An iteration visits every entry exactly once: the three orders are permutations. -/
def dbl.env.lawful (E : dbl.env) : Prop :=
  (∀ l, (E.nodes_order l).Perm l) ∧ (∀ l, (E.roads_order l).Perm l) ∧
    (∀ l, (E.queue_order l).Perm l)

/-- The square root of the platform is not negative on the nonnegative numbers. -/
def dbl.env.sqrt_nonneg (E : dbl.env) : Prop := ∀ q : ℚ, 0 ≤ q → 0 ≤ E.sqrt q

/-- Both coordinates are numbers. -/
def dbl.point2d.is_finite (a : dbl.point2d) : Bool := a.x_.is_finite && a.y_.is_finite

/-- One of the coordinates is NaN. -/
def dbl.point2d.has_nan (a : dbl.point2d) : Bool := a.x_.is_nan || a.y_.is_nan

/-- Difference point2d::operator-. -/
def dbl.point2d.sub (a b : dbl.point2d) : dbl.point2d := ⟨a.x_ - b.x_, a.y_ - b.y_⟩

/-- Length point2d::norm: std::sqrt(x_ * x_ + y_ * y_). -/
def dbl.point2d.norm (E : dbl.env) (a : dbl.point2d) : double :=
  double.sqrt E.sqrt (a.x_ * a.x_ + a.y_ * a.y_)

/-- Distance point2d::distance_to: (other - *this).norm(). -/
def dbl.point2d.distance_to (E : dbl.env) (a other : dbl.point2d) : double :=
  (other.sub a).norm E

/-- Class location, the points and the road lengths of type double. -/
structure dbl.location where
  id_ : Nat
  name_ : String
  globe_ : dbl.point2d
  plane_ : dbl.point2d
  roads_ : List (Nat × double)
  deriving DecidableEq

/-- Static location::utm_zone on a double: static_cast<int>((lon + 180.0) / 6.0) + 1;
none where the behaviour is undefined, the conversion or the addition of int being out of
range. -/
def dbl.location.utm_zone (lon : double) : Option ℤ :=
  match ((lon + double.lit 180.0) / double.lit 6.0).to_int with
  | none => none
  | some n => if n + 1 < 2 ^ 31 then some (n + 1) else none

/-- Static location::wgs84_to_utm on doubles, every operation rounded; none where
utm_zone is undefined. -/
def dbl.location.wgs84_to_utm (E : dbl.env) (lon lat : double) : Option dbl.point2d :=
  match dbl.location.utm_zone lon with
  | none => none
  | some zone =>
    let UTM_K0 := double.lit 0.9996
    let M_PI := double.lit 3.1415829535898
    let WGS84_A := double.lit 6378137.0
    let WGS84_E2 := double.lit 0.00669437999013
    let lat_rad := lat * M_PI / double.lit 180.0
    let lon_rad := lon * M_PI / double.lit 180.0
    let lon_origin := double.lit ((zone - 1 : ℤ) : ℚ) * double.lit 6.0 - double.lit 180.0
      + double.lit 3.0
    let lon_origin_rad := lon_origin * M_PI / double.lit 180.0
    let e2 := WGS84_E2
    let e4 := e2 * e2
    let e6 := e4 * e2
    let A0 := double.lit 1 - e2 / double.lit 4 - double.lit 3 * e4 / double.lit 64
      - double.lit 5 * e6 / double.lit 256
    let A2 := double.lit 3.0 / double.lit 8.0
      * (e2 + e4 / double.lit 4 + double.lit 15 * e6 / double.lit 128)
    let A4 := double.lit 15.0 / double.lit 256.0 * (e4 + double.lit 3 * e6 / double.lit 4)
    let A6 := double.lit 35 * e6 / double.lit 3072
    let M := WGS84_A * (A0 * lat_rad - A2 * double.trig E.sin (double.lit 2 * lat_rad)
      + A4 * double.trig E.sin (double.lit 4 * lat_rad)
      - A6 * double.trig E.sin (double.lit 6 * lat_rad))
    let N := WGS84_A / double.sqrt E.sqrt
      (double.lit 1 - e2 * double.trig E.sin lat_rad * double.trig E.sin lat_rad)
    let T := double.trig E.tan lat_rad * double.trig E.tan lat_rad
    let C := e2 / (double.lit 1 - e2) * double.trig E.cos lat_rad * double.trig E.cos lat_rad
    let A := (lon_rad - lon_origin_rad) * double.trig E.cos lat_rad
    let x := UTM_K0 * N * (A + (double.lit 1 - T + C) * A * A * A / double.lit 6
      + (double.lit 5 - double.lit 18 * T + T * T + double.lit 72 * C - double.lit 58 * e2)
        * A * A * A * A * A / double.lit 120)
    let y := UTM_K0 * (M + N * double.trig E.tan lat_rad * (A * A / double.lit 2
      + (double.lit 5 - T + double.lit 9 * C + double.lit 4 * C * C) * A * A * A * A
        / double.lit 24
      + (double.lit 61 - double.lit 58 * T + T * T + double.lit 600 * C
        - double.lit 330 * e2) * A * A * A * A * A * A / double.lit 720))
    let x := x + double.lit 500000.0
    let y := if lat.lt (double.lit 0) then y + double.lit 10000000.0 else y
    some ⟨x, y⟩

/-- Constructor location::location(id, name, globe_coordinate): the member plane_ is
initialised first, then the id is tested; none where the behaviour is undefined. -/
def dbl.location.init (E : dbl.env) (id : Nat) (name : String) (globe_coordinate : dbl.point2d) :
    Option (Except error dbl.location) :=
  match dbl.location.wgs84_to_utm E globe_coordinate.y_ globe_coordinate.x_ with
  | none => none
  | some plane =>
    if id = 0 then some (.error (.invalid_argument "地点ID不可为0"))
    else some (.ok ⟨id, name, globe_coordinate, plane, []⟩)

/-- Method location::add_road: roads_[id] = plane_.distance_to(plane_coordinate). -/
def dbl.location.add_road (E : dbl.env) (l : dbl.location) (id : Nat)
    (plane_coordinate : dbl.point2d) : dbl.location :=
  { l with roads_ := umap_set l.roads_ id (l.plane_.distance_to E plane_coordinate) }

/-- Method location::has_road_to. -/
def dbl.location.has_road_to (l : dbl.location) (id : Nat) : Bool :=
  (umap_find l.roads_ id).isSome

/-- Method location::road_length_to: the stored weight, 0.0 when there is none. -/
def dbl.location.road_length_to (l : dbl.location) (id : Nat) : double :=
  match umap_find l.roads_ id with
  | some d => d
  | none => .fin 0

/-- Class city over the locations on doubles. -/
structure dbl.city where
  id_ : Nat
  name_ : String
  places_ : List (Nat × dbl.location)
  deriving DecidableEq

/-- Constructor city::city(id, name). -/
def dbl.city.init (id : Nat) (name : String) : Except error dbl.city :=
  if id = 0 then .error (.invalid_argument "城市ID不可为0") else .ok ⟨id, name, []⟩

/-- Method city::has_place. -/
def dbl.city.has_place (c : dbl.city) (id : Nat) : Bool := (umap_find c.places_ id).isSome

/-- Method city::place: the location, none for nullptr. -/
def dbl.city.place (c : dbl.city) (id : Nat) : Option dbl.location := umap_find c.places_ id

/-- Method city::add_place; none where the construction of the location is undefined. -/
def dbl.city.add_place (E : dbl.env) (c : dbl.city) (id : Nat) (name : String)
    (globe_coordinate : dbl.point2d) : Option (Except error dbl.location × dbl.city) :=
  if c.has_place id then some (.error (.invalid_argument "地点ID已存在"), c)
  else match dbl.location.init E id name globe_coordinate with
    | none => none
    | some (.error e) => some (.error e, c)
    | some (.ok l) => some (.ok l, { c with places_ := umap_set c.places_ id l })

/-- Method city::add_local_place. -/
def dbl.city.add_local_place (E : dbl.env) (c : dbl.city) (serial : Nat) (name : String)
    (globe_coordinate : dbl.point2d) : Option (Except error dbl.location × dbl.city) :=
  c.add_place E (city.place_id c.id_ serial) name globe_coordinate

/-- Method city::add_road. -/
def dbl.city.add_road (E : dbl.env) (c : dbl.city) (from_id to_id : Nat) :
    Except error double × dbl.city :=
  match c.place from_id, c.place to_id with
  | some from_place, some to_place =>
    let from_place1 := from_place.add_road E to_place.id_ to_place.plane_
    (.ok (from_place1.road_length_to to_id),
      { c with places_ := umap_set c.places_ from_id from_place1 })
  | _, _ => (.error (.invalid_argument "地点ID不存在"), c)

/-- Method city::add_bidirectional_road. -/
def dbl.city.add_bidirectional_road (E : dbl.env) (c : dbl.city) (from_id to_id : Nat) :
    Except error double × dbl.city :=
  match c.add_road E from_id to_id with
  | (.error e, c1) => (.error e, c1)
  | (.ok dist1, c1) =>
    match c1.add_road E to_id from_id with
    | (.error e, c2) => (.error e, c2)
    | (.ok dist2, c2) => (.ok (double.max dist1 dist2), c2)

/-- Method city::add_intercity_road. -/
def dbl.city.add_intercity_road (E : dbl.env) (c : dbl.city) (from_id to_id : Nat)
    (plane_coordinate : dbl.point2d) : Except error double × dbl.city :=
  match c.place from_id with
  | none => (.error (.invalid_argument "地点ID不存在"), c)
  | some from_place =>
    let from_place1 := from_place.add_road E to_id plane_coordinate
    (.ok (from_place1.road_length_to to_id),
      { c with places_ := umap_set c.places_ from_id from_place1 })

/-- Method city::has_road. -/
def dbl.city.has_road (c : dbl.city) (from_id to_id : Nat) : Bool :=
  match c.place from_id with
  | some from_place => from_place.has_road_to to_id
  | none => false

/-- Method city::road_length. -/
def dbl.city.road_length (c : dbl.city) (from_id to_id : Nat) : double :=
  match c.place from_id with
  | some from_place => from_place.road_length_to to_id
  | none => .fin 0

/-- Class plat over the cities on doubles. -/
structure dbl.plat where
  towns_ : List (Nat × dbl.city)
  deriving DecidableEq

/-- The empty network. -/
def dbl.plat.empty : dbl.plat := ⟨[]⟩

/-- Method plat::town. -/
def dbl.plat.town (P : dbl.plat) (id : Nat) : Option dbl.city := umap_find P.towns_ id

/-- Method plat::has_town. -/
def dbl.plat.has_town (P : dbl.plat) (id : Nat) : Bool := (umap_find P.towns_ id).isSome

/-- Method plat::place. -/
def dbl.plat.place (P : dbl.plat) (id : Nat) : Option dbl.location :=
  match umap_find P.towns_ (town_of id) with
  | none => none
  | some t => t.place id

/-- Method plat::add_town. -/
def dbl.plat.add_town (P : dbl.plat) (id : Nat) (name : String) :
    Except error dbl.city × dbl.plat :=
  if P.has_town id then (.error (.invalid_argument "城市ID已存在"), P)
  else match dbl.city.init id name with
    | .error e => (.error e, P)
    | .ok c => (.ok c, { P with towns_ := umap_set P.towns_ id c })

/-- Method plat::add_road. -/
def dbl.plat.add_road (E : dbl.env) (P : dbl.plat) (from_id to_id : Nat) :
    Except error double × dbl.plat :=
  let from_town_id := town_of from_id
  let to_town_id := town_of to_id
  match P.town from_town_id with
  | none => (.error (.invalid_argument "起点所在城市不存在"), P)
  | some from_town =>
    if from_town_id = to_town_id then
      let r := from_town.add_road E from_id to_id
      (r.1, { P with towns_ := umap_set P.towns_ from_town_id r.2 })
    else
      match P.place to_id with
      | none => (.error (.invalid_argument "终点地点不存在"), P)
      | some to_place =>
        let r := from_town.add_intercity_road E from_id to_id to_place.plane_
        (r.1, { P with towns_ := umap_set P.towns_ from_town_id r.2 })

/-- Method plat::add_bidirectional_road. -/
def dbl.plat.add_bidirectional_road (E : dbl.env) (P : dbl.plat) (from_id to_id : Nat) :
    Except error double × dbl.plat :=
  let from_town_id := town_of from_id
  let to_town_id := town_of to_id
  if from_town_id = to_town_id then
    match P.town from_town_id with
    | none => (.error (.invalid_argument "城市不存在"), P)
    | some town_ptr =>
      let r := town_ptr.add_bidirectional_road E from_id to_id
      (r.1, { P with towns_ := umap_set P.towns_ from_town_id r.2 })
  else
    match P.add_road E from_id to_id with
    | (.error e, P1) => (.error e, P1)
    | (.ok dist1, P1) =>
      match P1.add_road E to_id from_id with
      | (.error e, P2) => (.error e, P2)
      | (.ok dist2, P2) => (.ok (double.max dist1 dist2), P2)

/-- Method plat::has_road. -/
def dbl.plat.has_road (P : dbl.plat) (from_id to_id : Nat) : Bool :=
  match P.place from_id with
  | some from_place => from_place.has_road_to to_id
  | none => false

/-- Method plat::road_length. -/
def dbl.plat.road_length (P : dbl.plat) (from_id to_id : Nat) : double :=
  match P.place from_id with
  | some from_place => from_place.road_length_to to_id
  | none => .fin 0

/-- The network after a method has changed, in place, the city that plat::town(id)
points to. -/
def dbl.plat.set_town (P : dbl.plat) (id : Nat) (c : dbl.city) : dbl.plat :=
  ⟨umap_set P.towns_ id c⟩

/-- Comparison astar_node::operator>: f > other.f. -/
def dbl.astar_node.gt (a other : dbl.astar_node) : Bool := other.f.lt a.f

/-- Comparison astar_node::operator==: g == other.g && f == other.f && parent ==
other.parent, the first two on doubles. -/
def dbl.astar_node.eq (a other : dbl.astar_node) : Bool :=
  a.g.eq other.g && a.f.eq other.f && decide (a.parent = other.parent)

/-- Static astar_node::heuristic. -/
def dbl.astar_node.heuristic (E : dbl.env) (a b : dbl.point2d) : double := a.distance_to E b

/-- First entry of a list that no later entry beats under operator>. -/
def dbl.pq_min : List dbl.astar_node → Option dbl.astar_node
  | [] => none
  | a :: l =>
    match dbl.pq_min l with
    | none => some a
    | some b => if a.gt b then some b else some a

/-- Call open_list.top() of the min-queue: none when the queue is empty. -/
def dbl.pq_top (E : dbl.env) (open_list : List dbl.astar_node) : Option dbl.astar_node :=
  dbl.pq_min (E.queue_order open_list)

/-- The scan of astar_search that recovers the id of the popped entry: the key of the
first entry of all_nodes, in iteration order, whose node == curr_node; 0 when there is
none. -/
def dbl.scan_id (E : dbl.env) (all_nodes : List (Nat × dbl.astar_node))
    (curr_node : dbl.astar_node) : Nat :=
  match (E.nodes_order all_nodes).find? (fun e => e.2.eq curr_node) with
  | some e => e.1
  | none => 0

/-- Read access all_nodes[k]: a missing key is first inserted with a zeroed node. -/
def dbl.umap_index (m : List (Nat × dbl.astar_node)) (k : Nat) :
    dbl.astar_node × List (Nat × dbl.astar_node) :=
  match umap_find m k with
  | some v => (v, m)
  | none => (⟨.fin 0, .fin 0, 0⟩, m ++ [(k, ⟨.fin 0, .fin 0, 0⟩)])

/-- Local variables of astar_search. -/
structure dbl.astar_state where
  open_list : List dbl.astar_node
  all_nodes : List (Nat × dbl.astar_node)
  closed_set : List Nat
  deriving DecidableEq

/-- Test !all_nodes.count(neighbor_id) || g_new < all_nodes[neighbor_id].g. -/
def dbl.astar_improves (all_nodes : List (Nat × dbl.astar_node)) (neighbor_id : Nat)
    (g_new : double) : Bool :=
  match umap_find all_nodes neighbor_id with
  | none => true
  | some n => g_new.lt n.g

/-- Body of the loop over curr_place->roads() in astar_search, for one road. -/
def dbl.astar_relax (E : dbl.env) (P : dbl.plat) (goal : dbl.location) (curr_id : Nat)
    (s : dbl.astar_state) (road : Nat × double) : dbl.astar_state :=
  let neighbor_id := road.1
  let distance := road.2
  if s.closed_set.contains neighbor_id then s
  else match P.place neighbor_id with
    | none => s
    | some neighbor_place =>
      let r := dbl.umap_index s.all_nodes curr_id
      let g_new := r.1.g + distance
      let h_new := dbl.astar_node.heuristic E neighbor_place.plane_ goal.plane_
      if dbl.astar_improves r.2 neighbor_id g_new then
        let f_new := g_new + h_new
        { open_list := s.open_list ++ [⟨g_new, f_new, curr_id⟩],
          all_nodes := umap_set r.2 neighbor_id ⟨g_new, f_new, curr_id⟩,
          closed_set := s.closed_set }
      else { s with all_nodes := r.2 }

/-- The loop of plat::reconstruct_path; none stands for a walk longer than the fuel. -/
def dbl.reconstruct_loop (nodes : List (Nat × dbl.astar_node)) :
    Nat → Nat → List Nat → Option (List Nat)
  | 0, _, _ => none
  | fuel + 1, curr_id, path =>
    if curr_id = 0 then some path
    else
      match umap_find nodes curr_id with
      | none => some (path ++ [curr_id])
      | some n => dbl.reconstruct_loop nodes fuel n.parent (path ++ [curr_id])

/-- Method plat::reconstruct_path: the parent walk from end_id, reversed. -/
def dbl.plat.reconstruct_path (nodes : List (Nat × dbl.astar_node)) (end_id : Nat) :
    Option (List Nat) :=
  (dbl.reconstruct_loop nodes (nodes.length + 2) end_id []).map List.reverse

/-- The while loop of plat::astar_search; none stands for a run longer than the fuel. -/
def dbl.astar_loop (E : dbl.env) (P : dbl.plat) (goal : dbl.location) :
    Nat → dbl.astar_state → Option (List Nat)
  | 0, _ => none
  | fuel + 1, s =>
    match dbl.pq_top E s.open_list with
    | none => some []
    | some curr_node =>
      let open1 := s.open_list.erase curr_node
      let curr_id := dbl.scan_id E s.all_nodes curr_node
      if curr_id = goal.id_ then dbl.plat.reconstruct_path s.all_nodes goal.id_
      else if s.closed_set.contains curr_id then
        dbl.astar_loop E P goal fuel { s with open_list := open1 }
      else
        let closed1 := curr_id :: s.closed_set
        match P.place curr_id with
        | none => dbl.astar_loop E P goal fuel ⟨open1, s.all_nodes, closed1⟩
        | some curr_place =>
          dbl.astar_loop E P goal fuel
            ((E.roads_order curr_place.roads_).foldl (dbl.astar_relax E P goal curr_id)
              ⟨open1, s.all_nodes, closed1⟩)

/-- Number of roads stored in the network. -/
def dbl.plat.road_count (P : dbl.plat) : Nat :=
  (P.towns_.map (fun t => (t.2.places_.map (fun e => e.2.roads_.length)).sum)).sum

/-- Method plat::astar_search, with road_count + 2 rounds of the loop as in the first
embedding. -/
def dbl.plat.astar_search (E : dbl.env) (P : dbl.plat) (start goal : dbl.location) :
    Option (List Nat) :=
  let h_start := dbl.astar_node.heuristic E start.plane_ goal.plane_
  dbl.astar_loop E P goal (P.road_count + 2)
    ⟨[⟨.fin 0, h_start, 0⟩], [(start.id_, ⟨.fin 0, h_start, 0⟩)], []⟩

/-- Method plat::find_path. -/
def dbl.plat.find_path (E : dbl.env) (P : dbl.plat) (from_id to_id : Nat) : Option (List Nat) :=
  match P.place from_id, P.place to_id with
  | some start_place, some goal_place => P.astar_search E start_place goal_place
  | _, _ => some []

/-- What the constructors and add operations establish for a city: a nonzero id, one
entry per key, and every location stored under its own nonzero id. -/
def dbl.city.wf (c : dbl.city) : Prop :=
  c.id_ ≠ 0 ∧ (umap_keys c.places_).Nodup ∧ ∀ e ∈ c.places_, e.2.id_ = e.1 ∧ e.1 ≠ 0

/-- The same for the whole network: one entry per town id, every city stored under its
own id. -/
def dbl.plat.wf (P : dbl.plat) : Prop :=
  (umap_keys P.towns_).Nodup ∧ ∀ t ∈ P.towns_, t.2.id_ = t.1 ∧ t.2.wf

instance dbl.city.wf_decidable (c : dbl.city) : Decidable c.wf := by
  unfold dbl.city.wf
  infer_instance

instance dbl.plat.wf_decidable (P : dbl.plat) : Decidable P.wf := by
  unfold dbl.plat.wf
  infer_instance

/-- A square root for the sample platform: the root of q to 60 binary digits and more,
rounded down; 0 for q <= 0. -/
def dbl.sqrt_sample (q : ℚ) : ℚ :=
  if q ≤ 0 then 0
  else (Nat.sqrt ⌊q * 4 ^ (60 - Int.log 2 q / 2)⌋₊ : ℚ) / 2 ^ (60 - Int.log 2 q / 2)

/-- A sample platform for the doubles: the square root to 60 digits, Taylor polynomials
for the trigonometric functions, containers iterated in insertion order. -/
def dbl.sample_env : dbl.env where
  sqrt := dbl.sqrt_sample
  sin := fun x => x - x * x * x / 6
  cos := fun x => 1 - x * x / 2
  tan := fun x => x + x * x * x / 3
  nodes_order := fun l => l
  roads_order := fun l => l
  queue_order := fun l => l

/-- A location of zone 1 constructed with the latitude NaN and the longitude 116: both
planar coordinates are NaN. -/
def dbl.nan_place : dbl.location :=
  ⟨city.place_id 1 1, "A", ⟨.nan, double.lit 116.0⟩, ⟨.nan, .nan⟩, []⟩

/-- Zone 1 "Capital" with the location nan_place alone. -/
def dbl.nan_town : dbl.city := ⟨1, "Capital", [(city.place_id 1 1, dbl.nan_place)]⟩

/-- The network of nan_town alone. -/
def dbl.nan_net : dbl.plat := ⟨[(1, dbl.nan_town)]⟩

/-- The first place of the scenario of the specification, zone 1 serial 1 at (lon 116.00,
lat 39.90), with a planar point within a metre of the one the projection gives. -/
def dbl.capital_a : dbl.location :=
  ⟨city.place_id 1 1, "A", ⟨double.lit 39.90, double.lit 116.00⟩,
    ⟨.fin 414515.25, .fin 4417123.125⟩, []⟩

/-- The second place of the scenario, serial 2 at (lon 116.01, lat 39.90). -/
def dbl.capital_b : dbl.location :=
  ⟨city.place_id 1 2, "B", ⟨double.lit 39.90, double.lit 116.01⟩,
    ⟨.fin 415370.125, .fin 4417113.625⟩, []⟩

/-- A third place, serial 3 at (lon 116.02, lat 39.90). -/
def dbl.capital_c : dbl.location :=
  ⟨city.place_id 1 3, "C", ⟨double.lit 39.90, double.lit 116.02⟩,
    ⟨.fin 416225, .fin 4417104.25⟩, []⟩

/-- Zone 1 "Capital" with the three places, no road yet. -/
def dbl.capital_net : dbl.plat :=
  ⟨[(1, ⟨1, "Capital", [(city.place_id 1 1, dbl.capital_a), (city.place_id 1 2, dbl.capital_b),
    (city.place_id 1 3, dbl.capital_c)]⟩)]⟩

/-- The unit roundoff of double, 2^-53. -/
def double.eps : ℚ := 2 ^ (-53 : ℤ)

/-- The number a double stands for; 0 for an infinity and for NaN. -/
def double.value : double → ℚ
  | .fin q => q
  | _ => 0

/-- The square root of the platform has a relative error of at most 2^-53 on the
nonnegative numbers: the value E.sqrt q, which double.sqrt then rounds to double, is not
negative and its square is q up to the factors (1 - 2^-53)^2 and (1 + 2^-53)^2. A
correctly rounded std::sqrt is of this kind, E.sqrt q being a number near enough to the
root of q to round as the root does. -/
def dbl.env.sqrt_accurate (E : dbl.env) : Prop :=
  ∀ q : ℚ, 0 ≤ q → 0 ≤ E.sqrt q ∧ (1 - double.eps) ^ 2 * q ≤ E.sqrt q ^ 2 ∧
    E.sqrt q ^ 2 ≤ (1 + double.eps) ^ 2 * q

/-- The squared Euclidean distance of two points, exactly; 0 where a coordinate is not a
number. -/
def dbl.point2d.sq_dist (a b : dbl.point2d) : ℚ :=
  (b.x_.value - a.x_.value) * (b.x_.value - a.x_.value)
    + (b.y_.value - a.y_.value) * (b.y_.value - a.y_.value)

/-- The distance of the two points is computed without overflow and without underflow:
the coordinates are numbers, and each coordinate difference is 0 or of a magnitude from
2^-500 to 2^500. -/
def dbl.point2d.in_range (a b : dbl.point2d) : Prop :=
  a.is_finite = true ∧ b.is_finite = true ∧
  (b.x_.value - a.x_.value = 0 ∨ (2 : ℚ) ^ (-500 : ℤ) ≤ |b.x_.value - a.x_.value|) ∧
  |b.x_.value - a.x_.value| ≤ 2 ^ (500 : ℤ) ∧
  (b.y_.value - a.y_.value = 0 ∨ (2 : ℚ) ^ (-500 : ℤ) ≤ |b.y_.value - a.y_.value|) ∧
  |b.y_.value - a.y_.value| ≤ 2 ^ (500 : ℤ)

/-- Sum of the stored road lengths along a path, as numbers: the cost of the path. -/
def dbl.plat.path_weight (P : dbl.plat) : List Nat → ℚ
  | [] => 0
  | [_] => 0
  | u :: v :: rest => (P.road_length u v).value + dbl.plat.path_weight P (v :: rest)

/-- The double n * 2^e. -/
def double.dyadic (n e : ℤ) : double := .fin ((n : ℚ) * 2 ^ e)

/-- A place on the equator at the longitude 114.5, zone 1 serial 1, with the planar point
the projection gives: x = 221724.54293534614, y = 0. -/
def dbl.equator_u : dbl.location :=
  ⟨city.place_id 1 1, "U", ⟨double.lit 0, double.lit 114.5⟩,
    ⟨double.dyadic 7618397285022876 (-35), double.dyadic 0 0⟩, []⟩

/-- A place on the equator at the longitude 114.875, serial 2: x = 263486.84008753061,
y = 0. -/
def dbl.equator_v : dbl.location :=
  ⟨city.place_id 1 2, "V", ⟨double.lit 0, double.lit 114.875⟩,
    ⟨double.dyadic 4526669444409303 (-34), double.dyadic 0 0⟩, []⟩

/-- A place on the equator at the longitude 119.75, serial 3: x = 806123.55260679615,
y = 0. -/
def dbl.equator_t : dbl.location :=
  ⟨city.place_id 1 3, "T", ⟨double.lit 0, double.lit 119.75⟩,
    ⟨double.dyadic 6924548589963050 (-33), double.dyadic 0 0⟩, []⟩

/-- Zone 1 "Equator" with the three places, no road yet. -/
def dbl.equator_town : dbl.city :=
  ⟨1, "Equator", [(city.place_id 1 1, dbl.equator_u), (city.place_id 1 2, dbl.equator_v),
    (city.place_id 1 3, dbl.equator_t)]⟩

/-- The network of equator_town alone. -/
def dbl.equator_net : dbl.plat := ⟨[(1, dbl.equator_town)]⟩

/-! # Theorems -/

/-! ## Containers -/

theorem umap_find_set_same {β : Type} (m : List (Nat × β)) (k : Nat) (v : β) :
    umap_find (umap_set m k v) k = some v := by
  induction m with
  | nil => simp [umap_set, umap_find]
  | cons e m ih =>
    obtain ⟨k1, v1⟩ := e
    by_cases h : k1 = k
    · simp [umap_set, umap_find, h]
    · simp [umap_set, umap_find, h, ih]

theorem umap_find_set_other {β : Type} (m : List (Nat × β)) (k k2 : Nat) (v : β) (h : k2 ≠ k) :
    umap_find (umap_set m k v) k2 = umap_find m k2 := by
  induction m with
  | nil => simp [umap_set, umap_find, Ne.symm h]
  | cons e m ih =>
    obtain ⟨k1, v1⟩ := e
    by_cases h1 : k1 = k
    · subst h1
      simp [umap_set, umap_find, Ne.symm h]
    · by_cases h2 : k1 = k2
      · subst h2
        simp [umap_set, umap_find, h1]
      · simp [umap_set, umap_find, h1, h2, ih]

theorem umap_find_mem {β : Type} (m : List (Nat × β)) (k : Nat) (v : β)
    (h : umap_find m k = some v) : (k, v) ∈ m := by
  induction m with
  | nil => simp [umap_find] at h
  | cons e m ih =>
    obtain ⟨k1, v1⟩ := e
    by_cases h1 : k1 = k
    · simp [umap_find, h1] at h
      simp [h1, h]
    · simp [umap_find, h1] at h
      exact List.mem_cons_of_mem _ (ih h)

theorem umap_find_of_mem {β : Type} (m : List (Nat × β)) (k : Nat) (v : β)
    (h : (k, v) ∈ m) : (umap_find m k).isSome = true := by
  induction m with
  | nil => simp at h
  | cons e m ih =>
    obtain ⟨k1, v1⟩ := e
    by_cases h1 : k1 = k
    · simp [umap_find, h1]
    · have : (k, v) ∈ m := by
        rcases List.mem_cons.mp h with h2 | h2
        · exact absurd (congrArg Prod.fst h2).symm h1
        · exact h2
      simp [umap_find, h1, ih this]

theorem umap_find_erase_same {β : Type} (m : List (Nat × β)) (k : Nat) :
    umap_find (umap_erase m k) k = none := by
  induction m with
  | nil => simp [umap_erase, umap_find]
  | cons e m ih =>
    obtain ⟨k1, v1⟩ := e
    by_cases h1 : k1 = k
    · simpa [umap_erase, h1] using ih
    · simpa [umap_erase, h1, umap_find] using ih

theorem umap_find_erase_other {β : Type} (m : List (Nat × β)) (k k2 : Nat) (h : k2 ≠ k) :
    umap_find (umap_erase m k) k2 = umap_find m k2 := by
  induction m with
  | nil => simp [umap_erase, umap_find]
  | cons e m ih =>
    obtain ⟨k1, v1⟩ := e
    by_cases h1 : k1 = k
    · subst h1
      simpa [umap_erase, umap_find, Ne.symm h] using ih
    · by_cases h2 : k1 = k2
      · subst h2
        simp [umap_erase, h1, umap_find]
      · simpa [umap_erase, h1, umap_find, h2] using ih

theorem umap_find_map {β : Type} (m : List (Nat × β)) (f : β → β) (k : Nat) :
    umap_find (m.map (fun e => (e.1, f e.2))) k = (umap_find m k).map f := by
  induction m with
  | nil => simp [umap_find]
  | cons e m ih =>
    obtain ⟨k1, v1⟩ := e
    by_cases h1 : k1 = k
    · simp [umap_find, h1]
    · simp [umap_find, h1, ih]

/-! ## Identifiers -/

theorem place_id_eq (city_id serial : Nat) (hc : city_id < 2 ^ 32) (hs : serial < 2 ^ 32) :
    city.place_id city_id serial = city_id * 2 ^ 32 + serial := by
  unfold city.place_id
  rw [Nat.shiftLeft_eq]
  omega

/-- C8: for 32-bit zone_id and serial, the id built by city::place_id has zone_id as its
high half (id >> 32), serial as its low half (id & 0xFFFFFFFF), and is not 0 when both
are nonzero. -/
theorem place_id_halves (zone_id serial : Nat) (hz : zone_id < 2 ^ 32) (hs : serial < 2 ^ 32) :
    city.place_id zone_id serial >>> 32 = zone_id ∧
    city.place_id zone_id serial &&& 0xFFFFFFFF = serial ∧
    (zone_id ≠ 0 → serial ≠ 0 → city.place_id zone_id serial ≠ 0) := by
  rw [place_id_eq zone_id serial hz hs]
  have hmask : ∀ x : Nat, x &&& 0xFFFFFFFF = x % 2 ^ 32 := by
    intro x
    simpa using Nat.and_pow_two_sub_one_eq_mod x 32
  refine ⟨?_, ?_, ?_⟩
  · rw [Nat.shiftRight_eq_div_pow]
    omega
  · rw [hmask]
    omega
  · intro h1 h2
    omega

theorem place_id_halves_witness :
    city.place_id 1 2 >>> 32 = 1 ∧ city.place_id 1 2 &&& 0xFFFFFFFF = 2 ∧
    ((1 : Nat) ≠ 0 → (2 : Nat) ≠ 0 → city.place_id 1 2 ≠ 0) :=
  place_id_halves 1 2 (by decide) (by decide)

/-! ## Path finder: unresolved endpoints -/

/-- C7: when from or to does not resolve to a location (plat::place gives nullptr, the
zone being absent or not holding the id), plat::find_path returns the empty path; the
result is a value, no error is raised. -/
theorem find_path_unresolved (E : env) (P : plat) (from_id to_id : Nat)
    (h : P.place from_id = none ∨ P.place to_id = none) :
    P.find_path E from_id to_id = some [] := by
  unfold plat.find_path
  rcases h with h | h
  · rw [h]
  · rw [h]
    cases P.place from_id <;> rfl

theorem find_path_unresolved_witness :
    capital_net.find_path sample_env capital_id1 (city.place_id 7 1) = some [] :=
  find_path_unresolved sample_env capital_net capital_id1 (city.place_id 7 1)
    (Or.inr (by decide))

/-! ## Removing a place -/

theorem remove_local_place_eq (c : city) (serial : Nat) :
    c.remove_local_place serial = c.remove_place (city.place_id c.id_ serial) := rfl

theorem has_road_to_remove_road (l : location) (id : Nat) :
    (l.remove_road id).2.has_road_to id = false := by
  simp [location.remove_road, location.has_road_to, umap_find_erase_same]

/-- C10: for a zone that holds id, city::remove_place (and city::remove_local_place, for
the id of a serial) returns true; afterwards the zone does not resolve id and has_road(x,
id) is false for every x, so no remaining location of the zone keeps a road to id. -/
theorem remove_place_present (c : city) (id : Nat) (h : c.has_place id = true) :
    (c.remove_place id).1 = true ∧ (c.remove_place id).2.place id = none ∧
    (∀ x, (c.remove_place id).2.has_road x id = false) ∧
    (∀ serial, city.place_id c.id_ serial = id →
      c.remove_local_place serial = c.remove_place id) := by
  have hfind : ∃ l, umap_find c.places_ id = some l := by
    simpa [city.has_place, Option.isSome_iff_exists] using h
  obtain ⟨l, hl⟩ := hfind
  have hmem := umap_find_mem _ _ _ hl
  refine ⟨?_, ?_, ?_, ?_⟩
  · simp only [city.remove_place, h, Bool.not_true, Bool.false_eq_true, if_false]
    simp only [decide_eq_true_eq]
    apply List.length_pos_of_mem (a := (id, (l.remove_road id).2))
    simp only [List.mem_filter, List.mem_map, decide_eq_true_eq, and_true]
    exact ⟨(id, l), hmem, rfl⟩
  · simp [city.remove_place, h, city.place, umap_find_erase_same]
  · intro x
    simp only [city.remove_place, h, Bool.not_true, Bool.false_eq_true, if_false, city.has_road,
      city.place]
    by_cases hx : x = id
    · subst hx
      simp [umap_find_erase_same]
    · rw [umap_find_erase_other _ _ _ hx,
        umap_find_map c.places_ (fun l => (l.remove_road id).2) x]
      cases hfx : umap_find c.places_ x with
      | none => simp
      | some lx => simpa using has_road_to_remove_road lx id
  · intro serial hs
    rw [remove_local_place_eq, hs]

theorem remove_place_present_witness :
    (capital_town.remove_place capital_id2).1 = true ∧
    (capital_town.remove_place capital_id2).2.place capital_id2 = none ∧
    (∀ x, (capital_town.remove_place capital_id2).2.has_road x capital_id2 = false) ∧
    (∀ serial, city.place_id capital_town.id_ serial = capital_id2 →
      capital_town.remove_local_place serial
        = capital_town.remove_place capital_id2) :=
  remove_place_present capital_town capital_id2 (by decide)

/-! ## Adding roads -/

theorem has_road_to_add_road (E : env) (l : location) (k : Nat) (p : point2d) :
    (l.add_road E k p).has_road_to k = true := by
  simp [location.add_road, location.has_road_to, umap_find_set_same]

theorem road_length_to_add_road (E : env) (l : location) (k : Nat) (p : point2d) :
    (l.add_road E k p).road_length_to k = l.plane_.distance_to E p := by
  simp [location.add_road, location.road_length_to, umap_find_set_same]

theorem has_road_to_add_road_other (E : env) (l : location) (k k2 : Nat) (p : point2d)
    (h : k2 ≠ k) : (l.add_road E k p).has_road_to k2 = l.has_road_to k2 := by
  simp [location.add_road, location.has_road_to, umap_find_set_other _ _ _ _ h]

theorem road_length_to_add_road_other (E : env) (l : location) (k k2 : Nat) (p : point2d)
    (h : k2 ≠ k) : (l.add_road E k p).road_length_to k2 = l.road_length_to k2 := by
  simp [location.add_road, location.road_length_to, umap_find_set_other _ _ _ _ h]

theorem city_add_road_ok (E : env) (c : city) (u v : Nat) (w : ℚ) (c1 : city)
    (h : c.add_road E u v = (.ok w, c1)) :
    ∃ fp tp, c.place u = some fp ∧ c.place v = some tp ∧
      c1 = { c with places_ := umap_set c.places_ u (fp.add_road E tp.id_ tp.plane_) } ∧
      w = (fp.add_road E tp.id_ tp.plane_).road_length_to v := by
  unfold city.add_road at h
  cases hu : c.place u with
  | none => simp [hu] at h
  | some fp =>
    cases hv : c.place v with
    | none => simp [hu, hv] at h
    | some tp =>
      simp only [hu, hv, Prod.mk.injEq, Except.ok.injEq] at h
      exact ⟨fp, tp, rfl, rfl, h.2.symm, h.1.symm⟩

theorem city_add_intercity_road_ok (E : env) (c : city) (u v : Nat) (p : point2d) (w : ℚ)
    (c1 : city) (h : c.add_intercity_road E u v p = (.ok w, c1)) :
    ∃ fp, c.place u = some fp ∧
      c1 = { c with places_ := umap_set c.places_ u (fp.add_road E v p) } ∧
      w = (fp.add_road E v p).road_length_to v := by
  unfold city.add_intercity_road at h
  cases hu : c.place u with
  | none => simp [hu] at h
  | some fp =>
    simp only [hu, Prod.mk.injEq, Except.ok.injEq] at h
    exact ⟨fp, rfl, h.2.symm, h.1.symm⟩

theorem city_place_id (c : city) (hid : ∀ e ∈ c.places_, e.2.id_ = e.1) (k : Nat) (l : location)
    (h : c.place k = some l) : l.id_ = k :=
  hid (k, l) (umap_find_mem _ _ _ h)

theorem city_add_bidirectional_road_ok (E : env) (c : city)
    (hid : ∀ e ∈ c.places_, e.2.id_ = e.1) (u v : Nat) (w : ℚ) (c2 : city)
    (h : c.add_bidirectional_road E u v = (.ok w, c2)) :
    c2.has_road u v = true ∧ c2.has_road v u = true ∧
      w = max (c2.road_length u v) (c2.road_length v u) := by
  unfold city.add_bidirectional_road at h
  rcases h1 : c.add_road E u v with ⟨r1, c1⟩
  rw [h1] at h
  cases r1 with
  | error e => simp at h
  | ok d1 =>
    simp only at h
    rcases h2 : c1.add_road E v u with ⟨r2, c2a⟩
    rw [h2] at h
    cases r2 with
    | error e => simp at h
    | ok d2 =>
      simp only [Prod.mk.injEq, Except.ok.injEq] at h
      obtain ⟨hw, hc⟩ := h
      subst hc
      obtain ⟨fp, tp, hfp, htp, hc1, hd1⟩ := city_add_road_ok E c u v d1 c1 h1
      obtain ⟨fp2, tp2, hfp2, htp2, hc2, hd2⟩ := city_add_road_ok E c1 v u d2 c2a h2
      have htid : tp.id_ = v := city_place_id c hid v tp htp
      have hfid : fp.id_ = u := city_place_id c hid u fp hfp
      rw [htid] at hc1 hd1
      have hc1u : c1.place u = some (fp.add_road E v tp.plane_) := by
        rw [hc1]
        simp [city.place, umap_find_set_same]
      rw [hc1u] at htp2
      have htp2e : tp2 = fp.add_road E v tp.plane_ := (Option.some.inj htp2).symm
      have htp2id : tp2.id_ = u := by
        rw [htp2e]
        exact hfid
      rw [htp2id] at hc2 hd2
      by_cases huv : u = v
      · subst huv
        rw [hc1u] at hfp2
        have hfp2e : fp2 = fp.add_road E u tp.plane_ := (Option.some.inj hfp2).symm
        have hplace : c2a.place u = some (fp2.add_road E u tp2.plane_) := by
          rw [hc2]
          simp [city.place, umap_find_set_same]
        have hfpt : tp = fp := by
          rw [hfp] at htp
          exact (Option.some.inj htp).symm
        have hd12 : d1 = d2 := by
          rw [hd1, hd2, road_length_to_add_road, road_length_to_add_road, hfp2e, htp2e, hfpt]
          rfl
        refine ⟨?_, ?_, ?_⟩
        · simp [city.has_road, hplace, has_road_to_add_road]
        · simp [city.has_road, hplace, has_road_to_add_road]
        · simp only [city.road_length, hplace]
          rw [← hd2, ← hw, hd12]
      · have hvu : v ≠ u := fun e => huv e.symm
        have hplace_v : c2a.place v = some (fp2.add_road E u tp2.plane_) := by
          rw [hc2]
          simp [city.place, umap_find_set_same]
        have hplace_u : c2a.place u = some (fp.add_road E v tp.plane_) := by
          rw [hc2]
          simp only [city.place]
          rw [umap_find_set_other _ _ _ _ huv]
          exact hc1u
        refine ⟨?_, ?_, ?_⟩
        · simp [city.has_road, hplace_u, has_road_to_add_road]
        · simp [city.has_road, hplace_v, has_road_to_add_road]
        · simp only [city.road_length, hplace_u, hplace_v]
          rw [← hd1, ← hd2, hw]

theorem plat_place_set_same (P : plat) (t : Nat) (c : city) (k : Nat) (h : town_of k = t) :
    (plat.mk (umap_set P.towns_ t c)).place k = c.place k := by
  simp [plat.place, h, umap_find_set_same]

theorem plat_place_set_other (P : plat) (t : Nat) (c : city) (k : Nat) (h : town_of k ≠ t) :
    (plat.mk (umap_set P.towns_ t c)).place k = P.place k := by
  simp [plat.place, umap_find_set_other _ _ _ _ h]

theorem plat_add_road_cross_ok (E : env) (P : plat) (u v : Nat) (w : ℚ) (P1 : plat)
    (hne : town_of u ≠ town_of v) (h : P.add_road E u v = (.ok w, P1)) :
    ∃ ct fp tp, P.town (town_of u) = some ct ∧ ct.place u = some fp ∧ P.place v = some tp ∧
      P1 = ⟨umap_set P.towns_ (town_of u)
        { ct with places_ := umap_set ct.places_ u (fp.add_road E v tp.plane_) }⟩ ∧
      w = (fp.add_road E v tp.plane_).road_length_to v := by
  unfold plat.add_road at h
  cases ht : P.town (town_of u) with
  | none => simp [ht] at h
  | some ct =>
    simp only [ht, hne, if_false] at h
    cases hv : P.place v with
    | none => simp [hv] at h
    | some tp =>
      simp only [hv, Prod.mk.injEq] at h
      obtain ⟨hr, hP⟩ := h
      rcases hci : ct.add_intercity_road E u v tp.plane_ with ⟨r, c1⟩
      rw [hci] at hr hP
      simp only at hr hP
      subst hr
      obtain ⟨fp, hfp, hc1, hw⟩ := city_add_intercity_road_ok E ct u v tp.plane_ w c1 hci
      exact ⟨ct, fp, tp, rfl, hfp, rfl, by rw [← hP, hc1], hw⟩

/-- C9: in a well-formed network, after plat::add_bidirectional_road(u, v) has returned a
weight w (same zone or different zones), has_road(u, v) and has_road(v, u) are both true
and w = max(road_length(u, v), road_length(v, u)). -/
theorem add_bidirectional_road_both (E : env) (P : plat) (hP : P.wf) (u v : Nat) (w : ℚ)
    (P2 : plat) (h : P.add_bidirectional_road E u v = (.ok w, P2)) :
    P2.has_road u v = true ∧ P2.has_road v u = true ∧
      w = max (P2.road_length u v) (P2.road_length v u) := by
  unfold plat.add_bidirectional_road at h
  by_cases hz : town_of u = town_of v
  · simp only [hz, if_true] at h
    cases ht : P.town (town_of v) with
    | none => simp [ht] at h
    | some ct =>
      simp only [ht, Prod.mk.injEq] at h
      obtain ⟨hr, hP2⟩ := h
      rcases hcb : ct.add_bidirectional_road E u v with ⟨r, c2⟩
      rw [hcb] at hr hP2
      simp only at hr hP2
      subst hr
      have hmem : (town_of v, ct) ∈ P.towns_ := umap_find_mem _ _ _ ht
      have hid : ∀ e ∈ ct.places_, e.2.id_ = e.1 := fun e he => ((hP.2 _ hmem).2.2.2 e he).1
      obtain ⟨h1, h2, h3⟩ := city_add_bidirectional_road_ok E ct hid u v w c2 hcb
      have hpu : P2.place u = c2.place u := by
        rw [← hP2]
        exact plat_place_set_same P (town_of v) c2 u hz
      have hpv : P2.place v = c2.place v := by
        rw [← hP2]
        exact plat_place_set_same P (town_of v) c2 v rfl
      simp only [plat.has_road, plat.road_length, hpu, hpv]
      exact ⟨h1, h2, h3⟩
  · simp only [hz, if_false] at h
    rcases h1 : P.add_road E u v with ⟨r1, P1⟩
    rw [h1] at h
    cases r1 with
    | error e => simp at h
    | ok d1 =>
      simp only at h
      rcases h2 : P1.add_road E v u with ⟨r2, P2a⟩
      rw [h2] at h
      cases r2 with
      | error e => simp at h
      | ok d2 =>
        simp only [Prod.mk.injEq, Except.ok.injEq] at h
        obtain ⟨hw, hPe⟩ := h
        subst hPe
        have hz2 : town_of v ≠ town_of u := fun e => hz e.symm
        obtain ⟨ct, fp, tp, hct, hfp, htp, hP1, hd1⟩ := plat_add_road_cross_ok E P u v d1 P1 hz h1
        obtain ⟨ct2, fp2, tp2, hct2, hfp2, htp2, hP2, hd2⟩ :=
          plat_add_road_cross_ok E P1 v u d2 P2a hz2 h2
        have hP1u : P1.place u = some (fp.add_road E v tp.plane_) := by
          rw [hP1, plat_place_set_same P (town_of u) _ u rfl]
          simp [city.place, umap_find_set_same]
        have hpu : P2a.place u = some (fp.add_road E v tp.plane_) := by
          rw [hP2, plat_place_set_other P1 (town_of v) _ u hz]
          exact hP1u
        have hpv : P2a.place v = some (fp2.add_road E u tp2.plane_) := by
          rw [hP2, plat_place_set_same P1 (town_of v) _ v rfl]
          simp [city.place, umap_find_set_same]
        simp only [plat.has_road, plat.road_length, hpu, hpv, has_road_to_add_road]
        refine ⟨trivial, trivial, ?_⟩
        rw [← hd1, ← hd2, hw]

theorem capital_net_wf : capital_net.wf := by decide

theorem add_bidirectional_road_both_witness :
    ((capital_net.add_bidirectional_road sample_env capital_id1 capital_id2).2.has_road
        capital_id1 capital_id2 = true) ∧
    ((capital_net.add_bidirectional_road sample_env capital_id1 capital_id2).2.has_road
        capital_id2 capital_id1 = true) :=
  have h := add_bidirectional_road_both sample_env capital_net
    capital_net_wf capital_id1 capital_id2 _ _ rfl
  ⟨h.1, h.2.1⟩

/-! ## Well-formedness is kept by the operations -/

theorem umap_keys_set_of_present {β : Type} (m : List (Nat × β)) (k : Nat) (v : β)
    (h : (umap_find m k).isSome = true) : umap_keys (umap_set m k v) = umap_keys m := by
  induction m with
  | nil => simp [umap_find] at h
  | cons e m ih =>
    obtain ⟨k1, v1⟩ := e
    by_cases h1 : k1 = k
    · simp [umap_set, umap_keys, h1]
    · have h2 : (umap_find m k).isSome = true := by simpa [umap_find, h1] using h
      have := ih h2
      simp only [umap_keys] at this
      simp [umap_set, umap_keys, h1, this]

theorem umap_keys_set_of_absent {β : Type} (m : List (Nat × β)) (k : Nat) (v : β)
    (h : umap_find m k = none) : umap_keys (umap_set m k v) = umap_keys m ++ [k] := by
  induction m with
  | nil => simp [umap_set, umap_keys]
  | cons e m ih =>
    obtain ⟨k1, v1⟩ := e
    by_cases h1 : k1 = k
    · simp [umap_find, h1] at h
    · have h2 : umap_find m k = none := by simpa [umap_find, h1] using h
      have := ih h2
      simp only [umap_keys] at this
      simp [umap_set, umap_keys, h1, this]

theorem umap_find_none_not_mem {β : Type} (m : List (Nat × β)) (k : Nat)
    (h : umap_find m k = none) : k ∉ umap_keys m := by
  intro hk
  simp only [umap_keys, List.mem_map] at hk
  obtain ⟨⟨k1, v1⟩, he, hk1⟩ := hk
  simp only at hk1
  subst hk1
  have := umap_find_of_mem m k1 v1 he
  rw [h] at this
  exact Bool.noConfusion this

theorem umap_keys_set_nodup {β : Type} (m : List (Nat × β)) (k : Nat) (v : β)
    (h : (umap_keys m).Nodup) : (umap_keys (umap_set m k v)).Nodup := by
  cases hf : umap_find m k with
  | none =>
    rw [umap_keys_set_of_absent m k v hf]
    have hk := umap_find_none_not_mem m k hf
    rw [List.nodup_append]
    refine ⟨h, List.nodup_singleton k, ?_⟩
    intro a ha hb
    rw [List.mem_singleton] at hb
    exact hk (hb ▸ ha)
  | some v1 =>
    rw [umap_keys_set_of_present m k v (by simp [hf])]
    exact h

theorem umap_mem_set {β : Type} (m : List (Nat × β)) (k : Nat) (v : β) (e : Nat × β)
    (h : e ∈ umap_set m k v) : e = (k, v) ∨ e ∈ m := by
  induction m with
  | nil =>
    simp only [umap_set, List.mem_singleton] at h
    exact Or.inl h
  | cons e1 m ih =>
    obtain ⟨k1, v1⟩ := e1
    by_cases h1 : k1 = k
    · simp only [umap_set, h1, if_true, List.mem_cons] at h
      rcases h with h | h
      · exact Or.inl h
      · exact Or.inr (List.mem_cons_of_mem _ h)
    · simp only [umap_set, h1, if_false, List.mem_cons] at h
      rcases h with h | h
      · exact Or.inr (h ▸ List.mem_cons_self _ _)
      · rcases ih h with h2 | h2
        · exact Or.inl h2
        · exact Or.inr (List.mem_cons_of_mem _ h2)

theorem umap_keys_erase_nodup {β : Type} (m : List (Nat × β)) (k : Nat)
    (h : (umap_keys m).Nodup) : (umap_keys (umap_erase m k)).Nodup := by
  unfold umap_keys umap_erase
  exact (List.filter_sublist m).map Prod.fst |>.nodup h

/-- Storing a location under its own nonzero id keeps a city well formed. -/
theorem city_wf_set (c : city) (hc : c.wf) (k : Nat) (l : location) (hl : l.id_ = k)
    (hk : k ≠ 0) : city.wf { c with places_ := umap_set c.places_ k l } := by
  refine ⟨hc.1, umap_keys_set_nodup _ _ _ hc.2.1, ?_⟩
  intro e he
  rcases umap_mem_set _ _ _ _ he with h | h
  · rw [h]
    exact ⟨hl, hk⟩
  · exact hc.2.2 e h

theorem city_init_wf (id : Nat) (name : String) (c : city) (h : city.init id name = .ok c) :
    c.wf ∧ c.id_ = id := by
  unfold city.init at h
  by_cases h0 : id = 0
  · simp [h0] at h
  · simp only [h0, if_false, Except.ok.injEq] at h
    subst h
    exact ⟨⟨h0, List.nodup_nil, fun e he => absurd he (List.not_mem_nil e)⟩, rfl⟩

/-- Method city::add_place keeps the city well formed, whether it succeeds or throws. -/
theorem city_add_place_wf (E : env) (c : city) (hc : c.wf) (id : Nat) (name : String)
    (globe : point2d) : (c.add_place E id name globe).2.wf := by
  unfold city.add_place
  by_cases hp : c.has_place id = true
  · simp only [hp, if_true]
    exact hc
  · simp only [hp, Bool.false_eq_true, if_false]
    unfold location.init
    by_cases h0 : id = 0
    · simp only [h0, if_true]
      exact hc
    · simp only [h0, if_false]
      exact city_wf_set c hc id _ rfl h0

/-- Method city::add_local_place keeps the city well formed. -/
theorem city_add_local_place_wf (E : env) (c : city) (hc : c.wf) (serial : Nat) (name : String)
    (globe : point2d) : (c.add_local_place E serial name globe).2.wf :=
  city_add_place_wf E c hc (city.place_id c.id_ serial) name globe

/-- Method city::remove_place keeps the city well formed. -/
theorem city_remove_place_wf (c : city) (hc : c.wf) (id : Nat) : (c.remove_place id).2.wf := by
  unfold city.remove_place
  by_cases hp : c.has_place id = true
  · simp only [hp, Bool.not_true, Bool.false_eq_true, if_false]
    refine ⟨hc.1, ?_, ?_⟩
    · apply umap_keys_erase_nodup
      have : umap_keys (c.places_.map (fun e => (e.1, (e.2.remove_road id).2))) = umap_keys c.places_ := by
        simp [umap_keys, List.map_map, Function.comp_def]
      rw [this]
      exact hc.2.1
    · intro e he
      simp only [umap_erase, List.mem_filter, List.mem_map] at he
      obtain ⟨⟨e0, he0, hee⟩, _⟩ := he
      rw [← hee]
      exact hc.2.2 e0 he0
  · simp only [hp, Bool.not_false, if_true]
    exact hc

/-- Method city::add_road keeps the city well formed. -/
theorem city_add_road_wf (E : env) (c : city) (hc : c.wf) (u v : Nat) :
    (c.add_road E u v).2.wf := by
  unfold city.add_road
  cases hu : c.place u with
  | none => exact hc
  | some fp =>
    cases hv : c.place v with
    | none => exact hc
    | some tp =>
      have hm := umap_find_mem _ _ _ hu
      exact city_wf_set c hc u _ (hc.2.2 _ hm).1 (hc.2.2 _ hm).2

/-- Method city::add_intercity_road keeps the city well formed. -/
theorem city_add_intercity_road_wf (E : env) (c : city) (hc : c.wf) (u v : Nat) (p : point2d) :
    (c.add_intercity_road E u v p).2.wf := by
  unfold city.add_intercity_road
  cases hu : c.place u with
  | none => exact hc
  | some fp =>
    have hm := umap_find_mem _ _ _ hu
    exact city_wf_set c hc u _ (hc.2.2 _ hm).1 (hc.2.2 _ hm).2

/-- Method city::add_bidirectional_road keeps the city well formed. -/
theorem city_add_bidirectional_road_wf (E : env) (c : city) (hc : c.wf) (u v : Nat) :
    (c.add_bidirectional_road E u v).2.wf := by
  unfold city.add_bidirectional_road
  have h1 := city_add_road_wf E c hc u v
  rcases hr : c.add_road E u v with ⟨r1, c1⟩
  rw [hr] at h1
  cases r1 with
  | error e => exact h1
  | ok d1 =>
    have h2 := city_add_road_wf E c1 h1 v u
    simp only
    rcases hr2 : c1.add_road E v u with ⟨r2, c2⟩
    rw [hr2] at h2
    cases r2 with
    | error e => exact h2
    | ok d2 => exact h2

theorem city_add_road_id (E : env) (c : city) (u v : Nat) : (c.add_road E u v).2.id_ = c.id_ := by
  unfold city.add_road
  cases c.place u <;> cases c.place v <;> rfl

theorem city_add_intercity_road_id (E : env) (c : city) (u v : Nat) (p : point2d) :
    (c.add_intercity_road E u v p).2.id_ = c.id_ := by
  unfold city.add_intercity_road
  cases c.place u <;> rfl

theorem city_add_bidirectional_road_id (E : env) (c : city) (u v : Nat) :
    (c.add_bidirectional_road E u v).2.id_ = c.id_ := by
  unfold city.add_bidirectional_road
  have h1 := city_add_road_id E c u v
  rcases hr : c.add_road E u v with ⟨r1, c1⟩
  rw [hr] at h1
  cases r1 with
  | error e => exact h1
  | ok d1 =>
    have h2 := city_add_road_id E c1 v u
    simp only
    rcases hr2 : c1.add_road E v u with ⟨r2, c2⟩
    rw [hr2] at h2
    cases r2 with
    | error e => exact h2.trans h1
    | ok d2 => exact h2.trans h1

/-- Writing a well-formed city back under its own id keeps the network well formed. -/
theorem plat_wf_set (P : plat) (hP : P.wf) (k : Nat) (c : city) (hc : c.wf) (hk : c.id_ = k) :
    plat.wf ⟨umap_set P.towns_ k c⟩ := by
  refine ⟨umap_keys_set_nodup _ _ _ hP.1, ?_⟩
  intro t ht
  rcases umap_mem_set _ _ _ _ ht with h | h
  · rw [h]
    exact ⟨hk, hc⟩
  · exact hP.2 t h

theorem plat_empty_wf : plat.empty.wf :=
  ⟨List.nodup_nil, fun t ht => absurd ht (List.not_mem_nil t)⟩

/-- Method plat::add_town keeps the network well formed. -/
theorem plat_add_town_wf (P : plat) (hP : P.wf) (id : Nat) (name : String) :
    (P.add_town id name).2.wf := by
  unfold plat.add_town
  by_cases ht : P.has_town id = true
  · simp only [ht, if_true]
    exact hP
  · simp only [ht, Bool.false_eq_true, if_false]
    cases hi : city.init id name with
    | error e => exact hP
    | ok c =>
      obtain ⟨h1, h2⟩ := city_init_wf id name c hi
      exact plat_wf_set P hP id c h1 h2

/-- Method plat::remove_town keeps the network well formed. -/
theorem plat_remove_town_wf (P : plat) (hP : P.wf) (id : Nat) : (P.remove_town id).2.wf := by
  refine ⟨umap_keys_erase_nodup _ _ hP.1, ?_⟩
  intro t ht
  simp only [plat.remove_town, umap_erase, List.mem_filter] at ht
  exact hP.2 t ht.1

/-- Method plat::add_road keeps the network well formed. -/
theorem plat_add_road_wf (E : env) (P : plat) (hP : P.wf) (u v : Nat) :
    (P.add_road E u v).2.wf := by
  unfold plat.add_road
  cases ht : P.town (town_of u) with
  | none =>
    simp only [ht]
    exact hP
  | some ct =>
    have hm := umap_find_mem _ _ _ ht
    have hct := hP.2 _ hm
    simp only [ht]
    by_cases hz : town_of u = town_of v
    · rw [if_pos hz]
      exact plat_wf_set P hP _ _ (city_add_road_wf E ct hct.2 u v)
        ((city_add_road_id E ct u v).trans hct.1)
    · rw [if_neg hz]
      cases hv : P.place v with
      | none => exact hP
      | some tp =>
        exact plat_wf_set P hP _ _ (city_add_intercity_road_wf E ct hct.2 u v tp.plane_)
          ((city_add_intercity_road_id E ct u v tp.plane_).trans hct.1)

/-- Method plat::add_bidirectional_road keeps the network well formed. -/
theorem plat_add_bidirectional_road_wf (E : env) (P : plat) (hP : P.wf) (u v : Nat) :
    (P.add_bidirectional_road E u v).2.wf := by
  unfold plat.add_bidirectional_road
  by_cases hz : town_of u = town_of v
  · simp only [hz, if_true]
    cases ht : P.town (town_of v) with
    | none => exact hP
    | some ct =>
      have hm := umap_find_mem _ _ _ ht
      have hct := hP.2 _ hm
      exact plat_wf_set P hP _ _ (city_add_bidirectional_road_wf E ct hct.2 u v)
        ((city_add_bidirectional_road_id E ct u v).trans hct.1)
  · simp only [hz, if_false]
    have h1 := plat_add_road_wf E P hP u v
    rcases hr : P.add_road E u v with ⟨r1, P1⟩
    rw [hr] at h1
    cases r1 with
    | error e => exact h1
    | ok d1 =>
      have h2 := plat_add_road_wf E P1 h1 v u
      simp only
      rcases hr2 : P1.add_road E v u with ⟨r2, P2⟩
      rw [hr2] at h2
      cases r2 with
      | error e => exact h2
      | ok d2 => exact h2

/-! ## Adding roads between resolvable places succeeds -/

theorem plat_place_some (P : plat) (k : Nat) (h : P.place k ≠ none) :
    ∃ ct l, P.town (town_of k) = some ct ∧ ct.place k = some l ∧ P.place k = some l := by
  cases ht : umap_find P.towns_ (town_of k) with
  | none => simp [plat.place, ht] at h
  | some ct =>
    have h2 : ct.place k ≠ none := by simpa [plat.place, ht] using h
    obtain ⟨l, hl⟩ := Option.ne_none_iff_exists'.mp h2
    exact ⟨ct, l, ht, hl, by simp [plat.place, ht, hl]⟩

theorem plat_add_road_cross_succeeds (E : env) (P : plat) (u v : Nat) (cu : city)
    (lu lv : location) (hz : town_of u ≠ town_of v) (hcu : P.town (town_of u) = some cu)
    (hlu : cu.place u = some lu) (hpv : P.place v = some lv) :
    P.add_road E u v = (.ok ((lu.add_road E v lv.plane_).road_length_to v),
      ⟨umap_set P.towns_ (town_of u)
        ⟨cu.id_, cu.name_, umap_set cu.places_ u (lu.add_road E v lv.plane_)⟩⟩) := by
  simp [plat.add_road, hcu, hz, hpv, city.add_intercity_road, hlu]

theorem city_add_road_succeeds (E : env) (c : city) (u v : Nat) (fp tp : location)
    (hu : c.place u = some fp) (hv : c.place v = some tp) :
    c.add_road E u v = (.ok ((fp.add_road E tp.id_ tp.plane_).road_length_to v),
      { c with places_ := umap_set c.places_ u (fp.add_road E tp.id_ tp.plane_) }) := by
  simp [city.add_road, hu, hv]

theorem city_place_after_set (c : city) (u k : Nat) (l : location)
    (hk : c.place k ≠ none) :
    city.place { c with places_ := umap_set c.places_ u l } k ≠ none := by
  unfold city.place at hk ⊢
  by_cases h : k = u
  · rw [h, umap_find_set_same]
    exact Option.noConfusion
  · rw [umap_find_set_other _ _ _ _ h]
    exact hk

/-- In the same zone or across zones, plat::add_bidirectional_road between two ids that
resolve returns a weight. -/
theorem plat_add_bidirectional_road_succeeds (E : env) (P : plat) (u v : Nat)
    (hu : P.place u ≠ none) (hv : P.place v ≠ none) :
    ∃ w P2, P.add_bidirectional_road E u v = (.ok w, P2) := by
  obtain ⟨cu, lu, hcu, hlu, hpu⟩ := plat_place_some P u hu
  obtain ⟨cv, lv, hcv, hlv, hpv⟩ := plat_place_some P v hv
  unfold plat.add_bidirectional_road
  by_cases hz : town_of u = town_of v
  · simp only [hz, if_true, hcv]
    rw [hz, hcv] at hcu
    have hcc : cv = cu := Option.some.inj hcu
    subst hcc
    unfold city.add_bidirectional_road
    rw [city_add_road_succeeds E cv u v lu lv hlu hlv]
    simp only
    have h1 := city_place_after_set cv u v (lu.add_road E lv.id_ lv.plane_)
      (by rw [hlv]; exact Option.noConfusion)
    have h2 := city_place_after_set cv u u (lu.add_road E lv.id_ lv.plane_)
      (by rw [hlu]; exact Option.noConfusion)
    obtain ⟨a, ha⟩ := Option.ne_none_iff_exists'.mp h1
    obtain ⟨b, hb⟩ := Option.ne_none_iff_exists'.mp h2
    rw [city_add_road_succeeds E _ v u a b ha hb]
    exact ⟨_, _, rfl⟩
  · simp only [hz, if_false]
    rw [plat_add_road_cross_succeeds E P u v cu lu lv hz hcu hlu hpv]
    simp only
    have hz2 : town_of v ≠ town_of u := fun e => hz e.symm
    have ht2 : plat.town ⟨umap_set P.towns_ (town_of u)
        ⟨cu.id_, cu.name_, umap_set cu.places_ u (lu.add_road E v lv.plane_)⟩⟩ (town_of v)
        = some cv := by
      unfold plat.town
      simp only
      rw [umap_find_set_other _ _ _ _ hz2]
      exact hcv
    have hp2 : plat.place ⟨umap_set P.towns_ (town_of u)
        ⟨cu.id_, cu.name_, umap_set cu.places_ u (lu.add_road E v lv.plane_)⟩⟩ u
        = some (lu.add_road E v lv.plane_) := by
      rw [plat_place_set_same P (town_of u) _ u rfl]
      simp [city.place, umap_find_set_same]
    rw [plat_add_road_cross_succeeds E _ v u cv lv _ hz2 ht2 hlv hp2]
    exact ⟨_, _, rfl⟩

/-! ## A* search: the queue and the scan -/

theorem pq_min_none (l : List astar_node) (h : pq_min l = none) : l = [] := by
  cases l with
  | nil => rfl
  | cons a l =>
    unfold pq_min at h
    cases hm : pq_min l with
    | none => simp [hm] at h
    | some b =>
      simp only [hm] at h
      split at h <;> simp at h

theorem pq_min_mem (l : List astar_node) (a : astar_node) (h : pq_min l = some a) : a ∈ l := by
  induction l generalizing a with
  | nil => simp [pq_min] at h
  | cons x l ih =>
    unfold pq_min at h
    cases hm : pq_min l with
    | none =>
      simp only [hm, Option.some.injEq] at h
      simp [h]
    | some b =>
      simp only [hm] at h
      split at h
      · simp only [Option.some.injEq] at h
        subst h
        exact List.mem_cons_of_mem _ (ih b hm)
      · simp only [Option.some.injEq] at h
        simp [h]

theorem pq_top_none (E : env) (hE : E.lawful) (l : List astar_node) (h : pq_top E l = none) :
    l = [] := by
  have h1 := pq_min_none _ h
  have h2 := hE.2.2 l
  rw [h1] at h2
  exact List.nil_perm.mp h2

theorem pq_top_mem (E : env) (hE : E.lawful) (l : List astar_node) (a : astar_node)
    (h : pq_top E l = some a) : a ∈ l :=
  (hE.2.2 l).subset (pq_min_mem _ a h)

theorem pq_top_single (E : env) (hE : E.lawful) (a : astar_node) : pq_top E [a] = some a := by
  have h := List.perm_singleton.mp (hE.2.2 [a])
  simp [pq_top, h, pq_min]

theorem astar_node_eq_iff (a b : astar_node) : a.eq b = true ↔ a = b := by
  cases a
  cases b
  simp [astar_node.eq, and_assoc]

theorem scan_id_spec (E : env) (hE : E.lawful) (m : List (Nat × astar_node)) (n : astar_node) :
    (scan_id E m n = 0 ∧ ∀ e ∈ m, e.2 ≠ n) ∨ (scan_id E m n, n) ∈ m := by
  unfold scan_id
  cases hf : (E.nodes_order m).find? (fun e => e.2.eq n) with
  | none =>
    left
    refine ⟨rfl, ?_⟩
    intro e he hen
    have := List.find?_eq_none.mp hf e ((hE.1 m).symm.subset he)
    simp [astar_node_eq_iff, hen] at this
  | some e =>
    right
    have h1 := List.find?_some hf
    have h2 := List.mem_of_find?_eq_some hf
    rw [astar_node_eq_iff] at h1
    simp only
    rw [← h1]
    exact (hE.1 m).subset h2

theorem scan_id_single (E : env) (hE : E.lawful) (k : Nat) (n : astar_node) :
    scan_id E [(k, n)] n = k := by
  have h := List.perm_singleton.mp (hE.1 [(k, n)])
  have hn : n.eq n = true := (astar_node_eq_iff n n).mpr rfl
  simp [scan_id, h, hn]

/-! ## A* search: the first round -/

/-- The first round of the loop pops the start entry and attributes it to the start. -/
theorem astar_search_first (E : env) (hE : E.lawful) (P : plat) (start goal : location)
    (h0 : start.id_ ≠ 0) (hs : P.place start.id_ = some start) :
    P.astar_search E start goal =
      if start.id_ = goal.id_ then some [start.id_]
      else astar_loop E P goal (P.road_count + 1)
        ((E.roads_order start.roads_).foldl (astar_relax E P goal start.id_)
          ⟨[], [(start.id_, ⟨0, astar_node.heuristic E start.plane_ goal.plane_, 0⟩)],
            [start.id_]⟩) := by
  unfold plat.astar_search
  simp only [astar_loop, pq_top_single E hE, scan_id_single E hE]
  by_cases hg : start.id_ = goal.id_
  · simp only [hg, if_true]
    have hg0 : goal.id_ ≠ 0 := hg ▸ h0
    simp [plat.reconstruct_path, reconstruct_loop, hg0, umap_find]
  · simp [hg, hs]

theorem plat_wf_place_zero (P : plat) (hP : P.wf) : P.place 0 = none := by
  unfold plat.place
  cases ht : umap_find P.towns_ (town_of 0) with
  | none => rfl
  | some t =>
    simp only [city.place]
    cases hl : umap_find t.places_ 0 with
    | none => rfl
    | some l =>
      have hmem := umap_find_mem _ _ _ ht
      have hmem2 := umap_find_mem _ _ _ hl
      exact absurd rfl ((hP.2 _ hmem).2.2.2 _ hmem2).2

theorem plat_wf_place_id (P : plat) (hP : P.wf) (k : Nat) (l : location)
    (h : P.place k = some l) : l.id_ = k := by
  unfold plat.place at h
  cases ht : umap_find P.towns_ (town_of k) with
  | none => simp [ht] at h
  | some t =>
    simp only [ht, city.place] at h
    have hmem := umap_find_mem _ _ _ ht
    have hmem2 := umap_find_mem _ _ _ h
    exact ((hP.2 _ hmem).2.2.2 _ hmem2).1

theorem plat_wf_place_ne_zero (P : plat) (hP : P.wf) (k : Nat) (l : location)
    (h : P.place k = some l) : k ≠ 0 := by
  intro hk
  rw [hk, plat_wf_place_zero P hP] at h
  exact Option.noConfusion h

theorem sample_env_lawful : sample_env.lawful :=
  ⟨fun l => List.Perm.refl l, fun l => List.Perm.refl l, fun l => List.Perm.refl l⟩

/-! ## A* search: invariant of the bookkeeping -/

theorem umap_find_set_isSome {β : Type} (m : List (Nat × β)) (k k2 : Nat) (v : β)
    (h : (umap_find m k2).isSome = true) : (umap_find (umap_set m k v) k2).isSome = true := by
  by_cases hk : k2 = k
  · rw [hk, umap_find_set_same]
    rfl
  · rw [umap_find_set_other _ _ _ _ hk]
    exact h

theorem plat_road_of_mem (P : plat) (c nb : Nat) (d : ℚ) (cp : location)
    (hp : P.place c = some cp) (hm : (nb, d) ∈ cp.roads_) : P.road c nb := by
  unfold plat.road plat.has_road
  simp only [hp, location.has_road_to]
  exact umap_find_of_mem _ _ _ hm

theorem umap_index_present (m : List (Nat × astar_node)) (k : Nat)
    (h : (umap_find m k).isSome = true) : (umap_index m k).2 = m := by
  unfold umap_index
  cases hf : umap_find m k with
  | none => simp [hf] at h
  | some v => rfl

/-- One road of the expanded place: the invariant, the closed set and the key of the
expanded place are kept, and at most one entry is pushed. -/
theorem astar_relax_inv (E : env) (P : plat) (goal : location) (s0 c : Nat) (s : astar_state)
    (road : Nat × ℚ) (cp : location) (hinv : astar_inv P s0 s) (hc0 : c ≠ 0)
    (hkey : (umap_find s.all_nodes c).isSome = true) (hp : P.place c = some cp)
    (hm : road ∈ cp.roads_) :
    astar_inv P s0 (astar_relax E P goal c s road) ∧
    (astar_relax E P goal c s road).closed_set = s.closed_set ∧
    (umap_find (astar_relax E P goal c s road).all_nodes c).isSome = true ∧
    (astar_relax E P goal c s road).open_list.length ≤ s.open_list.length + 1 := by
  obtain ⟨nb, d⟩ := road
  have hsame : astar_relax E P goal c s (nb, d) = s →
      astar_inv P s0 (astar_relax E P goal c s (nb, d)) ∧
      (astar_relax E P goal c s (nb, d)).closed_set = s.closed_set ∧
      (umap_find (astar_relax E P goal c s (nb, d)).all_nodes c).isSome = true ∧
      (astar_relax E P goal c s (nb, d)).open_list.length ≤ s.open_list.length + 1 := by
    intro e
    rw [e]
    exact ⟨hinv, rfl, hkey, Nat.le_succ _⟩
  by_cases hcl : nb ∈ s.closed_set
  · exact hsame (by simp [astar_relax, hcl])
  · cases hnp : P.place nb with
    | none => exact hsame (by simp [astar_relax, hcl, hnp])
    | some np =>
      obtain ⟨nc, hnc⟩ := Option.isSome_iff_exists.mp hkey
      have hidx : umap_index s.all_nodes c = (nc, s.all_nodes) := by
        simp [umap_index, hnc]
      by_cases hbetter : astar_improves s.all_nodes nb (nc.g + d) = true
      · -- the record of nb is written
        have hres : astar_relax E P goal c s (nb, d) =
            ⟨s.open_list ++ [⟨nc.g + d, nc.g + d + astar_node.heuristic E np.plane_ goal.plane_, c⟩],
              umap_set s.all_nodes nb
                ⟨nc.g + d, nc.g + d + astar_node.heuristic E np.plane_ goal.plane_, c⟩,
              s.closed_set⟩ := by
          simp [astar_relax, hcl, hnp, hidx, hbetter]
        rw [hres]
        obtain ⟨ha, hb, hcd, hd⟩ := hinv
        have hnb_s0 : nb ≠ s0 := by
          intro e
          apply hcl
          rw [e]
          exact ha
        have hroad : P.road c nb := plat_road_of_mem P c nb d cp hp hm
        have hreach_c : P.reachable s0 c := hd c nc hnc
        refine ⟨⟨ha, ?_, ?_, ?_⟩, rfl, ?_, ?_⟩
        · obtain ⟨n, hn, hn0⟩ := hb
          refine ⟨n, ?_, hn0⟩
          simp only
          rw [umap_find_set_other _ _ _ _ (Ne.symm hnb_s0)]
          exact hn
        · intro k n hk hks
          simp only at hk
          by_cases hknb : k = nb
          · subst hknb
            rw [umap_find_set_same] at hk
            have hn := (Option.some.inj hk).symm
            subst hn
            exact ⟨hc0, hroad, umap_find_set_isSome _ _ _ _ hkey⟩
          · rw [umap_find_set_other _ _ _ _ hknb] at hk
            obtain ⟨h1, h2, h3⟩ := hcd k n hk hks
            exact ⟨h1, h2, umap_find_set_isSome _ _ _ _ h3⟩
        · intro k n hk
          simp only at hk
          by_cases hknb : k = nb
          · subst hknb
            exact Relation.ReflTransGen.tail hreach_c hroad
          · rw [umap_find_set_other _ _ _ _ hknb] at hk
            exact hd k n hk
        · exact umap_find_set_isSome _ _ _ _ hkey
        · simp
      · exact hsame (by simp [astar_relax, hcl, hnp, hidx, hbetter])

/-- All roads of the expanded place. -/
theorem astar_relax_fold_inv (E : env) (P : plat) (goal : location) (s0 c : Nat)
    (cp : location) (hc0 : c ≠ 0) (hp : P.place c = some cp) (roads : List (Nat × ℚ))
    (hsub : ∀ r ∈ roads, r ∈ cp.roads_) (s : astar_state) (hinv : astar_inv P s0 s)
    (hkey : (umap_find s.all_nodes c).isSome = true) :
    astar_inv P s0 (roads.foldl (astar_relax E P goal c) s) ∧
    (roads.foldl (astar_relax E P goal c) s).closed_set = s.closed_set ∧
    (roads.foldl (astar_relax E P goal c) s).open_list.length
      ≤ s.open_list.length + roads.length := by
  induction roads generalizing s with
  | nil => exact ⟨hinv, rfl, Nat.le_refl _⟩
  | cons r roads ih =>
    obtain ⟨h1, h2, h3, h4⟩ :=
      astar_relax_inv E P goal s0 c s r cp hinv hc0 hkey hp (hsub r (List.mem_cons_self _ _))
    obtain ⟨i1, i2, i3⟩ :=
      ih (fun r1 hr1 => hsub r1 (List.mem_cons_of_mem _ hr1)) (astar_relax E P goal c s r) h1 h3
    refine ⟨i1, i2.trans h2, ?_⟩
    simp only [List.foldl_cons, List.length_cons]
    omega

/-! ## A* search: the returned path -/

/-- The parent walk of reconstruct_path, under the invariant: what it appends is a walk
from the current id back to the start along roads taken backwards. -/
theorem reconstruct_loop_spec (P : plat) (s0 : Nat) (nodes : List (Nat × astar_node))
    (hb : ∃ n, umap_find nodes s0 = some n ∧ n.parent = 0)
    (hc : ∀ k n, umap_find nodes k = some n → k ≠ s0 →
      n.parent ≠ 0 ∧ P.road n.parent k ∧ (umap_find nodes n.parent).isSome = true) :
    ∀ (fuel cur : Nat) (path r : List Nat), (umap_find nodes cur).isSome = true → cur ≠ 0 →
      reconstruct_loop nodes fuel cur path = some r →
      ∃ chain, r = path ++ chain ∧ chain.head? = some cur ∧ chain.getLast? = some s0 ∧
        List.Chain' (fun a b => P.road b a) chain := by
  intro fuel
  induction fuel with
  | zero =>
    intro cur path r _ _ h
    simp [reconstruct_loop] at h
  | succ fuel ih =>
    intro cur path r hkey hcur h
    obtain ⟨n, hn⟩ := Option.isSome_iff_exists.mp hkey
    simp only [reconstruct_loop, hcur, if_false, hn] at h
    by_cases hs : cur = s0
    · obtain ⟨n0, hn0, hp0⟩ := hb
      rw [hs, hn0] at hn
      have hnn : n = n0 := (Option.some.inj hn).symm
      rw [hnn, hp0] at h
      cases fuel with
      | zero => simp [reconstruct_loop] at h
      | succ fuel =>
        simp only [reconstruct_loop, if_true, Option.some.injEq] at h
        exact ⟨[cur], h.symm, rfl, by simp [hs], List.chain'_singleton _⟩
    · obtain ⟨h1, h2, h3⟩ := hc cur n hn hs
      obtain ⟨chain, hr, hh, hl, hch⟩ := ih n.parent (path ++ [cur]) r h3 h1 h
      refine ⟨cur :: chain, ?_, rfl, ?_, ?_⟩
      · rw [hr]
        simp
      · cases chain with
        | nil => simp at hh
        | cons x xs =>
          rw [List.getLast?_cons_cons]
          exact hl
      · cases chain with
        | nil => simp at hh
        | cons x xs =>
          simp only [List.head?_cons, Option.some.injEq] at hh
          rw [List.chain'_cons]
          exact ⟨hh ▸ h2, hch⟩

theorem reconstruct_path_spec (P : plat) (s0 gid : Nat) (nodes : List (Nat × astar_node))
    (hb : ∃ n, umap_find nodes s0 = some n ∧ n.parent = 0)
    (hc : ∀ k n, umap_find nodes k = some n → k ≠ s0 →
      n.parent ≠ 0 ∧ P.road n.parent k ∧ (umap_find nodes n.parent).isSome = true)
    (hkey : (umap_find nodes gid).isSome = true) (hg : gid ≠ 0) (path : List Nat)
    (h : plat.reconstruct_path nodes gid = some path) :
    path.head? = some s0 ∧ path.getLast? = some gid ∧ P.is_route path := by
  unfold plat.reconstruct_path at h
  cases hr : reconstruct_loop nodes (nodes.length + 2) gid [] with
  | none => simp [hr] at h
  | some r =>
    simp only [hr, Option.map_some', Option.some.injEq] at h
    obtain ⟨chain, hrc, hh, hl, hch⟩ :=
      reconstruct_loop_spec P s0 nodes hb hc _ gid [] r hkey hg hr
    simp only [List.nil_append] at hrc
    subst hrc
    subst h
    refine ⟨?_, ?_, ?_⟩
    · rw [List.head?_reverse]
      exact hl
    · rw [List.getLast?_reverse]
      exact hh
    · unfold plat.is_route
      rw [List.chain'_reverse]
      exact hch

theorem astar_inv_closed (P : plat) (s0 c : Nat) (o1 o2 : List astar_node)
    (m : List (Nat × astar_node)) (cl : List Nat) (h : astar_inv P s0 ⟨o1, m, cl⟩) :
    astar_inv P s0 ⟨o2, m, c :: cl⟩ :=
  ⟨List.mem_cons_of_mem _ h.1, h.2.1, h.2.2.1, h.2.2.2⟩

theorem astar_inv_open (P : plat) (s0 : Nat) (o1 o2 : List astar_node)
    (m : List (Nat × astar_node)) (cl : List Nat) (h : astar_inv P s0 ⟨o1, m, cl⟩) :
    astar_inv P s0 ⟨o2, m, cl⟩ :=
  ⟨h.1, h.2.1, h.2.2.1, h.2.2.2⟩

/-- The key under which the scan files a popped entry is recorded, unless it is 0. -/
theorem scan_id_key (E : env) (hE : E.lawful) (m : List (Nat × astar_node)) (n : astar_node)
    (h : scan_id E m n ≠ 0) : (umap_find m (scan_id E m n)).isSome = true := by
  rcases scan_id_spec E hE m n with h1 | h1
  · exact absurd h1.1 h
  · exact umap_find_of_mem _ _ _ h1

/-- From the second round on, a non-empty result of the loop is a route from the start to
the goal. -/
theorem astar_loop_route (E : env) (hE : E.lawful) (P : plat) (hP : P.wf) (goal : location)
    (hg0 : goal.id_ ≠ 0) (s0 : Nat) :
    ∀ (fuel : Nat) (s : astar_state) (path : List Nat), astar_inv P s0 s →
      astar_loop E P goal fuel s = some path → path ≠ [] →
      path.head? = some s0 ∧ path.getLast? = some goal.id_ ∧ P.is_route path := by
  intro fuel
  induction fuel with
  | zero =>
    intro s path _ h
    simp [astar_loop] at h
  | succ fuel ih =>
    intro s path hinv h hne
    obtain ⟨ol, m, cl⟩ := s
    unfold astar_loop at h
    cases htop : pq_top E ol with
    | none =>
      simp only [htop, Option.some.injEq] at h
      exact absurd h.symm hne
    | some cn =>
      simp only [htop] at h
      by_cases hgoal : scan_id E m cn = goal.id_
      · simp only [hgoal, if_true] at h
        have hkey : (umap_find m goal.id_).isSome = true := by
          rw [← hgoal]
          exact scan_id_key E hE m cn (hgoal ▸ hg0)
        exact reconstruct_path_spec P s0 goal.id_ m hinv.2.1 hinv.2.2.1 hkey hg0 path h
      · simp only [hgoal, if_false] at h
        by_cases hcl : scan_id E m cn ∈ cl
        · rw [if_pos (by simpa using hcl)] at h
          exact ih _ path (astar_inv_open P s0 ol _ m cl hinv) h hne
        · rw [if_neg (by simpa using hcl)] at h
          cases hp : P.place (scan_id E m cn) with
          | none =>
            simp only [hp] at h
            exact ih _ path (astar_inv_closed P s0 _ ol _ m cl hinv) h hne
          | some cp =>
            simp only [hp] at h
            have hc0 := plat_wf_place_ne_zero P hP _ cp hp
            have hkey := scan_id_key E hE m cn hc0
            have hfold := astar_relax_fold_inv E P goal s0 (scan_id E m cn) cp hc0 hp
              (E.roads_order cp.roads_) (fun r hr => (hE.2.1 cp.roads_).subset hr)
              ⟨ol.erase cn, m, scan_id E m cn :: cl⟩
              (astar_inv_closed P s0 _ ol _ m cl hinv) hkey
            exact ih _ path hfold.1 h hne

/-- C5: in a well-formed network, every non-empty path returned by plat::find_path(from,
to) starts with from, ends with to, and every consecutive pair (u, v) on it is joined by a
directed road: has_road(u, v) holds. -/
theorem find_path_route (E : env) (hE : E.lawful) (P : plat) (hP : P.wf) (from_id to_id : Nat)
    (path : List Nat) (h : P.find_path E from_id to_id = some path) (hne : path ≠ []) :
    path.head? = some from_id ∧ path.getLast? = some to_id ∧ P.is_route path := by
  unfold plat.find_path at h
  cases hs : P.place from_id with
  | none =>
    simp only [hs, Option.some.injEq] at h
    exact absurd h.symm hne
  | some start =>
    cases hg : P.place to_id with
    | none =>
      simp only [hs, hg, Option.some.injEq] at h
      exact absurd h.symm hne
    | some goal =>
      simp only [hs, hg] at h
      have hsid := plat_wf_place_id P hP from_id start hs
      have hgid := plat_wf_place_id P hP to_id goal hg
      have hs0 := plat_wf_place_ne_zero P hP from_id start hs
      have hg0 := plat_wf_place_ne_zero P hP to_id goal hg
      rw [astar_search_first E hE P start goal (hsid ▸ hs0) (hsid ▸ hs)] at h
      by_cases heq : start.id_ = goal.id_
      · simp only [heq, if_true, Option.some.injEq] at h
        subst h
        rw [← hgid, ← hsid, heq]
        exact ⟨rfl, rfl, List.chain'_singleton _⟩
      · simp only [heq, if_false] at h
        have hbase : astar_inv P start.id_
            ⟨[], [(start.id_, ⟨0, astar_node.heuristic E start.plane_ goal.plane_, 0⟩)],
              [start.id_]⟩ := by
          refine ⟨List.mem_singleton_self _,
            ⟨⟨0, astar_node.heuristic E start.plane_ goal.plane_, 0⟩, by simp [umap_find], rfl⟩,
            ?_, ?_⟩
          · intro k n hk hks
            simp [umap_find, Ne.symm hks] at hk
          · intro k n hk
            by_cases hks : start.id_ = k
            · rw [← hks]
              exact Relation.ReflTransGen.refl
            · simp [umap_find, hks] at hk
        have hfold := astar_relax_fold_inv E P goal start.id_ start.id_ start (hsid ▸ hs0)
          (hsid ▸ hs) (E.roads_order start.roads_) (fun r hr => (hE.2.1 start.roads_).subset hr)
          _ hbase (by simp [umap_find])
        have hres := astar_loop_route E hE P hP goal (hgid ▸ hg0) start.id_ _ _ path hfold.1 h hne
        rw [hsid, hgid] at hres
        exact hres

/-! ## A* search: a start whose only road leads to the goal -/

theorem roads_order_single (E : env) (hE : E.lawful) (r : Nat × ℚ) : E.roads_order [r] = [r] :=
  List.perm_singleton.mp (hE.2.1 [r])

/-- When the only road of the start leads to the goal, the search returns the two-element
path [start, goal]. -/
theorem find_path_single_road (E : env) (hE : E.lawful) (P : plat) (a b : Nat) (la lb : location)
    (d : ℚ) (ha : P.place a = some la) (hb : P.place b = some lb) (hida : la.id_ = a)
    (hidb : lb.id_ = b) (ha0 : a ≠ 0) (hb0 : b ≠ 0) (hab : a ≠ b) (hr : la.roads_ = [(b, d)]) :
    P.find_path E a b = some [a, b] := by
  unfold plat.find_path
  simp only [ha, hb]
  rw [astar_search_first E hE P la lb (hida ▸ ha0) (hida ▸ ha)]
  have hab2 : b ≠ a := fun e => hab e.symm
  simp only [hida, hidb, hab, if_false, hr, roads_order_single E hE, List.foldl_cons,
    List.foldl_nil]
  have hrel : astar_relax E P lb a
      ⟨[], [(a, ⟨0, astar_node.heuristic E la.plane_ lb.plane_, 0⟩)], [a]⟩ (b, d) =
      ⟨[⟨0 + d, 0 + d + astar_node.heuristic E lb.plane_ lb.plane_, a⟩],
        [(a, ⟨0, astar_node.heuristic E la.plane_ lb.plane_, 0⟩),
          (b, ⟨0 + d, 0 + d + astar_node.heuristic E lb.plane_ lb.plane_, a⟩)], [a]⟩ := by
    simp [astar_relax, hab2, hb, umap_index, umap_find, astar_improves, hab, umap_set]
  rw [hrel]
  simp only [astar_loop, pq_top_single E hE]
  have hscan : scan_id E [(a, ⟨0, astar_node.heuristic E la.plane_ lb.plane_, 0⟩),
      (b, ⟨0 + d, 0 + d + astar_node.heuristic E lb.plane_ lb.plane_, a⟩)]
      ⟨0 + d, 0 + d + astar_node.heuristic E lb.plane_ lb.plane_, a⟩ = b := by
    rcases scan_id_spec E hE [(a, ⟨0, astar_node.heuristic E la.plane_ lb.plane_, 0⟩),
      (b, ⟨0 + d, 0 + d + astar_node.heuristic E lb.plane_ lb.plane_, a⟩)]
      ⟨0 + d, 0 + d + astar_node.heuristic E lb.plane_ lb.plane_, a⟩ with h | h
    · exact absurd rfl (h.2 _ (List.mem_cons_of_mem _ (List.mem_singleton_self _)))
    · simp only [List.mem_cons, Prod.mk.injEq, astar_node.mk.injEq, List.mem_singleton,
        List.not_mem_nil, or_false] at h
      rcases h with h | h
      · exact absurd h.2.2.2 ha0
      · exact h.1
  rw [hscan]
  simp [hidb, plat.reconstruct_path, reconstruct_loop, umap_find, hab, hab2, ha0, hb0]

/-! ## The scenario of two places joined by a bidirectional road -/

theorem distance_to_comm (E : env) (p q : point2d) : p.distance_to E q = q.distance_to E p := by
  unfold point2d.distance_to point2d.norm point2d.sub
  congr 1
  simp only
  ring

theorem add_road_id (E : env) (l : location) (k : Nat) (p : point2d) :
    (l.add_road E k p).id_ = l.id_ := rfl

theorem add_road_plane (E : env) (l : location) (k : Nat) (p : point2d) :
    (l.add_road E k p).plane_ = l.plane_ := rfl

theorem capital_road_net_wf : capital_road_net.wf := by decide

theorem capital_road_net_path :
    capital_road_net.find_path sample_env capital_id1 capital_id2
      = some [capital_id1, capital_id2] :=
  find_path_single_road sample_env sample_env_lawful capital_road_net capital_id1 capital_id2 _ _ _
    rfl rfl rfl rfl (by decide) (by decide) (by decide) rfl

theorem find_path_route_witness :
    [capital_id1, capital_id2].head? = some capital_id1 ∧
    [capital_id1, capital_id2].getLast? = some capital_id2 ∧
    capital_road_net.is_route [capital_id1, capital_id2] :=
  find_path_route sample_env sample_env_lawful capital_road_net capital_road_net_wf capital_id1
    capital_id2 [capital_id1, capital_id2] capital_road_net_path (by simp)

/-! ## A* search: the loop ends -/

theorem sum_map_add_le {α : Type} (l : List α) (f g : α → Nat) (x : α) (n : Nat) (hx : x ∈ l)
    (hle : ∀ y ∈ l, f y ≤ g y) (hxn : f x + n ≤ g x) : (l.map f).sum + n ≤ (l.map g).sum := by
  induction l with
  | nil => simp at hx
  | cons y l ih =>
    simp only [List.map_cons, List.sum_cons]
    rcases List.mem_cons.mp hx with h | h
    · have h1 : (l.map f).sum ≤ (l.map g).sum :=
        List.sum_le_sum (fun i hi => hle i (List.mem_cons_of_mem _ hi))
      rw [h] at hxn
      omega
    · have h1 := ih h (fun i hi => hle i (List.mem_cons_of_mem _ hi))
      have h2 := hle y (List.mem_cons_self _ _)
      omega

theorem plat_place_mem (P : plat) (c : Nat) (cp : location) (h : P.place c = some cp) :
    ∃ t, (town_of c, t) ∈ P.towns_ ∧ (c, cp) ∈ t.places_ := by
  unfold plat.place at h
  cases ht : umap_find P.towns_ (town_of c) with
  | none => simp [ht] at h
  | some t =>
    simp only [ht, city.place] at h
    exact ⟨t, umap_find_mem _ _ _ ht, umap_find_mem _ _ _ h⟩

theorem pending_nil (P : plat) : P.pending [] = P.road_count := by
  simp [plat.pending, plat.road_count]

theorem pending_entry_le (cl : List Nat) (c : Nat) (e : Nat × location) :
    (if (c :: cl).contains e.1 then 0 else e.2.roads_.length)
      ≤ (if cl.contains e.1 then 0 else e.2.roads_.length) := by
  by_cases h1 : e.1 ∈ cl
  · simp [h1]
  · by_cases h2 : e.1 = c
    · simp [h2]
    · simp [h1, h2]

theorem pending_mono (P : plat) (cl : List Nat) (c : Nat) : P.pending (c :: cl) ≤ P.pending cl := by
  unfold plat.pending
  apply List.sum_le_sum
  intro t _
  apply List.sum_le_sum
  intro e _
  exact pending_entry_le cl c e

/-- Closing a place that resolves releases its roads from the bound. -/
theorem pending_cons (P : plat) (cl : List Nat) (c : Nat) (cp : location) (hc : c ∉ cl)
    (hp : P.place c = some cp) : P.pending (c :: cl) + cp.roads_.length ≤ P.pending cl := by
  obtain ⟨t, ht, hcp⟩ := plat_place_mem P c cp hp
  unfold plat.pending
  apply sum_map_add_le P.towns_ _ _ (town_of c, t) cp.roads_.length ht
  · intro t1 _
    apply List.sum_le_sum
    intro e _
    exact pending_entry_le cl c e
  · apply sum_map_add_le t.places_ _ _ (c, cp) cp.roads_.length hcp
    · intro e _
      exact pending_entry_le cl c e
    · simp [hc]

/-- From the second round on, when the goal cannot be reached from the start, the loop
ends with the empty path as soon as the fuel exceeds the queue length plus the roads
still pending. -/
theorem astar_loop_unreachable (E : env) (hE : E.lawful) (P : plat) (hP : P.wf)
    (goal : location) (hg0 : goal.id_ ≠ 0) (s0 : Nat) (hun : ¬ P.reachable s0 goal.id_) :
    ∀ (fuel : Nat) (s : astar_state), astar_inv P s0 s →
      s.open_list.length + P.pending s.closed_set < fuel →
      astar_loop E P goal fuel s = some [] := by
  intro fuel
  induction fuel with
  | zero =>
    intro s _ h
    omega
  | succ fuel ih =>
    intro s hinv hlt
    obtain ⟨ol, m, cl⟩ := s
    simp only at hlt
    unfold astar_loop
    cases htop : pq_top E ol with
    | none => rfl
    | some cn =>
      simp only
      have hmem := pq_top_mem E hE ol cn htop
      have hlen : (ol.erase cn).length + 1 = ol.length := by
        rw [List.length_erase_of_mem hmem]
        have := List.length_pos_of_mem hmem
        omega
      have hgoal : scan_id E m cn ≠ goal.id_ := by
        intro e
        have hkey := scan_id_key E hE m cn (e ▸ hg0)
        obtain ⟨n, hn⟩ := Option.isSome_iff_exists.mp hkey
        exact hun (e ▸ hinv.2.2.2 _ n hn)
      rw [if_neg hgoal]
      by_cases hcl : scan_id E m cn ∈ cl
      · rw [if_pos (by simpa using hcl)]
        apply ih _ (astar_inv_open P s0 ol _ m cl hinv)
        simp only
        omega
      · rw [if_neg (by simpa using hcl)]
        cases hp : P.place (scan_id E m cn) with
        | none =>
          simp only
          apply ih _ (astar_inv_closed P s0 _ ol _ m cl hinv)
          have := pending_mono P cl (scan_id E m cn)
          simp only
          omega
        | some cp =>
          simp only
          have hc0 := plat_wf_place_ne_zero P hP _ cp hp
          have hkey := scan_id_key E hE m cn hc0
          have hfold := astar_relax_fold_inv E P goal s0 (scan_id E m cn) cp hc0 hp
            (E.roads_order cp.roads_) (fun r hr => (hE.2.1 cp.roads_).subset hr)
            ⟨ol.erase cn, m, scan_id E m cn :: cl⟩
            (astar_inv_closed P s0 _ ol _ m cl hinv) hkey
          apply ih _ hfold.1
          rw [hfold.2.1]
          have h1 := hfold.2.2
          have h2 := pending_cons P cl (scan_id E m cn) cp hcl hp
          have h3 : (E.roads_order cp.roads_).length = cp.roads_.length :=
            (hE.2.1 cp.roads_).length_eq
          simp only at h1 ⊢
          omega

/-- C3: in a well-formed network, for resolvable ids from and to with no directed path of
roads from from to to (so from != to), plat::find_path(from, to) returns the empty
sequence. -/
theorem find_path_disconnected (E : env) (hE : E.lawful) (P : plat) (hP : P.wf)
    (from_id to_id : Nat) (hf : P.place from_id ≠ none) (ht : P.place to_id ≠ none)
    (hun : ¬ P.reachable from_id to_id) : P.find_path E from_id to_id = some [] := by
  unfold plat.find_path
  cases hs : P.place from_id with
  | none => exact absurd hs hf
  | some start =>
    cases hg : P.place to_id with
    | none => exact absurd hg ht
    | some goal =>
      simp only
      have hsid := plat_wf_place_id P hP from_id start hs
      have hgid := plat_wf_place_id P hP to_id goal hg
      have hs0 := plat_wf_place_ne_zero P hP from_id start hs
      have hg0 := plat_wf_place_ne_zero P hP to_id goal hg
      rw [astar_search_first E hE P start goal (hsid ▸ hs0) (hsid ▸ hs)]
      have heq : start.id_ ≠ goal.id_ := by
        intro e
        apply hun
        rw [← hsid, ← hgid, e]
        exact Relation.ReflTransGen.refl
      rw [if_neg heq]
      have hbase : astar_inv P start.id_
          ⟨[], [(start.id_, ⟨0, astar_node.heuristic E start.plane_ goal.plane_, 0⟩)],
            [start.id_]⟩ := by
        refine ⟨List.mem_singleton_self _,
          ⟨⟨0, astar_node.heuristic E start.plane_ goal.plane_, 0⟩, by simp [umap_find], rfl⟩,
          ?_, ?_⟩
        · intro k n hk hks
          simp [umap_find, Ne.symm hks] at hk
        · intro k n hk
          by_cases hks : start.id_ = k
          · rw [← hks]
            exact Relation.ReflTransGen.refl
          · simp [umap_find, hks] at hk
      have hfold := astar_relax_fold_inv E P goal start.id_ start.id_ start (hsid ▸ hs0)
        (hsid ▸ hs) (E.roads_order start.roads_) (fun r hr => (hE.2.1 start.roads_).subset hr)
        _ hbase (by simp [umap_find])
      apply astar_loop_unreachable E hE P hP goal (hgid ▸ hg0) start.id_
        (by rw [hsid, hgid]; exact hun) _ _ hfold.1
      rw [hfold.2.1]
      have h1 := hfold.2.2
      have h2 := pending_cons P [] start.id_ start (List.not_mem_nil _) (hsid ▸ hs)
      have h3 : (E.roads_order start.roads_).length = start.roads_.length :=
        (hE.2.1 start.roads_).length_eq
      rw [pending_nil] at h2
      simp only [List.length_nil] at h1 ⊢
      omega

theorem capital_net_no_road (u v : Nat) : ¬ capital_net.road u v := by
  unfold plat.road plat.has_road
  cases hp : capital_net.place u with
  | none => simp
  | some l =>
    obtain ⟨t, ht, hl⟩ := plat_place_mem capital_net u l hp
    have ht2 : t = capital_town := by
      have : (town_of u, t) ∈ [(1, capital_town)] := ht
      simp only [List.mem_singleton, Prod.mk.injEq] at this
      exact this.2
    rw [ht2] at hl
    have hl2 : l.roads_ = [] := by
      have : (u, l) ∈ [(capital_id1, (⟨capital_id1, "A", ⟨39.90, 116.00⟩,
          location.wgs84_to_utm sample_env 116.00 39.90, []⟩ : location)),
        (capital_id2, ⟨capital_id2, "B", ⟨39.90, 116.01⟩,
          location.wgs84_to_utm sample_env 116.01 39.90, []⟩)] := hl
      simp only [List.mem_cons, Prod.mk.injEq, List.mem_singleton, List.not_mem_nil,
        or_false] at this
      rcases this with h | h
      · rw [h.2]
      · rw [h.2]
    simp [location.has_road_to, hl2, umap_find]

theorem find_path_disconnected_witness :
    capital_net.find_path sample_env capital_id1 capital_id2 = some [] :=
  find_path_disconnected sample_env sample_env_lawful capital_net capital_net_wf capital_id1
    capital_id2 (by decide) (by decide) (by
      intro h
      rcases Relation.ReflTransGen.cases_head h with h1 | ⟨c, hc, _⟩
      · exact absurd h1 (by decide)
      · exact capital_net_no_road _ _ hc)

/-! ## A* search: two places with equal records -/

theorem perm_pair {α : Type} (l : List α) (a b : α) (h : l.Perm [a, b]) :
    l = [a, b] ∨ l = [b, a] := by
  have hlen := h.length_eq
  match l, hlen with
  | [x, y], _ =>
    have hx : x ∈ [a, b] := h.subset (List.mem_cons_self _ _)
    simp only [List.mem_cons, List.mem_singleton, List.not_mem_nil, or_false] at hx
    rcases hx with hx | hx
    · subst hx
      left
      have := (List.perm_cons x).mp h
      rw [List.perm_singleton.mp this]
    · subst hx
      right
      have h2 : [x, y].Perm [x, a] := h.trans (List.Perm.swap x a [])
      have := (List.perm_cons x).mp h2
      rw [List.perm_singleton.mp this]

theorem pq_top_pair (E : env) (hE : E.lawful) (e : astar_node) : pq_top E [e, e] = some e := by
  cases h : pq_top E [e, e] with
  | none => exact absurd (pq_top_none E hE _ h) (by simp)
  | some a =>
    have := pq_top_mem E hE _ a h
    simp only [List.mem_cons, List.mem_singleton, List.not_mem_nil, or_false, or_self] at this
    rw [this]

theorem roads_order_nil (E : env) (hE : E.lawful) : E.roads_order [] = [] :=
  List.perm_nil.mp (hE.2.1 [])

theorem pq_top_nil (E : env) (hE : E.lawful) : pq_top E [] = none := by
  cases h : pq_top E [] with
  | none => rfl
  | some a => exact absurd (pq_top_mem E hE _ a h) (List.not_mem_nil _)

/-- Two queue entries with the same record, both filed by the scan under the id x of a
place without roads that is not the goal: x is expanded once, the second entry is dropped
as closed, and the loop ends with the empty path. -/
theorem astar_loop_twin (E : env) (hE : E.lawful) (P : plat) (goal : location) (x : Nat)
    (lx : location) (e : astar_node) (all : List (Nat × astar_node)) (cl : List Nat) (n : Nat)
    (hscan : scan_id E all e = x) (hxg : x ≠ goal.id_) (hxcl : x ∉ cl)
    (hpx : P.place x = some lx) (hrx : lx.roads_ = []) :
    astar_loop E P goal (n + 3) ⟨[e, e], all, cl⟩ = some [] := by
  simp [astar_loop, pq_top_pair E hE, pq_top_single E hE, pq_top_nil E hE, hscan, hxg, hpx, hrx,
    roads_order_nil E hE, hxcl]

/-- The search from s after its first round, when the two roads of s lead to places g and
h of equal planar point with equal weight d: both get the same record. -/
theorem astar_search_twin (E : env) (hE : E.lawful) (P : plat) (s g h : Nat)
    (ls lg lh : location) (d : ℚ) (hs : P.place s = some ls) (hg : P.place g = some lg)
    (hh : P.place h = some lh) (hids : ls.id_ = s) (hs0 : s ≠ 0) (hsg : s ≠ g) (hsh : s ≠ h)
    (hgh : g ≠ h) (hpl : lh.plane_ = lg.plane_) (hrs : ls.roads_ = [(g, d), (h, d)]) :
    ∃ all : List (Nat × astar_node),
      (∀ k, (k, (⟨0 + d, 0 + d + astar_node.heuristic E lg.plane_ lg.plane_, s⟩ : astar_node)) ∈ all
        → k = g ∨ k = h) ∧
      (g, (⟨0 + d, 0 + d + astar_node.heuristic E lg.plane_ lg.plane_, s⟩ : astar_node)) ∈ all ∧
      ∀ goal : location, goal.plane_ = lg.plane_ → s ≠ goal.id_ →
        P.astar_search E ls goal = astar_loop E P goal (P.road_count + 1)
          ⟨[⟨0 + d, 0 + d + astar_node.heuristic E lg.plane_ lg.plane_, s⟩,
            ⟨0 + d, 0 + d + astar_node.heuristic E lg.plane_ lg.plane_, s⟩], all, [s]⟩ := by
  have hgs : g ≠ s := fun e => hsg e.symm
  have hhs : h ≠ s := fun e => hsh e.symm
  have hhg : h ≠ g := fun e => hgh e.symm
  rcases perm_pair _ _ _ (hE.2.1 [(g, d), (h, d)]) with hord | hord
  · refine ⟨[(s, ⟨0, astar_node.heuristic E ls.plane_ lg.plane_, 0⟩),
      (g, ⟨0 + d, 0 + d + astar_node.heuristic E lg.plane_ lg.plane_, s⟩),
      (h, ⟨0 + d, 0 + d + astar_node.heuristic E lg.plane_ lg.plane_, s⟩)], ?_, ?_, ?_⟩
    · intro k hk
      simp only [List.mem_cons, Prod.mk.injEq, astar_node.mk.injEq, List.mem_singleton,
        List.not_mem_nil, or_false] at hk
      rcases hk with hk | hk | hk
      · exact absurd hk.2.2.2 hs0
      · exact Or.inl hk.1
      · exact Or.inr hk.1
    · simp
    · intro goal hgp hsgoal
      rw [astar_search_first E hE P ls goal (hids ▸ hs0) (hids ▸ hs)]
      simp only [hids, hsgoal, if_false, hrs, hord, List.foldl_cons, List.foldl_nil]
      simp [astar_relax, hgs, hhs, hg, hh, umap_index, umap_find, astar_improves, hsg, hsh, hgh,
        hhg, umap_set, hpl, hgp]
  · refine ⟨[(s, ⟨0, astar_node.heuristic E ls.plane_ lg.plane_, 0⟩),
      (h, ⟨0 + d, 0 + d + astar_node.heuristic E lg.plane_ lg.plane_, s⟩),
      (g, ⟨0 + d, 0 + d + astar_node.heuristic E lg.plane_ lg.plane_, s⟩)], ?_, ?_, ?_⟩
    · intro k hk
      simp only [List.mem_cons, Prod.mk.injEq, astar_node.mk.injEq, List.mem_singleton,
        List.not_mem_nil, or_false] at hk
      rcases hk with hk | hk | hk
      · exact absurd hk.2.2.2 hs0
      · exact Or.inr hk.1
      · exact Or.inl hk.1
    · simp
    · intro goal hgp hsgoal
      rw [astar_search_first E hE P ls goal (hids ▸ hs0) (hids ▸ hs)]
      simp only [hids, hsgoal, if_false, hrs, hord, List.foldl_cons, List.foldl_nil]
      simp [astar_relax, hgs, hhs, hg, hh, umap_index, umap_find, astar_improves, hsg, hsh, hgh,
        hhg, umap_set, hpl, hgp]

/-- One of the two places with equal records is never expanded nor recognised as the
goal: the search for it returns the empty path although a road leads to it. -/
theorem find_path_twin (E : env) (hE : E.lawful) (P : plat) (s g h : Nat)
    (ls lg lh : location) (d : ℚ) (hs : P.place s = some ls) (hg : P.place g = some lg)
    (hh : P.place h = some lh) (hids : ls.id_ = s) (hidg : lg.id_ = g) (hidh : lh.id_ = h)
    (hs0 : s ≠ 0) (hsg : s ≠ g) (hsh : s ≠ h) (hgh : g ≠ h) (hpl : lh.plane_ = lg.plane_)
    (hrs : ls.roads_ = [(g, d), (h, d)]) (hrg : lg.roads_ = []) (hrh : lh.roads_ = []) :
    P.find_path E s g = some [] ∨ P.find_path E s h = some [] := by
  have hcount : 2 ≤ P.road_count := by
    have := pending_cons P [] s ls (List.not_mem_nil _) hs
    rw [pending_nil, hrs] at this
    simp only [List.length_cons, List.length_nil] at this
    omega
  obtain ⟨n, hn⟩ : ∃ n, P.road_count + 1 = n + 3 := ⟨P.road_count - 2, by omega⟩
  obtain ⟨all, honly, hmem, hsearch⟩ :=
    astar_search_twin E hE P s g h ls lg lh d hs hg hh hids hs0 hsg hsh hgh hpl hrs
  have hkey : scan_id E all ⟨0 + d, 0 + d + astar_node.heuristic E lg.plane_ lg.plane_, s⟩ = g ∨
      scan_id E all ⟨0 + d, 0 + d + astar_node.heuristic E lg.plane_ lg.plane_, s⟩ = h := by
    rcases scan_id_spec E hE all
      ⟨0 + d, 0 + d + astar_node.heuristic E lg.plane_ lg.plane_, s⟩ with h1 | h1
    · exact absurd rfl (h1.2 _ hmem)
    · exact honly _ h1
  have hsclg : g ∉ [s] := by simpa using fun e : g = s => hsg e.symm
  have hsclh : h ∉ [s] := by simpa using fun e : h = s => hsh e.symm
  rcases hkey with hw | hw
  · right
    unfold plat.find_path
    simp only [hs, hh]
    rw [hsearch lh hpl (hidh ▸ hsh), hn]
    exact astar_loop_twin E hE P lh g lg _ all [s] n hw (hidh ▸ hgh) hsclg hg hrg
  · left
    unfold plat.find_path
    simp only [hs, hg]
    rw [hsearch lg rfl (hidg ▸ hsg), hn]
    exact astar_loop_twin E hE P lg h lh _ all [s] n hw (hidg ▸ fun e => hgh e.symm) hsclh hh hrh

/-! ## The twin network -/

/-- A zone of three places s, g and h, the last two with the same planar point, in which s
has exactly the two roads to g and to h, of equal weight. -/
theorem twin_shape_lost (E : env) (hE : E.lawful) (z : Nat) (name ns ng nh : String)
    (s g h : Nat) (g1 g2 p1 p2 : point2d) (d : ℚ) (hzs : town_of s = z) (hzg : town_of g = z)
    (hzh : town_of h = z) (hs0 : s ≠ 0) (hsg : s ≠ g) (hsh : s ≠ h) (hgh : g ≠ h) :
    (plat.mk [(z, ⟨z, name, [(s, ⟨s, ns, g1, p1, [(g, d), (h, d)]⟩), (g, ⟨g, ng, g2, p2, []⟩),
      (h, ⟨h, nh, g2, p2, []⟩)]⟩)]).find_path E s g = some [] ∨
    (plat.mk [(z, ⟨z, name, [(s, ⟨s, ns, g1, p1, [(g, d), (h, d)]⟩), (g, ⟨g, ng, g2, p2, []⟩),
      (h, ⟨h, nh, g2, p2, []⟩)]⟩)]).find_path E s h = some [] := by
  have hgs : g ≠ s := fun e => hsg e.symm
  have hhs : h ≠ s := fun e => hsh e.symm
  have hhg : h ≠ g := fun e => hgh e.symm
  apply find_path_twin E hE _ s g h ⟨s, ns, g1, p1, [(g, d), (h, d)]⟩ ⟨g, ng, g2, p2, []⟩
    ⟨h, nh, g2, p2, []⟩ d
  · simp [plat.place, hzs, umap_find, city.place]
  · simp [plat.place, hzg, umap_find, city.place, hsg]
  · simp [plat.place, hzh, umap_find, city.place, hsh, hgh]
  · rfl
  · rfl
  · rfl
  · exact hs0
  · exact hsg
  · exact hsh
  · exact hgh
  · rfl
  · rfl
  · rfl
  · rfl

theorem twin_shape_road (z : Nat) (name : String) (s k : Nat) (ls : location)
    (rest : List (Nat × location)) (hzs : town_of s = z)
    (hk : (umap_find ls.roads_ k).isSome = true) :
    (plat.mk [(z, ⟨z, name, (s, ls) :: rest⟩)]).road s k := by
  simp [plat.road, plat.has_road, plat.place, hzs, umap_find, city.place, location.has_road_to, hk]

theorem twin_shape_place (z : Nat) (c : city) (k : Nat) (hz : town_of k = z)
    (hk : (umap_find c.places_ k).isSome = true) :
    (plat.mk [(z, c)]).place k ≠ none := by
  intro h
  simp only [plat.place, hz, umap_find, if_true, city.place] at h
  rw [h] at hk
  exact Bool.noConfusion hk

theorem twin_town_eq (E : env) : twin_town E = ⟨1, "Twin",
    [(twin_s, ⟨twin_s, "S", ⟨39.90, 116.00⟩, location.wgs84_to_utm E 116.00 39.90, []⟩),
     (twin_g, ⟨twin_g, "G", ⟨39.90, 116.01⟩, location.wgs84_to_utm E 116.01 39.90, []⟩),
     (twin_h, ⟨twin_h, "H", ⟨39.90, 116.01⟩, location.wgs84_to_utm E 116.01 39.90, []⟩)]⟩ := rfl

theorem twin_shape_add_roads (E : env) (z : Nat) (name ns ng nh : String) (s g h : Nat)
    (g1 g2 g3 p1 p2 p3 : point2d) (ts : town_of s = z) (tg : town_of g = z) (th : town_of h = z)
    (n1 : s ≠ g) (n2 : s ≠ h) (n3 : g ≠ h) :
    ((((plat.mk [(z, ⟨z, name, [(s, ⟨s, ns, g1, p1, []⟩), (g, ⟨g, ng, g2, p2, []⟩),
      (h, ⟨h, nh, g3, p3, []⟩)]⟩)]).add_road E s g).2).add_road E s h).2
    = ⟨[(z, ⟨z, name, [(s, ⟨s, ns, g1, p1, [(g, p1.distance_to E p2), (h, p1.distance_to E p3)]⟩),
      (g, ⟨g, ng, g2, p2, []⟩), (h, ⟨h, nh, g3, p3, []⟩)]⟩)]⟩ := by
  have n4 : g ≠ s := fun e => n1 e.symm
  have n5 : h ≠ s := fun e => n2 e.symm
  have n6 : h ≠ g := fun e => n3 e.symm
  simp [plat.add_road, ts, tg, th, plat.town, umap_find, umap_set, city.add_road, city.place,
    n1, n2, n3, n4, n5, n6, location.add_road]

/-- The twin network, spelled out. -/
theorem twin_net_eq (E : env) : twin_net E = ⟨[(1, ⟨1, "Twin",
    [(twin_s, ⟨twin_s, "S", ⟨39.90, 116.00⟩, location.wgs84_to_utm E 116.00 39.90,
        [(twin_g, (location.wgs84_to_utm E 116.00 39.90).distance_to E
            (location.wgs84_to_utm E 116.01 39.90)),
         (twin_h, (location.wgs84_to_utm E 116.00 39.90).distance_to E
            (location.wgs84_to_utm E 116.01 39.90))]⟩),
     (twin_g, ⟨twin_g, "G", ⟨39.90, 116.01⟩, location.wgs84_to_utm E 116.01 39.90, []⟩),
     (twin_h, ⟨twin_h, "H", ⟨39.90, 116.01⟩, location.wgs84_to_utm E 116.01 39.90, []⟩)]⟩)]⟩ := by
  unfold twin_net
  rw [twin_town_eq]
  exact twin_shape_add_roads E 1 "Twin" "S" "G" "H" twin_s twin_g twin_h _ _ _ _ _ _
    (by decide) (by decide) (by decide) (by decide) (by decide) (by decide)

/-- In the twin network the search for G or the search for H comes back empty, on every
platform. -/
theorem twin_net_lost (E : env) (hE : E.lawful) :
    (twin_net E).find_path E twin_s twin_g = some [] ∨
    (twin_net E).find_path E twin_s twin_h = some [] := by
  rw [twin_net_eq]
  exact twin_shape_lost E hE 1 "Twin" "S" "G" "H" twin_s twin_g twin_h _ _ _ _ _
    (by decide) (by decide) (by decide) (by decide) (by decide) (by decide) (by decide)

theorem twin_net_road_g (E : env) : (twin_net E).road twin_s twin_g := by
  rw [twin_net_eq]
  exact twin_shape_road 1 "Twin" twin_s twin_g _ _ (by decide) (by simp [umap_find])

theorem twin_net_road_h (E : env) : (twin_net E).road twin_s twin_h := by
  rw [twin_net_eq]
  exact twin_shape_road 1 "Twin" twin_s twin_h _ _ (by decide)
    (by simp [umap_find, show twin_g ≠ twin_h by decide])

theorem twin_net_place_s (E : env) : (twin_net E).place twin_s ≠ none := by
  rw [twin_net_eq]
  exact twin_shape_place 1 _ twin_s (by decide) (by simp [umap_find])

theorem twin_net_place_g (E : env) : (twin_net E).place twin_g ≠ none := by
  rw [twin_net_eq]
  exact twin_shape_place 1 _ twin_g (by decide)
    (by simp [umap_find, show twin_s ≠ twin_g by decide])

theorem twin_net_place_h (E : env) : (twin_net E).place twin_h ≠ none := by
  rw [twin_net_eq]
  exact twin_shape_place 1 _ twin_h (by decide)
    (by simp [umap_find, show twin_s ≠ twin_h by decide, show twin_g ≠ twin_h by decide])

/-- C2 at the twin network (single zone; S with roads to G and H, which share their
coordinates): all three ids resolve and a road leads from S to G and from S to H, yet on
every platform find_path(S, G) or find_path(S, H) returns the empty path. -/
theorem find_path_empty_reachable (E : env) (hE : E.lawful) :
    ((twin_net E).place twin_s ≠ none ∧ (twin_net E).place twin_g ≠ none ∧
      (twin_net E).reachable twin_s twin_g ∧
      (twin_net E).find_path E twin_s twin_g = some []) ∨
    ((twin_net E).place twin_s ≠ none ∧ (twin_net E).place twin_h ≠ none ∧
      (twin_net E).reachable twin_s twin_h ∧
      (twin_net E).find_path E twin_s twin_h = some []) := by
  rcases twin_net_lost E hE with h | h
  · exact Or.inl ⟨twin_net_place_s E, twin_net_place_g E,
      Relation.ReflTransGen.single (twin_net_road_g E), h⟩
  · exact Or.inr ⟨twin_net_place_s E, twin_net_place_h E,
      Relation.ReflTransGen.single (twin_net_road_h E), h⟩

theorem find_path_empty_reachable_witness :
    ((twin_net sample_env).place twin_s ≠ none ∧ (twin_net sample_env).place twin_g ≠ none ∧
      (twin_net sample_env).reachable twin_s twin_g ∧
      (twin_net sample_env).find_path sample_env twin_s twin_g = some []) ∨
    ((twin_net sample_env).place twin_s ≠ none ∧ (twin_net sample_env).place twin_h ≠ none ∧
      (twin_net sample_env).reachable twin_s twin_h ∧
      (twin_net sample_env).find_path sample_env twin_s twin_h = some []) :=
  find_path_empty_reachable sample_env sample_env_lawful

/-- C1 at the twin network (one zone, both roads made by plat::add_road): for G or for H,
the one-road path [S, goal] leads from S to the goal, so a path of least weight exists,
yet on every platform find_path(S, goal) returns the empty sequence, which is no path
from S to the goal. -/
theorem find_path_not_shortest (E : env) (hE : E.lawful) :
    ∃ goal, (goal = twin_g ∨ goal = twin_h) ∧
      (twin_net E).is_path_between twin_s goal [twin_s, goal] ∧
      (twin_net E).find_path E twin_s goal = some [] ∧
      ¬ (twin_net E).is_path_between twin_s goal [] := by
  rcases twin_net_lost E hE with h | h
  · refine ⟨twin_g, Or.inl rfl, ⟨rfl, rfl, ?_⟩, h, ?_⟩
    · unfold plat.is_route
      exact List.chain'_pair.mpr (twin_net_road_g E)
    · intro hp
      exact Option.noConfusion hp.1
  · refine ⟨twin_h, Or.inr rfl, ⟨rfl, rfl, ?_⟩, h, ?_⟩
    · unfold plat.is_route
      exact List.chain'_pair.mpr (twin_net_road_h E)
    · intro hp
      exact Option.noConfusion hp.1

theorem find_path_not_shortest_witness :
    ∃ goal, (goal = twin_g ∨ goal = twin_h) ∧
      (twin_net sample_env).is_path_between twin_s goal [twin_s, goal] ∧
      (twin_net sample_env).find_path sample_env twin_s goal = some [] ∧
      ¬ (twin_net sample_env).is_path_between twin_s goal [] :=
  find_path_not_shortest sample_env sample_env_lawful

/-! ## Removing a place: other zones and absent ids -/

theorem plat_set_town_place_other (P : plat) (z : Nat) (c : city) (k : Nat) (h : town_of k ≠ z) :
    (P.set_town z c).place k = P.place k :=
  plat_place_set_other P z c k h

theorem plat_set_town_place_same (P : plat) (z : Nat) (c : city) (k : Nat) (h : town_of k = z) :
    (P.set_town z c).place k = c.place k :=
  plat_place_set_same P z c k h

/-- C11: when a road a -> b exists, a resolves through a zone other than zone B, and zone
B (reached by plat::town) removes b with city::remove_place returning true, the road is
still there: has_road(a, b) stays true and road_length(a, b) keeps its value, while zone B
no longer holds b. -/
theorem remove_place_keeps_foreign_road (P : plat) (a b zone_b : Nat) (cb : city)
    (hb : P.town zone_b = some cb) (ha : town_of a ≠ zone_b) (hroad : P.has_road a b = true)
    (hrem : (cb.remove_place b).1 = true) :
    (P.set_town zone_b (cb.remove_place b).2).has_road a b = true ∧
    (P.set_town zone_b (cb.remove_place b).2).road_length a b = P.road_length a b ∧
    (P.set_town zone_b (cb.remove_place b).2).town zone_b = some (cb.remove_place b).2 ∧
    (cb.remove_place b).2.place b = none := by
  have _ := hb
  have hp := plat_set_town_place_other P zone_b (cb.remove_place b).2 a ha
  refine ⟨?_, ?_, ?_, ?_⟩
  · unfold plat.has_road
    rw [hp]
    exact hroad
  · unfold plat.road_length
    rw [hp]
  · simp [plat.set_town, plat.town, umap_find_set_same]
  · have hpres : cb.has_place b = true := by
      by_contra hn
      have hn2 : cb.has_place b = false := by simpa using hn
      simp [city.remove_place, hn2] at hrem
    simp [city.remove_place, hpres, city.place, umap_find_erase_same]

theorem remove_place_keeps_foreign_road_witness :
    (duo_net.set_town 2 (duo_west.remove_place duo_b).2).has_road duo_a duo_b = true ∧
    (duo_net.set_town 2 (duo_west.remove_place duo_b).2).road_length duo_a duo_b
      = duo_net.road_length duo_a duo_b ∧
    (duo_net.set_town 2 (duo_west.remove_place duo_b).2).town 2
      = some (duo_west.remove_place duo_b).2 ∧
    (duo_west.remove_place duo_b).2.place duo_b = none :=
  remove_place_keeps_foreign_road duo_net duo_a duo_b 2 duo_west rfl (by decide)
    (by decide) (by decide)

/-- C12: for an id the zone does not hold, city::remove_place (and
city::remove_local_place for the id of a serial) returns false and the zone is the same
as before: same places, same roads. -/
theorem remove_place_absent (c : city) (id : Nat) (h : c.has_place id = false) :
    c.remove_place id = (false, c) ∧
    (∀ serial, city.place_id c.id_ serial = id → c.remove_local_place serial = (false, c)) := by
  have h1 : c.remove_place id = (false, c) := by simp [city.remove_place, h]
  refine ⟨h1, ?_⟩
  intro serial hs
  rw [remove_local_place_eq, hs]
  exact h1

theorem remove_place_absent_witness :
    capital_town.remove_place (city.place_id 1 9) = (false, capital_town) ∧
    (∀ serial, city.place_id capital_town.id_ serial = city.place_id 1 9 →
      capital_town.remove_local_place serial = (false, capital_town)) :=
  remove_place_absent capital_town (city.place_id 1 9) (by decide)

/-! ## Adding a place -/

/-- C13: when city::add_local_place(serial, name, point) returns a location, the zone
resolves place_id(zone id, serial) to that location, which carries exactly that id, name
and geodetic point, the projection of the point as planar point, and no road; the id was
not held before, and every place held before resolves as before. -/
theorem add_local_place_ok (E : env) (c : city) (serial : Nat) (name : String)
    (globe : point2d) (l : location) (c1 : city)
    (h : c.add_local_place E serial name globe = (.ok l, c1)) :
    l = ⟨city.place_id c.id_ serial, name, globe,
      location.wgs84_to_utm E globe.y_ globe.x_, []⟩ ∧
    c1.place (city.place_id c.id_ serial) = some l ∧
    c.place (city.place_id c.id_ serial) = none ∧
    (∀ k l0, c.place k = some l0 → c1.place k = some l0) ∧
    (∀ k, k ≠ city.place_id c.id_ serial → c1.place k = c.place k) ∧
    c1.id_ = c.id_ ∧ c1.name_ = c.name_ := by
  unfold city.add_local_place at h
  simp only at h
  by_cases hp : c.has_place (city.place_id c.id_ serial) = true
  · simp [hp] at h
  · simp only [hp, Bool.false_eq_true, if_false] at h
    unfold location.init at h
    by_cases h0 : city.place_id c.id_ serial = 0
    · simp [h0] at h
    · simp only [h0, if_false, Prod.mk.injEq, Except.ok.injEq] at h
      obtain ⟨hl, hc⟩ := h
      have hnone : c.place (city.place_id c.id_ serial) = none := by
        simpa [city.has_place, city.place] using hp
      have hother : ∀ k, k ≠ city.place_id c.id_ serial → c1.place k = c.place k := by
        intro k hk
        rw [← hc]
        simp only [city.place]
        exact umap_find_set_other _ _ _ _ hk
      refine ⟨hl.symm, ?_, hnone, ?_, hother, ?_, ?_⟩
      · rw [← hc, ← hl]
        simp [city.place, umap_find_set_same]
      · intro k l0 hk
        have hne : k ≠ city.place_id c.id_ serial := by
          intro e
          rw [e, hnone] at hk
          exact Option.noConfusion hk
        rw [hother k hne]
        exact hk
      · rw [← hc]
      · rw [← hc]

theorem add_local_place_ok_witness :
    ∃ l c1, (⟨1, "Capital", []⟩ : city).add_local_place sample_env 1 "A" ⟨39.90, 116.00⟩
        = (.ok l, c1) ∧
      c1.place (city.place_id 1 1) = some l ∧ l.name_ = "A" ∧ l.roads_ = [] :=
  ⟨_, _, rfl,
    (add_local_place_ok sample_env ⟨1, "Capital", []⟩ 1 "A" ⟨39.90, 116.00⟩ _ _ rfl).2.1,
    rfl, rfl⟩

/-- C14: when the id is already held by the zone, city::add_place (and
city::add_local_place, for the id of a serial) throws invalid_argument and the zone is
the same as before, so the existing location keeps its name, coordinates and roads and no
location is added. -/
theorem add_place_duplicate (E : env) (c : city) (id : Nat) (name : String) (globe : point2d)
    (h : c.has_place id = true) :
    c.add_place E id name globe = (.error (.invalid_argument "地点ID已存在"), c) ∧
    (∀ serial, city.place_id c.id_ serial = id →
      c.add_local_place E serial name globe = (.error (.invalid_argument "地点ID已存在"), c)) := by
  refine ⟨by simp [city.add_place, h], ?_⟩
  intro serial hs
  simp [city.add_local_place, hs, h]

theorem add_place_duplicate_witness :
    capital_town.add_place sample_env capital_id1 "Z" ⟨0, 0⟩
      = (.error (.invalid_argument "地点ID已存在"), capital_town) ∧
    (∀ serial, city.place_id capital_town.id_ serial = capital_id1 →
      capital_town.add_local_place sample_env serial "Z" ⟨0, 0⟩
        = (.error (.invalid_argument "地点ID已存在"), capital_town)) :=
  add_place_duplicate sample_env capital_town capital_id1 "Z" ⟨0, 0⟩ (by decide)

/-! ## Failing operations -/

/-- C15: plat::add_town(zone_id, name) throws invalid_argument exactly when zone_id is 0
or a zone with that id is present; it throws nothing else, and whenever it throws the
network is the same as before. -/
theorem add_town_fails_iff (P : plat) (zone_id : Nat) (name : String) :
    ((∃ msg, (P.add_town zone_id name).1 = .error (.invalid_argument msg)) ↔
      (zone_id = 0 ∨ P.has_town zone_id = true)) ∧
    (∀ e, (P.add_town zone_id name).1 = .error e →
      (∃ msg, e = .invalid_argument msg) ∧ (P.add_town zone_id name).2 = P) ∧
    (zone_id ≠ 0 → P.has_town zone_id = false →
      (P.add_town zone_id name).1 = .ok ⟨zone_id, name, []⟩ ∧
      (P.add_town zone_id name).2.town zone_id = some ⟨zone_id, name, []⟩) := by
  unfold plat.add_town
  by_cases ht : P.has_town zone_id = true
  · simp [ht]
  · have ht2 : P.has_town zone_id = false := by simpa using ht
    by_cases h0 : zone_id = 0
    · subst h0
      simp [ht2, city.init]
    · simp [ht2, h0, city.init, plat.town, umap_find_set_same]

theorem add_town_fails_iff_witness :
    (∃ msg, (capital_net.add_town 1 "Again").1 = .error (.invalid_argument msg)) ∧
    (capital_net.add_town 1 "Again").2 = capital_net ∧
    (∃ msg, (capital_net.add_town 0 "Zero").1 = .error (.invalid_argument msg)) ∧
    (capital_net.add_town 0 "Zero").2 = capital_net ∧
    (capital_net.add_town 2 "Harbour").2.town 2 = some ⟨2, "Harbour", []⟩ :=
  have h1 := add_town_fails_iff capital_net 1 "Again"
  have h0 := add_town_fails_iff capital_net 0 "Zero"
  have h2 := add_town_fails_iff capital_net 2 "Harbour"
  have e1 := h1.1.mpr (Or.inr (by decide))
  have e0 := h0.1.mpr (Or.inl rfl)
  ⟨e1, e1.elim (fun _ hm => (h1.2.1 _ hm).2), e0, e0.elim (fun _ hm => (h0.2.1 _ hm).2),
    (h2.2.2 (by decide) (by decide)).2⟩

theorem umap_set_same_value {β : Type} (m : List (Nat × β)) (k : Nat) (v : β)
    (h : umap_find m k = some v) : umap_set m k v = m := by
  induction m with
  | nil => simp [umap_find] at h
  | cons e m ih =>
    obtain ⟨k1, v1⟩ := e
    by_cases h1 : k1 = k
    · simp only [umap_find, h1, if_true, Option.some.injEq] at h
      simp [umap_set, h1, h]
    · simp only [umap_find, h1, if_false] at h
      simp [umap_set, h1, ih h]

theorem city_add_road_error (E : env) (c : city) (u v : Nat) (e : error)
    (h : (c.add_road E u v).1 = .error e) :
    (c.place u = none ∨ c.place v = none) ∧ (c.add_road E u v).2 = c := by
  unfold city.add_road at h ⊢
  cases hu : c.place u with
  | none => exact ⟨Or.inl rfl, rfl⟩
  | some fp =>
    cases hv : c.place v with
    | none => exact ⟨Or.inr rfl, rfl⟩
    | some tp => simp [hu, hv] at h

/-- C16: city::add_road(from, to) throws exactly when from or to is not a place of this
zone, and then the zone is the same as before; otherwise it returns a weight and
has_road(from, to) holds afterwards (the zone being well formed). -/
theorem city_add_road_iff (E : env) (c : city) (hc : c.wf) (from_id to_id : Nat) :
    ((∃ e, (c.add_road E from_id to_id).1 = .error e) ↔
      (c.place from_id = none ∨ c.place to_id = none)) ∧
    ((c.place from_id = none ∨ c.place to_id = none) → (c.add_road E from_id to_id).2 = c) ∧
    (c.place from_id ≠ none → c.place to_id ≠ none →
      (∃ w, (c.add_road E from_id to_id).1 = .ok w) ∧
      (c.add_road E from_id to_id).2.has_road from_id to_id = true) := by
  cases hu : c.place from_id with
  | none => simp [city.add_road, hu]
  | some fp =>
    cases hv : c.place to_id with
    | none => simp [city.add_road, hu, hv]
    | some tp =>
      have hid : tp.id_ = to_id := city_place_id c (fun e he => (hc.2.2 e he).1) to_id tp hv
      rw [city_add_road_succeeds E c from_id to_id fp tp hu hv, hid]
      simp [city.has_road, city.place, umap_find_set_same, has_road_to_add_road]

theorem capital_town_wf : capital_town.wf := by decide

theorem city_add_road_iff_witness :
    ((∃ e, (capital_town.add_road sample_env capital_id1 capital_id2).1 = .error e) ↔
      (capital_town.place capital_id1 = none ∨ capital_town.place capital_id2 = none)) ∧
    ((capital_town.place capital_id1 = none ∨ capital_town.place capital_id2 = none) →
      (capital_town.add_road sample_env capital_id1 capital_id2).2 = capital_town) ∧
    (capital_town.place capital_id1 ≠ none → capital_town.place capital_id2 ≠ none →
      (∃ w, (capital_town.add_road sample_env capital_id1 capital_id2).1 = .ok w) ∧
      (capital_town.add_road sample_env capital_id1 capital_id2).2.has_road capital_id1
        capital_id2 = true) :=
  city_add_road_iff sample_env capital_town capital_town_wf capital_id1 capital_id2
/-! ## plat::add_road: the cases -/

theorem plat_eta (P : plat) : (⟨P.towns_⟩ : plat) = P := by
  cases P
  rfl

theorem plat_place_of_town (P : plat) (k : Nat) (ct : city) (h : P.town (town_of k) = some ct) :
    P.place k = ct.place k := by
  unfold plat.town at h
  simp [plat.place, h]

theorem plat_place_none_of_town (P : plat) (k : Nat) (h : P.town (town_of k) = none) :
    P.place k = none := by
  unfold plat.town at h
  simp [plat.place, h]

theorem plat_add_road_same_eq (E : env) (P : plat) (u v : Nat) (ct : city)
    (hz : town_of u = town_of v) (ht : P.town (town_of u) = some ct) :
    P.add_road E u v = ((ct.add_road E u v).1,
      ⟨umap_set P.towns_ (town_of u) (ct.add_road E u v).2⟩) := by
  unfold plat.add_road
  simp only [ht]
  rw [if_pos hz]

theorem plat_add_road_cross_eq (E : env) (P : plat) (u v : Nat) (ct : city) (tp : location)
    (hz : town_of u ≠ town_of v) (ht : P.town (town_of u) = some ct)
    (hv : P.place v = some tp) :
    P.add_road E u v = ((ct.add_intercity_road E u v tp.plane_).1,
      ⟨umap_set P.towns_ (town_of u) (ct.add_intercity_road E u v tp.plane_).2⟩) := by
  unfold plat.add_road
  simp only [ht, hv]
  rw [if_neg hz]

theorem plat_set_same_town (P : plat) (k : Nat) (ct : city) (h : P.town k = some ct) :
    (⟨umap_set P.towns_ k ct⟩ : plat) = P := by
  unfold plat.town at h
  rw [umap_set_same_value _ _ _ h]

/-- Either both ids resolve and plat::add_road returns a weight, or one of them does not
resolve and plat::add_road throws, leaving the network as it was. -/
theorem plat_add_road_cases (E : env) (P : plat) (u v : Nat) :
    (P.place u ≠ none ∧ P.place v ≠ none ∧ ∃ w, (P.add_road E u v).1 = .ok w) ∨
    ((P.place u = none ∨ P.place v = none) ∧ ∃ e, P.add_road E u v = (.error e, P)) := by
  cases ht : P.town (town_of u) with
  | none =>
    right
    exact ⟨Or.inl (plat_place_none_of_town P u ht), .invalid_argument "起点所在城市不存在",
      by simp [plat.add_road, ht]⟩
  | some ct =>
    have hpu := plat_place_of_town P u ct ht
    by_cases hz : town_of u = town_of v
    · have hpv := plat_place_of_town P v ct (hz ▸ ht)
      rw [plat_add_road_same_eq E P u v ct hz ht, hpu, hpv]
      cases hu : ct.place u with
      | none =>
        right
        refine ⟨Or.inl rfl, .invalid_argument "地点ID不存在", ?_⟩
        simp only [city.add_road, hu]
        rw [plat_set_same_town P _ ct ht]
      | some fp =>
        cases hv : ct.place v with
        | none =>
          right
          refine ⟨Or.inr rfl, .invalid_argument "地点ID不存在", ?_⟩
          simp only [city.add_road, hu, hv]
          rw [plat_set_same_town P _ ct ht]
        | some tp =>
          left
          rw [city_add_road_succeeds E ct u v fp tp hu hv]
          exact ⟨Option.noConfusion, Option.noConfusion, _, rfl⟩
    · cases hv : P.place v with
      | none =>
        right
        refine ⟨Or.inr rfl, .invalid_argument "终点地点不存在", ?_⟩
        unfold plat.add_road
        simp only [ht, hv]
        rw [if_neg hz]
      | some tp =>
        rw [plat_add_road_cross_eq E P u v ct tp hz ht hv, hpu]
        cases hu : ct.place u with
        | none =>
          right
          refine ⟨Or.inl rfl, .invalid_argument "地点ID不存在", ?_⟩
          simp only [city.add_intercity_road, hu]
          rw [plat_set_same_town P _ ct ht]
        | some fp =>
          left
          simp only [city.add_intercity_road, hu]
          exact ⟨Option.noConfusion, Option.noConfusion, _, rfl⟩

/-- C18: for every network, plat::add_road(from, to) returns a weight exactly when both
from and to resolve through plat::place; otherwise it throws and the network, hence every
adjacency, is the same as before. -/
theorem plat_add_road_iff (E : env) (P : plat) (from_id to_id : Nat) :
    ((∃ w, (P.add_road E from_id to_id).1 = .ok w) ↔
      (P.place from_id ≠ none ∧ P.place to_id ≠ none)) ∧
    ((P.place from_id = none ∨ P.place to_id = none) →
      ∃ e, P.add_road E from_id to_id = (.error e, P)) ∧
    (∀ e, (P.add_road E from_id to_id).1 = .error e → (P.add_road E from_id to_id).2 = P) := by
  rcases plat_add_road_cases E P from_id to_id with ⟨h1, h2, w, hw⟩ | ⟨h1, e, he⟩
  · refine ⟨⟨fun _ => ⟨h1, h2⟩, fun _ => ⟨w, hw⟩⟩, ?_, ?_⟩
    · intro h
      rcases h with h | h
      · exact absurd h h1
      · exact absurd h h2
    · intro e he
      rw [hw] at he
      exact Except.noConfusion he
  · refine ⟨⟨?_, ?_⟩, fun _ => ⟨e, he⟩, ?_⟩
    · rintro ⟨w, hw⟩
      rw [he] at hw
      exact Except.noConfusion hw
    · rintro ⟨h2, h3⟩
      rcases h1 with h | h
      · exact absurd h h2
      · exact absurd h h3
    · intro e1 _
      rw [he]

theorem plat_add_road_iff_witness :
    ((∃ w, (capital_net.add_road sample_env capital_id1 (city.place_id 7 1)).1 = .ok w) ↔
      (capital_net.place capital_id1 ≠ none ∧ capital_net.place (city.place_id 7 1) ≠ none)) ∧
    ((capital_net.place capital_id1 = none ∨ capital_net.place (city.place_id 7 1) = none) →
      ∃ e, capital_net.add_road sample_env capital_id1 (city.place_id 7 1)
        = (.error e, capital_net)) ∧
    (∀ e, (capital_net.add_road sample_env capital_id1 (city.place_id 7 1)).1 = .error e →
      (capital_net.add_road sample_env capital_id1 (city.place_id 7 1)).2 = capital_net) :=
  plat_add_road_iff sample_env capital_net capital_id1 (city.place_id 7 1)
/-! ## add_bidirectional_road: a failure changes nothing -/

theorem city_add_bidirectional_road_error (E : env) (c : city) (u v : Nat) (e : error)
    (c1 : city) (h : c.add_bidirectional_road E u v = (.error e, c1)) :
    c1 = c ∧ (c.place u = none ∨ c.place v = none) := by
  unfold city.add_bidirectional_road at h
  cases hu : c.place u with
  | none =>
    simp only [city.add_road, hu, Prod.mk.injEq] at h
    exact ⟨h.2.symm, Or.inl rfl⟩
  | some fp =>
    cases hv : c.place v with
    | none =>
      simp only [city.add_road, hu, hv, Prod.mk.injEq] at h
      exact ⟨h.2.symm, Or.inr rfl⟩
    | some tp =>
      exfalso
      rw [city_add_road_succeeds E c u v fp tp hu hv] at h
      simp only at h
      have h1 := city_place_after_set c u v (fp.add_road E tp.id_ tp.plane_)
        (by rw [hv]; exact Option.noConfusion)
      have h2 := city_place_after_set c u u (fp.add_road E tp.id_ tp.plane_)
        (by rw [hu]; exact Option.noConfusion)
      obtain ⟨a, ha⟩ := Option.ne_none_iff_exists'.mp h1
      obtain ⟨b, hb⟩ := Option.ne_none_iff_exists'.mp h2
      rw [city_add_road_succeeds E _ v u a b ha hb] at h
      simp at h

theorem plat_add_bidirectional_road_error (E : env) (P : plat) (u v : Nat) (e : error)
    (P1 : plat) (h : P.add_bidirectional_road E u v = (.error e, P1)) :
    P1 = P ∧ (P.place u = none ∨ P.place v = none) := by
  have hunres : P.place u = none ∨ P.place v = none := by
    by_contra hn
    have hu : P.place u ≠ none := fun e1 => hn (Or.inl e1)
    have hv : P.place v ≠ none := fun e1 => hn (Or.inr e1)
    obtain ⟨w, P2, hok⟩ := plat_add_bidirectional_road_succeeds E P u v hu hv
    rw [hok] at h
    simp at h
  refine ⟨?_, hunres⟩
  unfold plat.add_bidirectional_road at h
  by_cases hz : town_of u = town_of v
  · simp only [hz, if_true] at h
    cases ht : P.town (town_of v) with
    | none =>
      simp only [ht, Prod.mk.injEq] at h
      exact h.2.symm
    | some ct =>
      simp only [ht, Prod.mk.injEq] at h
      obtain ⟨h1, h2⟩ := h
      rcases hr : ct.add_bidirectional_road E u v with ⟨r, c1⟩
      rw [hr] at h1 h2
      simp only at h1 h2
      subst h1
      have hc := (city_add_bidirectional_road_error E ct u v e c1 hr).1
      rw [← h2, hc]
      exact plat_set_same_town P _ ct ht
  · simp only [hz, if_false] at h
    rcases plat_add_road_cases E P u v with ⟨h1, h2, _⟩ | ⟨_, e1, he1⟩
    · rcases hunres with h3 | h3
      · exact absurd h3 h1
      · exact absurd h3 h2
    · rw [he1] at h
      simp only [Prod.mk.injEq] at h
      exact h.2.symm

/-- C19: when plat::add_bidirectional_road(from, to) throws, the network is the same as
before, so neither from -> to nor to -> from has been added; this happens only when from
or to does not resolve. The same holds for city::add_bidirectional_road on a zone. -/
theorem add_bidirectional_road_atomic (E : env) (P : plat) (from_id to_id : Nat) (e : error)
    (P1 : plat) (h : P.add_bidirectional_road E from_id to_id = (.error e, P1)) :
    P1 = P ∧ (P.place from_id = none ∨ P.place to_id = none) ∧
    (∀ x y, P1.has_road x y = P.has_road x y) ∧
    (∀ (c c1 : city) (e1 : error), c.add_bidirectional_road E from_id to_id = (.error e1, c1) →
      c1 = c) := by
  obtain ⟨h1, h2⟩ := plat_add_bidirectional_road_error E P from_id to_id e P1 h
  refine ⟨h1, h2, ?_, ?_⟩
  · intro x y
    rw [h1]
  · intro c c1 e1 hc
    exact (city_add_bidirectional_road_error E c from_id to_id e1 c1 hc).1

theorem add_bidirectional_road_atomic_witness :
    (duo_base.add_bidirectional_road sample_env (city.place_id 3 1) duo_b).2 = duo_base ∧
    (duo_base.place (city.place_id 3 1) = none ∨ duo_base.place duo_b = none) :=
  have h := add_bidirectional_road_atomic sample_env duo_base (city.place_id 3 1) duo_b
    (.invalid_argument "起点所在城市不存在")
    (duo_base.add_bidirectional_road sample_env (city.place_id 3 1) duo_b).2 rfl
  ⟨h.1, h.2.1⟩

/-! ## add_road: the new road and what it leaves alone -/

/-- The zone after one of its places got a road to k: nothing but the road (u, k)
changes, and no planar point changes. -/
theorem city_set_add_road_frame (E : env) (c : city) (u k : Nat) (p : point2d) (fp : location)
    (hu : c.place u = some fp) :
    (∀ x y, (x ≠ u ∨ y ≠ k) →
      city.has_road ⟨c.id_, c.name_, umap_set c.places_ u (fp.add_road E k p)⟩ x y
        = c.has_road x y ∧
      city.road_length ⟨c.id_, c.name_, umap_set c.places_ u (fp.add_road E k p)⟩ x y
        = c.road_length x y) ∧
    (∀ x, (city.place ⟨c.id_, c.name_, umap_set c.places_ u (fp.add_road E k p)⟩ x).map
        location.plane_ = (c.place x).map location.plane_) := by
  refine ⟨?_, ?_⟩
  · intro x y hxy
    by_cases hx : x = u
    · subst hx
      have hy : y ≠ k := by
        rcases hxy with h | h
        · exact absurd rfl h
        · exact h
      simp only [city.has_road, city.road_length, city.place, umap_find_set_same]
      unfold city.place at hu
      rw [hu]
      exact ⟨has_road_to_add_road_other E fp k y p hy, road_length_to_add_road_other E fp k y p hy⟩
    · simp only [city.has_road, city.road_length, city.place]
      rw [umap_find_set_other _ _ _ _ hx]
      exact ⟨rfl, rfl⟩
  · intro x
    by_cases hx : x = u
    · subst hx
      simp only [city.place, umap_find_set_same]
      unfold city.place at hu
      rw [hu]
      rfl
    · simp only [city.place]
      rw [umap_find_set_other _ _ _ _ hx]

/-- The same for the network whose zone z has been replaced. -/
theorem plat_set_frame (P : plat) (z : Nat) (ct c1 : city) (ht : P.town z = some ct)
    (cond : Nat → Nat → Prop)
    (hf : ∀ x y, cond x y → c1.has_road x y = ct.has_road x y ∧
      c1.road_length x y = ct.road_length x y)
    (hpl : ∀ x, (c1.place x).map location.plane_ = (ct.place x).map location.plane_) :
    (∀ x y, cond x y → plat.has_road ⟨umap_set P.towns_ z c1⟩ x y = P.has_road x y ∧
      plat.road_length ⟨umap_set P.towns_ z c1⟩ x y = P.road_length x y) ∧
    (∀ x, (plat.place ⟨umap_set P.towns_ z c1⟩ x).map location.plane_
      = (P.place x).map location.plane_) := by
  refine ⟨?_, ?_⟩
  · intro x y hxy
    by_cases hx : town_of x = z
    · have h1 := plat_place_set_same P z c1 x hx
      have h2 := plat_place_of_town P x ct (hx ▸ ht)
      have := hf x y hxy
      simp only [city.has_road, city.road_length] at this
      simp only [plat.has_road, plat.road_length, h1, h2]
      exact this
    · have h1 := plat_place_set_other P z c1 x hx
      unfold plat.has_road plat.road_length
      rw [h1]
      exact ⟨rfl, rfl⟩
  · intro x
    by_cases hx : town_of x = z
    · rw [plat_place_set_same P z c1 x hx, plat_place_of_town P x ct (hx ▸ ht)]
      exact hpl x
    · rw [plat_place_set_other P z c1 x hx]

/-- What a successful plat::add_road did, in a well-formed network: the start got the
road to to_id, weighted with the distance of the two planar points. -/
theorem plat_add_road_ok (E : env) (P : plat) (hP : P.wf) (u v : Nat) (w : ℚ) (P1 : plat)
    (h : P.add_road E u v = (.ok w, P1)) :
    ∃ ct lu lv, P.town (town_of u) = some ct ∧ ct.place u = some lu ∧ P.place u = some lu ∧
      P.place v = some lv ∧
      P1 = ⟨umap_set P.towns_ (town_of u)
        ⟨ct.id_, ct.name_, umap_set ct.places_ u (lu.add_road E v lv.plane_)⟩⟩ ∧
      w = lu.plane_.distance_to E lv.plane_ := by
  cases ht : P.town (town_of u) with
  | none =>
    simp [plat.add_road, ht] at h
  | some ct =>
    have hpu := plat_place_of_town P u ct ht
    by_cases hz : town_of u = town_of v
    · have hpv := plat_place_of_town P v ct (hz ▸ ht)
      rw [plat_add_road_same_eq E P u v ct hz ht] at h
      simp only [Prod.mk.injEq] at h
      obtain ⟨h1, h2⟩ := h
      obtain ⟨fp, tp, hfp, htp, hc1, hw⟩ :=
        city_add_road_ok E ct u v w (ct.add_road E u v).2 (Prod.ext h1 rfl)
      have hid : tp.id_ = v := plat_wf_place_id P hP v tp (hpv.trans htp)
      rw [hid] at hc1 hw
      refine ⟨ct, fp, tp, rfl, hfp, hpu.trans hfp, hpv.trans htp, ?_, ?_⟩
      · rw [← h2, hc1]
      · rw [hw, road_length_to_add_road]
    · obtain ⟨ct2, fp, tp, hct2, hfp, htp, hP1, hw⟩ :=
        plat_add_road_cross_ok E P u v w P1 hz h
      rw [ht] at hct2
      have hcc : ct = ct2 := Option.some.inj hct2
      subst hcc
      refine ⟨ct, fp, tp, rfl, hfp, hpu.trans hfp, htp, hP1, ?_⟩
      rw [hw, road_length_to_add_road]

theorem plat_add_road_length (E : env) (P : plat) (u v : Nat) (ct : city) (lu : location)
    (p : point2d) :
    plat.road_length ⟨umap_set P.towns_ (town_of u)
      ⟨ct.id_, ct.name_, umap_set ct.places_ u (lu.add_road E v p)⟩⟩ u v
      = lu.plane_.distance_to E p := by
  unfold plat.road_length
  rw [plat_place_set_same P (town_of u) _ u rfl]
  simp [city.place, umap_find_set_same, road_length_to_add_road]

theorem distance_to_eq (E : env) (a b : point2d) :
    a.distance_to E b
      = E.sqrt ((b.x_ - a.x_) * (b.x_ - a.x_) + (b.y_ - a.y_) * (b.y_ - a.y_)) := rfl

theorem duo_base_wf : duo_base.wf := by decide

/-- C20: a successful plat::add_road(from, to) in a well-formed network changes nothing
but the road from -> to: for every pair (x, y) other than (from, to), has_road(x, y) and
road_length(x, y) are as before; in particular has_road(to, from) when from != to. The
same holds for city::add_road on a well-formed zone. -/
theorem add_road_directed (E : env) (P : plat) (hP : P.wf) (from_id to_id : Nat) (w : ℚ)
    (P1 : plat) (h : P.add_road E from_id to_id = (.ok w, P1)) :
    P1.has_road from_id to_id = true ∧
    (from_id ≠ to_id → P1.has_road to_id from_id = P.has_road to_id from_id) ∧
    (∀ x y, (x ≠ from_id ∨ y ≠ to_id) →
      P1.has_road x y = P.has_road x y ∧ P1.road_length x y = P.road_length x y) ∧
    (∀ (c c1 : city) (w1 : ℚ), c.wf → c.add_road E from_id to_id = (.ok w1, c1) →
      ∀ x y, (x ≠ from_id ∨ y ≠ to_id) →
        c1.has_road x y = c.has_road x y ∧ c1.road_length x y = c.road_length x y) := by
  obtain ⟨ct, lf, lt, hct, hlf, hpf, hpt, hP1, hw⟩ := plat_add_road_ok E P hP from_id to_id w P1 h
  have hframe := (plat_set_frame P (town_of from_id) ct
    ⟨ct.id_, ct.name_, umap_set ct.places_ from_id (lf.add_road E to_id lt.plane_)⟩ hct
    (fun x y => x ≠ from_id ∨ y ≠ to_id)
    (city_set_add_road_frame E ct from_id to_id lt.plane_ lf hlf).1
    (city_set_add_road_frame E ct from_id to_id lt.plane_ lf hlf).2).1
  rw [← hP1] at hframe
  refine ⟨?_, ?_, hframe, ?_⟩
  · rw [hP1]
    unfold plat.has_road
    rw [plat_place_set_same P (town_of from_id) _ from_id rfl]
    simp [city.place, umap_find_set_same, has_road_to_add_road]
  · intro hne
    exact (hframe to_id from_id (Or.inl (fun e => hne e.symm))).1
  · intro c c1 w1 hc hadd x y hxy
    obtain ⟨fp, tp, hfp, htp, hc1, _⟩ := city_add_road_ok E c from_id to_id w1 c1 hadd
    have hid : tp.id_ = to_id := city_place_id c (fun e he => (hc.2.2 e he).1) to_id tp htp
    rw [hid] at hc1
    rw [hc1]
    exact (city_set_add_road_frame E c from_id to_id tp.plane_ fp hfp).1 x y hxy

theorem add_road_directed_witness :
    duo_net.has_road duo_a duo_b = true ∧ duo_net.has_road duo_b duo_a = false :=
  have h := add_road_directed sample_env duo_base duo_base_wf duo_a duo_b _ duo_net rfl
  ⟨h.1, (h.2.1 (by decide)).trans (by decide)⟩

/-! ## Removing a road -/

/-- C22: location::remove_road(id) returns true exactly when has_road_to(id) held before
the call; afterwards has_road_to(id) is false, and for every other target the road, its
length and the rest of the location are as before. -/
theorem remove_road_spec (l : location) (id : Nat) :
    ((l.remove_road id).1 = true ↔ l.has_road_to id = true) ∧
    (l.remove_road id).2.has_road_to id = false ∧
    (∀ k, k ≠ id → umap_find (l.remove_road id).2.roads_ k = umap_find l.roads_ k) ∧
    (∀ k, k ≠ id → (l.remove_road id).2.has_road_to k = l.has_road_to k ∧
      (l.remove_road id).2.road_length_to k = l.road_length_to k) ∧
    (l.remove_road id).2.id_ = l.id_ ∧ (l.remove_road id).2.name_ = l.name_ ∧
    (l.remove_road id).2.globe_ = l.globe_ ∧ (l.remove_road id).2.plane_ = l.plane_ := by
  refine ⟨Iff.rfl, ?_, ?_, ?_, rfl, rfl, rfl, rfl⟩
  · simp [location.remove_road, location.has_road_to, umap_find_erase_same]
  · intro k hk
    simp [location.remove_road, umap_find_erase_other _ _ _ hk]
  · intro k hk
    simp [location.remove_road, location.has_road_to, location.road_length_to,
      umap_find_erase_other _ _ _ hk]

theorem remove_road_spec_witness :
    ((⟨7, "A", ⟨0, 0⟩, ⟨0, 0⟩, [(8, 5), (9, 7)]⟩ : location).remove_road 8).1 = true ∧
    ((⟨7, "A", ⟨0, 0⟩, ⟨0, 0⟩, [(8, 5), (9, 7)]⟩ : location).remove_road 8).2.has_road_to 8
      = false ∧
    ((⟨7, "A", ⟨0, 0⟩, ⟨0, 0⟩, [(8, 5), (9, 7)]⟩ : location).remove_road 8).2.has_road_to 9
      = true ∧
    ((⟨7, "A", ⟨0, 0⟩, ⟨0, 0⟩, [(8, 5), (9, 7)]⟩ : location).remove_road 3).1 = false :=
  have h := remove_road_spec ⟨7, "A", ⟨0, 0⟩, ⟨0, 0⟩, [(8, 5), (9, 7)]⟩ 8
  ⟨h.1.2 (by decide), h.2.1, ((h.2.2.2.1 9 (by decide)).1).trans (by decide), by decide⟩

/-! ## road_length of an absent road -/

/-- C23: road_length is a total function at location, city and network level, and it is
0 whenever has_road is false, also when the start does not resolve. -/
theorem road_length_absent :
    (∀ (l : location) (id : Nat), l.has_road_to id = false → l.road_length_to id = 0) ∧
    (∀ (c : city) (u v : Nat), c.has_road u v = false → c.road_length u v = 0) ∧
    (∀ (P : plat) (u v : Nat), P.has_road u v = false → P.road_length u v = 0) ∧
    (∀ (c : city) (u v : Nat), c.place u = none →
      c.has_road u v = false ∧ c.road_length u v = 0) ∧
    (∀ (P : plat) (u v : Nat), P.place u = none →
      P.has_road u v = false ∧ P.road_length u v = 0) := by
  have h0 : ∀ (l : location) (id : Nat), l.has_road_to id = false → l.road_length_to id = 0 := by
    intro l id h
    unfold location.has_road_to at h
    unfold location.road_length_to
    cases hf : umap_find l.roads_ id with
    | none => norm_num
    | some d => rw [hf] at h; simp at h
  refine ⟨h0, ?_, ?_, ?_, ?_⟩
  · intro c u v h
    unfold city.has_road at h
    unfold city.road_length
    cases hp : c.place u with
    | none => norm_num
    | some l => rw [hp] at h; exact h0 l v h
  · intro P u v h
    unfold plat.has_road at h
    unfold plat.road_length
    cases hp : P.place u with
    | none => norm_num
    | some l => rw [hp] at h; exact h0 l v h
  · intro c u v h
    unfold city.has_road city.road_length
    rw [h]
    exact ⟨rfl, by norm_num⟩
  · intro P u v h
    unfold plat.has_road plat.road_length
    rw [h]
    exact ⟨rfl, by norm_num⟩

theorem road_length_absent_witness :
    capital_net.road_length capital_id1 capital_id2 = 0 ∧
    capital_net.road_length 77 capital_id2 = 0 :=
  ⟨road_length_absent.2.2.1 capital_net capital_id1 capital_id2 (by decide),
    (road_length_absent.2.2.2.2 capital_net 77 capital_id2 (by decide)).2⟩

/-! ## plat::place and plat::remove_town -/

theorem town_of_shift (id : Nat) (h : id < 2 ^ 64) : town_of id = id >>> 32 := by
  unfold town_of
  rw [Nat.shiftRight_eq_div_pow]
  apply Nat.mod_eq_of_lt
  omega

/-- C25: plat::place(id) is a total function. It returns a location exactly when the
zone town_of id (which is id >> 32 for a 64-bit id) is present and holds a location under
id, and then it returns that location; it returns none when the zone or the entry is
missing. In a well-formed network the location returned has id() == id. -/
theorem plat_place_spec (P : plat) (id : Nat) :
    (∀ l, P.place id = some l ↔ ∃ c, P.town (town_of id) = some c ∧ c.place id = some l) ∧
    (P.place id = none ↔ (P.town (town_of id) = none ∨
      ∃ c, P.town (town_of id) = some c ∧ c.place id = none)) ∧
    (id < 2 ^ 64 → town_of id = id >>> 32) ∧
    (P.wf → ∀ l, P.place id = some l → l.id_ = id) := by
  refine ⟨?_, ?_, town_of_shift id, fun hP l h => plat_wf_place_id P hP id l h⟩
  · intro l
    cases ht : P.town (town_of id) with
    | none => simp [plat_place_none_of_town P id ht]
    | some c => simp [plat_place_of_town P id c ht]
  · cases ht : P.town (town_of id) with
    | none => simp [plat_place_none_of_town P id ht]
    | some c => simp [plat_place_of_town P id c ht]

theorem plat_place_spec_witness :
    (∀ l, capital_net.place capital_id1 = some l → l.id_ = capital_id1) ∧
    (capital_net.place capital_id1).isSome = true ∧
    capital_net.place (city.place_id 2 1) = none ∧
    capital_net.place (city.place_id 1 3) = none :=
  ⟨(plat_place_spec capital_net capital_id1).2.2.2 capital_net_wf, by decide,
    (plat_place_spec capital_net (city.place_id 2 1)).2.1.2 (Or.inl (by decide)), by decide⟩

/-- C26: plat::remove_town(zone_id) returns true exactly when the zone was present;
afterwards town(zone_id) is none and place(x) is none for every 64-bit x with
x >> 32 = zone_id, while every other zone is the same city as before, so that place(x),
has_road(x, y) and road_length(x, y) are unchanged for every x of another zone. -/
theorem remove_town_spec (P : plat) (zone_id : Nat) :
    ((P.remove_town zone_id).1 = true ↔ P.has_town zone_id = true) ∧
    (P.remove_town zone_id).2.town zone_id = none ∧
    (P.remove_town zone_id).2.has_town zone_id = false ∧
    (∀ x, x < 2 ^ 64 → x >>> 32 = zone_id → (P.remove_town zone_id).2.place x = none) ∧
    (∀ z, z ≠ zone_id → (P.remove_town zone_id).2.town z = P.town z) ∧
    (∀ x, town_of x ≠ zone_id → (P.remove_town zone_id).2.place x = P.place x ∧
      ∀ y, (P.remove_town zone_id).2.has_road x y = P.has_road x y ∧
        (P.remove_town zone_id).2.road_length x y = P.road_length x y) := by
  have hsame : (P.remove_town zone_id).2.town zone_id = none := by
    simp [plat.remove_town, plat.town, umap_find_erase_same]
  have hother : ∀ z, z ≠ zone_id → (P.remove_town zone_id).2.town z = P.town z := by
    intro z hz
    simp [plat.remove_town, plat.town, umap_find_erase_other _ _ _ hz]
  refine ⟨Iff.rfl, hsame, ?_, ?_, hother, ?_⟩
  · have := hsame
    unfold plat.town at this
    unfold plat.has_town
    rw [this]
    rfl
  · intro x hx hz
    apply plat_place_none_of_town
    rw [town_of_shift x hx, hz]
    exact hsame
  · intro x hx
    have hp : (P.remove_town zone_id).2.place x = P.place x := by
      have := hother (town_of x) hx
      unfold plat.town at this
      unfold plat.place
      rw [this]
    refine ⟨hp, fun y => ?_⟩
    unfold plat.has_road plat.road_length
    rw [hp]
    exact ⟨rfl, rfl⟩

theorem remove_town_spec_witness :
    (duo_net.remove_town 1).1 = true ∧ (duo_net.remove_town 1).2.place duo_a = none ∧
    (duo_net.remove_town 1).2.place duo_b = duo_net.place duo_b ∧
    (duo_net.remove_town 3).1 = false :=
  have h := remove_town_spec duo_net 1
  ⟨h.1.2 (by decide), h.2.2.2.1 duo_a (by decide) (by decide),
    (h.2.2.2.2.2 duo_b (by decide)).1, by decide⟩

/-! ## Adding a road twice, roads of length 0 -/

theorem umap_set_twice {β : Type} (m : List (Nat × β)) (k : Nat) (v : β) :
    umap_set (umap_set m k v) k v = umap_set m k v :=
  umap_set_same_value _ k v (umap_find_set_same m k v)

theorem location_add_road_twice (E : env) (l : location) (k : Nat) (p q : point2d)
    (h : q = p) : (l.add_road E k p).add_road E k q = l.add_road E k p := by
  subst h
  unfold location.add_road
  simp only [umap_set_twice]

theorem umap_keys_set_count {β : Type} (m : List (Nat × β)) (k : Nat) (v : β)
    (h : (umap_keys m).Nodup) : (umap_keys (umap_set m k v)).count k = 1 := by
  apply List.count_eq_one_of_mem (umap_keys_set_nodup m k v h)
  have := umap_find_mem _ k v (umap_find_set_same m k v)
  exact List.mem_map.2 ⟨(k, v), this, rfl⟩

/-- What plat::add_road does when both ends resolve, in a well-formed network. -/
theorem plat_add_road_resolved (E : env) (P : plat) (hP : P.wf) (u v : Nat) (lu lv : location)
    (hu : P.place u = some lu) (hv : P.place v = some lv) :
    ∃ ct, P.town (town_of u) = some ct ∧ ct.place u = some lu ∧
      P.add_road E u v = (.ok (lu.plane_.distance_to E lv.plane_),
        ⟨umap_set P.towns_ (town_of u)
          ⟨ct.id_, ct.name_, umap_set ct.places_ u (lu.add_road E v lv.plane_)⟩⟩) := by
  rcases plat_add_road_cases E P u v with ⟨_, _, w, hw⟩ | ⟨hn, _⟩
  · have h : P.add_road E u v = (.ok w, (P.add_road E u v).2) := Prod.ext hw rfl
    obtain ⟨ct, lu1, lv1, hct, hlu, hpu, hpv, hP1, hw1⟩ := plat_add_road_ok E P hP u v w _ h
    rw [hu] at hpu
    rw [hv] at hpv
    have e1 : lu = lu1 := Option.some.inj hpu
    have e2 : lv = lv1 := Option.some.inj hpv
    subst e1 e2
    refine ⟨ct, hct, hlu, ?_⟩
    rw [h, hw1]
    exact congrArg (Prod.mk _) hP1
  · rcases hn with hn | hn
    · rw [hu] at hn
      exact absurd hn (by simp)
    · rw [hv] at hn
      exact absurd hn (by simp)

/-- C21: in a well-formed network, a second plat::add_road(from, to) right after a
successful one returns the same weight and leaves the network exactly as the first call
left it; when the keys of the adjacency of from were distinct before, it then holds
exactly one entry for to. The same holds for city::add_road on a zone. -/
theorem add_road_idempotent (E : env) (P : plat) (hP : P.wf) (from_id to_id : Nat) (w : ℚ)
    (P1 : plat) (h : P.add_road E from_id to_id = (.ok w, P1)) :
    P1.add_road E from_id to_id = (.ok w, P1) ∧
    (∀ lf, P.place from_id = some lf → (umap_keys lf.roads_).Nodup →
      ∃ lf1, P1.place from_id = some lf1 ∧ (umap_keys lf1.roads_).count to_id = 1) ∧
    (∀ (c c1 : city) (w1 : ℚ), c.add_road E from_id to_id = (.ok w1, c1) →
      c1.add_road E from_id to_id = (.ok w1, c1)) := by
  obtain ⟨ct, lf, lt, hct, hlf, hpf, hpt, hP1, hw⟩ := plat_add_road_ok E P hP from_id to_id w P1 h
  have hwf1 : P1.wf := by
    have := plat_add_road_wf E P hP from_id to_id
    rw [h] at this
    exact this
  have hplane := (plat_set_frame P (town_of from_id) ct
    ⟨ct.id_, ct.name_, umap_set ct.places_ from_id (lf.add_road E to_id lt.plane_)⟩ hct
    (fun x y => x ≠ from_id ∨ y ≠ to_id)
    (city_set_add_road_frame E ct from_id to_id lt.plane_ lf hlf).1
    (city_set_add_road_frame E ct from_id to_id lt.plane_ lf hlf).2).2
  rw [← hP1] at hplane
  have hf1 : P1.place from_id = some (lf.add_road E to_id lt.plane_) := by
    rw [hP1, plat_place_set_same P (town_of from_id) _ from_id rfl]
    simp [city.place, umap_find_set_same]
  have ht1 : ∃ lt1, P1.place to_id = some lt1 ∧ lt1.plane_ = lt.plane_ := by
    have := hplane to_id
    rw [hpt] at this
    cases hq : P1.place to_id with
    | none => rw [hq] at this; simp at this
    | some lt1 =>
      rw [hq] at this
      exact ⟨lt1, rfl, by simpa using this⟩
  obtain ⟨lt1, hlt1, hpl⟩ := ht1
  refine ⟨?_, ?_, ?_⟩
  · obtain ⟨ct1, hct1, _, hadd⟩ :=
      plat_add_road_resolved E P1 hwf1 from_id to_id _ lt1 hf1 hlt1
    have hc : ct1 = ⟨ct.id_, ct.name_,
        umap_set ct.places_ from_id (lf.add_road E to_id lt.plane_)⟩ := by
      have : P1.town (town_of from_id) = some ⟨ct.id_, ct.name_,
          umap_set ct.places_ from_id (lf.add_road E to_id lt.plane_)⟩ := by
        rw [hP1]
        exact umap_find_set_same _ _ _
      rw [hct1] at this
      exact Option.some.inj this
    rw [hadd, hc, location_add_road_twice E lf to_id lt.plane_ lt1.plane_ hpl, umap_set_twice,
      add_road_plane, hpl, ← hw]
    have hPt : P1.towns_ = umap_set P.towns_ (town_of from_id) ⟨ct.id_, ct.name_,
        umap_set ct.places_ from_id (lf.add_road E to_id lt.plane_)⟩ := by
      rw [hP1]
    rw [hPt, umap_set_twice, ← hPt]
  · intro lf0 h0 hnd
    rw [hpf] at h0
    have e : lf = lf0 := Option.some.inj h0
    subst e
    exact ⟨_, hf1, umap_keys_set_count lf.roads_ to_id _ hnd⟩
  · intro c c1 w1 hadd
    obtain ⟨fp, tp, hfp, htp, hc1, hw1⟩ := city_add_road_ok E c from_id to_id w1 c1 hadd
    have hfp1 : c1.place from_id = some (fp.add_road E tp.id_ tp.plane_) := by
      rw [hc1]
      simp [city.place, umap_find_set_same]
    have htp1 : ∃ tp1, c1.place to_id = some tp1 ∧ tp1.id_ = tp.id_ ∧ tp1.plane_ = tp.plane_ := by
      by_cases hx : to_id = from_id
      · rw [hx] at htp ⊢
        rw [hfp] at htp
        have e : fp = tp := Option.some.inj htp
        subst e
        exact ⟨_, hfp1, rfl, rfl⟩
      · refine ⟨tp, ?_, rfl, rfl⟩
        rw [hc1]
        unfold city.place at htp ⊢
        simp only
        rw [umap_find_set_other _ _ _ _ hx]
        exact htp
    obtain ⟨tp1, htp1, hid, hpl1⟩ := htp1
    rw [city_add_road_succeeds E c1 from_id to_id _ tp1 hfp1 htp1, hid, hpl1,
      location_add_road_twice E fp tp.id_ tp.plane_ tp.plane_ rfl, ← hw1]
    have hcp : c1.places_ = umap_set c.places_ from_id (fp.add_road E tp.id_ tp.plane_) := by
      rw [hc1]
    rw [hcp, umap_set_twice, ← hcp]

theorem add_road_idempotent_witness :
    (duo_net.add_road sample_env duo_a duo_b).2 = duo_net ∧
    (∃ lf1, duo_net.place duo_a = some lf1 ∧ (umap_keys lf1.roads_).count duo_b = 1) :=
  have h := add_road_idempotent sample_env duo_base duo_base_wf duo_a duo_b _ duo_net rfl
  ⟨congrArg Prod.snd h.1, h.2.1 _ rfl (by decide)⟩

theorem sample_env_sqrt_zero : sample_env.sqrt 0 = 0 := by
  simp [sample_env]

/-- C24: on a platform with sqrt(0) = 0, when from and to resolve in a well-formed network
to locations with the same planar point (two places created at identical coordinates, or
from = to), plat::add_road(from, to) succeeds and returns 0; afterwards has_road(from, to)
is true while road_length(from, to) is 0. -/
theorem zero_length_road (E : env) (h0 : E.sqrt 0 = 0) (P : plat) (hP : P.wf)
    (from_id to_id : Nat) (lf lt : location) (hf : P.place from_id = some lf)
    (ht : P.place to_id = some lt) (hpl : lf.plane_ = lt.plane_) :
    ∃ P1, P.add_road E from_id to_id = (.ok 0, P1) ∧ P1.has_road from_id to_id = true ∧
      P1.road_length from_id to_id = 0 := by
  obtain ⟨ct, _, _, hadd⟩ := plat_add_road_resolved E P hP from_id to_id lf lt hf ht
  have hd : lf.plane_.distance_to E lt.plane_ = 0 := by
    rw [distance_to_eq, hpl]
    simpa using h0
  rw [hd] at hadd
  refine ⟨_, hadd, ?_, ?_⟩
  · unfold plat.has_road
    rw [plat_place_set_same P (town_of from_id) _ from_id rfl]
    simp [city.place, umap_find_set_same, has_road_to_add_road]
  · rw [plat_add_road_length, hd]

theorem zero_length_road_witness :
    ∃ P1, capital_net.add_road sample_env capital_id1 capital_id1 = (.ok 0, P1) ∧
      P1.has_road capital_id1 capital_id1 = true ∧
      P1.road_length capital_id1 capital_id1 = 0 :=
  zero_length_road sample_env sample_env_sqrt_zero capital_net capital_net_wf capital_id1
    capital_id1 _ _ rfl rfl rfl

/-! ## Text search -/

theorem str_find_iff (hay needle : List Char) :
    str_find hay needle = true ↔ needle <:+: hay := by
  induction hay with
  | nil =>
    unfold str_find
    rw [List.isPrefixOf_iff_prefix, List.infix_nil, List.prefix_nil]
  | cons c hay ih =>
    unfold str_find
    rw [Bool.or_eq_true, List.isPrefixOf_iff_prefix, ih, List.infix_cons_iff]

theorem to_lower_append (a b : String) : to_lower (a ++ b) = to_lower a ++ to_lower b := by
  simp [to_lower]

/-- The matches of one town, in the order of its place table. -/
theorem fuzzy_scan_town_eq (kw : List Char) (t : city) (acc : List (Nat × String)) :
    fuzzy_scan_town kw t acc = acc ++
      (t.places_.filter (fun e => str_find (to_lower (t.name_ ++ e.2.name_)) kw)).map
        (fun e => (e.1, t.name_ ++ " " ++ e.2.name_)) := by
  unfold fuzzy_scan_town
  generalize t.places_ = l
  induction l generalizing acc with
  | nil => simp
  | cons e l ih =>
    rw [List.foldl_cons, ih]
    by_cases h : str_find (to_lower (t.name_ ++ e.2.name_)) kw = true
    · simp [h]
    · simp [h]

theorem fuzzy_scan_towns_eq (kw : List Char) (ts : List (Nat × city)) (acc : List (Nat × String)) :
    ts.foldl (fun acc t => fuzzy_scan_town kw t.2 acc) acc = acc ++
      ts.flatMap (fun t =>
        (t.2.places_.filter (fun e => str_find (to_lower (t.2.name_ ++ e.2.name_)) kw)).map
          (fun e => (e.1, t.2.name_ ++ " " ++ e.2.name_))) := by
  induction ts generalizing acc with
  | nil => simp
  | cons t ts ih =>
    rw [List.foldl_cons, ih, fuzzy_scan_town_eq]
    simp

theorem fuzzy_find_places_perm (P : plat) (keyword : String) (h : keyword ≠ "") :
    (P.fuzzy_find_places keyword).Perm
      (P.towns_.flatMap (fun t =>
        (t.2.places_.filter
          (fun e => str_find (to_lower (t.2.name_ ++ e.2.name_)) (to_lower keyword))).map
          (fun e => (e.1, t.2.name_ ++ " " ++ e.2.name_)))) := by
  unfold plat.fuzzy_find_places
  rw [if_neg h]
  simp only
  rw [fuzzy_scan_towns_eq]
  simpa using List.perm_insertionSort _ _

theorem fuzzy_find_places_mem (P : plat) (keyword : String) (id : Nat) (display : String) :
    (id, display) ∈ P.fuzzy_find_places keyword ↔
      keyword ≠ "" ∧ ∃ t ∈ P.towns_, ∃ e ∈ t.2.places_, e.1 = id ∧
        display = t.2.name_ ++ " " ++ e.2.name_ ∧
        to_lower keyword <:+: to_lower (t.2.name_ ++ e.2.name_) := by
  by_cases h : keyword = ""
  · simp [plat.fuzzy_find_places, h]
  · rw [(fuzzy_find_places_perm P keyword h).mem_iff]
    simp only [List.mem_flatMap, List.mem_map, List.mem_filter, str_find_iff, Prod.mk.injEq]
    constructor
    · rintro ⟨t, ht, e, ⟨he, hm⟩, h1, h2⟩
      exact ⟨h, t, ht, e, he, h1, h2.symm, hm⟩
    · rintro ⟨_, t, ht, e, he, h1, h2, hm⟩
      exact ⟨t, ht, e, ⟨he, hm⟩, h1, h2.symm⟩

theorem str_less_irrefl (a : List Char) : str_less a a = false := by
  induction a with
  | nil => rfl
  | cons c a ih => simp [str_less, ih]

theorem str_less_total (a b : List Char) : str_less b a = false ∨ str_less a b = false := by
  induction a generalizing b with
  | nil => left; cases b <;> rfl
  | cons x a ih =>
    cases b with
    | nil => right; rfl
    | cons y b =>
      simp only [str_less, Bool.or_eq_false_iff, Bool.and_eq_false_iff, decide_eq_false_iff_not]
      rcases ih b with h | h
      · rcases Nat.lt_trichotomy x.toNat y.toNat with h1 | h1 | h1
        · left; exact ⟨by omega, Or.inl (by omega)⟩
        · left; exact ⟨by omega, Or.inr h⟩
        · right; exact ⟨by omega, Or.inl (by omega)⟩
      · rcases Nat.lt_trichotomy x.toNat y.toNat with h1 | h1 | h1
        · left; exact ⟨by omega, Or.inl (by omega)⟩
        · right; exact ⟨by omega, Or.inr h⟩
        · right; exact ⟨by omega, Or.inl (by omega)⟩

theorem str_less_trans (a b c : List Char) (h1 : str_less b a = false)
    (h2 : str_less c b = false) : str_less c a = false := by
  induction a generalizing b c with
  | nil => cases c <;> rfl
  | cons x a ih =>
    cases b with
    | nil => simp [str_less] at h1
    | cons y b =>
      cases c with
      | nil => simp [str_less] at h2
      | cons z c =>
        simp only [str_less, Bool.or_eq_false_iff, Bool.and_eq_false_iff,
          decide_eq_false_iff_not] at h1 h2 ⊢
        obtain ⟨h1a, h1b⟩ := h1
        obtain ⟨h2a, h2b⟩ := h2
        refine ⟨by omega, ?_⟩
        by_cases hzx : z.toNat = x.toNat
        · right
          have hyx : y.toNat = x.toNat := by omega
          have hzy : z.toNat = y.toNat := by omega
          rcases h1b with h | h
          · exact absurd hyx h
          · rcases h2b with h' | h'
            · exact absurd hzy h'
            · exact ih b c h h'
        · left; exact hzx
theorem char_lt_iff (a b : Char) : a.toNat < b.toNat ↔ a < b := Iff.rfl

theorem char_toNat_inj (a b : Char) (h : a.toNat = b.toNat) : a = b := by
  apply Char.ext
  apply UInt32.ext
  exact h

theorem str_less_iff_lt (a b : List Char) : str_less a b = true ↔ a < b := by
  induction a generalizing b with
  | nil =>
    cases b with
    | nil => simp [str_less]
    | cons y b =>
      simp only [str_less, true_iff]
      exact List.Lex.nil
  | cons x a ih =>
    cases b with
    | nil => simp [str_less]
    | cons y b =>
      simp only [str_less, Bool.or_eq_true, Bool.and_eq_true, decide_eq_true_iff, ih]
      constructor
      · rintro (h | ⟨h1, h2⟩)
        · exact List.Lex.rel ((char_lt_iff x y).1 h)
        · have := char_toNat_inj x y h1
          subst this
          exact List.Lex.cons h2
      · intro h
        cases h with
        | rel h => exact Or.inl ((char_lt_iff x y).2 h)
        | cons h => exact Or.inr ⟨rfl, h⟩

/-- The comparison str_less is the order of strings. -/
theorem str_less_iff (a b : String) : str_less a.data b.data = true ↔ a < b := by
  rw [str_less_iff_lt, String.lt_iff_toList_lt]
  rfl

theorem fuzzy_find_places_sorted (P : plat) (keyword : String) :
    (P.fuzzy_find_places keyword).Sorted (fun a b => str_less b.2.data a.2.data = false) := by
  haveI : IsTotal (Nat × String) (fun a b => str_less b.2.data a.2.data = false) :=
    ⟨fun a b => str_less_total a.2.data b.2.data⟩
  haveI : IsTrans (Nat × String) (fun a b => str_less b.2.data a.2.data = false) :=
    ⟨fun a b c h1 h2 => str_less_trans a.2.data b.2.data c.2.data h1 h2⟩
  unfold plat.fuzzy_find_places
  by_cases h : keyword = ""
  · rw [if_pos h]
    exact List.sorted_nil
  · rw [if_neg h]
    exact List.sorted_insertionSort _ _

/-- C27: a pair (id, display) is in fuzzy_find_places(keyword) exactly when the keyword is
not empty and some place entry e of some stored town t has id e.1, display
"<name of t> <name of e>", and the lower-cased keyword occurs in the lower-cased
concatenation of the two names. For a keyword that is not empty the result is a
permutation of the list of the matching entries, one pair for each. The empty keyword
gives the empty list, and "ZHONG" finds every place named "zhongshan". -/
theorem fuzzy_find_places_spec (P : plat) (keyword : String) :
    (∀ id display, (id, display) ∈ P.fuzzy_find_places keyword ↔
      keyword ≠ "" ∧ ∃ t ∈ P.towns_, ∃ e ∈ t.2.places_, e.1 = id ∧
        display = t.2.name_ ++ " " ++ e.2.name_ ∧
        to_lower keyword <:+: to_lower (t.2.name_ ++ e.2.name_)) ∧
    (keyword ≠ "" → (P.fuzzy_find_places keyword).Perm
      (P.towns_.flatMap (fun t =>
        (t.2.places_.filter
          (fun e => decide (to_lower keyword <:+: to_lower (t.2.name_ ++ e.2.name_)))).map
          (fun e => (e.1, t.2.name_ ++ " " ++ e.2.name_))))) ∧
    P.fuzzy_find_places "" = [] ∧
    (∀ t ∈ P.towns_, ∀ e ∈ t.2.places_, e.2.name_ = "zhongshan" →
      (e.1, t.2.name_ ++ " zhongshan") ∈ P.fuzzy_find_places "ZHONG") := by
  refine ⟨fuzzy_find_places_mem P keyword, ?_, rfl, ?_⟩
  · intro h
    have hp := fuzzy_find_places_perm P keyword h
    have he : ∀ (t : Nat × city) (e : Nat × location),
        str_find (to_lower (t.2.name_ ++ e.2.name_)) (to_lower keyword)
          = decide (to_lower keyword <:+: to_lower (t.2.name_ ++ e.2.name_)) := by
      intro t e
      rw [Bool.eq_iff_iff, str_find_iff, decide_eq_true_iff]
    simpa only [he] using hp
  · intro t ht e he hn
    rw [fuzzy_find_places_mem]
    refine ⟨by decide, t, ht, e, he, rfl, by rw [hn, String.append_assoc]; rfl, ?_⟩
    rw [hn, to_lower_append]
    exact ⟨to_lower t.2.name_, ['s', 'h', 'a', 'n'], by simp [to_lower]⟩

theorem fuzzy_find_places_spec_witness :
    capital_net.fuzzy_find_places "CAP"
      = [(capital_id1, "Capital A"), (capital_id2, "Capital B")] ∧
    capital_net.fuzzy_find_places "b" = [(capital_id2, "Capital B")] ∧
    capital_net.fuzzy_find_places "x" = [] ∧
    capital_net.fuzzy_find_places "" = [] :=
  ⟨by decide, by decide, by decide, (fuzzy_find_places_spec capital_net "CAP").2.2.1⟩

/-- C28: the list returned by fuzzy_find_places is in ascending order of the display
string under operator< of std::string, which is the order of strings: of any two entries
the display string of the later one is not less than that of the earlier one, in
particular for consecutive entries. -/
theorem fuzzy_find_places_ascending (P : plat) (keyword : String) :
    (P.fuzzy_find_places keyword).Pairwise (fun a b => str_less b.2.data a.2.data = false) ∧
    (P.fuzzy_find_places keyword).Chain' (fun a b => str_less b.2.data a.2.data = false) ∧
    (∀ (i j : Nat) (hi : i < j) (hj : j < (P.fuzzy_find_places keyword).length),
      str_less ((P.fuzzy_find_places keyword).get ⟨j, hj⟩).2.data
        ((P.fuzzy_find_places keyword).get ⟨i, hi.trans hj⟩).2.data = false) ∧
    (P.fuzzy_find_places keyword).Chain' (fun a b => ¬ b.2 < a.2) := by
  have h := fuzzy_find_places_sorted P keyword
  refine ⟨h, List.Pairwise.chain' h, ?_, ?_⟩
  · intro i j hi hj
    exact List.pairwise_iff_get.1 h ⟨i, hi.trans hj⟩ ⟨j, hj⟩ hi
  · refine List.Pairwise.chain' (List.Pairwise.imp ?_ h)
    intro a b hab hlt
    rw [← str_less_iff, hab] at hlt
    exact Bool.false_ne_true hlt

theorem fuzzy_find_places_ascending_witness :
    capital_net.fuzzy_find_places "A"
      = [(capital_id1, "Capital A"), (capital_id2, "Capital B")] ∧
    str_less "Capital B".data "Capital A".data = false ∧
    str_less "Capital A".data "Capital B".data = true ∧
    (capital_net.fuzzy_find_places "A").Pairwise
      (fun a b => str_less b.2.data a.2.data = false) :=
  ⟨by decide, by decide, by decide, (fuzzy_find_places_ascending capital_net "A").1⟩

/-! ## Persistence -/

/-- C29: the road across zones is lost. In duo_net, zone 1 holds A, zone 2 holds B and a
road leads from A to B. save_all_cities_as_json writes that road into the record of
zone 1; load_all_cities_from_json hands it to city::add_road of zone 1, which does not
hold B and throws invalid_argument, whichever of the two city records comes first in the
file, and the road A -> B is not in the network left behind. The one-zone network
capital_road_net, with its bidirectional road, is reproduced exactly. -/
theorem load_save_cross_zone :
    duo_net.wf ∧ duo_net.has_road duo_a duo_b = true ∧ town_of duo_a ≠ town_of duo_b ∧
    duo_net.save_all_cities_as_json
      = [⟨1, "East", [⟨duo_a, "A", 116.00, 39.90⟩], [⟨duo_a, duo_b, false⟩]⟩,
         ⟨2, "West", [⟨duo_b, "B", 121.40, 31.20⟩], []⟩] ∧
    (plat.load_all_cities_from_json sample_env plat.empty duo_net.save_all_cities_as_json).1
      = .error (.invalid_argument "地点ID不存在") ∧
    (plat.load_all_cities_from_json sample_env plat.empty
      duo_net.save_all_cities_as_json).2.has_road duo_a duo_b = false ∧
    (plat.load_all_cities_from_json sample_env plat.empty
      duo_net.save_all_cities_as_json.reverse).1 = .error (.invalid_argument "地点ID不存在") ∧
    (plat.load_all_cities_from_json sample_env plat.empty
      duo_net.save_all_cities_as_json.reverse).2.has_road duo_a duo_b = false ∧
    plat.load_all_cities_from_json sample_env plat.empty
      capital_road_net.save_all_cities_as_json = (.ok (), capital_road_net) :=
  ⟨by decide, by decide, by decide, rfl, rfl, by decide, rfl, by decide, rfl⟩

/-! ## Ids of reachable networks -/

theorem built_wf (E : env) (P : plat) (h : plat.built E P) : P.wf := by
  induction h with
  | empty => exact plat_empty_wf
  | add_town P id name _ ih => exact plat_add_town_wf P ih id name
  | add_place P z c id name globe _ ht ih =>
    have hm := ih.2 (z, c) (umap_find_mem _ z c ht)
    refine plat_wf_set P ih z _ (city_add_place_wf E c hm.2 id name globe) ?_
    have : (c.add_place E id name globe).2.id_ = c.id_ := by
      unfold city.add_place
      split
      · rfl
      · split <;> rfl
    rw [this]
    exact hm.1
  | add_local_place P z c serial name globe _ ht ih =>
    have hm := ih.2 (z, c) (umap_find_mem _ z c ht)
    refine plat_wf_set P ih z _ (city_add_local_place_wf E c hm.2 serial name globe) ?_
    have : (c.add_local_place E serial name globe).2.id_ = c.id_ := by
      unfold city.add_local_place
      simp only
      split
      · rfl
      · split <;> rfl
    rw [this]
    exact hm.1

theorem zero_serial_net_built : plat.built sample_env zero_serial_net :=
  plat.built.add_local_place _ 1 _ 0 "A" _ (plat.built.add_town _ 1 "Capital" plat.built.empty) rfl

theorem low_id_net_built : plat.built sample_env low_id_net :=
  plat.built.add_place _ 1 _ 5 "A" _ (plat.built.add_town _ 1 "Capital" plat.built.empty) rfl

/-- C30, as stated, fails: after add_town(1, "Capital") and add_local_place(0, "A", ...)
zone 1 holds a location under the id 2^32, whose serial part is 0; after add_town(1,
"Capital") and add_place(5, "A", ...) zone 1 holds a location under the id 5, whose zone
part is 0. -/
theorem nonzero_parts_counterexample :
    plat.built sample_env zero_serial_net ∧
    (zero_serial_net.place 4294967296).isSome = true ∧
    (4294967296 : Nat) &&& 0xFFFFFFFF = 0 ∧
    plat.built sample_env low_id_net ∧
    (∃ c, low_id_net.town 1 = some c ∧ c.has_place 5 = true) ∧
    (5 : Nat) >>> 32 = 0 :=
  ⟨zero_serial_net_built, by decide, by decide, low_id_net_built, ⟨_, rfl, by decide⟩,
    by decide⟩

/-- C30, amended: in every network built from the empty one by add_town, add_place and
add_local_place, every zone id is nonzero and is the id of the city stored under it, and
every location is stored under its own id, which is nonzero: the id 0 is assigned to no
zone and to no location. When add_local_place on a zone with a 32-bit id takes a 32-bit
serial, the new id has the nonzero zone id as its zone part and the serial, which may be
0, as its serial part. -/
theorem built_ids_nonzero (E : env) (P : plat) (h : plat.built E P) :
    (∀ t ∈ P.towns_, t.1 ≠ 0 ∧ t.2.id_ = t.1 ∧
      ∀ e ∈ t.2.places_, e.1 ≠ 0 ∧ e.2.id_ = e.1) ∧
    (∀ z c, P.town z = some c → z ≠ 0 ∧ c.id_ = z) ∧
    (∀ id l, P.place id = some l → id ≠ 0 ∧ l.id_ = id) ∧
    (∀ z c serial name globe l c1, P.town z = some c → z < 2 ^ 32 → serial < 2 ^ 32 →
      c.add_local_place E serial name globe = (.ok l, c1) →
      l.id_ ≠ 0 ∧ l.id_ >>> 32 = z ∧ z ≠ 0 ∧ l.id_ &&& 0xFFFFFFFF = serial) := by
  have hP := built_wf E P h
  have htown : ∀ z c, P.town z = some c → z ≠ 0 ∧ c.id_ = z := by
    intro z c hz
    have hm := hP.2 (z, c) (umap_find_mem _ z c hz)
    exact ⟨fun e => hm.2.1 (hm.1.trans e), hm.1⟩
  refine ⟨?_, htown, ?_, ?_⟩
  · intro t ht
    have hm := hP.2 t ht
    refine ⟨fun e => hm.2.1 (hm.1.trans e), hm.1, ?_⟩
    intro e he
    have := hm.2.2.2 e he
    exact ⟨this.2, this.1⟩
  · intro id l hl
    exact ⟨plat_wf_place_ne_zero P hP id l hl, plat_wf_place_id P hP id l hl⟩
  · intro z c serial name globe l c1 hz hz32 hs hadd
    obtain ⟨hz0, hcz⟩ := htown z c hz
    have hl : l.id_ = city.place_id c.id_ serial := by
      unfold city.add_local_place at hadd
      simp only at hadd
      by_cases hp : c.has_place (city.place_id c.id_ serial) = true
      · simp [hp] at hadd
      · simp only [hp, Bool.false_eq_true, if_false] at hadd
        unfold location.init at hadd
        by_cases h0 : city.place_id c.id_ serial = 0
        · simp [h0] at hadd
        · simp only [h0, if_false, Prod.mk.injEq, Except.ok.injEq] at hadd
          rw [← hadd.1]
    rw [hl, hcz, place_id_eq z serial hz32 hs]
    have hmask : ∀ x : Nat, x &&& 0xFFFFFFFF = x % 2 ^ 32 := by
      intro x
      simpa using Nat.and_pow_two_sub_one_eq_mod x 32
    refine ⟨by omega, ?_, hz0, ?_⟩
    · rw [Nat.shiftRight_eq_div_pow]
      omega
    · rw [hmask]
      omega

theorem built_ids_nonzero_witness :
    (∀ id l, zero_serial_net.place id = some l → id ≠ 0 ∧ l.id_ = id) ∧
    (∀ z c, low_id_net.town z = some c → z ≠ 0 ∧ c.id_ = z) :=
  ⟨(built_ids_nonzero sample_env zero_serial_net
      (plat.built.add_local_place _ 1 _ 0 "A" _
        (plat.built.add_town _ 1 "Capital" plat.built.empty) rfl)).2.2.1,
    (built_ids_nonzero sample_env low_id_net
      (plat.built.add_place _ 1 _ 5 "A" _
        (plat.built.add_town _ 1 "Capital" plat.built.empty) rfl)).2.1⟩

/-! ## Removing a place: what stays -/

/-- A place other than id after city::remove_place(id): dropped or kept as it was when the
zone does not hold id, else the same location without its road to id. -/
theorem city_remove_place_place (c : city) (id x : Nat) (hx : x ≠ id) :
    (c.remove_place id).2.place x = c.place x ∨
    (c.remove_place id).2.place x = (c.place x).map (fun l => (l.remove_road id).2) := by
  by_cases h : c.has_place id = true
  · right
    simp only [city.remove_place, h, Bool.not_true, Bool.false_eq_true, if_false, city.place]
    rw [umap_find_erase_other _ _ _ hx, umap_find_map c.places_ (fun l => (l.remove_road id).2) x]
  · left
    have h2 : c.has_place id = false := by simpa using h
    simp [city.remove_place, h2]

theorem remove_road_has_road_other (l : location) (id y : Nat) (hy : y ≠ id) :
    (l.remove_road id).2.has_road_to y = l.has_road_to y ∧
    (l.remove_road id).2.road_length_to y = l.road_length_to y := by
  simp [location.remove_road, location.has_road_to, location.road_length_to,
    umap_find_erase_other _ _ _ hy]

/-- C38: city::remove_place(id) (and city::remove_local_place, for the id of a serial)
leaves the id and name of the zone; every other id x resolves exactly when it did, to a
location of the same id, name, geodetic and planar point; for x and y other than id,
has_road(x, y) and road_length(x, y) are as before. In a network whose zone z is replaced
by the result, the other zones and every place, road and road length of an id of another
zone are unchanged. -/
theorem remove_place_frame (c : city) (id : Nat) :
    (c.remove_place id).2.id_ = c.id_ ∧ (c.remove_place id).2.name_ = c.name_ ∧
    (∀ x, x ≠ id → (c.remove_place id).2.has_place x = c.has_place x ∧
      ((c.remove_place id).2.place x).map location.id_ = (c.place x).map location.id_ ∧
      ((c.remove_place id).2.place x).map location.name_ = (c.place x).map location.name_ ∧
      ((c.remove_place id).2.place x).map location.globe_ = (c.place x).map location.globe_ ∧
      ((c.remove_place id).2.place x).map location.plane_ = (c.place x).map location.plane_) ∧
    (∀ x y, x ≠ id → y ≠ id →
      (c.remove_place id).2.has_road x y = c.has_road x y ∧
      (c.remove_place id).2.road_length x y = c.road_length x y) ∧
    (∀ serial, c.remove_local_place serial = c.remove_place (city.place_id c.id_ serial)) ∧
    (∀ (P : plat) (z : Nat),
      (∀ z1, z1 ≠ z → (P.set_town z (c.remove_place id).2).town z1 = P.town z1) ∧
      (∀ x, town_of x ≠ z → (P.set_town z (c.remove_place id).2).place x = P.place x ∧
        ∀ y, (P.set_town z (c.remove_place id).2).has_road x y = P.has_road x y ∧
          (P.set_town z (c.remove_place id).2).road_length x y = P.road_length x y)) := by
  refine ⟨?_, ?_, ?_, ?_, fun serial => remove_local_place_eq c serial, ?_⟩
  · unfold city.remove_place
    split <;> rfl
  · unfold city.remove_place
    split <;> rfl
  · intro x hx
    rcases city_remove_place_place c id x hx with h | h
    · simp only [city.has_place] at *
      unfold city.place at h
      simp only [city.place, h, and_self]
    · unfold city.place at h
      simp only [city.has_place, city.place, h]
      cases umap_find c.places_ x with
      | none => simp
      | some l => simp [location.remove_road]
  · intro x y hx hy
    rcases city_remove_place_place c id x hx with h | h
    · simp only [city.has_road, city.road_length, h, and_self]
    · simp only [city.has_road, city.road_length, h]
      cases c.place x with
      | none => simp
      | some l => simpa using remove_road_has_road_other l id y hy
  · intro P z
    refine ⟨?_, ?_⟩
    · intro z1 hz1
      simp only [plat.set_town, plat.town]
      exact umap_find_set_other _ _ _ _ hz1
    · intro x hx
      have hp := plat_set_town_place_other P z (c.remove_place id).2 x hx
      refine ⟨hp, fun y => ?_⟩
      unfold plat.has_road plat.road_length
      rw [hp]
      exact ⟨rfl, rfl⟩

theorem remove_place_frame_witness :
    (capital_town.remove_place capital_id2).2.has_place capital_id1 = true ∧
    ((capital_town.remove_place capital_id2).2.place capital_id1).map location.name_
      = some "A" ∧
    (capital_town.remove_place capital_id2).2.has_place capital_id2 = false :=
  have h := (remove_place_frame capital_town capital_id2).2.2.1 capital_id1 (by decide)
  ⟨h.1.trans (by decide), h.2.2.1.trans (by decide), by decide⟩

/-! ## The ids a zone resolves -/

/-- C31, as stated, fails: zone 1, made by the constructor and add_place(5, "A", ...),
resolves the id 5, whose zone part 5 >> 32 is 0 and not the id 1 of the zone. -/
theorem zone_resolves_own_counterexample :
    city.built sample_env low_id_town ∧ (low_id_town.place 5).isSome = true ∧
    low_id_town.id_ = 1 ∧ (5 : Nat) >>> 32 ≠ low_id_town.id_ :=
  ⟨city.built.add_place _ 5 "A" _ (city.built.init 1 "Capital" _ (by decide) rfl),
    by decide, rfl, by decide⟩

theorem place_id_shift (z serial : Nat) (hz : z < 2 ^ 32) :
    city.place_id z serial >>> 32 = z ∧ city.place_id z serial < 2 ^ 64 := by
  unfold city.place_id
  rw [Nat.shiftLeft_eq, Nat.shiftRight_eq_div_pow]
  omega

/-! ## The ids on a returned path -/

/-- A non-empty path returned by plat::find_path is a route from from_id to to_id. -/
theorem find_path_is_route (E : env) (hE : E.lawful) (P : plat) (hP : P.wf) (from_id to_id : Nat)
    (path : List Nat) (h : P.find_path E from_id to_id = some path) (hne : path ≠ []) :
    path.head? = some from_id ∧ path.getLast? = some to_id ∧ P.is_route path := by
  unfold plat.find_path at h
  cases hs : P.place from_id with
  | none =>
    simp only [hs, Option.some.injEq] at h
    exact absurd h.symm hne
  | some start =>
    cases hg : P.place to_id with
    | none =>
      simp only [hs, hg, Option.some.injEq] at h
      exact absurd h.symm hne
    | some goal =>
      simp only [hs, hg] at h
      have hsid := plat_wf_place_id P hP from_id start hs
      have hgid := plat_wf_place_id P hP to_id goal hg
      have hs0 := plat_wf_place_ne_zero P hP from_id start hs
      have hg0 := plat_wf_place_ne_zero P hP to_id goal hg
      rw [astar_search_first E hE P start goal (hsid ▸ hs0) (hsid ▸ hs)] at h
      by_cases heq : start.id_ = goal.id_
      · simp only [heq, if_true, Option.some.injEq] at h
        subst h
        rw [← hgid, ← hsid, heq]
        exact ⟨rfl, rfl, List.chain'_singleton _⟩
      · simp only [heq, if_false] at h
        have hbase : astar_inv P start.id_
            ⟨[], [(start.id_, ⟨0, astar_node.heuristic E start.plane_ goal.plane_, 0⟩)],
              [start.id_]⟩ := by
          refine ⟨List.mem_singleton_self _,
            ⟨⟨0, astar_node.heuristic E start.plane_ goal.plane_, 0⟩, by simp [umap_find], rfl⟩,
            ?_, ?_⟩
          · intro k n hk hks
            simp [umap_find, Ne.symm hks] at hk
          · intro k n hk
            by_cases hks : start.id_ = k
            · rw [← hks]
              exact Relation.ReflTransGen.refl
            · simp [umap_find, hks] at hk
        have hfold := astar_relax_fold_inv E P goal start.id_ start.id_ start (hsid ▸ hs0)
          (hsid ▸ hs) (E.roads_order start.roads_) (fun r hr => (hE.2.1 start.roads_).subset hr)
          _ hbase (by simp [umap_find])
        have hres := astar_loop_route E hE P hP goal (hgid ▸ hg0) start.id_ _ _ path hfold.1 h hne
        rw [hsid, hgid] at hres
        exact hres

theorem chain_mem_cases {α : Type} (R : α → α → Prop) (l : List α) (h : List.Chain' R l)
    (x : α) (hx : x ∈ l) : l.getLast? = some x ∨ ∃ y, y ∈ l ∧ R x y := by
  induction l with
  | nil => exact absurd hx (List.not_mem_nil _)
  | cons a l ih =>
    cases l with
    | nil =>
      left
      simp only [List.mem_singleton] at hx
      simp [hx]
    | cons b l =>
      rw [List.chain'_cons] at h
      rcases List.mem_cons.mp hx with hx | hx
      · right
        exact ⟨b, by simp, hx ▸ h.1⟩
      · rcases ih h.2 hx with h1 | ⟨y, hy, hr⟩
        · left
          rw [List.getLast?_cons_cons]
          exact h1
        · right
          exact ⟨y, List.mem_cons_of_mem _ hy, hr⟩

theorem chain_with_mem {α : Type} (R : α → α → Prop) (l : List α) (h : List.Chain' R l) :
    List.Chain' (fun u v => R u v ∧ v ∈ l) l := by
  induction l with
  | nil => exact List.chain'_nil
  | cons a l ih =>
    cases l with
    | nil => exact List.chain'_singleton _
    | cons b l =>
      rw [List.chain'_cons] at h ⊢
      refine ⟨⟨h.1, by simp⟩, ?_⟩
      exact List.Chain'.imp (fun _ _ hv => ⟨hv.1, List.mem_cons_of_mem _ hv.2⟩) (ih h.2)

/-- C35: in a well-formed network, every id on a path returned by plat::find_path
resolves to a location of the network, and every consecutive pair (u, v) of the path is a
stored road whose target v resolves: a road to an id that does not resolve is on no
returned path. -/
theorem find_path_resolves (E : env) (hE : E.lawful) (P : plat) (hP : P.wf)
    (from_id to_id : Nat) (path : List Nat) (h : P.find_path E from_id to_id = some path) :
    (∀ x ∈ path, P.place x ≠ none) ∧
    List.Chain' (fun u v => P.has_road u v = true ∧ P.place v ≠ none) path := by
  have hall : ∀ x ∈ path, P.place x ≠ none := by
    intro x hx
    have hne : path ≠ [] := List.ne_nil_of_mem hx
    obtain ⟨_, hlast, hroute⟩ := find_path_is_route E hE P hP from_id to_id path h hne
    rcases chain_mem_cases P.road path hroute x hx with h1 | ⟨y, _, hr⟩
    · rw [hlast] at h1
      have hxe : to_id = x := Option.some.inj h1
      rw [← hxe]
      intro hnone
      unfold plat.find_path at h
      rw [hnone] at h
      cases hf : P.place from_id with
      | none =>
        rw [hf] at h
        exact hne (Option.some.inj h).symm
      | some lf =>
        rw [hf] at h
        exact hne (Option.some.inj h).symm
    · intro hnone
      unfold plat.road plat.has_road at hr
      rw [hnone] at hr
      exact Bool.noConfusion hr
  refine ⟨hall, ?_⟩
  by_cases hne : path = []
  · rw [hne]
    exact List.chain'_nil
  · obtain ⟨_, _, hroute⟩ := find_path_is_route E hE P hP from_id to_id path h hne
    unfold plat.is_route at hroute
    exact List.Chain'.imp (fun u v hr => ⟨hr.1, hall v hr.2⟩) (chain_with_mem P.road path hroute)

theorem find_path_resolves_witness :
    (∀ x ∈ [capital_id1, capital_id2], capital_road_net.place x ≠ none) ∧
    List.Chain' (fun u v => capital_road_net.has_road u v = true ∧
      capital_road_net.place v ≠ none) [capital_id1, capital_id2] :=
  find_path_resolves sample_env sample_env_lawful capital_road_net capital_road_net_wf
    capital_id1 capital_id2 _ capital_road_net_path

/-! ## A* search: the result depends on the iteration order -/

theorem reverse_env_lawful : reverse_env.lawful :=
  ⟨fun l => List.reverse_perm l, fun _ => List.Perm.refl _, fun _ => List.Perm.refl _⟩

/-- The search for g in the twin shape, by the id under which the scan files the record
shared by g and h: found when it is g, lost when it is h. -/
theorem find_path_twin_scan (E : env) (hE : E.lawful) (P : plat) (s g h : Nat)
    (ls lg lh : location) (d : ℚ) (hs : P.place s = some ls) (hg : P.place g = some lg)
    (hh : P.place h = some lh) (hids : ls.id_ = s) (hidg : lg.id_ = g)
    (hs0 : s ≠ 0) (hg0 : g ≠ 0) (hsg : s ≠ g) (hsh : s ≠ h) (hgh : g ≠ h) (hpl : lh.plane_ = lg.plane_)
    (hrs : ls.roads_ = [(g, d), (h, d)]) (hrh : lh.roads_ = [])
    (hro : E.roads_order [(g, d), (h, d)] = [(g, d), (h, d)]) :
    (scan_id E [(s, ⟨0, astar_node.heuristic E ls.plane_ lg.plane_, 0⟩),
        (g, ⟨0 + d, 0 + d + astar_node.heuristic E lg.plane_ lg.plane_, s⟩),
        (h, ⟨0 + d, 0 + d + astar_node.heuristic E lg.plane_ lg.plane_, s⟩)]
        ⟨0 + d, 0 + d + astar_node.heuristic E lg.plane_ lg.plane_, s⟩ = g →
      P.find_path E s g = some [s, g]) ∧
    (scan_id E [(s, ⟨0, astar_node.heuristic E ls.plane_ lg.plane_, 0⟩),
        (g, ⟨0 + d, 0 + d + astar_node.heuristic E lg.plane_ lg.plane_, s⟩),
        (h, ⟨0 + d, 0 + d + astar_node.heuristic E lg.plane_ lg.plane_, s⟩)]
        ⟨0 + d, 0 + d + astar_node.heuristic E lg.plane_ lg.plane_, s⟩ = h →
      P.find_path E s g = some []) := by
  have hgs : g ≠ s := fun e => hsg e.symm
  have hhs : h ≠ s := fun e => hsh e.symm
  have hhg : h ≠ g := fun e => hgh e.symm
  have hcount : 2 ≤ P.road_count := by
    have := pending_cons P [] s ls (List.not_mem_nil _) hs
    rw [pending_nil, hrs] at this
    simp only [List.length_cons, List.length_nil] at this
    omega
  obtain ⟨n, hn⟩ : ∃ n, P.road_count + 1 = n + 3 := ⟨P.road_count - 2, by omega⟩
  have hsearch : P.astar_search E ls lg = astar_loop E P lg (P.road_count + 1)
      ⟨[⟨0 + d, 0 + d + astar_node.heuristic E lg.plane_ lg.plane_, s⟩,
        ⟨0 + d, 0 + d + astar_node.heuristic E lg.plane_ lg.plane_, s⟩],
       [(s, ⟨0, astar_node.heuristic E ls.plane_ lg.plane_, 0⟩),
        (g, ⟨0 + d, 0 + d + astar_node.heuristic E lg.plane_ lg.plane_, s⟩),
        (h, ⟨0 + d, 0 + d + astar_node.heuristic E lg.plane_ lg.plane_, s⟩)], [s]⟩ := by
    rw [astar_search_first E hE P ls lg (hids ▸ hs0) (hids ▸ hs)]
    simp only [hids, hidg, hsg, if_false, hrs, hro, List.foldl_cons, List.foldl_nil]
    simp [astar_relax, hgs, hhs, hg, hh, umap_index, umap_find, astar_improves, hsg, hsh, hgh,
      hhg, umap_set, hpl]
  constructor
  · intro hscan
    unfold plat.find_path
    simp only [hs, hg]
    rw [hsearch, hn]
    rw [astar_loop]
    simp only [pq_top_pair E hE, hscan, hidg, if_true]
    simp [plat.reconstruct_path, reconstruct_loop, umap_find, hgs, hs0, hsg, hg0]
  · intro hscan
    unfold plat.find_path
    simp only [hs, hg]
    rw [hsearch, hn]
    have hsclh : h ∉ [s] := by simpa using fun e : h = s => hsh e.symm
    exact astar_loop_twin E hE P lg h lh _ _ [s] n hscan (hidg ▸ hhg) hsclh hh hrh

/-- The same for the zone spelled out. -/
theorem twin_shape_scan (E : env) (hE : E.lawful) (z : Nat) (name ns ng nh : String)
    (s g h : Nat) (g1 g2 p1 p2 : point2d) (d : ℚ) (hzs : town_of s = z) (hzg : town_of g = z)
    (hzh : town_of h = z) (hs0 : s ≠ 0) (hg0 : g ≠ 0) (hsg : s ≠ g) (hsh : s ≠ h) (hgh : g ≠ h)
    (hro : E.roads_order [(g, d), (h, d)] = [(g, d), (h, d)]) :
    (scan_id E [(s, ⟨0, astar_node.heuristic E p1 p2, 0⟩),
        (g, ⟨0 + d, 0 + d + astar_node.heuristic E p2 p2, s⟩),
        (h, ⟨0 + d, 0 + d + astar_node.heuristic E p2 p2, s⟩)]
        ⟨0 + d, 0 + d + astar_node.heuristic E p2 p2, s⟩ = g →
      (plat.mk [(z, ⟨z, name, [(s, ⟨s, ns, g1, p1, [(g, d), (h, d)]⟩), (g, ⟨g, ng, g2, p2, []⟩),
        (h, ⟨h, nh, g2, p2, []⟩)]⟩)]).find_path E s g = some [s, g]) ∧
    (scan_id E [(s, ⟨0, astar_node.heuristic E p1 p2, 0⟩),
        (g, ⟨0 + d, 0 + d + astar_node.heuristic E p2 p2, s⟩),
        (h, ⟨0 + d, 0 + d + astar_node.heuristic E p2 p2, s⟩)]
        ⟨0 + d, 0 + d + astar_node.heuristic E p2 p2, s⟩ = h →
      (plat.mk [(z, ⟨z, name, [(s, ⟨s, ns, g1, p1, [(g, d), (h, d)]⟩), (g, ⟨g, ng, g2, p2, []⟩),
        (h, ⟨h, nh, g2, p2, []⟩)]⟩)]).find_path E s g = some []) := by
  apply find_path_twin_scan E hE _ s g h ⟨s, ns, g1, p1, [(g, d), (h, d)]⟩ ⟨g, ng, g2, p2, []⟩
    ⟨h, nh, g2, p2, []⟩ d
  · simp [plat.place, hzs, umap_find, city.place]
  · simp [plat.place, hzg, umap_find, city.place, hsg]
  · simp [plat.place, hzh, umap_find, city.place, hsh, hgh]
  · rfl
  · rfl
  · exact hs0
  · exact hg0
  · exact hsg
  · exact hsh
  · exact hgh
  · rfl
  · rfl
  · rfl
  · exact hro

theorem scan_id_first (E : env) (s g h : Nat) (n0 e : astar_node) (hne : n0.parent ≠ e.parent)
    (hno : E.nodes_order [(s, n0), (g, e), (h, e)] = [(s, n0), (g, e), (h, e)]) :
    scan_id E [(s, n0), (g, e), (h, e)] e = g := by
  unfold scan_id
  rw [hno]
  simp [List.find?, astar_node.eq, hne]

theorem scan_id_last (E : env) (s g h : Nat) (n0 e : astar_node)
    (hno : E.nodes_order [(s, n0), (g, e), (h, e)] = [(h, e), (g, e), (s, n0)]) :
    scan_id E [(s, n0), (g, e), (h, e)] e = h := by
  unfold scan_id
  rw [hno]
  simp [List.find?, astar_node.eq]

/-- C33 at the twin network: the two platforms sample_env and reverse_env have the same
libm, the same order of roads and the same heap; they differ in the order in which
all_nodes is iterated. On the same network, find_path(S, G) returns [S, G] on the first
and the empty path on the second: the entry popped for G is filed under the id of H, which
has the same record. -/
theorem find_path_order_dependent :
    sample_env.lawful ∧ reverse_env.lawful ∧
    reverse_env.sqrt = sample_env.sqrt ∧ reverse_env.sin = sample_env.sin ∧
    reverse_env.cos = sample_env.cos ∧ reverse_env.tan = sample_env.tan ∧
    reverse_env.roads_order = sample_env.roads_order ∧
    reverse_env.queue_order = sample_env.queue_order ∧
    (twin_net sample_env).find_path sample_env twin_s twin_g = some [twin_s, twin_g] ∧
    (twin_net sample_env).find_path reverse_env twin_s twin_g = some [] := by
  refine ⟨sample_env_lawful, reverse_env_lawful, rfl, rfl, rfl, rfl, rfl, rfl, ?_, ?_⟩
  · rw [twin_net_eq]
    exact (twin_shape_scan sample_env sample_env_lawful 1 "Twin" "S" "G" "H" twin_s twin_g
      twin_h _ _ _ _ _ (by decide) (by decide) (by decide) (by decide) (by decide) (by decide)
      (by decide) (by decide) rfl).1
      (scan_id_first sample_env _ _ _ _ _ (by decide) rfl)
  · rw [twin_net_eq]
    exact (twin_shape_scan reverse_env reverse_env_lawful 1 "Twin" "S" "G" "H" twin_s twin_g
      twin_h _ _ _ _ _ (by decide) (by decide) (by decide) (by decide) (by decide) (by decide)
      (by decide) (by decide) rfl).2
      (scan_id_last reverse_env _ _ _ _ _ rfl)

/-! ## A* search: every search ends -/

theorem astar_relax_closed (E : env) (P : plat) (goal : location) (c : Nat) (s : astar_state)
    (road : Nat × ℚ) : (astar_relax E P goal c s road).closed_set = s.closed_set := by
  unfold astar_relax
  simp only
  split
  · rfl
  · split
    · rfl
    · split <;> rfl

theorem astar_relax_fold_closed (E : env) (P : plat) (goal : location) (c : Nat)
    (roads : List (Nat × ℚ)) (s : astar_state) :
    (roads.foldl (astar_relax E P goal c) s).closed_set = s.closed_set := by
  induction roads generalizing s with
  | nil => rfl
  | cons r roads ih =>
    rw [List.foldl_cons, ih, astar_relax_closed]

/-- No id is expanded twice, and no id that is closed already is expanded. -/
theorem astar_expanded_nodup (E : env) (P : plat) (goal : location) :
    ∀ (fuel : Nat) (s : astar_state),
      (astar_expanded E P goal fuel s).Nodup ∧
      ∀ x ∈ astar_expanded E P goal fuel s, x ∉ s.closed_set := by
  intro fuel
  induction fuel with
  | zero =>
    intro s
    simp [astar_expanded]
  | succ fuel ih =>
    intro s
    obtain ⟨ol, m, cl⟩ := s
    unfold astar_expanded
    cases htop : pq_top E ol with
    | none => simp
    | some cn =>
      simp only
      by_cases hgoal : scan_id E m cn = goal.id_
      · simp [hgoal]
      · rw [if_neg hgoal]
        by_cases hcl : scan_id E m cn ∈ cl
        · rw [if_pos (by simpa using hcl)]
          exact ih _
        · rw [if_neg (by simpa using hcl)]
          cases hp : P.place (scan_id E m cn) with
          | none =>
            simp only
            obtain ⟨h1, h2⟩ := ih ⟨ol.erase cn, m, scan_id E m cn :: cl⟩
            refine ⟨h1, fun x hx hxc => h2 x hx (List.mem_cons_of_mem _ hxc)⟩
          | some cp =>
            simp only
            obtain ⟨h1, h2⟩ := ih ((E.roads_order cp.roads_).foldl
              (astar_relax E P goal (scan_id E m cn)) ⟨ol.erase cn, m, scan_id E m cn :: cl⟩)
            rw [astar_relax_fold_closed] at h2
            simp only at h2
            refine ⟨List.nodup_cons.mpr ⟨fun hx => h2 _ hx (List.mem_cons_self _ _), h1⟩, ?_⟩
            intro x hx hxc
            rcases List.mem_cons.mp hx with hx | hx
            · exact hcl (hx ▸ hxc)
            · exact h2 x hx (List.mem_cons_of_mem _ hxc)

/-- The parent walk from a closed id ends within as many rounds as ids were closed before
it, and what it appends keeps the order of the closed set. -/
theorem reconstruct_loop_closed (nodes : List (Nat × astar_node)) (cl : List Nat)
    (hpar : ∀ k n, umap_find nodes k = some n → n.parent ≠ 0 →
      ∀ pre post, cl = pre ++ k :: post → n.parent ∈ post) :
    ∀ (post pre0 : List Nat), cl = pre0 ++ post → ∀ cur ∈ post, ∀ (fuel : Nat) (path : List Nat),
      post.length + 1 ≤ fuel →
      ∃ chain, reconstruct_loop nodes fuel cur path = some (path ++ chain) ∧
        chain.Sublist post := by
  intro post
  induction post with
  | nil =>
    intro pre0 _ cur hcur
    exact absurd hcur (List.not_mem_nil _)
  | cons x post ih =>
    intro pre0 hcl cur hcur fuel path hfuel
    have hcl1 : cl = (pre0 ++ [x]) ++ post := by
      rw [hcl]
      simp
    by_cases hx : cur = x
    · subst hx
      obtain ⟨f, hf⟩ : ∃ f, fuel = f + 1 := ⟨fuel - 1, by simp at hfuel; omega⟩
      subst hf
      unfold reconstruct_loop
      by_cases h0 : cur = 0
      · rw [if_pos h0]
        exact ⟨[], by simp, List.nil_sublist _⟩
      · rw [if_neg h0]
        cases hfind : umap_find nodes cur with
        | none =>
          simp only
          exact ⟨[cur], rfl, by simp⟩
        | some n =>
          simp only
          by_cases hp0 : n.parent = 0
          · obtain ⟨f1, hf1⟩ : ∃ f1, f = f1 + 1 := ⟨f - 1, by simp at hfuel; omega⟩
            subst hf1
            rw [hp0]
            unfold reconstruct_loop
            rw [if_pos rfl]
            exact ⟨[cur], rfl, by simp⟩
          · have hmem := hpar cur n hfind hp0 pre0 post hcl
            obtain ⟨chain, hch, hsub⟩ := ih (pre0 ++ [cur]) hcl1 n.parent hmem f (path ++ [cur])
              (by simp at hfuel; omega)
            refine ⟨cur :: chain, ?_, List.Sublist.cons₂ _ hsub⟩
            rw [hch]
            simp
    · have hmem : cur ∈ post := by
        rcases List.mem_cons.mp hcur with h | h
        · exact absurd h hx
        · exact h
      obtain ⟨chain, hch, hsub⟩ := ih (pre0 ++ [x]) hcl1 cur hmem fuel path
        (by simp at hfuel; omega)
      exact ⟨chain, hch, List.Sublist.cons _ hsub⟩

theorem length_le_filter_ne (l : List Nat) (a : Nat) (p : Nat → Bool)
    (hp : ∀ k, p k = false → k = a) (h : l.Nodup) :
    l.length ≤ (l.filter p).length + 1 := by
  induction l with
  | nil => exact Nat.zero_le _
  | cons x l ih =>
    rw [List.nodup_cons] at h
    cases hx : p x with
    | true =>
      rw [List.filter_cons_of_pos hx, List.length_cons, List.length_cons]
      exact Nat.succ_le_succ (ih h.2)
    | false =>
      have hxa := hp x hx
      have hall : l.filter p = l := by
        rw [List.filter_eq_self]
        intro k hk
        cases hk1 : p k with
        | true => rfl
        | false =>
          have := hp k hk1
          exact absurd (hxa ▸ this ▸ hk) h.1
      rw [List.filter_cons_of_neg (by simp [hx]), hall, List.length_cons]

theorem umap_key_of_isSome {β : Type} (m : List (Nat × β)) (k : Nat)
    (h : (umap_find m k).isSome = true) : k ∈ umap_keys m := by
  obtain ⟨v, hv⟩ := Option.isSome_iff_exists.mp h
  exact List.mem_map.2 ⟨(k, v), umap_find_mem _ _ _ hv, rfl⟩

/-- There are at least as many records as closed ids: the goal is recorded and not
closed, and 0 is the only closed id that may be missing from the records. -/
theorem closed_length_le (gid : Nat) (s : astar_state) (hac : astar_acyclic gid s)
    (hkey : (umap_find s.all_nodes gid).isSome = true) :
    s.closed_set.length ≤ s.all_nodes.length := by
  obtain ⟨hnd, hgc, _, hrec, _⟩ := hac
  have hL : (gid :: s.closed_set.filter (fun k => decide (k ≠ 0))).Nodup := by
    rw [List.nodup_cons]
    refine ⟨fun hm => hgc (List.mem_of_mem_filter hm), hnd.filter _⟩
  have hsub : (gid :: s.closed_set.filter (fun k => decide (k ≠ 0))) ⊆ umap_keys s.all_nodes := by
    intro k hk
    rcases List.mem_cons.mp hk with h | h
    · rw [h]
      exact umap_key_of_isSome _ _ hkey
    · rw [List.mem_filter] at h
      exact umap_key_of_isSome _ _ (hrec k h.1 (by simpa using h.2))
  have hlen := (List.subperm_of_subset hL hsub).length_le
  have h1 := length_le_filter_ne s.closed_set 0 (fun k => decide (k ≠ 0))
    (fun k hk => by simpa using hk) hnd
  simp only [List.length_cons, umap_keys, List.length_map] at hlen
  omega

/-- Under the invariant the parent walk from the goal ends, and no id is met twice. -/
theorem reconstruct_path_acyclic (gid : Nat) (s : astar_state) (hac : astar_acyclic gid s)
    (hkey : (umap_find s.all_nodes gid).isSome = true) (hg0 : gid ≠ 0) :
    ∃ path, plat.reconstruct_path s.all_nodes gid = some path ∧ path.Nodup := by
  have hlen := closed_length_le gid s hac hkey
  obtain ⟨hnd, hgc, _, _, hpar⟩ := hac
  obtain ⟨n, hn⟩ := Option.isSome_iff_exists.mp hkey
  unfold plat.reconstruct_path
  unfold reconstruct_loop
  rw [if_neg hg0]
  simp only [hn, List.nil_append]
  by_cases hp0 : n.parent = 0
  · rw [hp0]
    unfold reconstruct_loop
    rw [if_pos rfl]
    exact ⟨[gid], rfl, List.nodup_singleton _⟩
  · have hmem := (hpar gid n hn hp0).1
    obtain ⟨chain, hch, hsub⟩ := reconstruct_loop_closed s.all_nodes s.closed_set
      (fun k n1 hk hp => (hpar k n1 hk hp).2) s.closed_set [] rfl n.parent hmem
      (s.all_nodes.length + 1) [gid] (by omega)
    rw [hch]
    refine ⟨([gid] ++ chain).reverse, rfl, ?_⟩
    rw [List.nodup_reverse]
    simp only [List.singleton_append, List.nodup_cons]
    exact ⟨fun hm => hgc (hsub.subset hm), hnd.sublist hsub⟩

/-- Closing an id keeps the invariant. -/
theorem astar_acyclic_close (gid c : Nat) (o1 o2 : List astar_node)
    (m : List (Nat × astar_node)) (cl : List Nat) (hac : astar_acyclic gid ⟨o1, m, cl⟩)
    (hc : c ∉ cl) (hcg : c ≠ gid) (hrec : c ≠ 0 → (umap_find m c).isSome = true) :
    astar_acyclic gid ⟨o2, m, c :: cl⟩ := by
  obtain ⟨hnd, hgc, hkeys, hclrec, hpar⟩ := hac
  refine ⟨List.nodup_cons.mpr ⟨hc, hnd⟩, ?_, hkeys, ?_, ?_⟩
  · intro hm
    rcases List.mem_cons.mp hm with h | h
    · exact hcg h.symm
    · exact hgc h
  · intro k hk hk0
    rcases List.mem_cons.mp hk with h | h
    · rw [h]
      exact hrec (h ▸ hk0)
    · exact hclrec k h hk0
  · intro k n hk hp0
    obtain ⟨h1, h2⟩ := hpar k n hk hp0
    refine ⟨List.mem_cons_of_mem _ h1, ?_⟩
    intro pre post hsplit
    cases pre with
    | nil =>
      simp only [List.nil_append, List.cons.injEq] at hsplit
      rw [← hsplit.2]
      exact h1
    | cons x pre =>
      simp only [List.cons_append, List.cons.injEq] at hsplit
      exact h2 pre post hsplit.2

/-- One road of the expanded place keeps the invariant. -/
theorem astar_relax_acyclic (E : env) (P : plat) (goal : location) (gid c : Nat)
    (s : astar_state) (road : Nat × ℚ) (hac : astar_acyclic gid s) (hc : c ∈ s.closed_set)
    (hkey : (umap_find s.all_nodes c).isSome = true) :
    astar_acyclic gid (astar_relax E P goal c s road) ∧
    (umap_find (astar_relax E P goal c s road).all_nodes c).isSome = true := by
  obtain ⟨nb, d⟩ := road
  have hsame : astar_relax E P goal c s (nb, d) = s →
      astar_acyclic gid (astar_relax E P goal c s (nb, d)) ∧
      (umap_find (astar_relax E P goal c s (nb, d)).all_nodes c).isSome = true := by
    intro e
    rw [e]
    exact ⟨hac, hkey⟩
  by_cases hcl : nb ∈ s.closed_set
  · exact hsame (by simp [astar_relax, hcl])
  · cases hnp : P.place nb with
    | none => exact hsame (by simp [astar_relax, hcl, hnp])
    | some np =>
      obtain ⟨nc, hnc⟩ := Option.isSome_iff_exists.mp hkey
      have hidx : umap_index s.all_nodes c = (nc, s.all_nodes) := by
        simp [umap_index, hnc]
      by_cases hbetter : astar_improves s.all_nodes nb (nc.g + d) = true
      · have hres : astar_relax E P goal c s (nb, d) =
            ⟨s.open_list ++ [⟨nc.g + d, nc.g + d + astar_node.heuristic E np.plane_ goal.plane_, c⟩],
              umap_set s.all_nodes nb
                ⟨nc.g + d, nc.g + d + astar_node.heuristic E np.plane_ goal.plane_, c⟩,
              s.closed_set⟩ := by
          simp [astar_relax, hcl, hnp, hidx, hbetter]
        rw [hres]
        obtain ⟨hnd, hgc, hkeys, hclrec, hpar⟩ := hac
        refine ⟨⟨hnd, hgc, umap_keys_set_nodup _ _ _ hkeys, ?_, ?_⟩,
          umap_find_set_isSome _ _ _ _ hkey⟩
        · intro k hk hk0
          exact umap_find_set_isSome _ _ _ _ (hclrec k hk hk0)
        · intro k n hk hp0
          simp only at hk
          by_cases hknb : k = nb
          · subst hknb
            rw [umap_find_set_same] at hk
            have hn := (Option.some.inj hk).symm
            subst hn
            refine ⟨hc, ?_⟩
            intro pre post hsplit
            simp only at hsplit
            exact absurd (hsplit ▸ List.mem_append_right pre (List.mem_cons_self k post)) hcl
          · rw [umap_find_set_other _ _ _ _ hknb] at hk
            exact hpar k n hk hp0
      · exact hsame (by simp [astar_relax, hcl, hnp, hidx, hbetter])

/-- All roads of the expanded place keep the invariant. -/
theorem astar_relax_fold_acyclic (E : env) (P : plat) (goal : location) (gid c : Nat)
    (roads : List (Nat × ℚ)) (s : astar_state) (hac : astar_acyclic gid s)
    (hc : c ∈ s.closed_set) (hkey : (umap_find s.all_nodes c).isSome = true) :
    astar_acyclic gid (roads.foldl (astar_relax E P goal c) s) := by
  induction roads generalizing s with
  | nil => exact hac
  | cons r roads ih =>
    obtain ⟨h1, h2⟩ := astar_relax_acyclic E P goal gid c s r hac hc hkey
    rw [List.foldl_cons]
    exact ih _ h1 (by rw [astar_relax_closed]; exact hc) h2

/-- From the second round on the loop ends as soon as the fuel exceeds the queue length
plus the roads still pending, and the path it returns meets no id twice. -/
theorem astar_loop_ends (E : env) (hE : E.lawful) (P : plat) (hP : P.wf)
    (goal : location) (hg0 : goal.id_ ≠ 0) (s0 : Nat) :
    ∀ (fuel : Nat) (s : astar_state), astar_inv P s0 s → astar_acyclic goal.id_ s →
      s.open_list.length + P.pending s.closed_set < fuel →
      ∃ path, astar_loop E P goal fuel s = some path ∧ path.Nodup := by
  intro fuel
  induction fuel with
  | zero =>
    intro s _ _ h
    omega
  | succ fuel ih =>
    intro s hinv hac hlt
    obtain ⟨ol, m, cl⟩ := s
    simp only at hlt
    unfold astar_loop
    cases htop : pq_top E ol with
    | none => exact ⟨[], rfl, List.nodup_nil⟩
    | some cn =>
      simp only
      have hmem := pq_top_mem E hE ol cn htop
      have hlen : (ol.erase cn).length + 1 = ol.length := by
        rw [List.length_erase_of_mem hmem]
        have := List.length_pos_of_mem hmem
        omega
      by_cases hgoal : scan_id E m cn = goal.id_
      · rw [if_pos hgoal]
        have hkey : (umap_find m goal.id_).isSome = true := by
          rw [← hgoal]
          exact scan_id_key E hE m cn (hgoal ▸ hg0)
        exact reconstruct_path_acyclic goal.id_ ⟨ol, m, cl⟩ hac hkey hg0
      · rw [if_neg hgoal]
        by_cases hcl : scan_id E m cn ∈ cl
        · rw [if_pos (by simpa using hcl)]
          apply ih ⟨ol.erase cn, m, cl⟩ (astar_inv_open P s0 ol _ m cl hinv)
            (show astar_acyclic goal.id_ ⟨ol.erase cn, m, cl⟩ from hac)
          simp only
          omega
        · rw [if_neg (by simpa using hcl)]
          have hclose : astar_acyclic goal.id_ ⟨ol.erase cn, m, scan_id E m cn :: cl⟩ :=
            astar_acyclic_close goal.id_ _ ol _ m cl hac hcl hgoal
              (fun h0 => scan_id_key E hE m cn h0)
          cases hp : P.place (scan_id E m cn) with
          | none =>
            simp only
            apply ih _ (astar_inv_closed P s0 _ ol _ m cl hinv) hclose
            have := pending_mono P cl (scan_id E m cn)
            simp only
            omega
          | some cp =>
            simp only
            have hc0 := plat_wf_place_ne_zero P hP _ cp hp
            have hkey := scan_id_key E hE m cn hc0
            have hfold := astar_relax_fold_inv E P goal s0 (scan_id E m cn) cp hc0 hp
              (E.roads_order cp.roads_) (fun r hr => (hE.2.1 cp.roads_).subset hr)
              ⟨ol.erase cn, m, scan_id E m cn :: cl⟩
              (astar_inv_closed P s0 _ ol _ m cl hinv) hkey
            have hfac := astar_relax_fold_acyclic E P goal goal.id_ (scan_id E m cn)
              (E.roads_order cp.roads_) ⟨ol.erase cn, m, scan_id E m cn :: cl⟩ hclose
              (List.mem_cons_self _ _) hkey
            apply ih _ hfold.1 hfac
            rw [hfold.2.1]
            have h1 := hfold.2.2
            have h2 := pending_cons P cl (scan_id E m cn) cp hcl hp
            have h3 : (E.roads_order cp.roads_).length = cp.roads_.length :=
              (hE.2.1 cp.roads_).length_eq
            simp only at h1 ⊢
            omega

/-- Every search of plat::find_path ends, and its path meets no id twice. -/
theorem find_path_ends (E : env) (hE : E.lawful) (P : plat) (hP : P.wf)
    (from_id to_id : Nat) :
    ∃ path, P.find_path E from_id to_id = some path ∧ path.Nodup := by
  unfold plat.find_path
  cases hs : P.place from_id with
  | none => exact ⟨[], rfl, List.nodup_nil⟩
  | some start =>
    cases hg : P.place to_id with
    | none => exact ⟨[], rfl, List.nodup_nil⟩
    | some goal =>
      simp only
      have hsid := plat_wf_place_id P hP from_id start hs
      have hgid := plat_wf_place_id P hP to_id goal hg
      have hs0 := plat_wf_place_ne_zero P hP from_id start hs
      have hg0 := plat_wf_place_ne_zero P hP to_id goal hg
      rw [astar_search_first E hE P start goal (hsid ▸ hs0) (hsid ▸ hs)]
      by_cases heq : start.id_ = goal.id_
      · rw [if_pos heq]
        exact ⟨[start.id_], rfl, List.nodup_singleton _⟩
      · rw [if_neg heq]
        have hbase : astar_inv P start.id_
            ⟨[], [(start.id_, ⟨0, astar_node.heuristic E start.plane_ goal.plane_, 0⟩)],
              [start.id_]⟩ := by
          refine ⟨List.mem_singleton_self _,
            ⟨⟨0, astar_node.heuristic E start.plane_ goal.plane_, 0⟩, by simp [umap_find], rfl⟩,
            ?_, ?_⟩
          · intro k n hk hks
            simp [umap_find, Ne.symm hks] at hk
          · intro k n hk
            by_cases hks : start.id_ = k
            · rw [← hks]
              exact Relation.ReflTransGen.refl
            · simp [umap_find, hks] at hk
        have hbac : astar_acyclic goal.id_
            ⟨[], [(start.id_, ⟨0, astar_node.heuristic E start.plane_ goal.plane_, 0⟩)],
              [start.id_]⟩ := by
          refine ⟨List.nodup_singleton _, ?_, ?_, ?_, ?_⟩
          · simpa using fun e : goal.id_ = start.id_ => heq e.symm
          · simp [umap_keys]
          · intro k hk _
            simp only [List.mem_singleton] at hk
            simp [hk, umap_find]
          · intro k n hk hp0
            by_cases hks : start.id_ = k
            · simp only [umap_find, hks, if_true, Option.some.injEq] at hk
              rw [← hk] at hp0
              exact absurd rfl hp0
            · simp [umap_find, hks] at hk
        have hfold := astar_relax_fold_inv E P goal start.id_ start.id_ start (hsid ▸ hs0)
          (hsid ▸ hs) (E.roads_order start.roads_) (fun r hr => (hE.2.1 start.roads_).subset hr)
          _ hbase (by simp [umap_find])
        have hfac := astar_relax_fold_acyclic E P goal goal.id_ start.id_
          (E.roads_order start.roads_) _ hbac (List.mem_singleton_self _) (by simp [umap_find])
        apply astar_loop_ends E hE P hP goal (hgid ▸ hg0) start.id_ _ _ hfold.1 hfac
        rw [hfold.2.1]
        have h1 := hfold.2.2
        have h2 := pending_cons P [] start.id_ start (List.not_mem_nil _) (hsid ▸ hs)
        have h3 : (E.roads_order start.roads_).length = start.roads_.length :=
          (hE.2.1 start.roads_).length_eq
        rw [pending_nil] at h2
        simp only [List.length_nil] at h1 ⊢
        omega

theorem plat_expanded_nodup (E : env) (P : plat) (from_id to_id : Nat) :
    (P.expanded E from_id to_id).Nodup := by
  unfold plat.expanded
  cases P.place from_id with
  | none => exact List.nodup_nil
  | some start =>
    cases P.place to_id with
    | none => exact List.nodup_nil
    | some goal => exact (astar_expanded_nodup E P goal _ _).1

/-- C36: in a well-formed network, with or without cycles, roads from a place to itself,
roads of weight 0 or roads to ids that do not resolve, plat::find_path(from, to) ends for
every pair of ids: the loop of astar_search stops within its bound of road_count + 2
rounds and the parent walk of reconstruct_path within its bound. No id is expanded twice;
the returned path meets no id twice and, when it is not empty, starts with from, where the
parent walk ended, and ends with to. -/
theorem find_path_terminates (E : env) (hE : E.lawful) (P : plat) (hP : P.wf)
    (from_id to_id : Nat) :
    ∃ path, P.find_path E from_id to_id = some path ∧ path.Nodup ∧
      (path ≠ [] → path.head? = some from_id ∧ path.getLast? = some to_id) ∧
      (P.expanded E from_id to_id).Nodup := by
  obtain ⟨path, hpath, hnd⟩ := find_path_ends E hE P hP from_id to_id
  refine ⟨path, hpath, hnd, ?_, plat_expanded_nodup E P from_id to_id⟩
  intro hne
  obtain ⟨h1, h2, _⟩ := find_path_is_route E hE P hP from_id to_id path hpath hne
  exact ⟨h1, h2⟩

theorem find_path_terminates_witness :
    ∃ path, capital_road_net.find_path sample_env capital_id1 capital_id2 = some path ∧
      path.Nodup ∧
      (path ≠ [] → path.head? = some capital_id1 ∧ path.getLast? = some capital_id2) ∧
      (capital_road_net.expanded sample_env capital_id1 capital_id2).Nodup :=
  find_path_terminates sample_env sample_env_lawful capital_road_net capital_road_net_wf
    capital_id1 capital_id2

/-! ## Roads inside a zone -/

/-- Transfer of the road invariant from a zone c to a zone c1 of the same id whose places
keep their planar points, drop being the ids that c1 no longer needs to resolve: every
road of c1 is a road the same place had in c, or a new road that is in order in c. -/
theorem city_roads_ok_of (E : env) (c c1 : city) (drop : Nat → Prop) (hid : c1.id_ = c.id_)
    (hplane : ∀ x lv, c.place x = some lv → ¬ drop x →
      ∃ lv1, c1.place x = some lv1 ∧ lv1.plane_ = lv.plane_)
    (hent : ∀ e1 ∈ c1.places_, town_of e1.1 = c.id_ ∧
      ∀ r ∈ e1.2.roads_, ¬ drop r.1 ∧
        ((∃ l, (e1.1, l) ∈ c.places_ ∧ e1.2.plane_ = l.plane_ ∧ r ∈ l.roads_) ∨
         (town_of r.1 = c.id_ →
           ∃ lv, c.place r.1 = some lv ∧ r.2 = e1.2.plane_.distance_to E lv.plane_)))
    (hok : c.roads_ok E) : c1.roads_ok E := by
  intro e1 he1
  obtain ⟨hz, hroads⟩ := hent e1 he1
  refine ⟨hid ▸ hz, ?_⟩
  intro r hr hrz
  rw [hid] at hrz
  obtain ⟨hnd, hcase⟩ := hroads r hr
  rcases hcase with ⟨l, hl, hpl, hrl⟩ | hfresh
  · obtain ⟨lv, hlv, hw⟩ := (hok (e1.1, l) hl).2 r hrl hrz
    obtain ⟨lv1, hlv1, hp1⟩ := hplane r.1 lv hlv hnd
    exact ⟨lv1, hlv1, by rw [hw, hpl, hp1]⟩
  · obtain ⟨lv, hlv, hw⟩ := hfresh hrz
    obtain ⟨lv1, hlv1, hp1⟩ := hplane r.1 lv hlv hnd
    exact ⟨lv1, hlv1, by rw [hw, hp1]⟩

theorem town_of_place_id (z serial : Nat) (hz : z < 2 ^ 32) :
    town_of (city.place_id z serial) = z := by
  unfold town_of city.place_id
  rw [Nat.shiftLeft_eq, Nat.shiftRight_eq_div_pow]
  omega

/-- The zone after city::add_local_place. -/
theorem city_add_local_place_roads_ok (E : env) (c : city) (hc32 : c.id_ < 2 ^ 32)
    (hok : c.roads_ok E) (serial : Nat) (name : String) (globe : point2d) :
    (c.add_local_place E serial name globe).2.roads_ok E := by
  unfold city.add_local_place
  simp only
  by_cases hp : c.has_place (city.place_id c.id_ serial) = true
  · simp only [hp, if_true]
    exact hok
  · simp only [hp, Bool.false_eq_true, if_false]
    unfold location.init
    by_cases h0 : city.place_id c.id_ serial = 0
    · simp only [h0, if_true]
      exact hok
    · simp only [h0, if_false]
      have hnone : c.place (city.place_id c.id_ serial) = none := by
        simpa [city.has_place, city.place] using hp
      refine city_roads_ok_of E c _ (fun _ => False) rfl ?_ ?_ hok
      · intro x lv hx _
        refine ⟨lv, ?_, rfl⟩
        have hne : x ≠ city.place_id c.id_ serial := by
          intro e
          rw [e, hnone] at hx
          exact Option.noConfusion hx
        simp only [city.place]
        rw [umap_find_set_other _ _ _ _ hne]
        exact hx
      · intro e1 he1
        rcases umap_mem_set _ _ _ _ he1 with h | h
        · rw [h]
          refine ⟨town_of_place_id c.id_ serial hc32, ?_⟩
          intro r hr
          exact absurd hr (List.not_mem_nil _)
        · refine ⟨(hok e1 h).1, ?_⟩
          intro r hr
          exact ⟨fun hf => hf, Or.inl ⟨e1.2, h, rfl, hr⟩⟩

theorem mem_umap_erase {β : Type} (m : List (Nat × β)) (k : Nat) (e : Nat × β)
    (h : e ∈ umap_erase m k) : e ∈ m ∧ e.1 ≠ k := by
  unfold umap_erase at h
  rw [List.mem_filter] at h
  exact ⟨h.1, by simpa using h.2⟩

/-- The zone after city::remove_place. -/
theorem city_remove_place_roads_ok (E : env) (c : city) (hok : c.roads_ok E) (id : Nat) :
    (c.remove_place id).2.roads_ok E := by
  by_cases hp : c.has_place id = true
  · refine city_roads_ok_of E c _ (fun x => x = id) ?_ ?_ ?_ hok
    · unfold city.remove_place
      simp [hp]
    · intro x lv hx hxd
      rcases city_remove_place_place c id x hxd with h | h
      · exact ⟨lv, h.trans hx, rfl⟩
      · rw [hx] at h
        exact ⟨_, h, rfl⟩
    · intro e1 he1
      simp only [city.remove_place, hp, Bool.not_true, Bool.false_eq_true, if_false] at he1
      obtain ⟨hm, _⟩ := mem_umap_erase _ _ _ he1
      rw [List.mem_map] at hm
      obtain ⟨e, he, hee⟩ := hm
      subst hee
      refine ⟨(hok e he).1, ?_⟩
      intro r hr
      simp only [location.remove_road] at hr
      obtain ⟨hr1, hr2⟩ := mem_umap_erase _ _ _ hr
      exact ⟨hr2, Or.inl ⟨e.2, he, rfl, hr1⟩⟩
  · have h2 : c.has_place id = false := by simpa using hp
    simp only [city.remove_place, h2, Bool.not_false, if_true]
    exact hok

/-- The zone after a road from u to v was set on the place lu of u, the weight being the
distance to p: in order when p is the planar point of the place of v, if v is an id of the
zone. -/
theorem city_set_road_roads_ok (E : env) (c : city) (hok : c.roads_ok E) (u v : Nat)
    (lu : location) (p : point2d) (hu : c.place u = some lu)
    (hv : town_of v = c.id_ → ∃ lv, c.place v = some lv ∧ p = lv.plane_) :
    city.roads_ok E ⟨c.id_, c.name_, umap_set c.places_ u (lu.add_road E v p)⟩ := by
  have humem := umap_find_mem _ _ _ hu
  refine city_roads_ok_of E c _ (fun _ => False) rfl ?_ ?_ hok
  · intro x lv hx _
    by_cases hxu : x = u
    · subst hxu
      rw [hu] at hx
      have e := Option.some.inj hx
      subst e
      exact ⟨lu.add_road E v p, by simp [city.place, umap_find_set_same], rfl⟩
    · refine ⟨lv, ?_, rfl⟩
      simp only [city.place]
      rw [umap_find_set_other _ _ _ _ hxu]
      exact hx
  · intro e1 he1
    rcases umap_mem_set _ _ _ _ he1 with h | h
    · rw [h]
      refine ⟨(hok (u, lu) humem).1, ?_⟩
      intro r hr
      refine ⟨fun hf => hf, ?_⟩
      simp only [location.add_road] at hr
      rcases umap_mem_set _ _ _ _ hr with h1 | h1
      · right
        intro hz
        rw [h1] at hz ⊢
        obtain ⟨lv, hlv, hpv⟩ := hv hz
        exact ⟨lv, hlv, by rw [hpv]; rfl⟩
      · exact Or.inl ⟨lu, humem, rfl, h1⟩
    · refine ⟨(hok e1 h).1, ?_⟩
      intro r hr
      exact ⟨fun hf => hf, Or.inl ⟨e1.2, h, rfl, hr⟩⟩

/-- The zone after location::remove_road on one of its places. -/
theorem city_set_remove_road_roads_ok (E : env) (c : city) (hok : c.roads_ok E) (u v : Nat)
    (lu : location) (hu : c.place u = some lu) :
    city.roads_ok E ⟨c.id_, c.name_, umap_set c.places_ u (lu.remove_road v).2⟩ := by
  have humem := umap_find_mem _ _ _ hu
  refine city_roads_ok_of E c _ (fun _ => False) rfl ?_ ?_ hok
  · intro x lv hx _
    by_cases hxu : x = u
    · subst hxu
      rw [hu] at hx
      have e := Option.some.inj hx
      subst e
      exact ⟨(lu.remove_road v).2, by simp [city.place, umap_find_set_same], rfl⟩
    · refine ⟨lv, ?_, rfl⟩
      simp only [city.place]
      rw [umap_find_set_other _ _ _ _ hxu]
      exact hx
  · intro e1 he1
    rcases umap_mem_set _ _ _ _ he1 with h | h
    · rw [h]
      refine ⟨(hok (u, lu) humem).1, ?_⟩
      intro r hr
      simp only [location.remove_road] at hr
      exact ⟨fun hf => hf, Or.inl ⟨lu, humem, rfl, (mem_umap_erase _ _ _ hr).1⟩⟩
    · refine ⟨(hok e1 h).1, ?_⟩
      intro r hr
      exact ⟨fun hf => hf, Or.inl ⟨e1.2, h, rfl, hr⟩⟩

/-- The zone after city::add_road. -/
theorem city_add_road_roads_ok (E : env) (c : city) (hc : c.wf) (hok : c.roads_ok E)
    (u v : Nat) : (c.add_road E u v).2.roads_ok E := by
  unfold city.add_road
  cases hu : c.place u with
  | none => exact hok
  | some fp =>
    cases hv : c.place v with
    | none => exact hok
    | some tp =>
      simp only
      have hid : tp.id_ = v := city_place_id c (fun e he => (hc.2.2 e he).1) v tp hv
      rw [hid]
      exact city_set_road_roads_ok E c hok u v fp tp.plane_ hu (fun _ => ⟨tp, hv, rfl⟩)

/-- The zone after city::add_bidirectional_road. -/
theorem city_add_bidirectional_road_roads_ok (E : env) (c : city) (hc : c.wf)
    (hok : c.roads_ok E) (u v : Nat) : (c.add_bidirectional_road E u v).2.roads_ok E := by
  have h1 := city_add_road_roads_ok E c hc hok u v
  have hw1 := city_add_road_wf E c hc u v
  unfold city.add_bidirectional_road
  rcases hr : c.add_road E u v with ⟨r, c1⟩
  rw [hr] at h1 hw1
  cases r with
  | error e => exact h1
  | ok d1 =>
    simp only
    have h2 := city_add_road_roads_ok E c1 hw1 h1 v u
    rcases hr2 : c1.add_road E v u with ⟨r2, c2⟩
    rw [hr2] at h2
    cases r2 with
    | error e => exact h2
    | ok d2 => exact h2

/-- A zone replaced by one that is in order. -/
theorem plat_roads_ok_set (E : env) (P : plat) (hok : P.roads_ok E) (z : Nat) (c c1 : city)
    (ht : P.town z = some c) (hc1 : c1.roads_ok E) :
    plat.roads_ok E ⟨umap_set P.towns_ z c1⟩ := by
  intro t htm
  rcases umap_mem_set _ _ _ _ htm with h | h
  · rw [h]
    exact ⟨(hok (z, c) (umap_find_mem _ _ _ ht)).1, hc1⟩
  · exact hok t h

theorem plat_town_wf (P : plat) (hP : P.wf) (z : Nat) (c : city) (ht : P.town z = some c) :
    c.id_ = z ∧ c.wf :=
  hP.2 (z, c) (umap_find_mem _ _ _ ht)

/-- The network after plat::add_road. -/
theorem plat_add_road_roads_ok (E : env) (P : plat) (hP : P.wf) (hok : P.roads_ok E)
    (u v : Nat) : (P.add_road E u v).2.roads_ok E := by
  rcases plat_add_road_cases E P u v with ⟨_, _, w, hw⟩ | ⟨_, e, he⟩
  · have h : P.add_road E u v = (.ok w, (P.add_road E u v).2) := Prod.ext hw rfl
    obtain ⟨ct, lu, lv, hct, hlu, _, hpv, hP1, _⟩ := plat_add_road_ok E P hP u v w _ h
    rw [hP1]
    have hctok := (hok (town_of u, ct) (umap_find_mem _ _ _ hct)).2
    have hctid := (plat_town_wf P hP _ ct hct).1
    refine plat_roads_ok_set E P hok (town_of u) ct _ hct
      (city_set_road_roads_ok E ct hctok u v lu lv.plane_ hlu ?_)
    intro hz
    rw [hctid] at hz
    have := plat_place_of_town P v ct (hz ▸ hct)
    rw [hpv] at this
    exact ⟨lv, this.symm, rfl⟩
  · rw [he]
    exact hok

/-- The network after plat::add_bidirectional_road. -/
theorem plat_add_bidirectional_road_roads_ok (E : env) (P : plat) (hP : P.wf)
    (hok : P.roads_ok E) (u v : Nat) : (P.add_bidirectional_road E u v).2.roads_ok E := by
  unfold plat.add_bidirectional_road
  simp only
  by_cases hz : town_of u = town_of v
  · rw [if_pos hz]
    cases ht : P.town (town_of u) with
    | none => exact hok
    | some tp =>
      simp only
      have hw := plat_town_wf P hP _ tp ht
      exact plat_roads_ok_set E P hok (town_of u) tp _ ht
        (city_add_bidirectional_road_roads_ok E tp hw.2
          (hok (town_of u, tp) (umap_find_mem _ _ _ ht)).2 u v)
  · rw [if_neg hz]
    have h1 := plat_add_road_roads_ok E P hP hok u v
    have hw1 := plat_add_road_wf E P hP u v
    rcases hr : P.add_road E u v with ⟨r, P1⟩
    rw [hr] at h1 hw1
    cases r with
    | error e => exact h1
    | ok d1 =>
      simp only
      have h2 := plat_add_road_roads_ok E P1 hw1 h1 v u
      rcases hr2 : P1.add_road E v u with ⟨r2, P2⟩
      rw [hr2] at h2
      cases r2 with
      | error e => exact h2
      | ok d2 => exact h2

theorem city_add_local_place_id (E : env) (c : city) (serial : Nat) (name : String)
    (globe : point2d) : (c.add_local_place E serial name globe).2.id_ = c.id_ := by
  unfold city.add_local_place
  simp only
  split
  · rfl
  · split <;> rfl

theorem city_remove_place_id (c : city) (id : Nat) : (c.remove_place id).2.id_ = c.id_ := by
  unfold city.remove_place
  split <;> rfl

/-- Every reached network is well-formed and has its roads in order. -/
theorem reached_inv (E : env) (P : plat) (h : plat.reached E P) : P.wf ∧ P.roads_ok E := by
  induction h with
  | empty =>
    exact ⟨plat_empty_wf, fun t ht => absurd ht (List.not_mem_nil _)⟩
  | add_town P id name hid _ ih =>
    refine ⟨plat_add_town_wf P ih.1 id name, ?_⟩
    unfold plat.add_town
    by_cases hh : P.has_town id = true
    · simp only [hh, if_true]
      exact ih.2
    · simp only [hh, Bool.false_eq_true, if_false]
      unfold city.init
      by_cases h0 : id = 0
      · simp only [h0, if_true]
        exact ih.2
      · simp only [h0, if_false]
        intro t ht
        rcases umap_mem_set _ _ _ _ ht with h | h
        · rw [h]
          exact ⟨hid, fun e he => absurd he (List.not_mem_nil _)⟩
        · exact ih.2 t h
  | remove_town P id _ ih =>
    refine ⟨plat_remove_town_wf P ih.1 id, ?_⟩
    intro t ht
    exact ih.2 t (mem_umap_erase _ _ _ ht).1
  | add_local_place P z c serial name globe _ ht ih =>
    obtain ⟨hcid, hcwf⟩ := plat_town_wf P ih.1 z c ht
    have hentry := ih.2 (z, c) (umap_find_mem _ _ _ ht)
    refine ⟨plat_wf_set P ih.1 z _ (city_add_local_place_wf E c hcwf serial name globe)
      ((city_add_local_place_id E c serial name globe).trans hcid), ?_⟩
    exact plat_roads_ok_set E P ih.2 z c _ ht
      (city_add_local_place_roads_ok E c (hcid ▸ hentry.1) hentry.2 serial name globe)
  | remove_local_place P z c serial _ ht ih =>
    obtain ⟨hcid, hcwf⟩ := plat_town_wf P ih.1 z c ht
    have hentry := ih.2 (z, c) (umap_find_mem _ _ _ ht)
    rw [remove_local_place_eq]
    refine ⟨plat_wf_set P ih.1 z _ (city_remove_place_wf c hcwf _)
      ((city_remove_place_id c _).trans hcid), ?_⟩
    exact plat_roads_ok_set E P ih.2 z c _ ht (city_remove_place_roads_ok E c hentry.2 _)
  | add_road P u v _ ih =>
    exact ⟨plat_add_road_wf E P ih.1 u v, plat_add_road_roads_ok E P ih.1 ih.2 u v⟩
  | add_bidirectional_road P u v _ ih =>
    exact ⟨plat_add_bidirectional_road_wf E P ih.1 u v,
      plat_add_bidirectional_road_roads_ok E P ih.1 ih.2 u v⟩
  | remove_road P z c u v l _ ht hl ih =>
    obtain ⟨hcid, hcwf⟩ := plat_town_wf P ih.1 z c ht
    have hentry := ih.2 (z, c) (umap_find_mem _ _ _ ht)
    have hmem := hcwf.2.2 (u, l) (umap_find_mem _ _ _ hl)
    refine ⟨plat_wf_set P ih.1 z _ (city_wf_set c hcwf u (l.remove_road v).2 hmem.1 hmem.2)
      hcid, ?_⟩
    exact plat_roads_ok_set E P ih.2 z c _ ht
      (city_set_remove_road_roads_ok E c hentry.2 u v l hl)

/-- C37: in every network reached from the empty one by add_town, remove_town,
add_local_place, remove_local_place, plat::add_road, plat::add_bidirectional_road and
location::remove_road, every road u -> v between ids of the same zone leads to a place
that the zone of u holds, and road_length(u, v) is the distance of the planar points of u
and v. -/
theorem same_zone_roads (E : env) (P : plat) (h : plat.reached E P) (u v : Nat)
    (hz : town_of u = town_of v) (hr : P.has_road u v = true) :
    ∃ c lu lv, P.town (town_of u) = some c ∧ c.place u = some lu ∧ c.place v = some lv ∧
      P.place u = some lu ∧ P.place v = some lv ∧
      P.road_length u v = lu.plane_.distance_to E lv.plane_ := by
  obtain ⟨hwf, hok⟩ := reached_inv E P h
  unfold plat.has_road at hr
  cases hpu : P.place u with
  | none =>
    rw [hpu] at hr
    exact Bool.noConfusion hr
  | some lu =>
    rw [hpu] at hr
    simp only [location.has_road_to] at hr
    obtain ⟨d, hd⟩ := Option.isSome_iff_exists.mp hr
    obtain ⟨c, _, hc, _, _⟩ := plat_place_some P u (by rw [hpu]; simp)
    have hlu2 : c.place u = some lu := by
      rw [← plat_place_of_town P u c hc]
      exact hpu
    have hcid := (plat_town_wf P hwf _ c hc).1
    have hcok := (hok (town_of u, c) (umap_find_mem _ _ _ hc)).2
    obtain ⟨lv, hlv, hw⟩ := (hcok (u, lu) (umap_find_mem _ _ _ hlu2)).2 (v, d)
      (umap_find_mem _ _ _ hd) (by rw [hcid]; exact hz.symm)
    refine ⟨c, lu, lv, hc, hlu2, hlv, rfl, ?_, ?_⟩
    · rw [plat_place_of_town P v c (hz ▸ hc)]
      exact hlv
    · unfold plat.road_length
      rw [hpu]
      simp only [location.road_length_to, hd]
      exact hw

theorem capital_road_net_reached : plat.reached sample_env capital_road_net := by
  have h1 : plat.reached sample_env (plat.empty.add_town 1 "Capital").2 :=
    plat.reached.add_town _ 1 "Capital" (by decide) plat.reached.empty
  have h2 : plat.reached sample_env (((plat.empty.add_town 1 "Capital").2).set_town 1
      ((⟨1, "Capital", []⟩ : city).add_local_place sample_env 1 "A" ⟨39.90, 116.00⟩).2) :=
    plat.reached.add_local_place _ 1 ⟨1, "Capital", []⟩ 1 "A" _ h1 rfl
  have h3 : plat.reached sample_env
      ((((plat.empty.add_town 1 "Capital").2).set_town 1
        ((⟨1, "Capital", []⟩ : city).add_local_place sample_env 1 "A" ⟨39.90, 116.00⟩).2).set_town
          1 capital_town) :=
    plat.reached.add_local_place _ 1
      ((⟨1, "Capital", []⟩ : city).add_local_place sample_env 1 "A" ⟨39.90, 116.00⟩).2 2 "B"
      ⟨39.90, 116.01⟩ h2 rfl
  exact plat.reached.add_bidirectional_road _ capital_id1 capital_id2 h3

theorem same_zone_roads_witness :
    ∃ c lu lv, capital_road_net.town (town_of capital_id1) = some c ∧
      c.place capital_id1 = some lu ∧ c.place capital_id2 = some lv ∧
      capital_road_net.place capital_id1 = some lu ∧
      capital_road_net.place capital_id2 = some lv ∧
      capital_road_net.road_length capital_id1 capital_id2
        = lu.plane_.distance_to sample_env lv.plane_ :=
  same_zone_roads sample_env capital_road_net capital_road_net_reached capital_id1 capital_id2
    (by decide) (by decide)

/-! ## The two evaluators agree -/

theorem except_bind_assoc {ε α β γ : Type} (x : Except ε α) (f : α → Except ε β)
    (g : β → Except ε γ) : (x.bind f).bind g = x.bind (fun a => (f a).bind g) := by
  cases x <;> rfl

theorem except_bind_ok {ε α : Type} (x : Except ε α) : x.bind Except.ok = x := by
  cases x <;> rfl

/-- The postfix evaluation of a content followed by more tokens. -/
theorem postfix_eval_loop_append (M : libm) (c1 c2 : List basic_token) (o : List ℚ) :
    postfix_eval_loop M (c1 ++ c2) o
      = (postfix_eval_loop M c1 o).bind (fun o1 => postfix_eval_loop M c2 o1) := by
  induction c1 generalizing o with
  | nil => rfl
  | cons t c1 ih =>
    cases t with
    | number_token v => exact ih (v :: o)
    | op x =>
      simp only [List.cons_append, postfix_eval_loop]
      cases basic_expression.calculate M o x with
      | error e => rfl
      | ok o1 => exact ih o1

theorem postfix_eval_loop_snoc_op (M : libm) (c : List basic_token) (x : operator_token)
    (o : List ℚ) :
    postfix_eval_loop M (c ++ [.op x]) o
      = (postfix_eval_loop M c o).bind (fun o1 => basic_expression.calculate M o1 x) := by
  rw [postfix_eval_loop_append]
  congr 1
  funext o1
  simp only [postfix_eval_loop]
  cases basic_expression.calculate M o1 x <;> rfl

theorem postfix_eval_loop_snoc_number (M : libm) (c : List basic_token) (v : ℚ) (o : List ℚ) :
    postfix_eval_loop M (c ++ [.number_token v]) o
      = (postfix_eval_loop M c o).bind (fun o1 => .ok (v :: o1)) := by
  rw [postfix_eval_loop_append]
  rfl

/-- The flush: evaluating what the constructor appends at the end is applying the
operators left on the stack. -/
theorem postfix_flush_eval (M : libm) (s : List operator_token) (c : List basic_token)
    (o : List ℚ) :
    postfix_eval_loop M (postfix_flush s c) o
      = (postfix_eval_loop M c o).bind (fun o1 => infix_flush M o1 s) := by
  induction s generalizing c with
  | nil =>
    simp only [postfix_flush]
    exact (except_bind_ok _).symm
  | cons top s ih =>
    simp only [postfix_flush]
    rw [ih, postfix_eval_loop_snoc_op, except_bind_assoc]
    congr 1
    funext o1
    simp only [infix_flush]
    cases basic_expression.calculate M o1 top <;> rfl

/-- The right parenthesis, with what comes after as a continuation K. -/
theorem postfix_close_eval {α : Type} (M : libm) (s : List operator_token)
    (c : List basic_token) (o : List ℚ)
    (K : List ℚ → List operator_token → Except eval_error α) :
    (postfix_eval_loop M (postfix_close s c).2 o).bind (fun o1 => K o1 (postfix_close s c).1)
      = (postfix_eval_loop M c o).bind
          (fun o1 => (infix_close M o1 s).bind (fun r => K r.1 r.2)) := by
  induction s generalizing c with
  | nil => rfl
  | cons top s ih =>
    by_cases hl : top = .left_parentheses_token
    · simp only [postfix_close, infix_close, hl, if_true]
      rfl
    · simp only [postfix_close, infix_close, hl, if_false]
      rw [ih, postfix_eval_loop_snoc_op, except_bind_assoc]
      congr 1
      funext o1
      cases basic_expression.calculate M o1 top <;> rfl

/-- Any other operator, with what comes after as a continuation K. -/
theorem postfix_reduce_eval {α : Type} (M : libm) (x : operator_token)
    (s : List operator_token) (c : List basic_token) (o : List ℚ)
    (K : List ℚ → List operator_token → Except eval_error α) :
    (postfix_eval_loop M (postfix_reduce x s c).2 o).bind
        (fun o1 => K o1 (postfix_reduce x s c).1)
      = (postfix_eval_loop M c o).bind
          (fun o1 => (infix_reduce M x o1 s).bind (fun r => K r.1 r.2)) := by
  induction s generalizing c with
  | nil => rfl
  | cons top s ih =>
    by_cases hp : top.priority ≥ x.priority
    · simp only [postfix_reduce, infix_reduce, hp, if_true]
      rw [ih, postfix_eval_loop_snoc_op, except_bind_assoc]
      congr 1
      funext o1
      cases basic_expression.calculate M o1 top <;> rfl
    · simp only [postfix_reduce, infix_reduce, hp, if_false]
      rfl

/-- The loop over the tokens, with what comes after as a continuation K. -/
theorem postfix_loop_eval {α : Type} (M : libm) (tokens : List basic_token)
    (s : List operator_token) (c : List basic_token) (o : List ℚ)
    (K : List ℚ → List operator_token → Except eval_error α) :
    (postfix_eval_loop M (postfix_loop tokens s c).2 o).bind
        (fun o1 => K o1 (postfix_loop tokens s c).1)
      = (postfix_eval_loop M c o).bind
          (fun o1 => (infix_loop M tokens o1 s).bind (fun r => K r.1 r.2)) := by
  induction tokens generalizing s c with
  | nil => rfl
  | cons t tokens ih =>
    cases t with
    | number_token v =>
      simp only [postfix_loop, infix_loop]
      rw [ih, postfix_eval_loop_snoc_number, except_bind_assoc]
      rfl
    | op x =>
      by_cases hl : x = .left_parentheses_token
      · simp only [postfix_loop, infix_loop, hl, if_true]
        exact ih _ _
      · by_cases hr : x = .right_parentheses_token
        · subst hr
          have hne : ¬ (operator_token.right_parentheses_token
              = operator_token.left_parentheses_token) := by decide
          simp only [postfix_loop, infix_loop, hne, if_true, if_false]
          rw [ih]
          rw [postfix_close_eval M s c o
            (fun o1 s1 => (infix_loop M tokens o1 s1).bind (fun r => K r.1 r.2))]
          congr 1
          funext o1
          cases infix_close M o1 s <;> rfl
        · simp only [postfix_loop, infix_loop, hl, hr, if_false]
          rw [ih]
          rw [postfix_reduce_eval M x s c o
            (fun o1 s1 => (infix_loop M tokens o1 (x :: s1)).bind (fun r => K r.1 r.2))]
          congr 1
          funext o1
          cases infix_reduce M x o1 s <;> rfl

/-- C39: for every token sequence, infix_expression::evaluate returns what
postfix_expression::evaluate returns on the content that the constructor of
postfix_expression makes of the same tokens: the same value, or the same failure (the
same runtime_error, or an access to an empty operand stack in both). At every point the
operand stack of the postfix evaluation is the operand stack of the infix evaluation. -/
theorem evaluators_agree (M : libm) (content : List basic_token) :
    infix_expression.evaluate M content
      = postfix_expression.evaluate M (postfix_expression.init content) ∧
    (∀ (s : List operator_token) (c : List basic_token) (o : List ℚ),
      postfix_eval_loop M (postfix_flush (postfix_loop content s c).1
          (postfix_loop content s c).2) o
        = (postfix_eval_loop M c o).bind (fun o1 =>
            (infix_loop M content o1 s).bind (fun r => infix_flush M r.1 r.2))) := by
  have hgen : ∀ (s : List operator_token) (c : List basic_token) (o : List ℚ),
      postfix_eval_loop M (postfix_flush (postfix_loop content s c).1
          (postfix_loop content s c).2) o
        = (postfix_eval_loop M c o).bind (fun o1 =>
            (infix_loop M content o1 s).bind (fun r => infix_flush M r.1 r.2)) := by
    intro s c o
    rw [postfix_flush_eval]
    exact postfix_loop_eval M content s c o (fun o1 s1 => infix_flush M o1 s1)
  refine ⟨?_, hgen⟩
  have h0 : postfix_eval_loop M (postfix_flush (postfix_loop content [] []).1
      (postfix_loop content [] []).2) []
      = (infix_loop M content [] []).bind (fun r => infix_flush M r.1 r.2) :=
    (hgen [] [] []).trans rfl
  unfold infix_expression.evaluate postfix_expression.evaluate postfix_expression.init
  rw [h0]
  cases infix_loop M content [] [] with
  | error e => rfl
  | ok r => rfl

theorem evaluators_agree_witness :
    ∀ M : libm,
      infix_expression.evaluate M [.number_token 1, .op .plus_token, .number_token 2,
        .op .multiply_token, .number_token 3] = .ok 7 ∧
      postfix_expression.init [.number_token 1, .op .plus_token, .number_token 2,
        .op .multiply_token, .number_token 3]
        = [.number_token 1, .number_token 2, .number_token 3, .op .multiply_token,
            .op .plus_token] ∧
      postfix_expression.evaluate M [.number_token 1, .number_token 2, .number_token 3,
        .op .multiply_token, .op .plus_token] = .ok 7 := by
  intro M
  have h := (evaluators_agree M [.number_token 1, .op .plus_token, .number_token 2,
    .op .multiply_token, .number_token 3]).1
  have hi : infix_expression.evaluate M [.number_token 1, .op .plus_token, .number_token 2,
      .op .multiply_token, .number_token 3] = .ok 7 := by
    simp [infix_expression.evaluate, infix_loop, infix_reduce, infix_flush,
      basic_expression.calculate, operator_token.operand_num, operator_token.priority,
      operator_token.apply, evaluate_result]
    norm_num
  have hp : postfix_expression.init [.number_token 1, .op .plus_token, .number_token 2,
      .op .multiply_token, .number_token 3]
      = [.number_token 1, .number_token 2, .number_token 3, .op .multiply_token,
          .op .plus_token] := by
    decide
  refine ⟨hi, hp, ?_⟩
  rw [← hp, ← h]
  exact hi

/-- C40: an accepted expression that underflows the operand stack. The tokens of "2^-3"
pass expression_validator::validate_expression with no error, the constructor of
infix_expression builds the content 2, ^, neg, 3 from them, and
infix_expression::evaluate on this content applies "^" when "neg" arrives, with one
operand on the stack: basic_expression::calculate pops it and reads the top of the empty
stack. -/
theorem validated_underflow :
    expression_validator.validate_expression ["2", "^", "-", "3"] = true ∧
    expression_validator.tokens ["2", "^", "-", "3"] = ["2", "^", "neg", "3"] ∧
    (∀ number_value : String → ℚ,
      infix_expression.init number_value ["2", "^", "neg", "3"] =
        .ok [.number_token (number_value "2"), .op .exponent_token, .op .negate_token,
          .number_token (number_value "3")]) ∧
    (∀ (M : libm) (a b : ℚ),
      basic_expression.calculate M [a] .exponent_token = .error .stack_underflow ∧
      infix_expression.evaluate M
        [.number_token a, .op .exponent_token, .op .negate_token, .number_token b] =
        .error .stack_underflow) := by
  refine ⟨by decide, by decide, ?_, ?_⟩
  · intro number_value
    have h2 : expression_tokenizer.is_number "2" = true := by decide
    have h3 : expression_tokenizer.is_number "3" = true := by decide
    have hp : expression_tokenizer.is_number "^" = false := by decide
    have hn : expression_tokenizer.is_number "neg" = false := by decide
    have sp : string_to_operator_token "^" = .ok .exponent_token := by
      simp [string_to_operator_token]
    have sn : string_to_operator_token "neg" = .ok .negate_token := by
      simp [string_to_operator_token]
    simp [infix_expression.init, h2, h3, hp, hn, sp, sn]
  · intro M a b
    exact ⟨rfl, rfl⟩

/-! ## The ids a zone resolves: zones built with ids of their own -/

theorem keys_own_of_sub (c c1 : city) (h : c.keys_own) (hid : c1.id_ = c.id_)
    (hsub : ∀ e ∈ c1.places_, ∃ e0 ∈ c.places_, e0.1 = e.1) : c1.keys_own := by
  refine ⟨hid ▸ h.1, hid ▸ h.2.1, ?_⟩
  intro e he
  obtain ⟨e0, he0, hk⟩ := hsub e he
  rw [hid, ← hk]
  exact h.2.2 e0 he0

theorem keys_own_add (E : env) (c : city) (h : c.keys_own) (id : Nat) (name : String)
    (globe : point2d) (h64 : id < 2 ^ 64) (hz : id >>> 32 = c.id_) :
    (c.add_place E id name globe).2.keys_own := by
  unfold city.add_place
  by_cases hp : c.has_place id = true
  · simpa only [hp, if_true] using h
  · simp only [hp, Bool.false_eq_true, if_false]
    unfold location.init
    by_cases h0 : id = 0
    · simpa only [h0, if_true] using h
    · simp only [h0, if_false]
      refine ⟨h.1, h.2.1, ?_⟩
      intro e he
      rcases umap_mem_set _ _ _ _ he with h1 | h1
      · rw [h1]
        exact ⟨hz, h64⟩
      · exact h.2.2 e h1

theorem city_add_road_keys (E : env) (c : city) (u v : Nat) :
    ∀ e ∈ (c.add_road E u v).2.places_, ∃ e0 ∈ c.places_, e0.1 = e.1 := by
  intro e he
  unfold city.add_road at he
  cases hu : c.place u with
  | none =>
    simp only [hu] at he
    exact ⟨e, he, rfl⟩
  | some fp =>
    cases hv : c.place v with
    | none =>
      simp only [hu, hv] at he
      exact ⟨e, he, rfl⟩
    | some tp =>
      simp only [hu, hv] at he
      rcases umap_mem_set _ _ _ _ he with h1 | h1
      · exact ⟨(u, fp), umap_find_mem _ _ _ hu, by rw [h1]⟩
      · exact ⟨e, h1, rfl⟩

theorem city_add_intercity_road_keys (E : env) (c : city) (u v : Nat) (p : point2d) :
    ∀ e ∈ (c.add_intercity_road E u v p).2.places_, ∃ e0 ∈ c.places_, e0.1 = e.1 := by
  intro e he
  unfold city.add_intercity_road at he
  cases hu : c.place u with
  | none =>
    simp only [hu] at he
    exact ⟨e, he, rfl⟩
  | some fp =>
    simp only [hu] at he
    rcases umap_mem_set _ _ _ _ he with h1 | h1
    · exact ⟨(u, fp), umap_find_mem _ _ _ hu, by rw [h1]⟩
    · exact ⟨e, h1, rfl⟩

theorem city_add_bidirectional_road_keys (E : env) (c : city) (u v : Nat) :
    ∀ e ∈ (c.add_bidirectional_road E u v).2.places_, ∃ e0 ∈ c.places_, e0.1 = e.1 := by
  intro e he
  unfold city.add_bidirectional_road at he
  have h1 := city_add_road_keys E c u v
  rcases hr1 : c.add_road E u v with ⟨r1, c1⟩
  rw [hr1] at he h1
  cases r1 with
  | error x => exact h1 e he
  | ok d1 =>
    simp only at he
    have h2 := city_add_road_keys E c1 v u
    rcases hr2 : c1.add_road E v u with ⟨r2, c2⟩
    rw [hr2] at he h2
    have he2 : e ∈ c2.places_ := by
      cases r2 <;> exact he
    obtain ⟨e1, he1, hk1⟩ := h2 e he2
    obtain ⟨e0, he0, hk0⟩ := h1 e1 he1
    exact ⟨e0, he0, hk0.trans hk1⟩

theorem city_remove_place_keys (c : city) (id : Nat) :
    ∀ e ∈ (c.remove_place id).2.places_, ∃ e0 ∈ c.places_, e0.1 = e.1 := by
  intro e he
  unfold city.remove_place at he
  by_cases hp : c.has_place id = true
  · simp only [hp, Bool.not_true, Bool.false_eq_true, if_false] at he
    unfold umap_erase at he
    rw [List.mem_filter, List.mem_map] at he
    obtain ⟨⟨e0, he0, hk⟩, _⟩ := he
    exact ⟨e0, he0, by rw [← hk]⟩
  · simp only [hp, Bool.not_false, if_true] at he
    exact ⟨e, he, rfl⟩

theorem built_own_inv (E : env) (c : city) (h : city.built_own E c) : c.keys_own := by
  induction h with
  | init id name c hid hc =>
    unfold city.init at hc
    by_cases h0 : id = 0
    · simp [h0] at hc
    · simp only [h0, if_false, Except.ok.injEq] at hc
      subst hc
      exact ⟨hid, h0, fun e he => absurd he (List.not_mem_nil _)⟩
  | add_place c id name globe _ h64 hz ih => exact keys_own_add E c ih id name globe h64 hz
  | add_local_place c serial name globe _ ih =>
    exact keys_own_add E c ih (city.place_id c.id_ serial) name globe
      (place_id_shift c.id_ serial ih.1).2 (place_id_shift c.id_ serial ih.1).1
  | remove_place c id _ ih =>
    exact keys_own_of_sub c _ ih (city_remove_place_id c id) (city_remove_place_keys c id)
  | remove_local_place c serial _ ih =>
    exact keys_own_of_sub c _ ih (city_remove_place_id c _) (city_remove_place_keys c _)
  | add_road c u v _ ih =>
    exact keys_own_of_sub c _ ih (city_add_road_id E c u v) (city_add_road_keys E c u v)
  | add_bidirectional_road c u v _ ih =>
    exact keys_own_of_sub c _ ih (city_add_bidirectional_road_id E c u v)
      (city_add_bidirectional_road_keys E c u v)
  | add_intercity_road c u v p _ ih =>
    exact keys_own_of_sub c _ ih (city_add_intercity_road_id E c u v p)
      (city_add_intercity_road_keys E c u v p)

/-- C31, amended: a zone made by the constructor with an unsigned id and changed by the
public operations of city resolves only ids of its own zone, provided every add_place was
given an id of the zone (id >> 32 equal to the zone id, as the ids written by
save_all_cities_as_json and read back by load_all_cities_from_json are): when
city::place(id) returns a location, id >> 32 is the id of the zone, which is not 0, and id
is a 64-bit value. The operations are add_place, add_local_place, remove_place,
remove_local_place, add_road, add_bidirectional_road and add_intercity_road. -/
theorem zone_resolves_own (E : env) (c : city) (h : city.built_own E c) (id : Nat)
    (l : location) (hl : c.place id = some l) :
    id >>> 32 = c.id_ ∧ c.id_ ≠ 0 ∧ id < 2 ^ 64 := by
  obtain ⟨_, h2, h3⟩ := built_own_inv E c h
  have := h3 (id, l) (umap_find_mem _ id l hl)
  exact ⟨this.1, h2, this.2⟩

theorem zone_resolves_own_witness :
    city.place_id 1 2 >>> 32 = own_id_town.id_ ∧ own_id_town.id_ ≠ 0 ∧
    city.place_id 1 2 < 2 ^ 64 :=
  zone_resolves_own sample_env own_id_town
    (city.built_own.add_local_place _ 3 "C" _
      (city.built_own.add_place _ (city.place_id 1 2) "B" _
        (city.built_own.add_place _ (city.place_id 1 1) "A" _
          (city.built_own.init 1 "Capital" _ (by decide) rfl) (by decide) (by decide))
        (by decide) (by decide)))
    (city.place_id 1 2) _ rfl

/-! ## Rounding to the nearest integer -/

theorem round_even_floor_le (x : ℚ) : ⌊x⌋ ≤ round_even x := by
  unfold round_even
  split
  · exact le_refl _
  · split
    · omega
    · split <;> omega

theorem round_even_le_floor_succ (x : ℚ) : round_even x ≤ ⌊x⌋ + 1 := by
  unfold round_even
  split
  · omega
  · split
    · omega
    · split <;> omega

theorem round_even_int (n : ℤ) : round_even (n : ℚ) = n := by
  unfold round_even
  simp

theorem round_even_err (x : ℚ) : |(round_even x : ℚ) - x| ≤ 1 / 2 := by
  have h1 : (⌊x⌋ : ℚ) ≤ x := Int.floor_le x
  have h2 : x < ⌊x⌋ + 1 := Int.lt_floor_add_one x
  unfold round_even
  rw [abs_le]
  split
  · constructor <;> linarith
  · split
    · push_cast
      constructor <;> linarith
    · split
      · constructor <;> linarith
      · push_cast
        constructor <;> linarith

theorem round_even_eq (x : ℚ) (n : ℤ) (h1 : (n : ℚ) - 1 / 2 < x) (h2 : x < n + 1 / 2) :
    round_even x = n := by
  have he := abs_le.mp (round_even_err x)
  have h3 : ((round_even x : ℤ) : ℚ) < n + 1 := by linarith [he.2]
  have h4 : (n : ℚ) - 1 < round_even x := by linarith [he.1]
  have h5 : round_even x < n + 1 := by exact_mod_cast h3
  have h6 : n - 1 < round_even x := by exact_mod_cast h4
  omega

theorem le_round_even (x : ℚ) (n : ℤ) (h : (n : ℚ) ≤ x) : n ≤ round_even x :=
  le_trans (Int.le_floor.mpr h) (round_even_floor_le x)

theorem round_even_le (x : ℚ) (n : ℤ) (h : x ≤ n) : round_even x ≤ n := by
  by_cases hx : x = ⌊x⌋
  · have : round_even x = ⌊x⌋ := by
      unfold round_even
      rw [if_pos]
      rw [← hx]
      norm_num
    rw [this]
    have h3 : (⌊x⌋ : ℚ) ≤ n := by
      rw [← hx]
      exact h
    exact_mod_cast h3
  · have hlt : (⌊x⌋ : ℚ) < x := lt_of_le_of_ne (Int.floor_le x) (fun e => hx e.symm)
    have : (⌊x⌋ : ℚ) < n := lt_of_lt_of_le hlt h
    have h2 : ⌊x⌋ < n := by exact_mod_cast this
    have := round_even_le_floor_succ x
    omega

theorem round_even_nonneg (x : ℚ) (h : 0 ≤ x) : 0 ≤ round_even x :=
  le_round_even x 0 (by simpa using h)

/-! ## Rounding to the nearest double -/

theorem log_two_eq (a : ℚ) (k : ℤ) (h1 : (2 : ℚ) ^ k ≤ a) (h2 : a < (2 : ℚ) ^ (k + 1)) :
    Int.log 2 a = k := by
  have ha : 0 < a := lt_of_lt_of_le (zpow_pos (by norm_num) k) h1
  have h3 : k ≤ Int.log 2 a := (Int.zpow_le_iff_le_log (by norm_num) ha).mp (by exact_mod_cast h1)
  have h4 : Int.log 2 a < k + 1 :=
    (Int.lt_zpow_iff_log_lt (by norm_num) ha).mp (by exact_mod_cast h2)
  omega

theorem ulp_exp_pos (a : ℚ) : (0 : ℚ) < 2 ^ double.ulp_exp a := zpow_pos (by norm_num) _

theorem round_abs_zero : double.round_abs 0 = 0 := by
  unfold double.round_abs
  simp [round_even]

theorem round_abs_nonneg (a : ℚ) (h : 0 ≤ a) : 0 ≤ double.round_abs a := by
  unfold double.round_abs
  apply mul_nonneg _ (le_of_lt (ulp_exp_pos a))
  have := round_even_nonneg (a / 2 ^ double.ulp_exp a) (div_nonneg h (le_of_lt (ulp_exp_pos a)))
  exact_mod_cast this

theorem round_abs_err (a : ℚ) :
    |double.round_abs a - a| ≤ 2 ^ double.ulp_exp a / 2 := by
  have hp := ulp_exp_pos a
  have h := round_even_err (a / 2 ^ double.ulp_exp a)
  unfold double.round_abs
  have e1 : (round_even (a / 2 ^ double.ulp_exp a) : ℚ) * 2 ^ double.ulp_exp a - a
      = ((round_even (a / 2 ^ double.ulp_exp a) : ℚ) - a / 2 ^ double.ulp_exp a)
        * 2 ^ double.ulp_exp a := by
    field_simp
  rw [e1, abs_mul, abs_of_pos hp]
  calc |(round_even (a / 2 ^ double.ulp_exp a) : ℚ) - a / 2 ^ double.ulp_exp a|
        * 2 ^ double.ulp_exp a ≤ 1 / 2 * 2 ^ double.ulp_exp a :=
        mul_le_mul_of_nonneg_right h (le_of_lt hp)
    _ = 2 ^ double.ulp_exp a / 2 := by ring

theorem ulp_exp_normal (a : ℚ) (h : (2 : ℚ) ^ (-1022 : ℤ) ≤ a) :
    (2 : ℚ) ^ double.ulp_exp a ≤ a * 2 ^ (-52 : ℤ) := by
  have ha : 0 < a := lt_of_lt_of_le (zpow_pos (by norm_num) _) h
  have h1 : (-1022 : ℤ) ≤ Int.log 2 a :=
    (Int.zpow_le_iff_le_log (by norm_num) ha).mp (by exact_mod_cast h)
  have h2 : double.ulp_exp a = Int.log 2 a - 52 := by
    unfold double.ulp_exp
    exact max_eq_left (by omega)
  rw [h2, sub_eq_add_neg, zpow_add₀ (by norm_num)]
  have h3 : ((2 : ℕ) : ℚ) ^ Int.log 2 a ≤ a := Int.zpow_log_le_self (by norm_num) ha
  exact mul_le_mul_of_nonneg_right (by exact_mod_cast h3) (le_of_lt (zpow_pos (by norm_num) _))

/-- In the range of the normal numbers the rounding error is at most 2^-53 of the value. -/
theorem round_abs_rel (a : ℚ) (h : (2 : ℚ) ^ (-1022 : ℤ) ≤ a) :
    |double.round_abs a - a| ≤ a * 2 ^ (-53 : ℤ) := by
  have h1 := round_abs_err a
  have h2 := ulp_exp_normal a h
  have e : a * (2 : ℚ) ^ (-53 : ℤ) = a * 2 ^ (-52 : ℤ) / 2 := by
    rw [show (-53 : ℤ) = -52 + -1 by norm_num, zpow_add₀ (by norm_num : (2 : ℚ) ≠ 0)]
    norm_num
    ring
  rw [e]
  exact le_trans h1 (div_le_div_of_nonneg_right h2 (by norm_num))

theorem ulp_exp_nonpos (a : ℚ) (h : a < 2 ^ 53) : double.ulp_exp a ≤ 0 := by
  unfold double.ulp_exp
  apply max_le _ (by norm_num)
  by_cases ha : 0 < a
  · have : Int.log 2 a < 53 :=
      (Int.lt_zpow_iff_log_lt (by norm_num) ha).mp (by exact_mod_cast h)
    omega
  · rw [Int.log_of_right_le_zero 2 (not_lt.mp ha)]
    norm_num

theorem zpow_nonpos_int (e : ℤ) (he : e ≤ 0) : ∃ N : ℤ, 0 < N ∧ (N : ℚ) * 2 ^ e = 1 := by
  obtain ⟨m, hm⟩ := Int.exists_eq_neg_ofNat he
  refine ⟨2 ^ m, by positivity, ?_⟩
  rw [hm, zpow_neg, zpow_natCast]
  push_cast
  exact mul_inv_cancel₀ (by positivity)

/-- Rounding does not cross an integer: below. -/
theorem le_round_abs (a : ℚ) (n : ℤ) (ha : a < 2 ^ 53) (h : (n : ℚ) ≤ a) :
    (n : ℚ) ≤ double.round_abs a := by
  have hp := ulp_exp_pos a
  obtain ⟨N, hN0, hN⟩ := zpow_nonpos_int _ (ulp_exp_nonpos a ha)
  unfold double.round_abs
  have hdiv : a / 2 ^ double.ulp_exp a = a * N := by
    rw [div_eq_iff (ne_of_gt hp), mul_assoc, hN, mul_one]
  have h1 : ((n * N : ℤ) : ℚ) ≤ a / 2 ^ double.ulp_exp a := by
    rw [hdiv]
    push_cast
    exact mul_le_mul_of_nonneg_right h (by exact_mod_cast le_of_lt hN0)
  have h2 := le_round_even _ _ h1
  have h3 : ((n * N : ℤ) : ℚ) ≤ (round_even (a / 2 ^ double.ulp_exp a) : ℚ) := by
    exact_mod_cast h2
  have h4 := mul_le_mul_of_nonneg_right h3 (le_of_lt hp)
  have h5 : ((n * N : ℤ) : ℚ) * 2 ^ double.ulp_exp a = n := by
    push_cast
    rw [mul_assoc, hN, mul_one]
  rw [h5] at h4
  exact h4

/-- Rounding does not cross an integer: above. -/
theorem round_abs_le (a : ℚ) (n : ℤ) (ha : a < 2 ^ 53) (h : a ≤ (n : ℚ)) :
    double.round_abs a ≤ (n : ℚ) := by
  have hp := ulp_exp_pos a
  obtain ⟨N, hN0, hN⟩ := zpow_nonpos_int _ (ulp_exp_nonpos a ha)
  unfold double.round_abs
  have hdiv : a / 2 ^ double.ulp_exp a = a * N := by
    rw [div_eq_iff (ne_of_gt hp), mul_assoc, hN, mul_one]
  have h1 : a / 2 ^ double.ulp_exp a ≤ ((n * N : ℤ) : ℚ) := by
    rw [hdiv]
    push_cast
    exact mul_le_mul_of_nonneg_right h (by exact_mod_cast le_of_lt hN0)
  have h2 := round_even_le _ _ h1
  have h3 : (round_even (a / 2 ^ double.ulp_exp a) : ℚ) ≤ ((n * N : ℤ) : ℚ) := by
    exact_mod_cast h2
  have h4 := mul_le_mul_of_nonneg_right h3 (le_of_lt hp)
  have h5 : ((n * N : ℤ) : ℚ) * 2 ^ double.ulp_exp a = n := by
    push_cast
    rw [mul_assoc, hN, mul_one]
  rw [h5] at h4
  exact h4

/-- An integer below 2^53 is a double. -/
theorem round_abs_int (n : ℤ) (h : (n : ℚ) < 2 ^ 53) : double.round_abs n = n :=
  le_antisymm (round_abs_le n n h (le_refl _)) (le_round_abs n n h (le_refl _))

/-- The double nearest to a, from its binary exponent k and the integer n nearest to
a / 2^e, e being the exponent of the unit in the last place. -/
theorem round_abs_eq (a : ℚ) (k e n : ℤ) (h1 : (2 : ℚ) ^ k ≤ a) (h2 : a < (2 : ℚ) ^ (k + 1))
    (he : e = max (k - 52) (-1074)) (hn1 : ((n : ℚ) - 1 / 2) * 2 ^ e < a)
    (hn2 : a < ((n : ℚ) + 1 / 2) * 2 ^ e) : double.round_abs a = n * 2 ^ e := by
  have hk := log_two_eq a k h1 h2
  have hu : double.ulp_exp a = e := by
    unfold double.ulp_exp
    rw [hk, he]
  unfold double.round_abs
  rw [hu]
  have hp : (0 : ℚ) < 2 ^ e := zpow_pos (by norm_num) _
  rw [round_even_eq (a / 2 ^ e) n ((lt_div_iff₀ hp).mpr hn1) ((div_lt_iff₀ hp).mpr hn2)]

theorem round_zero : double.round 0 = .fin 0 := by
  unfold double.round
  simp [round_abs_zero]

theorem round_of_nonneg (q : ℚ) (h : 0 ≤ q) :
    double.round q = if double.round_abs q < 2 ^ 1024 then .fin (double.round_abs q)
      else .inf false := by
  unfold double.round
  rw [abs_of_nonneg h]
  simp [not_lt.mpr h]

theorem round_neg (q : ℚ) : double.round (-q) = (double.round q).neg := by
  rcases lt_trichotomy q 0 with h | h | h
  · unfold double.round
    have h1 : ¬ (-q < 0) := by linarith
    rw [abs_neg]
    by_cases hb : double.round_abs |q| < 2 ^ 1024
    · simp [hb, h, h1, double.neg]
    · simp [hb, h, h1, double.neg]
  · subst h
    simp [round_zero, double.neg]
  · unfold double.round
    have h1 : ¬ (q < 0) := by linarith
    have h2 : -q < 0 := by linarith
    rw [abs_neg]
    by_cases hb : double.round_abs |q| < 2 ^ 1024
    · simp [hb, h2, h1, double.neg]
    · simp [hb, h2, h1, double.neg]

/-- Rounding keeps the sign: a nonnegative number rounds to a nonnegative number or
overflows to +infinity. -/
theorem round_nonneg_cases (q : ℚ) (h : 0 ≤ q) :
    (∃ v : ℚ, 0 ≤ v ∧ double.round q = .fin v) ∨ double.round q = .inf false := by
  rw [round_of_nonneg q h]
  by_cases hb : double.round_abs q < 2 ^ 1024
  · left
    exact ⟨_, round_abs_nonneg q h, by simp [hb]⟩
  · right
    simp [hb]

/-- An integer of magnitude below 2^53 is a double. -/
theorem round_int (n : ℤ) (h1 : -(2 : ℤ) ^ 53 < n) (h2 : n < (2 : ℤ) ^ 53) :
    double.round (n : ℚ) = .fin n := by
  have key : ∀ m : ℤ, 0 ≤ m → m < (2 : ℤ) ^ 53 → double.round (m : ℚ) = .fin m := by
    intro m hm0 hm
    have hm' : (m : ℚ) < 2 ^ 53 := by exact_mod_cast hm
    rw [round_of_nonneg _ (by exact_mod_cast hm0), round_abs_int m hm']
    have : (m : ℚ) < 2 ^ 1024 :=
      lt_of_lt_of_le hm' (pow_le_pow_right₀ (by norm_num) (by norm_num))
    simp [this]
  by_cases hn : 0 ≤ n
  · exact key n hn h2
  · have h3 := key (-n) (by omega) (by omega)
    have h4 := round_neg ((-n : ℤ) : ℚ)
    rw [h3] at h4
    simp only [double.neg] at h4
    push_cast at h4
    simpa using h4

/-- The double nearest to a positive number q, from its binary exponent k and the integer
n nearest to q / 2^e. -/
theorem round_eq (q : ℚ) (k e n : ℤ) (h1 : (2 : ℚ) ^ k ≤ q) (h2 : q < (2 : ℚ) ^ (k + 1))
    (he : e = max (k - 52) (-1074)) (hn1 : ((n : ℚ) - 1 / 2) * 2 ^ e < q)
    (hn2 : q < ((n : ℚ) + 1 / 2) * 2 ^ e) (hv : (n : ℚ) * 2 ^ e < 2 ^ 1024) :
    double.round q = .fin (n * 2 ^ e) := by
  have hq : 0 ≤ q := le_trans (le_of_lt (zpow_pos (by norm_num) k)) h1
  rw [round_of_nonneg q hq, round_abs_eq q k e n h1 h2 he hn1 hn2]
  simp [hv]

/-! ## The UTM zone of a longitude, on doubles -/

theorem lit_int (n : ℤ) (h1 : -(2 : ℤ) ^ 53 < n) (h2 : n < (2 : ℤ) ^ 53) :
    double.lit (n : ℚ) = .fin n := round_int n h1 h2

theorem lit_180 : double.lit 180.0 = .fin 180 := by
  have := lit_int 180 (by norm_num) (by norm_num)
  norm_num at this ⊢
  exact this

theorem lit_6 : double.lit 6.0 = .fin 6 := by
  have := lit_int 6 (by norm_num) (by norm_num)
  norm_num at this ⊢
  exact this

theorem double_add_fin (a b : ℚ) : double.fin a + double.fin b = double.round (a + b) := rfl

theorem double_div_fin (a b : ℚ) (hb : b ≠ 0) :
    double.fin a / double.fin b = double.round (a / b) := by
  show double.div _ _ = _
  simp [double.div, hb]

theorem ulp_exp_le (a : ℚ) (k : ℤ) (ha : 0 < a) (h : a < (2 : ℚ) ^ (k + 1))
    (hk : -1074 ≤ k - 52) : double.ulp_exp a ≤ k - 52 := by
  unfold double.ulp_exp
  apply max_le _ hk
  have : Int.log 2 a < k + 1 :=
    (Int.lt_zpow_iff_log_lt (by norm_num) ha).mp (by exact_mod_cast h)
  omega

/-- Rounding error of a number below 2^(k+1): half a unit of the last place at most. -/
theorem round_abs_err_le (a : ℚ) (k : ℤ) (ha : 0 ≤ a) (h : a < (2 : ℚ) ^ (k + 1))
    (hk : -1074 ≤ k - 52) : |double.round_abs a - a| ≤ 2 ^ (k - 52) / 2 := by
  rcases eq_or_lt_of_le ha with h0 | h0
  · rw [← h0, round_abs_zero]
    simp only [sub_self, abs_zero]
    positivity
  · have h1 := round_abs_err a
    have h2 : (2 : ℚ) ^ double.ulp_exp a ≤ 2 ^ (k - 52) :=
      zpow_le_zpow_right₀ (by norm_num) (ulp_exp_le a k h0 h hk)
    exact le_trans h1 (div_le_div_of_nonneg_right h2 (by norm_num))

theorem two_pow_53_le : (2 : ℚ) ^ 53 ≤ 2 ^ 1024 :=
  pow_le_pow_right₀ (by norm_num) (by norm_num)

theorem cast_int_nonneg (q : ℚ) (h : 0 ≤ q) : cast_int q = ⌊q⌋ := by
  simp [cast_int, h]

/-- The sum lon + 180.0 and the quotient by 6.0, for a longitude from -180 on: both are
numbers, between the integers around the exact values. -/
theorem utm_zone_steps (lon : ℚ) (h1 : -180 ≤ lon) (h2 : lon < 12884901696) :
    ∃ s t : ℚ, double.fin lon + double.lit 180.0 = .fin s ∧
      double.fin s / double.lit 6.0 = .fin t ∧
      s = double.round_abs (lon + 180) ∧ t = double.round_abs (s / 6) ∧
      (6 * ⌊(lon + 180) / 6⌋ : ℚ) ≤ s ∧ s ≤ 6 * ⌊(lon + 180) / 6⌋ + 6 ∧
      (⌊(lon + 180) / 6⌋ : ℚ) ≤ t ∧ t ≤ ⌊(lon + 180) / 6⌋ + 1 := by
  have ha : 0 ≤ lon + 180 := by linarith
  have hfl : (⌊(lon + 180) / 6⌋ : ℚ) ≤ (lon + 180) / 6 := Int.floor_le _
  have hfu : (lon + 180) / 6 < ⌊(lon + 180) / 6⌋ + 1 := Int.lt_floor_add_one _
  have hn0 : 0 ≤ ⌊(lon + 180) / 6⌋ := Int.floor_nonneg.mpr (by positivity)
  have hnu : ⌊(lon + 180) / 6⌋ < 2147483646 := by
    rw [Int.floor_lt]
    push_cast
    linarith
  have hn0' : (0 : ℚ) ≤ ⌊(lon + 180) / 6⌋ := by exact_mod_cast hn0
  have hnu' : (⌊(lon + 180) / 6⌋ : ℚ) < 2147483646 := by exact_mod_cast hnu
  have ha53 : lon + 180 < 2 ^ 53 := by
    have : (12884901876 : ℚ) < 2 ^ 53 := by norm_num
    linarith
  have hs1 : ((6 * ⌊(lon + 180) / 6⌋ : ℤ) : ℚ) ≤ double.round_abs (lon + 180) :=
    le_round_abs _ _ ha53 (by push_cast; linarith)
  have hs2 : double.round_abs (lon + 180) ≤ ((6 * ⌊(lon + 180) / 6⌋ + 6 : ℤ) : ℚ) :=
    round_abs_le _ _ ha53 (by push_cast; linarith)
  push_cast at hs1 hs2
  have hs0 : 0 ≤ double.round_abs (lon + 180) := round_abs_nonneg _ ha
  have hsb : double.round_abs (lon + 180) < 2 ^ 1024 := by
    have : (12884901882 : ℚ) < 2 ^ 53 := by norm_num
    linarith [two_pow_53_le]
  have hq0 : 0 ≤ double.round_abs (lon + 180) / 6 := div_nonneg hs0 (by norm_num)
  have hq53 : double.round_abs (lon + 180) / 6 < 2 ^ 53 := by
    have : (2147483647 : ℚ) < 2 ^ 53 := by norm_num
    linarith
  have ht1 : ((⌊(lon + 180) / 6⌋ : ℤ) : ℚ) ≤ double.round_abs (double.round_abs (lon + 180) / 6) :=
    le_round_abs _ _ hq53 (by linarith)
  have ht2 : double.round_abs (double.round_abs (lon + 180) / 6)
      ≤ ((⌊(lon + 180) / 6⌋ + 1 : ℤ) : ℚ) :=
    round_abs_le _ _ hq53 (by push_cast; linarith)
  push_cast at ht2
  have htb : double.round_abs (double.round_abs (lon + 180) / 6) < 2 ^ 1024 := by
    have : (2147483647 : ℚ) < 2 ^ 53 := by norm_num
    linarith [two_pow_53_le]
  refine ⟨double.round_abs (lon + 180), double.round_abs (double.round_abs (lon + 180) / 6),
    ?_, ?_, rfl, rfl, hs1, hs2, ht1, ht2⟩
  · rw [lit_180, double_add_fin, round_of_nonneg _ ha]
    simp [hsb]
  · rw [lit_6, double_div_fin _ _ (by norm_num), round_of_nonneg _ hq0]
    simp [htb]

/-- Static location::utm_zone, unfolded. -/
theorem utm_zone_eq (lon : double) : dbl.location.utm_zone lon =
    match ((lon + double.lit 180.0) / double.lit 6.0).to_int with
    | none => none
    | some n => if n + 1 < 2 ^ 31 then some (n + 1) else none := rfl

/-- The conversion to int of a nonnegative number q between n and n + 1. -/
theorem to_int_some (q : ℚ) (n : ℤ) (h0 : 0 ≤ q) (h1 : (n : ℚ) ≤ q) (h2 : q < n + 1)
    (hr : n < 2 ^ 31) : (double.fin q).to_int = some n := by
  have hn0 : 0 ≤ n := by
    have h3 : (-1 : ℚ) < n := by linarith
    have h4 : (-1 : ℤ) < n := by exact_mod_cast h3
    omega
  have hc : cast_int q = n := by
    unfold cast_int
    rw [if_pos h0, Int.floor_eq_iff]
    exact ⟨h1, h2⟩
  show (if -2 ^ 31 ≤ cast_int q ∧ cast_int q < 2 ^ 31 then some (cast_int q) else none)
    = some n
  rw [hc, if_pos ⟨by omega, hr⟩]

/-- The zone from the double quotient q of the steps, a number between n and n + 1. -/
theorem utm_zone_some (lon : double) (q : ℚ) (n : ℤ)
    (ht : (lon + double.lit 180.0) / double.lit 6.0 = .fin q) (h0 : 0 ≤ q) (h1 : (n : ℚ) ≤ q)
    (h2 : q < n + 1) (hr : n + 1 < 2 ^ 31) : dbl.location.utm_zone lon = some (n + 1) := by
  rw [utm_zone_eq, ht, to_int_some q n h0 h1 h2 (by omega)]
  simp only [hr, if_true]

/-- The zone computed from the quotient t of the steps. -/
theorem utm_zone_of_steps (lon s t : ℚ) (hs : double.fin lon + double.lit 180.0 = .fin s)
    (ht : double.fin s / double.lit 6.0 = .fin t) (ht0 : 0 ≤ t) (htu : ⌊t⌋ < 2147483647) :
    dbl.location.utm_zone (.fin lon) = some (⌊t⌋ + 1) := by
  unfold dbl.location.utm_zone
  rw [hs, ht]
  simp only [double.to_int, cast_int_nonneg t ht0]
  have hr1 : -(2 : ℤ) ^ 31 ≤ ⌊t⌋ := by
    have : (0 : ℤ) ≤ ⌊t⌋ := Int.floor_nonneg.mpr ht0
    omega
  have hr2 : ⌊t⌋ < (2 : ℤ) ^ 31 := by omega
  have hr3 : ⌊t⌋ + 1 < (2 : ℤ) ^ 31 := by omega
  norm_num at hr1 hr2 hr3
  simp [hr1, hr2, hr3]

/-- For a longitude from -180 up to 12884901696 utm_zone is defined. -/
theorem utm_zone_defined (lon : ℚ) (h1 : -180 ≤ lon) (h2 : lon < 12884901696) :
    ∃ z, dbl.location.utm_zone (.fin lon) = some z := by
  obtain ⟨s, t, hs, ht, _, _, _, _, ht1, ht2⟩ := utm_zone_steps lon h1 h2
  have hn0 : (0 : ℚ) ≤ ⌊(lon + 180) / 6⌋ := by
    have : 0 ≤ ⌊(lon + 180) / 6⌋ := Int.floor_nonneg.mpr (by
      apply div_nonneg
      · linarith
      · norm_num)
    exact_mod_cast this
  have hnu : ⌊(lon + 180) / 6⌋ < 2147483646 := by
    rw [Int.floor_lt]
    push_cast
    linarith
  have hhi : ⌊t⌋ ≤ ⌊(lon + 180) / 6⌋ + 1 := by
    have : (⌊t⌋ : ℚ) ≤ t := Int.floor_le t
    have h3 : (⌊t⌋ : ℚ) ≤ ((⌊(lon + 180) / 6⌋ + 1 : ℤ) : ℚ) := by
      push_cast
      linarith
    exact_mod_cast h3
  exact ⟨_, utm_zone_of_steps lon s t hs ht (le_trans hn0 ht1) (by omega)⟩

/-- C34, amended: for a longitude lon from -180 up to 12884901696 (beyond which the value
is not a value of int), location::utm_zone(lon) is floor(t) + 1, t being the double
quotient of the double sum lon + 180.0 by 6.0. It is floor((lon + 180) / 6) + 1 or one
more, one more only when rounding has carried t up to the next integer; it is
floor((lon + 180) / 6) + 1 for every longitude up to 180 whose exact quotient
(lon + 180) / 6 lies at least 2^-46 below the next integer, and in any case between 1 and
61 for a longitude up to 180. -/
theorem utm_zone_floor (lon : ℚ) (h1 : -180 ≤ lon) (h2 : lon < 12884901696) :
    ∃ s t : ℚ, double.fin lon + double.lit 180.0 = .fin s ∧
      double.fin s / double.lit 6.0 = .fin t ∧
      dbl.location.utm_zone (.fin lon) = some (⌊t⌋ + 1) ∧
      ⌊(lon + 180) / 6⌋ + 1 ≤ ⌊t⌋ + 1 ∧ ⌊t⌋ + 1 ≤ ⌊(lon + 180) / 6⌋ + 2 ∧
      (⌊t⌋ + 1 = ⌊(lon + 180) / 6⌋ + 2 → t = ⌊(lon + 180) / 6⌋ + 1) ∧
      (lon ≤ 180 → (lon + 180) / 6 + 2 ^ (-46 : ℤ) ≤ ⌊(lon + 180) / 6⌋ + 1 →
        ⌊t⌋ + 1 = ⌊(lon + 180) / 6⌋ + 1) ∧
      (lon ≤ 180 → 1 ≤ ⌊t⌋ + 1 ∧ ⌊t⌋ + 1 ≤ 61) := by
  obtain ⟨s, t, hs, ht, hsd, htd, hs1, hs2, ht1, ht2⟩ := utm_zone_steps lon h1 h2
  have ha : 0 ≤ lon + 180 := by linarith
  have hn0 : 0 ≤ ⌊(lon + 180) / 6⌋ := Int.floor_nonneg.mpr (by positivity)
  have hnu : ⌊(lon + 180) / 6⌋ < 2147483646 := by
    rw [Int.floor_lt]
    push_cast
    linarith
  have hfl : (⌊(lon + 180) / 6⌋ : ℚ) ≤ (lon + 180) / 6 := Int.floor_le _
  have hfu : (lon + 180) / 6 < ⌊(lon + 180) / 6⌋ + 1 := Int.lt_floor_add_one _
  have hn0' : (0 : ℚ) ≤ ⌊(lon + 180) / 6⌋ := by exact_mod_cast hn0
  have ht0 : 0 ≤ t := le_trans hn0' ht1
  have hlo : ⌊(lon + 180) / 6⌋ ≤ ⌊t⌋ := Int.le_floor.mpr ht1
  have hhi : ⌊t⌋ ≤ ⌊(lon + 180) / 6⌋ + 1 := by
    have : (⌊t⌋ : ℚ) ≤ t := Int.floor_le t
    have h3 : (⌊t⌋ : ℚ) ≤ ((⌊(lon + 180) / 6⌋ + 1 : ℤ) : ℚ) := by
      push_cast
      linarith
    exact_mod_cast h3
  refine ⟨s, t, hs, ht, ?_, by omega, by omega, ?_, ?_, ?_⟩
  · exact utm_zone_of_steps lon s t hs ht ht0 (by omega)
  · intro h
    have h3 : ⌊t⌋ = ⌊(lon + 180) / 6⌋ + 1 := by omega
    have h4 : (⌊t⌋ : ℚ) ≤ t := Int.floor_le t
    rw [h3] at h4
    push_cast at h4
    linarith
  · intro h180 hgap
    have ha9 : lon + 180 < (2 : ℚ) ^ ((8 : ℤ) + 1) := by
      norm_num
      linarith
    have he1 := round_abs_err_le (lon + 180) 8 ha ha9 (by norm_num)
    rw [← hsd] at he1
    have hs360 : s ≤ 360 := by
      rw [hsd]
      have := round_abs_le (lon + 180) 360 (by norm_num; linarith) (by push_cast; linarith)
      exact_mod_cast this
    have hs0 : 0 ≤ s := by
      rw [hsd]
      exact round_abs_nonneg _ ha
    have hq6 : s / 6 < (2 : ℚ) ^ ((5 : ℤ) + 1) := by
      norm_num
      linarith
    have he2 := round_abs_err_le (s / 6) 5 (div_nonneg hs0 (by norm_num)) hq6 (by norm_num)
    rw [← htd] at he2
    have e1 := abs_le.mp he1
    have e2 := abs_le.mp he2
    norm_num at e1 e2 hgap
    have htlt : t < ⌊(lon + 180) / 6⌋ + 1 := by linarith [e1.2, e2.2]
    have h5 : ⌊t⌋ < ⌊(lon + 180) / 6⌋ + 1 := by
      rw [Int.floor_lt]
      push_cast
      exact htlt
    omega
  · intro h180
    have hs360 : s ≤ 360 := by
      rw [hsd]
      have := round_abs_le (lon + 180) 360 (by norm_num; linarith) (by push_cast; linarith)
      exact_mod_cast this
    have hs0 : 0 ≤ s := by
      rw [hsd]
      exact round_abs_nonneg _ ha
    have ht60 : t ≤ 60 := by
      rw [htd]
      have := round_abs_le (s / 6) 60 (by norm_num; linarith) (by push_cast; linarith)
      exact_mod_cast this
    have h6 : ⌊t⌋ ≤ 60 := by
      have : (⌊t⌋ : ℚ) ≤ t := Int.floor_le t
      have h7 : (⌊t⌋ : ℚ) ≤ ((60 : ℤ) : ℚ) := by
        push_cast
        linarith
      exact_mod_cast h7
    have : (0 : ℤ) ≤ ⌊t⌋ := Int.floor_nonneg.mpr ht0
    omega

theorem utm_zone_floor_witness :
    ∃ s t : ℚ, double.fin 116 + double.lit 180.0 = .fin s ∧
      double.fin s / double.lit 6.0 = .fin t ∧
      dbl.location.utm_zone (.fin 116) = some (⌊t⌋ + 1) ∧
      ⌊((116 : ℚ) + 180) / 6⌋ + 1 ≤ ⌊t⌋ + 1 ∧ ⌊t⌋ + 1 ≤ ⌊((116 : ℚ) + 180) / 6⌋ + 2 ∧
      (⌊t⌋ + 1 = ⌊((116 : ℚ) + 180) / 6⌋ + 2 → t = ⌊((116 : ℚ) + 180) / 6⌋ + 1) ∧
      ((116 : ℚ) ≤ 180 → ((116 : ℚ) + 180) / 6 + 2 ^ (-46 : ℤ) ≤ ⌊((116 : ℚ) + 180) / 6⌋ + 1 →
        ⌊t⌋ + 1 = ⌊((116 : ℚ) + 180) / 6⌋ + 1) ∧
      ((116 : ℚ) ≤ 180 → 1 ≤ ⌊t⌋ + 1 ∧ ⌊t⌋ + 1 ≤ 61) :=
  utm_zone_floor 116 (by norm_num) (by norm_num)

/-- The longitude 119.99999999999999: the sum with 180.0 rounds up to 300, and utm_zone
gives 51. -/
theorem utm_zone_near_boundary :
    double.lit 119.99999999999999 = .fin (120 - 2 ^ (-46 : ℤ)) ∧
    double.fin (120 - 2 ^ (-46 : ℤ)) + double.lit 180.0 = .fin 300 ∧
    dbl.location.utm_zone (.fin (120 - 2 ^ (-46 : ℤ))) = some 51 := by
  have hlit : double.lit 119.99999999999999 = .fin (120 - 2 ^ (-46 : ℤ)) := by
    unfold double.lit
    rw [round_eq 119.99999999999999 6 (-46) 8444249301319679 (by norm_num) (by norm_num)
      (by norm_num) (by norm_num) (by norm_num)
      (lt_of_lt_of_le (by norm_num : ((8444249301319679 : ℤ) : ℚ) * 2 ^ (-46 : ℤ) < 2 ^ 53)
        two_pow_53_le)]
    norm_num
  have hsum : double.fin (120 - 2 ^ (-46 : ℤ)) + double.lit 180.0 = .fin 300 := by
    rw [lit_180, double_add_fin,
      round_eq (120 - 2 ^ (-46 : ℤ) + 180) 8 (-44) 5277655813324800 (by norm_num) (by norm_num)
        (by norm_num) (by norm_num) (by norm_num)
        (lt_of_lt_of_le (by norm_num : ((5277655813324800 : ℤ) : ℚ) * 2 ^ (-44 : ℤ) < 2 ^ 53)
          two_pow_53_le)]
    norm_num
  have hquot : double.fin 300 / double.lit 6.0 = .fin 50 := by
    rw [lit_6, double_div_fin _ _ (by norm_num)]
    have := round_int 50 (by norm_num) (by norm_num)
    norm_num at this ⊢
    exact this
  refine ⟨hlit, hsum, ?_⟩
  have ht : (double.fin (120 - 2 ^ (-46 : ℤ)) + double.lit 180.0) / double.lit 6.0
      = .fin 50 := by
    rw [hsum, hquot]
  exact utm_zone_some _ 50 50 ht (by norm_num) (by norm_num) (by norm_num) (by norm_num)

theorem to_int_none (q : ℚ) (h : (2 : ℤ) ^ 31 ≤ cast_int q) : (double.fin q).to_int = none := by
  unfold double.to_int
  exact if_neg (fun h2 => absurd h2.2 (not_lt.mpr h))

theorem utm_zone_none (lon : double)
    (h : ((lon + double.lit 180.0) / double.lit 6.0).to_int = none) :
    dbl.location.utm_zone lon = none := by
  unfold dbl.location.utm_zone
  rw [h]

/-- Beyond the range of int: for the longitude 10^11 the quotient (lon + 180.0) / 6.0 is
above 2^31, the conversion to int is undefined, and utm_zone has no defined value. -/
theorem utm_zone_out_of_range : dbl.location.utm_zone (double.lit 100000000000) = none := by
  have hlit : double.lit 100000000000 = .fin 100000000000 := by
    have := lit_int 100000000000 (by norm_num) (by norm_num)
    norm_num at this ⊢
    exact this
  have hsum : double.fin 100000000000 + double.lit 180.0 = .fin 100000000180 := by
    rw [lit_180, double_add_fin]
    have := round_int 100000000180 (by norm_num) (by norm_num)
    norm_num at this ⊢
    exact this
  have hquot : double.fin 100000000180 / double.lit 6.0
      = .fin ((8738133349061973 : ℤ) * 2 ^ (-19 : ℤ)) := by
    rw [lit_6, double_div_fin _ _ (by norm_num)]
    exact round_eq _ 33 (-19) 8738133349061973 (by norm_num) (by norm_num) (by norm_num)
      (by norm_num) (by norm_num)
      (lt_of_lt_of_le (by norm_num : ((8738133349061973 : ℤ) : ℚ) * 2 ^ (-19 : ℤ) < 2 ^ 53)
        two_pow_53_le)
  have hbig : (2 : ℤ) ^ 31 ≤ cast_int ((8738133349061973 : ℤ) * 2 ^ (-19 : ℤ)) := by
    unfold cast_int
    rw [if_pos (by norm_num)]
    apply Int.le_floor.mpr
    norm_num
  apply utm_zone_none
  rw [hlit, hsum, hquot]
  exact to_int_none _ hbig

/-- C34, as stated, fails: the longitude 119.99999999999999 is a double within
[-180, 180], namely 120 - 2^-46. The double sum lon + 180.0 rounds up to 300, the quotient
by 6.0 is 50, and utm_zone returns 51, whereas floor((lon + 180) / 6) + 1 = 50. For the
longitude 10^11 the formula gives 16666666697 and utm_zone has no defined value, the
conversion to int being out of range. -/
theorem utm_zone_floor_counterexample :
    double.lit 119.99999999999999 = .fin (120 - 2 ^ (-46 : ℤ)) ∧
    (-180 : ℚ) ≤ 120 - 2 ^ (-46 : ℤ) ∧ (120 - 2 ^ (-46 : ℤ) : ℚ) ≤ 180 ∧
    double.fin (120 - 2 ^ (-46 : ℤ)) + double.lit 180.0 = .fin 300 ∧
    dbl.location.utm_zone (double.lit 119.99999999999999) = some 51 ∧
    ⌊((120 - 2 ^ (-46 : ℤ) : ℚ) + 180) / 6⌋ + 1 = 50 ∧
    dbl.location.utm_zone (double.lit 100000000000) = none ∧
    ⌊((100000000000 : ℚ) + 180) / 6⌋ + 1 = 16666666697 := by
  have h := utm_zone_near_boundary
  refine ⟨h.1, by norm_num, by norm_num, h.2.1, ?_, ?_, utm_zone_out_of_range, ?_⟩
  · rw [h.1]
    exact h.2.2
  · have : ⌊((120 - 2 ^ (-46 : ℤ) : ℚ) + 180) / 6⌋ = 49 := by
      rw [Int.floor_eq_iff]
      constructor <;> norm_num
    rw [this]
    norm_num
  · have : ⌊((100000000000 : ℚ) + 180) / 6⌋ = 16666666696 := by
      rw [Int.floor_eq_iff]
      constructor <;> norm_num
    rw [this]
    norm_num

/-! ## Doubles: NaN and sign -/

theorem double_add_def (a b : double) : a + b = a.add b := rfl

theorem double_sub_def (a b : double) : a - b = a.add b.neg := rfl

theorem double_mul_def (a b : double) : a * b = a.mul b := rfl

theorem double_div_def (a b : double) : a / b = a.div b := rfl

theorem double_nan_add (a : double) : double.nan + a = .nan := by
  cases a <;> rfl

theorem double_add_nan (a : double) : a + double.nan = .nan := by
  cases a <;> rfl

theorem double_nan_sub (a : double) : double.nan - a = .nan := by
  cases a <;> rfl

theorem double_sub_nan (a : double) : a - double.nan = .nan := by
  cases a <;> rfl

theorem double_nan_mul (a : double) : double.nan * a = .nan := by
  cases a <;> rfl

theorem double_mul_nan (a : double) : a * double.nan = .nan := by
  cases a <;> rfl

theorem double_nan_div (a : double) : double.nan / a = .nan := by
  cases a <;> rfl

theorem double_div_nan (a : double) : a / double.nan = .nan := by
  cases a <;> rfl

theorem double_sub_fin (a b : ℚ) : double.fin a - double.fin b = double.round (a - b) := by
  rw [double_sub_def]
  simp only [double.neg, double.add]
  rw [sub_eq_add_neg]

theorem double_mul_fin (a b : ℚ) : double.fin a * double.fin b = double.round (a * b) := rfl

theorem round_not_nan (q : ℚ) : (double.round q).is_nan = false := by
  unfold double.round
  split <;> rfl

theorem double_eq_self (a : double) : a.eq a = !a.is_nan := by
  cases a <;> simp [double.eq, double.is_nan]

theorem double_eq_nan_left (a : double) : double.nan.eq a = false := by
  cases a <;> rfl

theorem double_eq_nan_right (a : double) : a.eq double.nan = false := by
  cases a <;> rfl

theorem is_nonneg_round (q : ℚ) (h : 0 ≤ q) : (double.round q).is_nonneg :=
  round_nonneg_cases q h

theorem is_nonneg_le (d : double) (h : d.is_nonneg) : (double.fin 0).le d = true := by
  rcases h with ⟨v, hv, h⟩ | h
  · rw [h]
    unfold double.le double.lt double.eq
    rcases eq_or_lt_of_le hv with h0 | h0
    · simp [← h0]
    · simp [h0]
  · rw [h]
    rfl

theorem nan_not_le (d : double) : d.le .nan = false := by
  cases d <;> rfl

theorem is_nonneg_mul_self (d : double) (h : d.is_nan = false) : (d * d).is_nonneg := by
  cases d with
  | fin v => exact is_nonneg_round _ (mul_self_nonneg v)
  | inf s =>
    right
    show double.mul _ _ = _
    simp [double.mul]
  | nan => simp [double.is_nan] at h

theorem is_nonneg_add (a b : double) (ha : a.is_nonneg) (hb : b.is_nonneg) :
    (a + b).is_nonneg := by
  rcases ha with ⟨v, hv, ha⟩ | ha <;> rcases hb with ⟨w, hw, hb⟩ | hb <;> rw [ha, hb]
  · exact is_nonneg_round _ (add_nonneg hv hw)
  · right
    rfl
  · right
    rfl
  · right
    rfl

theorem is_nonneg_sqrt (f : ℚ → ℚ) (hf : ∀ q : ℚ, 0 ≤ q → 0 ≤ f q) (a : double)
    (ha : a.is_nonneg) : (double.sqrt f a).is_nonneg := by
  rcases ha with ⟨v, hv, ha⟩ | ha <;> rw [ha]
  · simp only [double.sqrt, not_lt.mpr hv, if_false]
    exact is_nonneg_round _ (hf v hv)
  · right
    rfl

theorem sub_fin_not_nan (a b : ℚ) : (double.fin a - double.fin b).is_nan = false := by
  rw [double_sub_fin]
  exact round_not_nan _

theorem sub_self_finite (a : double) (h : a.is_finite = true) : a - a = .fin 0 := by
  cases a with
  | fin v => rw [double_sub_fin, sub_self, round_zero]
  | inf s => simp [double.is_finite] at h
  | nan => simp [double.is_finite] at h

theorem sub_self_not_finite (a : double) (h : a.is_finite = false) : a - a = .nan := by
  cases a with
  | fin v => simp [double.is_finite] at h
  | inf s =>
    rw [double_sub_def]
    cases s <;> rfl
  | nan => rfl

/-! ## Distances on doubles -/

theorem dbl_distance_to_eq (E : dbl.env) (a b : dbl.point2d) :
    a.distance_to E b = double.sqrt E.sqrt
      ((b.x_ - a.x_) * (b.x_ - a.x_) + (b.y_ - a.y_) * (b.y_ - a.y_)) := rfl

/-- Between two points with numbers as coordinates the distance is a nonnegative number or
+infinity, where the square root of the platform is not negative. -/
theorem dbl_distance_nonneg (E : dbl.env) (hs : E.sqrt_nonneg) (a b : dbl.point2d)
    (ha : a.is_finite = true) (hb : b.is_finite = true) : (a.distance_to E b).is_nonneg := by
  obtain ⟨ax, ay⟩ := a
  obtain ⟨bx, by_⟩ := b
  simp only [dbl.point2d.is_finite, Bool.and_eq_true] at ha hb
  cases ax <;> cases ay <;> cases bx <;> cases by_ <;>
    simp only [double.is_finite, Bool.false_eq_true, and_false, false_and] at ha hb
  rw [dbl_distance_to_eq]
  exact is_nonneg_sqrt _ hs _ (is_nonneg_add _ _
    (is_nonneg_mul_self _ (sub_fin_not_nan _ _)) (is_nonneg_mul_self _ (sub_fin_not_nan _ _)))

/-- With a NaN coordinate in one of the two points the distance is NaN. -/
theorem dbl_distance_nan (E : dbl.env) (a b : dbl.point2d)
    (h : a.has_nan = true ∨ b.has_nan = true) : a.distance_to E b = .nan := by
  obtain ⟨ax, ay⟩ := a
  obtain ⟨bx, by_⟩ := b
  rw [dbl_distance_to_eq]
  simp only [dbl.point2d.has_nan, Bool.or_eq_true] at h
  have key : (bx - ax) * (bx - ax) + (by_ - ay) * (by_ - ay) = double.nan := by
    rcases h with (h | h) | (h | h)
    · cases ax <;> simp only [double.is_nan, Bool.false_eq_true] at h
      rw [double_sub_nan, double_nan_mul, double_nan_add]
    · cases ay <;> simp only [double.is_nan, Bool.false_eq_true] at h
      rw [double_sub_nan, double_nan_mul, double_add_nan]
    · cases bx <;> simp only [double.is_nan, Bool.false_eq_true] at h
      rw [double_nan_sub, double_nan_mul, double_nan_add]
    · cases by_ <;> simp only [double.is_nan, Bool.false_eq_true] at h
      rw [double_nan_sub, double_nan_mul, double_add_nan]
  rw [key]
  rfl

/-- The distance of a point to itself: a number or an infinity when both coordinates are
numbers (the rounded square root of 0), NaN otherwise. -/
theorem dbl_distance_self (E : dbl.env) (a : dbl.point2d) :
    (a.is_finite = true → (a.distance_to E a).is_nan = false) ∧
    (a.is_finite = false → a.distance_to E a = .nan) := by
  obtain ⟨ax, ay⟩ := a
  rw [dbl_distance_to_eq]
  constructor
  · intro h
    simp only [dbl.point2d.is_finite, Bool.and_eq_true] at h
    rw [sub_self_finite ax h.1, sub_self_finite ay h.2, double_mul_fin, double_add_def]
    simp only [mul_zero, round_zero, double.add, add_zero, double.sqrt, lt_irrefl, if_false]
    exact round_not_nan _
  · intro h
    have h2 : ax.is_finite = false ∨ ay.is_finite = false := by
      simp only [dbl.point2d.is_finite] at h
      cases hx : ax.is_finite
      · exact Or.inl rfl
      · right
        simpa [hx] using h
    have key : (ax - ax) * (ax - ax) + (ay - ay) * (ay - ay) = double.nan := by
      rcases h2 with h2 | h2
      · rw [sub_self_not_finite ax h2, double_nan_mul, double_nan_add]
      · rw [sub_self_not_finite ay h2, double_nan_mul, double_add_nan]
    rw [key]
    rfl

/-! ## The search on doubles: the queue and the scan -/

theorem dbl_pq_top_single (E : dbl.env) (hE : E.lawful) (a : dbl.astar_node) :
    dbl.pq_top E [a] = some a := by
  have h := List.perm_singleton.mp (hE.2.2 [a])
  simp [dbl.pq_top, h, dbl.pq_min]

theorem dbl_pq_top_nil (E : dbl.env) (hE : E.lawful) : dbl.pq_top E [] = none := by
  have h := List.perm_nil.mp (hE.2.2 [])
  simp [dbl.pq_top, h, dbl.pq_min]

theorem dbl_node_eq_self (n : dbl.astar_node) (hg : n.g.is_nan = false) (hf : n.f.is_nan = false) :
    n.eq n = true := by
  simp [dbl.astar_node.eq, double_eq_self, hg, hf]

theorem dbl_node_eq_nan (m n : dbl.astar_node) (h : n.g.is_nan = true ∨ n.f.is_nan = true) :
    m.eq n = false := by
  obtain ⟨g, f, p⟩ := n
  simp only at h
  rcases h with h | h
  · cases g <;> simp only [double.is_nan, Bool.false_eq_true] at h
    simp [dbl.astar_node.eq, double_eq_nan_right]
  · cases f <;> simp only [double.is_nan, Bool.false_eq_true] at h
    simp [dbl.astar_node.eq, double_eq_nan_right]

theorem dbl_scan_id_single (E : dbl.env) (hE : E.lawful) (k : Nat) (n : dbl.astar_node)
    (hg : n.g.is_nan = false) (hf : n.f.is_nan = false) : dbl.scan_id E [(k, n)] n = k := by
  have h := List.perm_singleton.mp (hE.1 [(k, n)])
  simp [dbl.scan_id, h, dbl_node_eq_self n hg hf]

/-- A popped entry whose g or f is NaN equals no entry of all_nodes: the scan leaves
curr_id at 0. -/
theorem dbl_scan_id_nan (E : dbl.env) (m : List (Nat × dbl.astar_node)) (n : dbl.astar_node)
    (h : n.g.is_nan = true ∨ n.f.is_nan = true) : dbl.scan_id E m n = 0 := by
  unfold dbl.scan_id
  have : (E.nodes_order m).find? (fun e => e.2.eq n) = none := by
    rw [List.find?_eq_none]
    intro e _
    simp [dbl_node_eq_nan e.2 n h]
  rw [this]

theorem dbl_plat_wf_place_zero (P : dbl.plat) (hP : P.wf) : P.place 0 = none := by
  unfold dbl.plat.place
  cases ht : umap_find P.towns_ (town_of 0) with
  | none => rfl
  | some t =>
    simp only [dbl.city.place]
    cases hl : umap_find t.places_ 0 with
    | none => rfl
    | some l =>
      have hmem := umap_find_mem _ _ _ ht
      have hmem2 := umap_find_mem _ _ _ hl
      exact absurd rfl ((hP.2 _ hmem).2.2.2 _ hmem2).2

theorem dbl_plat_wf_place_id (P : dbl.plat) (hP : P.wf) (k : Nat) (l : dbl.location)
    (h : P.place k = some l) : l.id_ = k := by
  unfold dbl.plat.place at h
  cases ht : umap_find P.towns_ (town_of k) with
  | none => simp [ht] at h
  | some t =>
    simp only [ht, dbl.city.place] at h
    have hmem := umap_find_mem _ _ _ ht
    have hmem2 := umap_find_mem _ _ _ h
    exact ((hP.2 _ hmem).2.2.2 _ hmem2).1

theorem dbl_plat_wf_place_ne_zero (P : dbl.plat) (hP : P.wf) (k : Nat) (l : dbl.location)
    (h : P.place k = some l) : k ≠ 0 := by
  intro hk
  rw [hk, dbl_plat_wf_place_zero P hP] at h
  exact Option.noConfusion h

/-! ## The search on doubles: the first round -/

/-- When the heuristic of the start is not NaN, the first round of the loop pops the start
entry and attributes it to the start. -/
theorem dbl_astar_search_first (E : dbl.env) (hE : E.lawful) (P : dbl.plat)
    (start goal : dbl.location) (h0 : start.id_ ≠ 0) (hs : P.place start.id_ = some start)
    (hh : (dbl.astar_node.heuristic E start.plane_ goal.plane_).is_nan = false) :
    P.astar_search E start goal =
      if start.id_ = goal.id_ then some [start.id_]
      else dbl.astar_loop E P goal (P.road_count + 1)
        ((E.roads_order start.roads_).foldl (dbl.astar_relax E P goal start.id_)
          ⟨[], [(start.id_, ⟨.fin 0, dbl.astar_node.heuristic E start.plane_ goal.plane_, 0⟩)],
            [start.id_]⟩) := by
  unfold dbl.plat.astar_search
  have hscan := dbl_scan_id_single E hE start.id_
    ⟨.fin 0, dbl.astar_node.heuristic E start.plane_ goal.plane_, 0⟩ rfl hh
  simp only [dbl.astar_loop, dbl_pq_top_single E hE, hscan]
  by_cases hg : start.id_ = goal.id_
  · simp only [hg, if_true]
    have hg0 : goal.id_ ≠ 0 := hg ▸ h0
    simp [dbl.plat.reconstruct_path, dbl.reconstruct_loop, hg0, umap_find]
  · simp [hg, hs]

/-- When the heuristic of the start is NaN, the start entry is popped, equals no entry of
all_nodes and is filed under the id 0: the search ends with the empty path. -/
theorem dbl_astar_search_nan (E : dbl.env) (hE : E.lawful) (P : dbl.plat)
    (hz : P.place 0 = none) (start goal : dbl.location) (hg0 : goal.id_ ≠ 0)
    (hh : dbl.astar_node.heuristic E start.plane_ goal.plane_ = .nan) :
    P.astar_search E start goal = some [] := by
  unfold dbl.plat.astar_search
  have hscan : ∀ m, dbl.scan_id E m ⟨.fin 0, .nan, 0⟩ = 0 :=
    fun m => dbl_scan_id_nan E m _ (Or.inr rfl)
  have hg0' : ¬ (0 = goal.id_) := fun e => hg0 e.symm
  simp [dbl.astar_loop, hh, dbl_pq_top_single E hE, hscan, hg0', hz, dbl_pq_top_nil E hE]

/-- C4, amended: in a well-formed network, for every id that resolves to a location whose
cached planar point has numbers as coordinates, plat::find_path(id, id) returns exactly
the one-element path [id], whatever roads the location has. When a coordinate of the
planar point is an infinity or NaN (as for a location constructed with a latitude NaN),
the heuristic of the start is NaN, the popped start entry equals no entry of all_nodes,
and find_path(id, id) returns the empty path. -/
theorem find_path_same_place (E : dbl.env) (hE : E.lawful) (P : dbl.plat) (hP : P.wf) (id : Nat)
    (l : dbl.location) (h : P.place id = some l) :
    (l.plane_.is_finite = true → P.find_path E id id = some [id]) ∧
    (l.plane_.is_finite = false → P.find_path E id id = some []) := by
  have hid := dbl_plat_wf_place_id P hP id l h
  have h0 := dbl_plat_wf_place_ne_zero P hP id l h
  have hd := dbl_distance_self E l.plane_
  constructor
  · intro hf
    unfold dbl.plat.find_path
    simp only [h]
    rw [dbl_astar_search_first E hE P l l (hid ▸ h0) (hid ▸ h) (hd.1 hf)]
    simp [hid]
  · intro hf
    unfold dbl.plat.find_path
    simp only [h]
    exact dbl_astar_search_nan E hE P (dbl_plat_wf_place_zero P hP) l l (hid ▸ h0) (hd.2 hf)

/-! ## Roads on doubles -/

theorem dbl_has_road_to_add_road (E : dbl.env) (l : dbl.location) (k : Nat) (p : dbl.point2d) :
    (l.add_road E k p).has_road_to k = true := by
  simp [dbl.location.add_road, dbl.location.has_road_to, umap_find_set_same]

theorem dbl_road_length_to_add_road (E : dbl.env) (l : dbl.location) (k : Nat) (p : dbl.point2d) :
    (l.add_road E k p).road_length_to k = l.plane_.distance_to E p := by
  simp [dbl.location.add_road, dbl.location.road_length_to, umap_find_set_same]

theorem dbl_has_road_to_add_road_other (E : dbl.env) (l : dbl.location) (k k2 : Nat) (p : dbl.point2d)
    (h : k2 ≠ k) : (l.add_road E k p).has_road_to k2 = l.has_road_to k2 := by
  simp [dbl.location.add_road, dbl.location.has_road_to, umap_find_set_other _ _ _ _ h]

theorem dbl_road_length_to_add_road_other (E : dbl.env) (l : dbl.location) (k k2 : Nat) (p : dbl.point2d)
    (h : k2 ≠ k) : (l.add_road E k p).road_length_to k2 = l.road_length_to k2 := by
  simp [dbl.location.add_road, dbl.location.road_length_to, umap_find_set_other _ _ _ _ h]

theorem dbl_city_add_road_ok (E : dbl.env) (c : dbl.city) (u v : Nat) (w : double) (c1 : dbl.city)
    (h : c.add_road E u v = (.ok w, c1)) :
    ∃ fp tp, c.place u = some fp ∧ c.place v = some tp ∧
      c1 = { c with places_ := umap_set c.places_ u (fp.add_road E tp.id_ tp.plane_) } ∧
      w = (fp.add_road E tp.id_ tp.plane_).road_length_to v := by
  unfold dbl.city.add_road at h
  cases hu : c.place u with
  | none => simp [hu] at h
  | some fp =>
    cases hv : c.place v with
    | none => simp [hu, hv] at h
    | some tp =>
      simp only [hu, hv, Prod.mk.injEq, Except.ok.injEq] at h
      exact ⟨fp, tp, rfl, rfl, h.2.symm, h.1.symm⟩

theorem dbl_city_add_intercity_road_ok (E : dbl.env) (c : dbl.city) (u v : Nat) (p : dbl.point2d) (w : double)
    (c1 : dbl.city) (h : c.add_intercity_road E u v p = (.ok w, c1)) :
    ∃ fp, c.place u = some fp ∧
      c1 = { c with places_ := umap_set c.places_ u (fp.add_road E v p) } ∧
      w = (fp.add_road E v p).road_length_to v := by
  unfold dbl.city.add_intercity_road at h
  cases hu : c.place u with
  | none => simp [hu] at h
  | some fp =>
    simp only [hu, Prod.mk.injEq, Except.ok.injEq] at h
    exact ⟨fp, rfl, h.2.symm, h.1.symm⟩

theorem dbl_city_place_id (c : dbl.city) (hid : ∀ e ∈ c.places_, e.2.id_ = e.1) (k : Nat) (l : dbl.location)
    (h : c.place k = some l) : l.id_ = k :=
  hid (k, l) (umap_find_mem _ _ _ h)

theorem dbl_plat_place_set_same (P : dbl.plat) (t : Nat) (c : dbl.city) (k : Nat) (h : town_of k = t) :
    (dbl.plat.mk (umap_set P.towns_ t c)).place k = c.place k := by
  simp [dbl.plat.place, h, umap_find_set_same]

theorem dbl_plat_place_set_other (P : dbl.plat) (t : Nat) (c : dbl.city) (k : Nat) (h : town_of k ≠ t) :
    (dbl.plat.mk (umap_set P.towns_ t c)).place k = P.place k := by
  simp [dbl.plat.place, umap_find_set_other _ _ _ _ h]

theorem dbl_plat_add_road_cross_ok (E : dbl.env) (P : dbl.plat) (u v : Nat) (w : double) (P1 : dbl.plat)
    (hne : town_of u ≠ town_of v) (h : P.add_road E u v = (.ok w, P1)) :
    ∃ ct fp tp, P.town (town_of u) = some ct ∧ ct.place u = some fp ∧ P.place v = some tp ∧
      P1 = ⟨umap_set P.towns_ (town_of u)
        { ct with places_ := umap_set ct.places_ u (fp.add_road E v tp.plane_) }⟩ ∧
      w = (fp.add_road E v tp.plane_).road_length_to v := by
  unfold dbl.plat.add_road at h
  cases ht : P.town (town_of u) with
  | none => simp [ht] at h
  | some ct =>
    simp only [ht, hne, if_false] at h
    cases hv : P.place v with
    | none => simp [hv] at h
    | some tp =>
      simp only [hv, Prod.mk.injEq] at h
      obtain ⟨hr, hP⟩ := h
      rcases hci : ct.add_intercity_road E u v tp.plane_ with ⟨r, c1⟩
      rw [hci] at hr hP
      simp only at hr hP
      subst hr
      obtain ⟨fp, hfp, hc1, hw⟩ := dbl_city_add_intercity_road_ok E ct u v tp.plane_ w c1 hci
      exact ⟨ct, fp, tp, rfl, hfp, rfl, by rw [← hP, hc1], hw⟩

theorem dbl_plat_place_of_town (P : dbl.plat) (k : Nat) (ct : dbl.city) (h : P.town (town_of k) = some ct) :
    P.place k = ct.place k := by
  unfold dbl.plat.town at h
  simp [dbl.plat.place, h]

theorem dbl_plat_add_road_same_eq (E : dbl.env) (P : dbl.plat) (u v : Nat) (ct : dbl.city)
    (hz : town_of u = town_of v) (ht : P.town (town_of u) = some ct) :
    P.add_road E u v = ((ct.add_road E u v).1,
      ⟨umap_set P.towns_ (town_of u) (ct.add_road E u v).2⟩) := by
  unfold dbl.plat.add_road
  simp only [ht]
  rw [if_pos hz]

/-- The zone after one of its places got a road to k: nothing but the road (u, k)
changes, and no planar point changes. -/
theorem dbl_city_set_add_road_frame (E : dbl.env) (c : dbl.city) (u k : Nat) (p : dbl.point2d) (fp : dbl.location)
    (hu : c.place u = some fp) :
    (∀ x y, (x ≠ u ∨ y ≠ k) →
      dbl.city.has_road ⟨c.id_, c.name_, umap_set c.places_ u (fp.add_road E k p)⟩ x y
        = c.has_road x y ∧
      dbl.city.road_length ⟨c.id_, c.name_, umap_set c.places_ u (fp.add_road E k p)⟩ x y
        = c.road_length x y) ∧
    (∀ x, (dbl.city.place ⟨c.id_, c.name_, umap_set c.places_ u (fp.add_road E k p)⟩ x).map
        dbl.location.plane_ = (c.place x).map dbl.location.plane_) := by
  refine ⟨?_, ?_⟩
  · intro x y hxy
    by_cases hx : x = u
    · subst hx
      have hy : y ≠ k := by
        rcases hxy with h | h
        · exact absurd rfl h
        · exact h
      simp only [dbl.city.has_road, dbl.city.road_length, dbl.city.place, umap_find_set_same]
      unfold dbl.city.place at hu
      rw [hu]
      exact ⟨dbl_has_road_to_add_road_other E fp k y p hy, dbl_road_length_to_add_road_other E fp k y p hy⟩
    · simp only [dbl.city.has_road, dbl.city.road_length, dbl.city.place]
      rw [umap_find_set_other _ _ _ _ hx]
      exact ⟨rfl, rfl⟩
  · intro x
    by_cases hx : x = u
    · subst hx
      simp only [dbl.city.place, umap_find_set_same]
      unfold dbl.city.place at hu
      rw [hu]
      rfl
    · simp only [dbl.city.place]
      rw [umap_find_set_other _ _ _ _ hx]

/-- The same for the network whose zone z has been replaced. -/
theorem dbl_plat_set_frame (P : dbl.plat) (z : Nat) (ct c1 : dbl.city) (ht : P.town z = some ct)
    (cond : Nat → Nat → Prop)
    (hf : ∀ x y, cond x y → c1.has_road x y = ct.has_road x y ∧
      c1.road_length x y = ct.road_length x y)
    (hpl : ∀ x, (c1.place x).map dbl.location.plane_ = (ct.place x).map dbl.location.plane_) :
    (∀ x y, cond x y → dbl.plat.has_road ⟨umap_set P.towns_ z c1⟩ x y = P.has_road x y ∧
      dbl.plat.road_length ⟨umap_set P.towns_ z c1⟩ x y = P.road_length x y) ∧
    (∀ x, (dbl.plat.place ⟨umap_set P.towns_ z c1⟩ x).map dbl.location.plane_
      = (P.place x).map dbl.location.plane_) := by
  refine ⟨?_, ?_⟩
  · intro x y hxy
    by_cases hx : town_of x = z
    · have h1 := dbl_plat_place_set_same P z c1 x hx
      have h2 := dbl_plat_place_of_town P x ct (hx ▸ ht)
      have := hf x y hxy
      simp only [dbl.city.has_road, dbl.city.road_length] at this
      simp only [dbl.plat.has_road, dbl.plat.road_length, h1, h2]
      exact this
    · have h1 := dbl_plat_place_set_other P z c1 x hx
      unfold dbl.plat.has_road dbl.plat.road_length
      rw [h1]
      exact ⟨rfl, rfl⟩
  · intro x
    by_cases hx : town_of x = z
    · rw [dbl_plat_place_set_same P z c1 x hx, dbl_plat_place_of_town P x ct (hx ▸ ht)]
      exact hpl x
    · rw [dbl_plat_place_set_other P z c1 x hx]

/-- What a successful dbl.plat::add_road did, in a well-formed network: the start got the
road to to_id, weighted with the distance of the two planar points. -/
theorem dbl_plat_add_road_ok (E : dbl.env) (P : dbl.plat) (hP : P.wf) (u v : Nat) (w : double) (P1 : dbl.plat)
    (h : P.add_road E u v = (.ok w, P1)) :
    ∃ ct lu lv, P.town (town_of u) = some ct ∧ ct.place u = some lu ∧ P.place u = some lu ∧
      P.place v = some lv ∧
      P1 = ⟨umap_set P.towns_ (town_of u)
        ⟨ct.id_, ct.name_, umap_set ct.places_ u (lu.add_road E v lv.plane_)⟩⟩ ∧
      w = lu.plane_.distance_to E lv.plane_ := by
  cases ht : P.town (town_of u) with
  | none =>
    simp [dbl.plat.add_road, ht] at h
  | some ct =>
    have hpu := dbl_plat_place_of_town P u ct ht
    by_cases hz : town_of u = town_of v
    · have hpv := dbl_plat_place_of_town P v ct (hz ▸ ht)
      rw [dbl_plat_add_road_same_eq E P u v ct hz ht] at h
      simp only [Prod.mk.injEq] at h
      obtain ⟨h1, h2⟩ := h
      obtain ⟨fp, tp, hfp, htp, hc1, hw⟩ :=
        dbl_city_add_road_ok E ct u v w (ct.add_road E u v).2 (Prod.ext h1 rfl)
      have hid : tp.id_ = v := dbl_plat_wf_place_id P hP v tp (hpv.trans htp)
      rw [hid] at hc1 hw
      refine ⟨ct, fp, tp, rfl, hfp, hpu.trans hfp, hpv.trans htp, ?_, ?_⟩
      · rw [← h2, hc1]
      · rw [hw, dbl_road_length_to_add_road]
    · obtain ⟨ct2, fp, tp, hct2, hfp, htp, hP1, hw⟩ :=
        dbl_plat_add_road_cross_ok E P u v w P1 hz h
      rw [ht] at hct2
      have hcc : ct = ct2 := Option.some.inj hct2
      subst hcc
      refine ⟨ct, fp, tp, rfl, hfp, hpu.trans hfp, htp, hP1, ?_⟩
      rw [hw, dbl_road_length_to_add_road]

theorem dbl_plat_add_road_length (E : dbl.env) (P : dbl.plat) (u v : Nat) (ct : dbl.city) (lu : dbl.location)
    (p : dbl.point2d) :
    dbl.plat.road_length ⟨umap_set P.towns_ (town_of u)
      ⟨ct.id_, ct.name_, umap_set ct.places_ u (lu.add_road E v p)⟩⟩ u v
      = lu.plane_.distance_to E p := by
  unfold dbl.plat.road_length
  rw [dbl_plat_place_set_same P (town_of u) _ u rfl]
  simp [dbl.city.place, umap_find_set_same, dbl_road_length_to_add_road]

/-! ## Well-formedness on doubles is kept by the operations -/

/-- Storing a dbl.location under its own nonzero id keeps a dbl.city well formed. -/
theorem dbl_city_wf_set (c : dbl.city) (hc : c.wf) (k : Nat) (l : dbl.location) (hl : l.id_ = k)
    (hk : k ≠ 0) : dbl.city.wf { c with places_ := umap_set c.places_ k l } := by
  refine ⟨hc.1, umap_keys_set_nodup _ _ _ hc.2.1, ?_⟩
  intro e he
  rcases umap_mem_set _ _ _ _ he with h | h
  · rw [h]
    exact ⟨hl, hk⟩
  · exact hc.2.2 e h

theorem dbl_city_init_wf (id : Nat) (name : String) (c : dbl.city) (h : dbl.city.init id name = .ok c) :
    c.wf ∧ c.id_ = id := by
  unfold dbl.city.init at h
  by_cases h0 : id = 0
  · simp [h0] at h
  · simp only [h0, if_false, Except.ok.injEq] at h
    subst h
    exact ⟨⟨h0, List.nodup_nil, fun e he => absurd he (List.not_mem_nil e)⟩, rfl⟩

/-- Method dbl.city::add_road keeps the dbl.city well formed. -/
theorem dbl_city_add_road_wf (E : dbl.env) (c : dbl.city) (hc : c.wf) (u v : Nat) :
    (c.add_road E u v).2.wf := by
  unfold dbl.city.add_road
  cases hu : c.place u with
  | none => exact hc
  | some fp =>
    cases hv : c.place v with
    | none => exact hc
    | some tp =>
      have hm := umap_find_mem _ _ _ hu
      exact dbl_city_wf_set c hc u _ (hc.2.2 _ hm).1 (hc.2.2 _ hm).2

/-- Method dbl.city::add_intercity_road keeps the dbl.city well formed. -/
theorem dbl_city_add_intercity_road_wf (E : dbl.env) (c : dbl.city) (hc : c.wf) (u v : Nat) (p : dbl.point2d) :
    (c.add_intercity_road E u v p).2.wf := by
  unfold dbl.city.add_intercity_road
  cases hu : c.place u with
  | none => exact hc
  | some fp =>
    have hm := umap_find_mem _ _ _ hu
    exact dbl_city_wf_set c hc u _ (hc.2.2 _ hm).1 (hc.2.2 _ hm).2

/-- Method dbl.city::add_bidirectional_road keeps the dbl.city well formed. -/
theorem dbl_city_add_bidirectional_road_wf (E : dbl.env) (c : dbl.city) (hc : c.wf) (u v : Nat) :
    (c.add_bidirectional_road E u v).2.wf := by
  unfold dbl.city.add_bidirectional_road
  have h1 := dbl_city_add_road_wf E c hc u v
  rcases hr : c.add_road E u v with ⟨r1, c1⟩
  rw [hr] at h1
  cases r1 with
  | error e => exact h1
  | ok d1 =>
    have h2 := dbl_city_add_road_wf E c1 h1 v u
    simp only
    rcases hr2 : c1.add_road E v u with ⟨r2, c2⟩
    rw [hr2] at h2
    cases r2 with
    | error e => exact h2
    | ok d2 => exact h2

theorem dbl_city_add_road_id (E : dbl.env) (c : dbl.city) (u v : Nat) : (c.add_road E u v).2.id_ = c.id_ := by
  unfold dbl.city.add_road
  cases c.place u <;> cases c.place v <;> rfl

theorem dbl_city_add_intercity_road_id (E : dbl.env) (c : dbl.city) (u v : Nat) (p : dbl.point2d) :
    (c.add_intercity_road E u v p).2.id_ = c.id_ := by
  unfold dbl.city.add_intercity_road
  cases c.place u <;> rfl

theorem dbl_city_add_bidirectional_road_id (E : dbl.env) (c : dbl.city) (u v : Nat) :
    (c.add_bidirectional_road E u v).2.id_ = c.id_ := by
  unfold dbl.city.add_bidirectional_road
  have h1 := dbl_city_add_road_id E c u v
  rcases hr : c.add_road E u v with ⟨r1, c1⟩
  rw [hr] at h1
  cases r1 with
  | error e => exact h1
  | ok d1 =>
    have h2 := dbl_city_add_road_id E c1 v u
    simp only
    rcases hr2 : c1.add_road E v u with ⟨r2, c2⟩
    rw [hr2] at h2
    cases r2 with
    | error e => exact h2.trans h1
    | ok d2 => exact h2.trans h1

/-- Writing a well-formed dbl.city back under its own id keeps the network well formed. -/
theorem dbl_plat_wf_set (P : dbl.plat) (hP : P.wf) (k : Nat) (c : dbl.city) (hc : c.wf) (hk : c.id_ = k) :
    dbl.plat.wf ⟨umap_set P.towns_ k c⟩ := by
  refine ⟨umap_keys_set_nodup _ _ _ hP.1, ?_⟩
  intro t ht
  rcases umap_mem_set _ _ _ _ ht with h | h
  · rw [h]
    exact ⟨hk, hc⟩
  · exact hP.2 t h

theorem dbl_plat_empty_wf : dbl.plat.empty.wf :=
  ⟨List.nodup_nil, fun t ht => absurd ht (List.not_mem_nil t)⟩

/-- Method dbl.plat::add_town keeps the network well formed. -/
theorem dbl_plat_add_town_wf (P : dbl.plat) (hP : P.wf) (id : Nat) (name : String) :
    (P.add_town id name).2.wf := by
  unfold dbl.plat.add_town
  by_cases ht : P.has_town id = true
  · simp only [ht, if_true]
    exact hP
  · simp only [ht, Bool.false_eq_true, if_false]
    cases hi : dbl.city.init id name with
    | error e => exact hP
    | ok c =>
      obtain ⟨h1, h2⟩ := dbl_city_init_wf id name c hi
      exact dbl_plat_wf_set P hP id c h1 h2

/-- Method dbl.plat::add_road keeps the network well formed. -/
theorem dbl_plat_add_road_wf (E : dbl.env) (P : dbl.plat) (hP : P.wf) (u v : Nat) :
    (P.add_road E u v).2.wf := by
  unfold dbl.plat.add_road
  cases ht : P.town (town_of u) with
  | none =>
    simp only [ht]
    exact hP
  | some ct =>
    have hm := umap_find_mem _ _ _ ht
    have hct := hP.2 _ hm
    simp only [ht]
    by_cases hz : town_of u = town_of v
    · rw [if_pos hz]
      exact dbl_plat_wf_set P hP _ _ (dbl_city_add_road_wf E ct hct.2 u v)
        ((dbl_city_add_road_id E ct u v).trans hct.1)
    · rw [if_neg hz]
      cases hv : P.place v with
      | none => exact hP
      | some tp =>
        exact dbl_plat_wf_set P hP _ _ (dbl_city_add_intercity_road_wf E ct hct.2 u v tp.plane_)
          ((dbl_city_add_intercity_road_id E ct u v tp.plane_).trans hct.1)

/-- Method dbl.plat::add_bidirectional_road keeps the network well formed. -/
theorem dbl_plat_add_bidirectional_road_wf (E : dbl.env) (P : dbl.plat) (hP : P.wf) (u v : Nat) :
    (P.add_bidirectional_road E u v).2.wf := by
  unfold dbl.plat.add_bidirectional_road
  by_cases hz : town_of u = town_of v
  · simp only [hz, if_true]
    cases ht : P.town (town_of v) with
    | none => exact hP
    | some ct =>
      have hm := umap_find_mem _ _ _ ht
      have hct := hP.2 _ hm
      exact dbl_plat_wf_set P hP _ _ (dbl_city_add_bidirectional_road_wf E ct hct.2 u v)
        ((dbl_city_add_bidirectional_road_id E ct u v).trans hct.1)
  · simp only [hz, if_false]
    have h1 := dbl_plat_add_road_wf E P hP u v
    rcases hr : P.add_road E u v with ⟨r1, P1⟩
    rw [hr] at h1
    cases r1 with
    | error e => exact h1
    | ok d1 =>
      have h2 := dbl_plat_add_road_wf E P1 h1 v u
      simp only
      rcases hr2 : P1.add_road E v u with ⟨r2, P2⟩
      rw [hr2] at h2
      cases r2 with
      | error e => exact h2
      | ok d2 => exact h2

/-- Method city::add_place keeps the city well formed, where its behaviour is defined. -/
theorem dbl_city_add_place_wf (E : dbl.env) (c : dbl.city) (hc : c.wf) (id : Nat) (name : String)
    (globe : dbl.point2d) (r : Except error dbl.location × dbl.city)
    (h : c.add_place E id name globe = some r) : r.2.wf := by
  unfold dbl.city.add_place at h
  by_cases hp : c.has_place id = true
  · simp only [hp, if_true, Option.some.injEq] at h
    rw [← h]
    exact hc
  · simp only [hp, Bool.false_eq_true, if_false] at h
    unfold dbl.location.init at h
    cases hw : dbl.location.wgs84_to_utm E globe.y_ globe.x_ with
    | none => simp [hw] at h
    | some plane =>
      simp only [hw] at h
      by_cases h0 : id = 0
      · simp only [h0, if_true, Option.some.injEq] at h
        rw [← h]
        exact hc
      · simp only [h0, if_false, Option.some.injEq] at h
        rw [← h]
        exact dbl_city_wf_set c hc id _ rfl h0

/-- Method city::add_local_place keeps the city well formed, where its behaviour is
defined. -/
theorem dbl_city_add_local_place_wf (E : dbl.env) (c : dbl.city) (hc : c.wf) (serial : Nat)
    (name : String) (globe : dbl.point2d) (r : Except error dbl.location × dbl.city)
    (h : c.add_local_place E serial name globe = some r) : r.2.wf :=
  dbl_city_add_place_wf E c hc (city.place_id c.id_ serial) name globe r h

/-! ## The length of a new road, on doubles -/

/-- What holds of the distance of two planar points as a road length. -/
theorem dbl_distance_cases (E : dbl.env) (a b : dbl.point2d) :
    (E.sqrt_nonneg → a.is_finite = true → b.is_finite = true →
      (a.distance_to E b).is_nonneg ∧ (double.fin 0).le (a.distance_to E b) = true) ∧
    (a.has_nan = true ∨ b.has_nan = true →
      a.distance_to E b = .nan ∧ (double.fin 0).le (a.distance_to E b) = false) := by
  constructor
  · intro hs ha hb
    have h := dbl_distance_nonneg E hs a b ha hb
    exact ⟨h, is_nonneg_le _ h⟩
  · intro h
    have h1 := dbl_distance_nan E a b h
    rw [h1]
    exact ⟨rfl, rfl⟩

/-- C17, amended: after a successful plat::add_road(from, to) in a well-formed network
(same zone or across zones), road_length(from, to) is the double that
point2d::distance_to computes from the cached planar points of from and to,
sqrt(dx * dx + dy * dy) with every operation rounded; the planar points are as before and
the value is the one returned. Where both planar points have numbers as coordinates and
the square root of the platform is not negative, the value is a nonnegative number or
+infinity, so 0 <= road_length holds; where a coordinate of one of the two points is NaN,
the value is NaN and 0 <= road_length is false. The same holds for city::add_road on a
well-formed zone. -/
theorem add_road_length_double (E : dbl.env) (P : dbl.plat) (hP : P.wf) (from_id to_id : Nat)
    (w : double) (P1 : dbl.plat) (h : P.add_road E from_id to_id = (.ok w, P1)) :
    (∃ lf lt, P.place from_id = some lf ∧ P.place to_id = some lt ∧
      (P1.place from_id).map dbl.location.plane_ = some lf.plane_ ∧
      (P1.place to_id).map dbl.location.plane_ = some lt.plane_ ∧
      P1.road_length from_id to_id
        = double.sqrt E.sqrt ((lt.plane_.x_ - lf.plane_.x_) * (lt.plane_.x_ - lf.plane_.x_)
          + (lt.plane_.y_ - lf.plane_.y_) * (lt.plane_.y_ - lf.plane_.y_)) ∧
      w = P1.road_length from_id to_id ∧
      (E.sqrt_nonneg → lf.plane_.is_finite = true → lt.plane_.is_finite = true →
        (P1.road_length from_id to_id).is_nonneg ∧
        (double.fin 0).le (P1.road_length from_id to_id) = true) ∧
      (lf.plane_.has_nan = true ∨ lt.plane_.has_nan = true →
        P1.road_length from_id to_id = .nan ∧
        (double.fin 0).le (P1.road_length from_id to_id) = false)) ∧
    (∀ (c c1 : dbl.city) (w1 : double), c.wf → c.add_road E from_id to_id = (.ok w1, c1) →
      ∃ lf lt, c.place from_id = some lf ∧ c.place to_id = some lt ∧
        c1.road_length from_id to_id = lf.plane_.distance_to E lt.plane_ ∧
        w1 = c1.road_length from_id to_id ∧
        (E.sqrt_nonneg → lf.plane_.is_finite = true → lt.plane_.is_finite = true →
          (c1.road_length from_id to_id).is_nonneg ∧
          (double.fin 0).le (c1.road_length from_id to_id) = true) ∧
        (lf.plane_.has_nan = true ∨ lt.plane_.has_nan = true →
          c1.road_length from_id to_id = .nan ∧
          (double.fin 0).le (c1.road_length from_id to_id) = false)) := by
  obtain ⟨ct, lf, lt, hct, hlf, hpf, hpt, hP1, hw⟩ :=
    dbl_plat_add_road_ok E P hP from_id to_id w P1 h
  have hlen : P1.road_length from_id to_id = lf.plane_.distance_to E lt.plane_ := by
    rw [hP1]
    exact dbl_plat_add_road_length E P from_id to_id ct lf lt.plane_
  have hframe := (dbl_plat_set_frame P (town_of from_id) ct
    ⟨ct.id_, ct.name_, umap_set ct.places_ from_id (lf.add_road E to_id lt.plane_)⟩ hct
    (fun x y => x ≠ from_id ∨ y ≠ to_id)
    (dbl_city_set_add_road_frame E ct from_id to_id lt.plane_ lf hlf).1
    (dbl_city_set_add_road_frame E ct from_id to_id lt.plane_ lf hlf).2).2
  have hc := dbl_distance_cases E lf.plane_ lt.plane_
  refine ⟨⟨lf, lt, hpf, hpt, ?_, ?_, ?_, ?_, ?_, ?_⟩, ?_⟩
  · rw [hP1, hframe from_id, hpf]
    rfl
  · rw [hP1, hframe to_id, hpt]
    rfl
  · rw [hlen]
    rfl
  · rw [hlen]
    exact hw
  · rw [hlen]
    exact hc.1
  · rw [hlen]
    exact hc.2
  · intro c c1 w1 hcw hadd
    obtain ⟨fp, tp, hfp, htp, hc1, hw1⟩ := dbl_city_add_road_ok E c from_id to_id w1 c1 hadd
    have hid : tp.id_ = to_id :=
      dbl_city_place_id c (fun e he => (hcw.2.2 e he).1) to_id tp htp
    rw [hid] at hc1 hw1
    have hl : c1.road_length from_id to_id = fp.plane_.distance_to E tp.plane_ := by
      rw [hc1]
      simp [dbl.city.road_length, dbl.city.place, umap_find_set_same,
        dbl_road_length_to_add_road]
    have hc2 := dbl_distance_cases E fp.plane_ tp.plane_
    refine ⟨fp, tp, hfp, htp, hl, ?_, ?_, ?_⟩
    · rw [hl, hw1, dbl_road_length_to_add_road]
    · rw [hl]
      exact hc2.1
    · rw [hl]
      exact hc2.2

/-! ## A location with the latitude NaN -/

theorem double_trig_nan (f : ℚ → ℚ) : double.trig f .nan = .nan := rfl

theorem double_sqrt_nan (f : ℚ → ℚ) : double.sqrt f .nan = .nan := rfl

theorem double_nan_lt (a : double) : double.nan.lt a = false := rfl

/-- With the latitude NaN every term of the projection that depends on the latitude is
NaN, and so are both planar coordinates. -/
theorem wgs84_nan_lat (E : dbl.env) (lon : double) (zone : ℤ)
    (hz : dbl.location.utm_zone lon = some zone) :
    dbl.location.wgs84_to_utm E lon .nan = some ⟨.nan, .nan⟩ := by
  unfold dbl.location.wgs84_to_utm
  rw [hz]
  simp only [double_nan_mul, double_mul_nan, double_nan_div, double_div_nan, double_nan_add,
    double_add_nan, double_nan_sub, double_sub_nan, double_trig_nan, double_sqrt_nan,
    double_nan_lt, Bool.false_eq_true, if_false]

theorem lit_116 : double.lit 116.0 = .fin 116 := by
  have := lit_int 116 (by norm_num) (by norm_num)
  norm_num at this ⊢
  exact this

theorem dbl_sample_env_lawful : dbl.sample_env.lawful :=
  ⟨fun l => List.Perm.refl l, fun l => List.Perm.refl l, fun l => List.Perm.refl l⟩

/-- A successful city::add_place: the id is new, the projection is defined and the id is
not 0. -/
theorem dbl_add_place_ok (E : dbl.env) (c : dbl.city) (id : Nat) (name : String)
    (globe plane : dbl.point2d) (hnew : c.has_place id = false)
    (hw : dbl.location.wgs84_to_utm E globe.y_ globe.x_ = some plane) (hid : id ≠ 0) :
    c.add_place E id name globe = some (.ok ⟨id, name, globe, plane, []⟩,
      ⟨c.id_, c.name_, umap_set c.places_ id ⟨id, name, globe, plane, []⟩⟩) := by
  unfold dbl.city.add_place dbl.location.init
  simp [hnew, hw, hid]

/-- A successful city::add_local_place. -/
theorem dbl_add_local_place_ok (E : dbl.env) (c : dbl.city) (serial : Nat) (name : String)
    (globe plane : dbl.point2d) (hnew : c.has_place (city.place_id c.id_ serial) = false)
    (hw : dbl.location.wgs84_to_utm E globe.y_ globe.x_ = some plane)
    (hid : city.place_id c.id_ serial ≠ 0) :
    c.add_local_place E serial name globe
      = some (.ok ⟨city.place_id c.id_ serial, name, globe, plane, []⟩,
        ⟨c.id_, c.name_, umap_set c.places_ (city.place_id c.id_ serial)
          ⟨city.place_id c.id_ serial, name, globe, plane, []⟩⟩) :=
  dbl_add_place_ok E c _ name globe plane hnew hw hid

/-- The network nan_net is what add_town(1, "Capital") and add_local_place(1, "A", ...)
with the latitude NaN and the longitude 116 build. -/
theorem nan_net_built :
    dbl.plat.empty.add_town 1 "Capital" = (.ok ⟨1, "Capital", []⟩, ⟨[(1, ⟨1, "Capital", []⟩)]⟩) ∧
    (⟨1, "Capital", []⟩ : dbl.city).add_local_place dbl.sample_env 1 "A"
      ⟨.nan, double.lit 116.0⟩ = some (.ok dbl.nan_place, dbl.nan_town) ∧
    (dbl.plat.mk [(1, ⟨1, "Capital", []⟩)]).set_town 1 dbl.nan_town = dbl.nan_net := by
  refine ⟨rfl, ?_, rfl⟩
  obtain ⟨z, hz⟩ := utm_zone_defined 116 (by norm_num) (by norm_num)
  have hw := wgs84_nan_lat dbl.sample_env (double.lit 116.0) z (by rw [lit_116]; exact hz)
  exact dbl_add_local_place_ok dbl.sample_env ⟨1, "Capital", []⟩ 1 "A"
    ⟨.nan, double.lit 116.0⟩ ⟨.nan, .nan⟩ rfl hw (by decide)

theorem nan_net_wf : dbl.nan_net.wf := by decide

/-! ## Two places joined by a bidirectional road, on doubles -/

/-- With a NaN heuristic between start and goal the search returns the empty path. -/
theorem dbl_find_path_nan (E : dbl.env) (hE : E.lawful) (P : dbl.plat) (a b : Nat)
    (la lb : dbl.location) (ha : P.place a = some la) (hb : P.place b = some lb)
    (hz : P.place 0 = none) (hb0 : lb.id_ ≠ 0)
    (hh : la.plane_.distance_to E lb.plane_ = .nan) : P.find_path E a b = some [] := by
  unfold dbl.plat.find_path
  simp only [ha, hb]
  exact dbl_astar_search_nan E hE P hz la lb hb0 hh

theorem dbl_sqrt_sample_nonneg : dbl.sample_env.sqrt_nonneg := by
  intro q _
  show 0 ≤ dbl.sqrt_sample q
  unfold dbl.sqrt_sample
  split
  · exact le_refl _
  · exact div_nonneg (Nat.cast_nonneg _) (le_of_lt (zpow_pos (by norm_num) _))

theorem dbl_capital_net_wf : dbl.capital_net.wf := by decide

theorem find_path_same_place_witness :
    dbl.capital_net.find_path dbl.sample_env (city.place_id 1 1) (city.place_id 1 1)
      = some [city.place_id 1 1] :=
  (find_path_same_place dbl.sample_env dbl_sample_env_lawful dbl.capital_net dbl_capital_net_wf
    (city.place_id 1 1) dbl.capital_a rfl).1 rfl

/-- C4, as stated, fails: the network built by add_town(1, "Capital") and
add_local_place(1, "A", ...) with the latitude NaN and the longitude 116 holds a location
that plat::place resolves, with both planar coordinates NaN, and find_path from its id to
its id returns the empty path, not the one-element path. -/
theorem find_path_same_nan :
    dbl.plat.empty.add_town 1 "Capital" = (.ok ⟨1, "Capital", []⟩, ⟨[(1, ⟨1, "Capital", []⟩)]⟩) ∧
    (⟨1, "Capital", []⟩ : dbl.city).add_local_place dbl.sample_env 1 "A"
      ⟨.nan, double.lit 116.0⟩ = some (.ok dbl.nan_place, dbl.nan_town) ∧
    (dbl.plat.mk [(1, ⟨1, "Capital", []⟩)]).set_town 1 dbl.nan_town = dbl.nan_net ∧
    dbl.nan_net.place (city.place_id 1 1) = some dbl.nan_place ∧
    dbl.nan_place.plane_ = ⟨.nan, .nan⟩ ∧
    dbl.nan_net.find_path dbl.sample_env (city.place_id 1 1) (city.place_id 1 1) = some [] ∧
    dbl.nan_net.find_path dbl.sample_env (city.place_id 1 1) (city.place_id 1 1)
      ≠ some [city.place_id 1 1] := by
  have hfp : dbl.nan_net.find_path dbl.sample_env (city.place_id 1 1) (city.place_id 1 1)
      = some [] :=
    dbl_find_path_nan dbl.sample_env dbl_sample_env_lawful dbl.nan_net _ _ dbl.nan_place
      dbl.nan_place rfl rfl (dbl_plat_wf_place_zero _ nan_net_wf) (by decide)
      (dbl_distance_nan _ _ _ (Or.inl rfl))
  refine ⟨nan_net_built.1, nan_net_built.2.1, nan_net_built.2.2, rfl, rfl, hfp, ?_⟩
  rw [hfp]
  decide

theorem lit_between (q : ℚ) (n m : ℤ) (hn : 0 ≤ n) (hm : m < 2 ^ 53) (h1 : (n : ℚ) ≤ q)
    (h2 : q ≤ (m : ℚ)) : ∃ v : ℚ, double.lit q = .fin v ∧ (n : ℚ) ≤ v ∧ v ≤ (m : ℚ) := by
  have hq0 : 0 ≤ q := le_trans (by exact_mod_cast hn) h1
  have hq53 : q < 2 ^ 53 := lt_of_le_of_lt h2 (by exact_mod_cast hm)
  have hv1 := le_round_abs q n hq53 h1
  have hv2 := round_abs_le q m hq53 h2
  have hm' : (m : ℚ) < 2 ^ 53 := by exact_mod_cast hm
  refine ⟨double.round_abs q, ?_, hv1, hv2⟩
  unfold double.lit
  rw [round_of_nonneg q hq0]
  have : double.round_abs q < 2 ^ 1024 := by linarith [two_pow_53_le]
  simp [this]

/-- Where utm_zone is defined the projection is. -/
theorem wgs84_defined (E : dbl.env) (lon lat : double) (zone : ℤ)
    (hz : dbl.location.utm_zone lon = some zone) :
    ∃ p, dbl.location.wgs84_to_utm E lon lat = some p := by
  unfold dbl.location.wgs84_to_utm
  rw [hz]
  exact ⟨_, rfl⟩

/-- Zone 1 with the place of latitude NaN after add_local_place(2, "B", ...) at (lon
116.01, lat 39.90): a second location with the id of serial 2 and no road. -/
theorem nan_pair_built :
    ∃ lb : dbl.location, dbl.nan_town.add_local_place dbl.sample_env 2 "B"
        ⟨double.lit 39.90, double.lit 116.01⟩
        = some (.ok lb, ⟨1, "Capital", [(city.place_id 1 1, dbl.nan_place),
          (city.place_id 1 2, lb)]⟩) ∧
      lb.id_ = city.place_id 1 2 ∧ lb.roads_ = [] := by
  obtain ⟨v, hv, hv1, hv2⟩ := lit_between 116.01 116 117 (by norm_num) (by norm_num)
    (by norm_num) (by norm_num)
  obtain ⟨z, hz⟩ := utm_zone_defined v (by push_cast at hv1; linarith)
    (by push_cast at hv2; linarith)
  obtain ⟨p, hp⟩ := wgs84_defined dbl.sample_env (double.lit 116.01) (double.lit 39.90) z
    (by rw [hv]; exact hz)
  exact ⟨⟨city.place_id 1 2, "B", ⟨double.lit 39.90, double.lit 116.01⟩, p, []⟩,
    dbl_add_local_place_ok dbl.sample_env dbl.nan_town 2 "B"
      ⟨double.lit 39.90, double.lit 116.01⟩ p rfl hp (by decide), rfl, rfl⟩

theorem add_road_length_double_witness :
    ∃ w P1, dbl.capital_net.add_road dbl.sample_env (city.place_id 1 1) (city.place_id 1 2)
        = (.ok w, P1) ∧
      w = P1.road_length (city.place_id 1 1) (city.place_id 1 2) ∧
      (double.fin 0).le (P1.road_length (city.place_id 1 1) (city.place_id 1 2)) = true := by
  obtain ⟨⟨lf, lt, hf, ht, _, _, _, hw, hfin, _⟩, _⟩ :=
    add_road_length_double dbl.sample_env dbl.capital_net dbl_capital_net_wf (city.place_id 1 1)
      (city.place_id 1 2) _ _ rfl
  have hlf : lf = dbl.capital_a := (Option.some.inj hf).symm
  have hlt : lt = dbl.capital_b := (Option.some.inj ht).symm
  exact ⟨_, _, rfl, hw, (hfin dbl_sqrt_sample_nonneg (by rw [hlf]; rfl) (by rw [hlt]; rfl)).2⟩

/-- C17, as stated, fails: in zone 1 with the location A of latitude NaN and the location B
at (lon 116.01, lat 39.90), plat::add_road(A, B) succeeds and returns NaN; afterwards
road_length(A, B) is NaN, which is not nonnegative: 0 <= road_length(A, B) is false. -/
theorem add_road_length_nan :
    ∃ (lb : dbl.location) (w : double) (P1 : dbl.plat),
      dbl.nan_town.add_local_place dbl.sample_env 2 "B" ⟨double.lit 39.90, double.lit 116.01⟩
        = some (.ok lb, ⟨1, "Capital", [(city.place_id 1 1, dbl.nan_place),
          (city.place_id 1 2, lb)]⟩) ∧
      (dbl.plat.mk [(1, ⟨1, "Capital", [(city.place_id 1 1, dbl.nan_place),
          (city.place_id 1 2, lb)]⟩)]).add_road dbl.sample_env (city.place_id 1 1)
          (city.place_id 1 2) = (.ok w, P1) ∧
      w = .nan ∧ P1.road_length (city.place_id 1 1) (city.place_id 1 2) = .nan ∧
      (double.fin 0).le (P1.road_length (city.place_id 1 1) (city.place_id 1 2)) = false := by
  obtain ⟨lb, hb, hid, hr⟩ := nan_pair_built
  have hd := dbl_distance_nan dbl.sample_env dbl.nan_place.plane_ lb.plane_ (Or.inl rfl)
  have hadd : (dbl.plat.mk [(1, ⟨1, "Capital", [(city.place_id 1 1, dbl.nan_place),
      (city.place_id 1 2, lb)]⟩)]).add_road dbl.sample_env (city.place_id 1 1)
      (city.place_id 1 2) = (.ok (dbl.nan_place.plane_.distance_to dbl.sample_env lb.plane_),
        ⟨[(1, ⟨1, "Capital", [(city.place_id 1 1,
          dbl.nan_place.add_road dbl.sample_env (city.place_id 1 2) lb.plane_),
          (city.place_id 1 2, lb)]⟩)]⟩) := by
    have e1 : town_of (city.place_id 1 1) = 1 := by decide
    have e2 : town_of (city.place_id 1 2) = 1 := by decide
    have e3 : city.place_id 1 1 ≠ city.place_id 1 2 := by decide
    simp [dbl.plat.add_road, e1, e2, e3, dbl.plat.town, umap_find, umap_set, dbl.city.add_road,
      dbl.city.place, hid, dbl_road_length_to_add_road]
  have hlen : (dbl.plat.mk [(1, ⟨1, "Capital", [(city.place_id 1 1,
      dbl.nan_place.add_road dbl.sample_env (city.place_id 1 2) lb.plane_),
      (city.place_id 1 2, lb)]⟩)]).road_length (city.place_id 1 1) (city.place_id 1 2)
      = .nan := by
    have e1 : town_of (city.place_id 1 1) = 1 := by decide
    simp only [dbl.plat.road_length, dbl.plat.place, e1, umap_find, if_true, dbl.city.place,
      dbl_road_length_to_add_road]
    exact hd
  refine ⟨lb, _, _, hb, hadd, hd, hlen, ?_⟩
  rw [hlen]
  rfl

/-! ## The rounding error of an operation -/

theorem eps_pos : 0 < double.eps := by
  unfold double.eps
  positivity

theorem eps_le : double.eps ≤ 1 / 4 := by
  unfold double.eps
  norm_num

theorem two_zpow_le (m n : ℤ) (h : m ≤ n) : (2 : ℚ) ^ m ≤ 2 ^ n :=
  zpow_le_zpow_right₀ (by norm_num) h

theorem two_zpow_pos (m : ℤ) : (0 : ℚ) < 2 ^ m := zpow_pos (by norm_num) m

/-- Rounding a nonnegative number in the range of the normal numbers: the result is a
number with a relative error of at most 2^-53. -/
theorem round_nonneg_rel (q : ℚ) (h0 : 0 ≤ q) (hn : q = 0 ∨ (2 : ℚ) ^ (-1022 : ℤ) ≤ q)
    (hb : q ≤ 2 ^ (1023 : ℤ)) :
    ∃ v : ℚ, double.round q = .fin v ∧ (1 - double.eps) * q ≤ v ∧ v ≤ (1 + double.eps) * q := by
  rcases hn with hn | hn
  · subst hn
    exact ⟨0, round_zero, by simp, by simp⟩
  · have h1 := abs_le.mp (round_abs_rel q hn)
    have he : q * (2 : ℚ) ^ (-53 : ℤ) = double.eps * q := by
      unfold double.eps
      ring
    rw [he] at h1
    have hq : 0 < q := lt_of_lt_of_le (two_zpow_pos _) hn
    have hlt : double.round_abs q < 2 ^ 1024 := by
      have e1 : (2 : ℚ) ^ 1024 = 2 * 2 ^ (1023 : ℤ) := by
        rw [← zpow_natCast, show ((1024 : ℕ) : ℤ) = 1023 + 1 by norm_num,
          zpow_add_one₀ (by norm_num : (2 : ℚ) ≠ 0)]
        ring
      rw [e1]
      calc double.round_abs q ≤ (1 + double.eps) * q := by linarith [h1.2]
        _ ≤ (1 + double.eps) * 2 ^ (1023 : ℤ) :=
            mul_le_mul_of_nonneg_left hb (by linarith [eps_pos])
        _ < 2 * 2 ^ (1023 : ℤ) :=
            mul_lt_mul_of_pos_right (by linarith [eps_le]) (two_zpow_pos _)
    refine ⟨double.round_abs q, ?_, by linarith [h1.1], by linarith [h1.2]⟩
    rw [round_of_nonneg q h0]
    simp [hlt]

/-- Rounding a number in the range of the normal numbers, of either sign. -/
theorem round_rel (q : ℚ) (hn : q = 0 ∨ (2 : ℚ) ^ (-1022 : ℤ) ≤ |q|)
    (hb : |q| ≤ 2 ^ (1023 : ℤ)) :
    ∃ v : ℚ, double.round q = .fin v ∧ (1 - double.eps) * |q| ≤ |v| ∧
      |v| ≤ (1 + double.eps) * |q| := by
  have hn' : |q| = 0 ∨ (2 : ℚ) ^ (-1022 : ℤ) ≤ |q| := by
    rcases hn with hn | hn
    · left
      rw [hn, abs_zero]
    · exact Or.inr hn
  obtain ⟨v, hv, h1, h2⟩ := round_nonneg_rel |q| (abs_nonneg q) hn' hb
  have hv0 : 0 ≤ v := by
    have : 0 ≤ (1 - double.eps) * |q| :=
      mul_nonneg (by linarith [eps_le]) (abs_nonneg q)
    linarith
  by_cases hq : 0 ≤ q
  · rw [abs_of_nonneg hq] at hv
    exact ⟨v, hv, by rwa [abs_of_nonneg hv0], by rwa [abs_of_nonneg hv0]⟩
  · have hq' : q < 0 := not_le.mp hq
    rw [abs_of_neg hq'] at hv
    refine ⟨-v, ?_, by rwa [abs_neg, abs_of_nonneg hv0], by rwa [abs_neg, abs_of_nonneg hv0]⟩
    have := round_neg (-q)
    rw [neg_neg, hv] at this
    rw [this]
    rfl

/-! ## The accuracy of a computed distance -/

theorem lo_pos : 0 < 1 - double.eps := by linarith [eps_le]

theorem lo_le_one : 1 - double.eps ≤ 1 := by linarith [eps_pos]

theorem hi_ge_one : 1 ≤ 1 + double.eps := by linarith [eps_pos]

theorem hi_le_two : 1 + double.eps ≤ 2 := by linarith [eps_le]

theorem lo_ge_half : 1 / 2 ≤ 1 - double.eps := by linarith [eps_le]

theorem hi_sq_le : (1 + double.eps) ^ 2 ≤ 4 := by
  have h := pow_le_pow_left₀ (le_trans zero_le_one hi_ge_one) hi_le_two 2
  norm_num at h ⊢
  exact h

theorem lo_sq_ge : 1 / 4 ≤ (1 - double.eps) ^ 2 := by
  have h := pow_le_pow_left₀ (by norm_num : (0 : ℚ) ≤ 1 / 2) lo_ge_half 2
  norm_num at h ⊢
  exact h

/-- The difference of two coordinates and its rounded square. -/
theorem sub_sq_rel (a b : ℚ) (hn : b - a = 0 ∨ (2 : ℚ) ^ (-500 : ℤ) ≤ |b - a|)
    (hb : |b - a| ≤ 2 ^ (500 : ℤ)) :
    ∃ p : ℚ, (double.fin b - double.fin a) * (double.fin b - double.fin a) = .fin p ∧
      (1 - double.eps) ^ 3 * ((b - a) * (b - a)) ≤ p ∧
      p ≤ (1 + double.eps) ^ 3 * ((b - a) * (b - a)) ∧
      (p = 0 ∨ (2 : ℚ) ^ (-1003 : ℤ) ≤ p) ∧ p ≤ 2 ^ (1003 : ℤ) := by
  have hlo := lo_pos
  have hlo2 := lo_ge_half
  have hhi := hi_ge_one
  have hhi2 := hi_le_two
  have hn1 : b - a = 0 ∨ (2 : ℚ) ^ (-1022 : ℤ) ≤ |b - a| := by
    rcases hn with h | h
    · exact Or.inl h
    · exact Or.inr (le_trans (two_zpow_le _ _ (by norm_num)) h)
  obtain ⟨v, hv, hv1, hv2⟩ := round_rel (b - a) hn1
    (le_trans hb (two_zpow_le _ _ (by norm_num)))
  rw [double_sub_fin, hv, double_mul_fin]
  have hd0 : 0 ≤ |b - a| := abs_nonneg _
  have hvv : v * v = |v| * |v| := (abs_mul_abs_self v).symm
  have hdd : (b - a) * (b - a) = |b - a| * |b - a| := (abs_mul_abs_self _).symm
  have hsq1 : (1 - double.eps) ^ 2 * ((b - a) * (b - a)) ≤ v * v := by
    rw [hvv, hdd]
    have := mul_self_le_mul_self (mul_nonneg (le_of_lt hlo) hd0) hv1
    calc (1 - double.eps) ^ 2 * (|b - a| * |b - a|)
          = (1 - double.eps) * |b - a| * ((1 - double.eps) * |b - a|) := by ring
      _ ≤ |v| * |v| := this
  have hsq2 : v * v ≤ (1 + double.eps) ^ 2 * ((b - a) * (b - a)) := by
    rw [hvv, hdd]
    have := mul_self_le_mul_self (abs_nonneg v) hv2
    calc |v| * |v| ≤ (1 + double.eps) * |b - a| * ((1 + double.eps) * |b - a|) := this
      _ = (1 + double.eps) ^ 2 * (|b - a| * |b - a|) := by ring
  have hvv0 : 0 ≤ v * v := mul_self_nonneg v
  have hdd0 : 0 ≤ (b - a) * (b - a) := mul_self_nonneg _
  have hddu : (b - a) * (b - a) ≤ 2 ^ (1000 : ℤ) := by
    rw [hdd, show (2 : ℚ) ^ (1000 : ℤ) = 2 ^ (500 : ℤ) * 2 ^ (500 : ℤ) by
      rw [← zpow_add₀ (by norm_num : (2 : ℚ) ≠ 0)]; norm_num]
    exact mul_self_le_mul_self hd0 hb
  have hvvu : v * v ≤ 2 ^ (1002 : ℤ) := by
    have e : (2 : ℚ) ^ (1002 : ℤ) = 4 * 2 ^ (1000 : ℤ) := by
      rw [show (1002 : ℤ) = 2 + 1000 by norm_num, zpow_add₀ (by norm_num : (2 : ℚ) ≠ 0)]
      norm_num
    rw [e]
    have h4 := hi_sq_le
    calc v * v ≤ (1 + double.eps) ^ 2 * ((b - a) * (b - a)) := hsq2
      _ ≤ 4 * ((b - a) * (b - a)) := mul_le_mul_of_nonneg_right h4 hdd0
      _ ≤ 4 * 2 ^ (1000 : ℤ) := by linarith
  have hvvn : v * v = 0 ∨ (2 : ℚ) ^ (-1002 : ℤ) ≤ v * v := by
    rcases hn with h | h
    · left
      rw [h, abs_zero, mul_zero] at hv2
      have : v = 0 := abs_eq_zero.mp (le_antisymm hv2 (abs_nonneg v))
      rw [this, mul_zero]
    · right
      have hdl : (2 : ℚ) ^ (-1000 : ℤ) ≤ (b - a) * (b - a) := by
        rw [hdd, show (2 : ℚ) ^ (-1000 : ℤ) = 2 ^ (-500 : ℤ) * 2 ^ (-500 : ℤ) by
          rw [← zpow_add₀ (by norm_num : (2 : ℚ) ≠ 0)]; norm_num]
        exact mul_self_le_mul_self (le_of_lt (two_zpow_pos _)) h
      have e : (2 : ℚ) ^ (-1002 : ℤ) = 1 / 4 * 2 ^ (-1000 : ℤ) := by
        rw [show (-1002 : ℤ) = -2 + -1000 by norm_num, zpow_add₀ (by norm_num : (2 : ℚ) ≠ 0)]
        norm_num
      rw [e]
      have h4 := lo_sq_ge
      calc 1 / 4 * (2 : ℚ) ^ (-1000 : ℤ) ≤ (1 - double.eps) ^ 2 * 2 ^ (-1000 : ℤ) :=
            mul_le_mul_of_nonneg_right h4 (le_of_lt (two_zpow_pos _))
        _ ≤ (1 - double.eps) ^ 2 * ((b - a) * (b - a)) :=
            mul_le_mul_of_nonneg_left hdl (by positivity)
        _ ≤ v * v := hsq1
  have hvvn1 : v * v = 0 ∨ (2 : ℚ) ^ (-1022 : ℤ) ≤ v * v := by
    rcases hvvn with h | h
    · exact Or.inl h
    · exact Or.inr (le_trans (two_zpow_le _ _ (by norm_num)) h)
  obtain ⟨p, hp, hp1, hp2⟩ := round_nonneg_rel (v * v) hvv0 hvvn1
    (le_trans hvvu (two_zpow_le _ _ (by norm_num)))
  refine ⟨p, hp, ?_, ?_, ?_, ?_⟩
  · calc (1 - double.eps) ^ 3 * ((b - a) * (b - a))
          = (1 - double.eps) * ((1 - double.eps) ^ 2 * ((b - a) * (b - a))) := by ring
      _ ≤ (1 - double.eps) * (v * v) := mul_le_mul_of_nonneg_left hsq1 (le_of_lt hlo)
      _ ≤ p := hp1
  · calc p ≤ (1 + double.eps) * (v * v) := hp2
      _ ≤ (1 + double.eps) * ((1 + double.eps) ^ 2 * ((b - a) * (b - a))) :=
          mul_le_mul_of_nonneg_left hsq2 (by linarith)
      _ = (1 + double.eps) ^ 3 * ((b - a) * (b - a)) := by ring
  · rcases hvvn with h | h
    · left
      rw [h, mul_zero] at hp2
      rw [h, mul_zero] at hp1
      linarith
    · right
      have e : (2 : ℚ) ^ (-1003 : ℤ) = 1 / 2 * 2 ^ (-1002 : ℤ) := by
        rw [show (-1003 : ℤ) = -1 + -1002 by norm_num, zpow_add₀ (by norm_num : (2 : ℚ) ≠ 0)]
        norm_num
      rw [e]
      calc 1 / 2 * (2 : ℚ) ^ (-1002 : ℤ) ≤ (1 - double.eps) * 2 ^ (-1002 : ℤ) :=
            mul_le_mul_of_nonneg_right hlo2 (le_of_lt (two_zpow_pos _))
        _ ≤ (1 - double.eps) * (v * v) := mul_le_mul_of_nonneg_left h (le_of_lt hlo)
        _ ≤ p := hp1
  · have e : (2 : ℚ) ^ (1003 : ℤ) = 2 * 2 ^ (1002 : ℤ) := by
      rw [show (1003 : ℤ) = 1 + 1002 by norm_num, zpow_add₀ (by norm_num : (2 : ℚ) ≠ 0)]
      norm_num
    rw [e]
    calc p ≤ (1 + double.eps) * (v * v) := hp2
      _ ≤ 2 * (v * v) := mul_le_mul_of_nonneg_right hhi2 hvv0
      _ ≤ 2 * 2 ^ (1002 : ℤ) := by linarith

theorem two_zpow_succ (m n : ℤ) (h : n = m + 1) : (2 : ℚ) ^ n = 2 * 2 ^ m := by
  rw [h, zpow_add₀ (by norm_num : (2 : ℚ) ≠ 0), zpow_one, mul_comm]

theorem two_zpow_sq (n : ℤ) : ((2 : ℚ) ^ n) ^ 2 = 2 ^ (n + n) := by
  rw [sq, ← zpow_add₀ (by norm_num : (2 : ℚ) ≠ 0)]

/-- The distance of two points in range is a nonnegative number whose square is the squared
Euclidean distance up to the factors (1 - 2^-53)^8 and (1 + 2^-53)^8, where the square
root of the platform is accurate. -/
theorem dbl_distance_accurate (E : dbl.env) (hs : E.sqrt_accurate) (a b : dbl.point2d)
    (h : a.in_range b) :
    ∃ r : ℚ, a.distance_to E b = .fin r ∧ 0 ≤ r ∧
      (1 - double.eps) ^ 8 * a.sq_dist b ≤ r ^ 2 ∧
      r ^ 2 ≤ (1 + double.eps) ^ 8 * a.sq_dist b ∧
      (r = 0 ∨ (2 : ℚ) ^ (-504 : ℤ) ≤ r) ∧ r ≤ 2 ^ (505 : ℤ) := by
  obtain ⟨ax, ay⟩ := a
  obtain ⟨bx, by_⟩ := b
  obtain ⟨ha, hb, hx1, hx2, hy1, hy2⟩ := h
  simp only [dbl.point2d.is_finite, Bool.and_eq_true] at ha hb
  cases ax <;> cases ay <;> cases bx <;> cases by_ <;>
    simp only [double.is_finite, Bool.false_eq_true, and_false, false_and] at ha hb
  rename_i ax ay bx by_
  simp only [double.value] at hx1 hx2 hy1 hy2
  have hlo := lo_pos
  have hlo2 := lo_ge_half
  have hlo1 := lo_le_one
  have hhi := hi_ge_one
  have hhi2 := hi_le_two
  obtain ⟨px, hpx, hpx1, hpx2, hpxn, hpxu⟩ := sub_sq_rel ax bx hx1 hx2
  obtain ⟨py, hpy, hpy1, hpy2, hpyn, hpyu⟩ := sub_sq_rel ay by_ hy1 hy2
  have hdx0 : 0 ≤ (bx - ax) * (bx - ax) := mul_self_nonneg _
  have hdy0 : 0 ≤ (by_ - ay) * (by_ - ay) := mul_self_nonneg _
  have hpx0 : 0 ≤ px := le_trans (mul_nonneg (by positivity) hdx0) hpx1
  have hpy0 : 0 ≤ py := le_trans (mul_nonneg (by positivity) hdy0) hpy1
  -- the sum of the two squares
  have hsn : px + py = 0 ∨ (2 : ℚ) ^ (-1022 : ℤ) ≤ px + py := by
    rcases hpxn with hx | hx
    · rcases hpyn with hy | hy
      · left
        rw [hx, hy, add_zero]
      · right
        rw [hx, zero_add]
        exact le_trans (two_zpow_le _ _ (by norm_num)) hy
    · right
      exact le_trans (le_trans (two_zpow_le _ _ (by norm_num)) hx) (by linarith)
  have hsu : px + py ≤ 2 ^ (1004 : ℤ) := by
    rw [two_zpow_succ 1003 1004 (by norm_num)]
    linarith
  obtain ⟨S, hS, hS1, hS2⟩ := round_nonneg_rel (px + py) (by linarith) hsn
    (le_trans hsu (two_zpow_le _ _ (by norm_num)))
  have hS0 : 0 ≤ S := le_trans (mul_nonneg (le_of_lt hlo) (by linarith)) hS1
  have hSu : S ≤ 2 ^ (1005 : ℤ) := by
    rw [two_zpow_succ 1004 1005 (by norm_num)]
    calc S ≤ (1 + double.eps) * (px + py) := hS2
      _ ≤ 2 * (px + py) := mul_le_mul_of_nonneg_right hhi2 (by linarith)
      _ ≤ 2 * 2 ^ (1004 : ℤ) := by linarith
  have hSn : S = 0 ∨ (2 : ℚ) ^ (-1004 : ℤ) ≤ S := by
    rcases hpxn with hx | hx
    · rcases hpyn with hy | hy
      · left
        rw [hx, hy, add_zero, mul_zero] at hS2
        linarith
      · right
        have := two_zpow_succ (-1004) (-1003) (by norm_num)
        have h2 : (2 : ℚ) ^ (-1003 : ℤ) ≤ px + py := by linarith
        calc (2 : ℚ) ^ (-1004 : ℤ) = 1 / 2 * 2 ^ (-1003 : ℤ) := by rw [this]; ring
          _ ≤ (1 - double.eps) * 2 ^ (-1003 : ℤ) :=
              mul_le_mul_of_nonneg_right hlo2 (le_of_lt (two_zpow_pos _))
          _ ≤ (1 - double.eps) * (px + py) := mul_le_mul_of_nonneg_left h2 (le_of_lt hlo)
          _ ≤ S := hS1
    · right
      have := two_zpow_succ (-1004) (-1003) (by norm_num)
      have h2 : (2 : ℚ) ^ (-1003 : ℤ) ≤ px + py := by linarith
      calc (2 : ℚ) ^ (-1004 : ℤ) = 1 / 2 * 2 ^ (-1003 : ℤ) := by rw [this]; ring
        _ ≤ (1 - double.eps) * 2 ^ (-1003 : ℤ) :=
            mul_le_mul_of_nonneg_right hlo2 (le_of_lt (two_zpow_pos _))
        _ ≤ (1 - double.eps) * (px + py) := mul_le_mul_of_nonneg_left h2 (le_of_lt hlo)
        _ ≤ S := hS1
  -- the square root
  obtain ⟨hr0, hr1, hr2⟩ := hs S hS0
  have hr0u : E.sqrt S ≤ 2 ^ (504 : ℤ) := by
    have h4 := hi_sq_le
    have h1 : E.sqrt S ^ 2 ≤ ((2 : ℚ) ^ (504 : ℤ)) ^ 2 := by
      rw [two_zpow_sq]
      have e : (2 : ℚ) ^ ((504 : ℤ) + 504) = 4 * (2 * 2 ^ (1005 : ℤ)) := by
        rw [← two_zpow_succ 1005 1006 (by norm_num), show (4 : ℚ) = 2 ^ (2 : ℤ) by norm_num,
          ← zpow_add₀ (by norm_num : (2 : ℚ) ≠ 0)]
        norm_num
      rw [e]
      calc E.sqrt S ^ 2 ≤ (1 + double.eps) ^ 2 * S := hr2
        _ ≤ 4 * S := mul_le_mul_of_nonneg_right h4 hS0
        _ ≤ 4 * (2 * 2 ^ (1005 : ℤ)) := by linarith [two_zpow_pos 1005]
    exact le_of_sq_le_sq h1 (le_of_lt (two_zpow_pos _))
  have hr0n : E.sqrt S = 0 ∨ (2 : ℚ) ^ (-503 : ℤ) ≤ E.sqrt S := by
    rcases hSn with h0 | hl
    · left
      rw [h0, mul_zero] at hr2
      rw [h0]
      exact pow_eq_zero_iff (two_ne_zero) |>.mp (le_antisymm hr2 (sq_nonneg _))
    · right
      have h4 := lo_sq_ge
      have h1 : ((2 : ℚ) ^ (-503 : ℤ)) ^ 2 ≤ E.sqrt S ^ 2 := by
        rw [two_zpow_sq]
        have e : (2 : ℚ) ^ ((-503 : ℤ) + -503) = 1 / 4 * 2 ^ (-1004 : ℤ) := by
          rw [show (1 / 4 : ℚ) = 2 ^ (-2 : ℤ) by norm_num,
            ← zpow_add₀ (by norm_num : (2 : ℚ) ≠ 0)]
          norm_num
        rw [e]
        calc 1 / 4 * (2 : ℚ) ^ (-1004 : ℤ) ≤ (1 - double.eps) ^ 2 * 2 ^ (-1004 : ℤ) :=
              mul_le_mul_of_nonneg_right h4 (le_of_lt (two_zpow_pos _))
          _ ≤ (1 - double.eps) ^ 2 * S := mul_le_mul_of_nonneg_left hl (by positivity)
          _ ≤ E.sqrt S ^ 2 := hr1
      exact le_of_sq_le_sq h1 hr0
  have hr0n1 : E.sqrt S = 0 ∨ (2 : ℚ) ^ (-1022 : ℤ) ≤ E.sqrt S := by
    rcases hr0n with h | h
    · exact Or.inl h
    · exact Or.inr (le_trans (two_zpow_le _ _ (by norm_num)) h)
  obtain ⟨r, hr, hrl, hru⟩ := round_nonneg_rel (E.sqrt S) hr0 hr0n1
    (le_trans hr0u (two_zpow_le _ _ (by norm_num)))
  have hrn : 0 ≤ r := le_trans (mul_nonneg (le_of_lt hlo) hr0) hrl
  have hD : dbl.point2d.sq_dist ⟨.fin ax, .fin ay⟩ ⟨.fin bx, .fin by_⟩
      = (bx - ax) * (bx - ax) + (by_ - ay) * (by_ - ay) := rfl
  refine ⟨r, ?_, hrn, ?_, ?_, ?_, ?_⟩
  rotate_left 3
  · rcases hr0n with h | h
    · left
      rw [h, mul_zero] at hru
      linarith
    · right
      rw [two_zpow_succ (-504) (-503) (by norm_num)] at h
      calc (2 : ℚ) ^ (-504 : ℤ) = 1 / 2 * (2 * 2 ^ (-504 : ℤ)) := by ring
        _ ≤ (1 - double.eps) * (2 * 2 ^ (-504 : ℤ)) :=
            mul_le_mul_of_nonneg_right hlo2 (by positivity)
        _ ≤ (1 - double.eps) * E.sqrt S := mul_le_mul_of_nonneg_left h (le_of_lt hlo)
        _ ≤ r := hrl
  · rw [two_zpow_succ 504 505 (by norm_num)]
    calc r ≤ (1 + double.eps) * E.sqrt S := hru
      _ ≤ 2 * E.sqrt S := mul_le_mul_of_nonneg_right hhi2 hr0
      _ ≤ 2 * 2 ^ (504 : ℤ) := by linarith
  · rw [dbl_distance_to_eq]
    show double.sqrt E.sqrt ((double.fin bx - double.fin ax) * (double.fin bx - double.fin ax)
      + (double.fin by_ - double.fin ay) * (double.fin by_ - double.fin ay)) = _
    rw [hpx, hpy, double_add_fin, hS]
    simp only [double.sqrt, not_lt.mpr hS0, if_false]
    exact hr
  · rw [hD]
    have e1 : ((1 - double.eps) * E.sqrt S) ^ 2 ≤ r ^ 2 :=
      pow_le_pow_left₀ (mul_nonneg (le_of_lt hlo) hr0) hrl 2
    have e2 : (1 - double.eps) ^ 3 * ((bx - ax) * (bx - ax) + (by_ - ay) * (by_ - ay))
        ≤ px + py := by linarith
    calc (1 - double.eps) ^ 8 * ((bx - ax) * (bx - ax) + (by_ - ay) * (by_ - ay))
          = (1 - double.eps) ^ 5 * ((1 - double.eps) ^ 3
              * ((bx - ax) * (bx - ax) + (by_ - ay) * (by_ - ay))) := by ring
      _ ≤ (1 - double.eps) ^ 5 * (px + py) := mul_le_mul_of_nonneg_left e2 (by positivity)
      _ = (1 - double.eps) ^ 4 * ((1 - double.eps) * (px + py)) := by ring
      _ ≤ (1 - double.eps) ^ 4 * S := mul_le_mul_of_nonneg_left hS1 (by positivity)
      _ = (1 - double.eps) ^ 2 * ((1 - double.eps) ^ 2 * S) := by ring
      _ ≤ (1 - double.eps) ^ 2 * E.sqrt S ^ 2 := mul_le_mul_of_nonneg_left hr1 (by positivity)
      _ = ((1 - double.eps) * E.sqrt S) ^ 2 := by ring
      _ ≤ r ^ 2 := e1
  · rw [hD]
    have e1 : r ^ 2 ≤ ((1 + double.eps) * E.sqrt S) ^ 2 := pow_le_pow_left₀ hrn hru 2
    have e2 : px + py ≤ (1 + double.eps) ^ 3
        * ((bx - ax) * (bx - ax) + (by_ - ay) * (by_ - ay)) := by linarith
    calc r ^ 2 ≤ ((1 + double.eps) * E.sqrt S) ^ 2 := e1
      _ = (1 + double.eps) ^ 2 * E.sqrt S ^ 2 := by ring
      _ ≤ (1 + double.eps) ^ 2 * ((1 + double.eps) ^ 2 * S) :=
          mul_le_mul_of_nonneg_left hr2 (by positivity)
      _ = (1 + double.eps) ^ 4 * S := by ring
      _ ≤ (1 + double.eps) ^ 4 * ((1 + double.eps) * (px + py)) :=
          mul_le_mul_of_nonneg_left hS2 (by positivity)
      _ = (1 + double.eps) ^ 5 * (px + py) := by ring
      _ ≤ (1 + double.eps) ^ 5 * ((1 + double.eps) ^ 3
            * ((bx - ax) * (bx - ax) + (by_ - ay) * (by_ - ay))) :=
          mul_le_mul_of_nonneg_left e2 (by positivity)
      _ = (1 + double.eps) ^ 8 * ((bx - ax) * (bx - ax) + (by_ - ay) * (by_ - ay)) := by ring

/-! ## The heuristic and the triangle inequality on doubles -/

/-- The number s is at least the Euclidean distance of the two points. -/
theorem sq_dist_triangle (a b c : dbl.point2d) (s1 s2 : ℚ) (h1 : 0 ≤ s1) (h2 : 0 ≤ s2)
    (hab : a.sq_dist b ≤ s1 ^ 2) (hbc : b.sq_dist c ≤ s2 ^ 2) :
    a.sq_dist c ≤ (s1 + s2) ^ 2 := by
  unfold dbl.point2d.sq_dist at *
  generalize a.x_.value = ax at *
  generalize a.y_.value = ay at *
  generalize b.x_.value = bx at *
  generalize b.y_.value = by_ at *
  generalize c.x_.value = cx at *
  generalize c.y_.value = cy at *
  have hI : (bx - ax) * (cx - bx) + (by_ - ay) * (cy - by_) ≤ s1 * s2 := by
    apply le_of_sq_le_sq _ (mul_nonneg h1 h2)
    have hcs : ((bx - ax) * (cx - bx) + (by_ - ay) * (cy - by_)) ^ 2
        ≤ ((bx - ax) * (bx - ax) + (by_ - ay) * (by_ - ay))
          * ((cx - bx) * (cx - bx) + (cy - by_) * (cy - by_)) := by
      have e : ((bx - ax) * (bx - ax) + (by_ - ay) * (by_ - ay))
            * ((cx - bx) * (cx - bx) + (cy - by_) * (cy - by_))
          - ((bx - ax) * (cx - bx) + (by_ - ay) * (cy - by_)) ^ 2
          = ((bx - ax) * (cy - by_) - (by_ - ay) * (cx - bx)) ^ 2 := by ring
      linarith [sq_nonneg ((bx - ax) * (cy - by_) - (by_ - ay) * (cx - bx))]
    have h3 : ((bx - ax) * (bx - ax) + (by_ - ay) * (by_ - ay))
          * ((cx - bx) * (cx - bx) + (cy - by_) * (cy - by_)) ≤ s1 ^ 2 * s2 ^ 2 :=
      mul_le_mul hab hbc (add_nonneg (mul_self_nonneg _) (mul_self_nonneg _)) (by positivity)
    calc ((bx - ax) * (cx - bx) + (by_ - ay) * (cy - by_)) ^ 2 ≤ s1 ^ 2 * s2 ^ 2 :=
          le_trans hcs h3
      _ = (s1 * s2) ^ 2 := by ring
  have e1 : (cx - ax) * (cx - ax) + (cy - ay) * (cy - ay)
      = ((bx - ax) * (bx - ax) + (by_ - ay) * (by_ - ay))
        + ((cx - bx) * (cx - bx) + (cy - by_) * (cy - by_))
        + 2 * ((bx - ax) * (cx - bx) + (by_ - ay) * (cy - by_)) := by ring
  have e2 : (s1 + s2) ^ 2 = s1 ^ 2 + s2 ^ 2 + 2 * (s1 * s2) := by ring
  rw [e1, e2]
  linarith

theorem sq_dist_self (a : dbl.point2d) : a.sq_dist a = 0 := by
  unfold dbl.point2d.sq_dist
  ring

theorem in_range_self (a : dbl.point2d) (h : a.is_finite = true) : a.in_range a := by
  refine ⟨h, h, Or.inl (sub_self _), ?_, Or.inl (sub_self _), ?_⟩
  · rw [sub_self, abs_zero]
    exact le_of_lt (two_zpow_pos _)
  · rw [sub_self, abs_zero]
    exact le_of_lt (two_zpow_pos _)

/-- The heuristic from a point with numbers as coordinates to itself is 0. -/
theorem dbl_heuristic_self (E : dbl.env) (hs : E.sqrt_accurate) (a : dbl.point2d)
    (h : a.is_finite = true) : dbl.astar_node.heuristic E a a = .fin 0 := by
  obtain ⟨r, hr, hr0, _, hr2, _⟩ := dbl_distance_accurate E hs a a (in_range_self a h)
  rw [sq_dist_self, mul_zero] at hr2
  have : r = 0 := pow_eq_zero_iff (two_ne_zero) |>.mp (le_antisymm hr2 (sq_nonneg _))
  unfold dbl.astar_node.heuristic
  rw [hr, this]

theorem hi_lo_bound : ((1 + double.eps) / (1 - double.eps)) ^ 4 / (1 - double.eps)
    ≤ 1 + 2 ^ (-49 : ℤ) := by
  unfold double.eps
  norm_num

/-- A computed distance r and the exact one: r / (1 - 2^-53)^4 is at least the Euclidean
distance. -/
theorem dominates_of_accurate (a b : dbl.point2d) (r : ℚ)
    (h : (1 - double.eps) ^ 8 * a.sq_dist b ≤ r ^ 2) :
    a.sq_dist b ≤ (r / (1 - double.eps) ^ 4) ^ 2 := by
  have hlo := lo_pos
  rw [div_pow, le_div_iff₀ (by positivity)]
  calc a.sq_dist b * ((1 - double.eps) ^ 4) ^ 2 = (1 - double.eps) ^ 8 * a.sq_dist b := by ring
    _ ≤ r ^ 2 := h

/-- A computed distance is at most (1 + 2^-53)^4 / (1 - 2^-53)^4 times a number that is at
least the Euclidean distance divided by (1 - 2^-53)^4. -/
theorem le_of_dominated (a b : dbl.point2d) (r s : ℚ) (hs0 : 0 ≤ s)
    (h : r ^ 2 ≤ (1 + double.eps) ^ 8 * a.sq_dist b)
    (hd : a.sq_dist b ≤ (s / (1 - double.eps) ^ 4) ^ 2) :
    r ≤ ((1 + double.eps) / (1 - double.eps)) ^ 4 * s := by
  have hlo := lo_pos
  have hhi := hi_ge_one
  apply le_of_sq_le_sq _ (mul_nonneg (by positivity) hs0)
  calc r ^ 2 ≤ (1 + double.eps) ^ 8 * a.sq_dist b := h
    _ ≤ (1 + double.eps) ^ 8 * (s / (1 - double.eps) ^ 4) ^ 2 :=
        mul_le_mul_of_nonneg_left hd (by positivity)
    _ = (((1 + double.eps) / (1 - double.eps)) ^ 4 * s) ^ 2 := by
        field_simp
        ring

/-! ## The sample square root is accurate -/

theorem lo_succ_le (n : ℚ) (h : 1 ≤ double.eps * n) : (1 - double.eps) * (n + 1) ≤ n := by
  nlinarith [eps_pos]

theorem one_le_hi_sq : (1 : ℚ) ≤ (1 + double.eps) ^ 2 := by
  nlinarith [eps_pos]

theorem dbl_sqrt_sample_accurate : dbl.sample_env.sqrt_accurate := by
  intro q hq
  show 0 ≤ dbl.sqrt_sample q ∧ (1 - double.eps) ^ 2 * q ≤ dbl.sqrt_sample q ^ 2
    ∧ dbl.sqrt_sample q ^ 2 ≤ (1 + double.eps) ^ 2 * q
  unfold dbl.sqrt_sample
  by_cases h0 : q ≤ 0
  · have : q = 0 := le_antisymm h0 hq
    simp [this]
  · rw [if_neg h0]
    push_neg at h0
    have hlo := lo_pos
    have hhi := hi_ge_one
    generalize hs : (60 : ℤ) - Int.log 2 q / 2 = s
    generalize hN : ⌊q * (4 : ℚ) ^ s⌋₊ = N
    have h4 : (4 : ℚ) ^ s = 2 ^ s * 2 ^ s := by
      rw [← mul_zpow]
      norm_num
    have hp : (0 : ℚ) < 2 ^ s := two_zpow_pos s
    have hx0 : 0 ≤ q * (4 : ℚ) ^ s := by
      rw [h4]
      positivity
    have hlog : (2 : ℚ) ^ (Int.log 2 q) ≤ q := by
      have := @Int.zpow_log_le_self ℚ _ _ 2 q (by norm_num) h0
      exact_mod_cast this
    have hbig : (2 : ℚ) ^ (120 : ℤ) ≤ q * (4 : ℚ) ^ s := by
      have e1 : (120 : ℤ) - Int.log 2 q ≤ s + s := by omega
      have e2 : (2 : ℚ) ^ (120 : ℤ) = 2 ^ (Int.log 2 q) * 2 ^ ((120 : ℤ) - Int.log 2 q) := by
        rw [← zpow_add₀ (by norm_num : (2 : ℚ) ≠ 0)]
        congr 1
        ring
      have h44 : (2 : ℚ) ^ s * 2 ^ s = 2 ^ (s + s) :=
        (zpow_add₀ (by norm_num : (2 : ℚ) ≠ 0) s s).symm
      rw [e2, h4, h44]
      exact mul_le_mul hlog (two_zpow_le _ _ e1) (le_of_lt (two_zpow_pos _)) (le_of_lt h0)
    have hNle : (N : ℚ) ≤ q * (4 : ℚ) ^ s := by
      rw [← hN]
      exact Nat.floor_le hx0
    have hNlt : q * (4 : ℚ) ^ s < (N : ℚ) + 1 := by
      rw [← hN]
      exact Nat.lt_floor_add_one _
    have hNbig : 2 ^ 120 ≤ N := by
      rw [← hN]
      apply Nat.le_floor
      have : (2 : ℚ) ^ (120 : ℤ) = ((2 ^ 120 : ℕ) : ℚ) := by norm_num
      rw [← this]
      exact hbig
    have hn1 : Nat.sqrt N ^ 2 ≤ N := Nat.sqrt_le' N
    have hn2 : N < (Nat.sqrt N + 1) ^ 2 := Nat.lt_succ_sqrt' N
    have hn3 : 2 ^ 60 ≤ Nat.sqrt N := by
      rw [Nat.le_sqrt']
      exact le_trans (by norm_num) hNbig
    generalize Nat.sqrt N = n at hn1 hn2 hn3 ⊢
    have hn1q : (n : ℚ) ^ 2 ≤ N := by exact_mod_cast hn1
    have hn2q : (N : ℚ) + 1 ≤ ((n : ℚ) + 1) ^ 2 := by exact_mod_cast hn2
    have hn3q : (2 : ℚ) ^ 60 ≤ n := by exact_mod_cast hn3
    have hf : ((n : ℚ) / 2 ^ s) ^ 2 = (n : ℚ) ^ 2 / (4 : ℚ) ^ s := by
      rw [h4, div_pow]
      ring
    have h4p : (0 : ℚ) < (4 : ℚ) ^ s := by
      rw [h4]
      positivity
    refine ⟨div_nonneg (Nat.cast_nonneg _) (le_of_lt hp), ?_, ?_⟩
    · rw [hf, le_div_iff₀ h4p]
      have e1 : (1 - double.eps) * ((n : ℚ) + 1) ≤ n := by
        apply lo_succ_le
        unfold double.eps
        calc (1 : ℚ) = 2 ^ (-53 : ℤ) * 2 ^ (53 : ℤ) := by norm_num
          _ ≤ 2 ^ (-53 : ℤ) * n :=
              mul_le_mul_of_nonneg_left (le_trans (by norm_num) hn3q) (by positivity)
      have e2 : ((1 - double.eps) * ((n : ℚ) + 1)) ^ 2 ≤ (n : ℚ) ^ 2 :=
        pow_le_pow_left₀ (mul_nonneg (le_of_lt hlo) (by positivity)) e1 2
      calc (1 - double.eps) ^ 2 * q * (4 : ℚ) ^ s
            = (1 - double.eps) ^ 2 * (q * (4 : ℚ) ^ s) := by ring
        _ ≤ (1 - double.eps) ^ 2 * (((n : ℚ) + 1) ^ 2) :=
            mul_le_mul_of_nonneg_left (by linarith) (by positivity)
        _ = ((1 - double.eps) * ((n : ℚ) + 1)) ^ 2 := by ring
        _ ≤ (n : ℚ) ^ 2 := e2
    · rw [hf, div_le_iff₀ h4p]
      have h1 := one_le_hi_sq
      calc (n : ℚ) ^ 2 ≤ q * (4 : ℚ) ^ s := le_trans hn1q hNle
        _ ≤ (1 + double.eps) ^ 2 * (q * (4 : ℚ) ^ s) := le_mul_of_one_le_left hx0 h1
        _ = (1 + double.eps) ^ 2 * q * (4 : ℚ) ^ s := by ring

/-! ## The heuristic is consistent up to rounding -/

theorem hi_lo_le : ((1 + double.eps) / (1 - double.eps)) ^ 4
    ≤ ((1 + double.eps) / (1 - double.eps)) ^ 4 / (1 - double.eps) := by
  have hlo := lo_pos
  have hhi := hi_ge_one
  rw [le_div_iff₀ hlo]
  have h0 : 0 ≤ ((1 + double.eps) / (1 - double.eps)) ^ 4 := by positivity
  nlinarith [eps_pos]

/-- Three points pairwise in range: the computed distance from the first to the third is at
most 1 + 2^-49 times the sum of the other two computed distances, the sum taken exactly or
rounded as a double. -/
theorem dbl_distance_triangle (E : dbl.env) (hs : E.sqrt_accurate) (a b c : dbl.point2d)
    (hab : a.in_range b) (hbc : b.in_range c) (hac : a.in_range c) :
    ∃ rab rbc rac s : ℚ, a.distance_to E b = .fin rab ∧ b.distance_to E c = .fin rbc ∧
      a.distance_to E c = .fin rac ∧ 0 ≤ rab ∧ 0 ≤ rbc ∧ 0 ≤ rac ∧
      rac ≤ (1 + 2 ^ (-49 : ℤ)) * (rab + rbc) ∧
      a.distance_to E b + b.distance_to E c = .fin s ∧ rac ≤ (1 + 2 ^ (-49 : ℤ)) * s := by
  have hlo := lo_pos
  have hhi := hi_ge_one
  obtain ⟨rab, e1, p1, l1, _, n1, u1⟩ := dbl_distance_accurate E hs a b hab
  obtain ⟨rbc, e2, p2, l2, _, n2, u2⟩ := dbl_distance_accurate E hs b c hbc
  obtain ⟨rac, e3, p3, _, h3, _, _⟩ := dbl_distance_accurate E hs a c hac
  have hlo4 : (0 : ℚ) < (1 - double.eps) ^ 4 := by positivity
  have hd := sq_dist_triangle a b c _ _ (div_nonneg p1 (le_of_lt hlo4))
    (div_nonneg p2 (le_of_lt hlo4)) (dominates_of_accurate a b rab l1)
    (dominates_of_accurate b c rbc l2)
  rw [← add_div] at hd
  have hsum0 : 0 ≤ rab + rbc := add_nonneg p1 p2
  have hmain := le_of_dominated a c rac (rab + rbc) hsum0 h3 hd
  have hc0 : 0 ≤ ((1 + double.eps) / (1 - double.eps)) ^ 4 := by positivity
  -- the rounded sum
  have hsn : rab + rbc = 0 ∨ (2 : ℚ) ^ (-1022 : ℤ) ≤ rab + rbc := by
    rcases n1 with h | h
    · rcases n2 with h2 | h2
      · left
        rw [h, h2, add_zero]
      · right
        rw [h, zero_add]
        exact le_trans (two_zpow_le _ _ (by norm_num)) h2
    · right
      exact le_trans (le_trans (two_zpow_le _ _ (by norm_num)) h) (by linarith)
  have hsu : rab + rbc ≤ 2 ^ (506 : ℤ) := by
    rw [two_zpow_succ 505 506 (by norm_num)]
    linarith
  obtain ⟨s, es, hs1, _⟩ := round_nonneg_rel (rab + rbc) hsum0 hsn
    (le_trans hsu (two_zpow_le _ _ (by norm_num)))
  have hs0 : 0 ≤ s := le_trans (mul_nonneg (le_of_lt hlo) hsum0) hs1
  refine ⟨rab, rbc, rac, s, e1, e2, e3, p1, p2, p3, ?_, ?_, ?_⟩
  · calc rac ≤ ((1 + double.eps) / (1 - double.eps)) ^ 4 * (rab + rbc) := hmain
      _ ≤ (1 + 2 ^ (-49 : ℤ)) * (rab + rbc) :=
          mul_le_mul_of_nonneg_right (le_trans hi_lo_le hi_lo_bound) hsum0
  · rw [e1, e2, double_add_fin, es]
  · have h5 : rab + rbc ≤ s / (1 - double.eps) := by
      rw [le_div_iff₀ hlo]
      linarith
    calc rac ≤ ((1 + double.eps) / (1 - double.eps)) ^ 4 * (rab + rbc) := hmain
      _ ≤ ((1 + double.eps) / (1 - double.eps)) ^ 4 * (s / (1 - double.eps)) :=
          mul_le_mul_of_nonneg_left h5 hc0
      _ = ((1 + double.eps) / (1 - double.eps)) ^ 4 / (1 - double.eps) * s := by ring
      _ ≤ (1 + 2 ^ (-49 : ℤ)) * s := mul_le_mul_of_nonneg_right hi_lo_bound hs0

/-- Along a path whose road lengths are the computed distances of the planar points, the
weight of the path divided by (1 - 2^-53)^4 is at least the Euclidean distance from its
first to its last id. -/
theorem dbl_path_dominates (E : dbl.env) (hs : E.sqrt_accurate) (Q : dbl.plat)
    (pl : Nat → dbl.point2d) (t : Nat) :
    ∀ (path : List Nat) (x0 : Nat), path.head? = some x0 → path.getLast? = some t →
      (∀ x ∈ path, ∀ y ∈ path, (pl x).in_range (pl y)) →
      List.Chain' (fun x y => Q.road_length x y = (pl x).distance_to E (pl y)) path →
      0 ≤ Q.path_weight path ∧
      (pl x0).sq_dist (pl t) ≤ (Q.path_weight path / (1 - double.eps) ^ 4) ^ 2 := by
  have hlo := lo_pos
  have hlo4 : (0 : ℚ) < (1 - double.eps) ^ 4 := by positivity
  intro path
  induction path with
  | nil =>
    intro x0 hh
    simp at hh
  | cons a rest ih =>
    intro x0 hh hl hex hch
    simp only [List.head?_cons, Option.some.injEq] at hh
    subst hh
    cases rest with
    | nil =>
      simp only [List.getLast?_singleton, Option.some.injEq] at hl
      subst hl
      unfold dbl.plat.path_weight
      rw [sq_dist_self]
      exact ⟨le_refl _, by positivity⟩
    | cons b rest =>
      rw [List.getLast?_cons_cons] at hl
      rw [List.chain'_cons] at hch
      obtain ⟨h0, h1⟩ := ih b rfl hl
        (fun x hx y hy => hex x (List.mem_cons_of_mem _ hx) y (List.mem_cons_of_mem _ hy)) hch.2
      obtain ⟨r, er, p, l, _⟩ := dbl_distance_accurate E hs (pl a) (pl b)
        (hex a (by simp) b (by simp))
      have hw : Q.path_weight (a :: b :: rest) = r + Q.path_weight (b :: rest) := by
        show (Q.road_length a b).value + _ = _
        rw [hch.1, er]
        rfl
      rw [hw, add_div]
      exact ⟨add_nonneg p h0, sq_dist_triangle (pl a) (pl b) (pl t) _ _
        (div_nonneg p (le_of_lt hlo4)) (div_nonneg h0 (le_of_lt hlo4))
        (dominates_of_accurate _ _ r l) h1⟩

/-- Along a path whose road lengths are the computed distances of the planar points, the
heuristic at the first id is at most 1 + 2^-49 times the weight of the path to its last id
t. -/
theorem dbl_heuristic_admissible (E : dbl.env) (hs : E.sqrt_accurate) (Q : dbl.plat)
    (pl : Nat → dbl.point2d) (t : Nat) (path : List Nat) (x0 : Nat)
    (hh : path.head? = some x0) (hl : path.getLast? = some t)
    (hex : ∀ x ∈ path, ∀ y ∈ path, (pl x).in_range (pl y))
    (hch : List.Chain' (fun x y => Q.road_length x y = (pl x).distance_to E (pl y)) path) :
    ∃ h : ℚ, dbl.astar_node.heuristic E (pl x0) (pl t) = .fin h ∧ 0 ≤ h ∧
      h ≤ (1 + 2 ^ (-49 : ℤ)) * Q.path_weight path := by
  obtain ⟨h0, h1⟩ := dbl_path_dominates E hs Q pl t path x0 hh hl hex hch
  have hx0 : x0 ∈ path := by
    cases path with
    | nil => simp at hh
    | cons a rest =>
      simp only [List.head?_cons, Option.some.injEq] at hh
      rw [← hh]
      simp
  have ht : t ∈ path := List.mem_of_getLast?_eq_some hl
  obtain ⟨r, er, p, _, u, _⟩ := dbl_distance_accurate E hs (pl x0) (pl t) (hex x0 hx0 t ht)
  refine ⟨r, er, p, ?_⟩
  calc r ≤ ((1 + double.eps) / (1 - double.eps)) ^ 4 * Q.path_weight path :=
        le_of_dominated _ _ r _ h0 u h1
    _ ≤ (1 + 2 ^ (-49 : ℤ)) * Q.path_weight path :=
        mul_le_mul_of_nonneg_right (le_trans hi_lo_le hi_lo_bound) h0

/-- C32, amended: on doubles the heuristic is consistent up to rounding. After a successful
plat::add_road(u, v) in a well-formed network (same zone or not), for every goal t that
resolves, where the planar points of u, v and t are pairwise in range (numbers as
coordinates, every coordinate difference 0 or of a magnitude from 2^-500 to 2^500) and
the square root of the platform has a relative error of at most 2^-53: the planar points
are as before, road_length(u, v) is the distance the code computes from them, the three
values road_length(u, v), heuristic(plane(v), plane(t)) and heuristic(plane(u), plane(t))
are nonnegative numbers, heuristic(plane(u), plane(t)) <= (1 + 2^-49) * (road_length(u, v)
+ heuristic(plane(v), plane(t))) with the sum taken exactly and also with the sum rounded
as the double addition gives it, and heuristic(plane(t), plane(t)) = 0. Hence along every
path whose road lengths are the computed distances of planar points pairwise in range,
the heuristic at the first id is at most 1 + 2^-49 times the weight of the path to the
goal. -/
theorem heuristic_consistent_rounded (E : dbl.env) (hs : E.sqrt_accurate) (P : dbl.plat)
    (hP : P.wf) (u v t : Nat) (lu lv lt : dbl.location) (w : double) (P1 : dbl.plat)
    (hadd : P.add_road E u v = (.ok w, P1))
    (hu : P.place u = some lu) (hv : P.place v = some lv) (ht : P.place t = some lt)
    (huv : lu.plane_.in_range lv.plane_) (hvt : lv.plane_.in_range lt.plane_)
    (hut : lu.plane_.in_range lt.plane_) :
    (P1.place u).map dbl.location.plane_ = some lu.plane_ ∧
    (P1.place v).map dbl.location.plane_ = some lv.plane_ ∧
    (P1.place t).map dbl.location.plane_ = some lt.plane_ ∧
    P1.has_road u v = true ∧
    P1.road_length u v = lu.plane_.distance_to E lv.plane_ ∧
    (∃ ruv rvt rut s : ℚ, P1.road_length u v = .fin ruv ∧
      dbl.astar_node.heuristic E lv.plane_ lt.plane_ = .fin rvt ∧
      dbl.astar_node.heuristic E lu.plane_ lt.plane_ = .fin rut ∧
      0 ≤ ruv ∧ 0 ≤ rvt ∧ 0 ≤ rut ∧
      rut ≤ (1 + 2 ^ (-49 : ℤ)) * (ruv + rvt) ∧
      P1.road_length u v + dbl.astar_node.heuristic E lv.plane_ lt.plane_ = .fin s ∧
      rut ≤ (1 + 2 ^ (-49 : ℤ)) * s) ∧
    dbl.astar_node.heuristic E lt.plane_ lt.plane_ = .fin 0 ∧
    (∀ (Q : dbl.plat) (pl : Nat → dbl.point2d) (path : List Nat) (x0 : Nat),
      path.head? = some x0 → path.getLast? = some t →
      (∀ x ∈ path, ∀ y ∈ path, (pl x).in_range (pl y)) →
      List.Chain' (fun x y => Q.road_length x y = (pl x).distance_to E (pl y)) path →
      ∃ h : ℚ, dbl.astar_node.heuristic E (pl x0) (pl t) = .fin h ∧ 0 ≤ h ∧
        h ≤ (1 + 2 ^ (-49 : ℤ)) * Q.path_weight path) := by
  obtain ⟨ct, lf, lt2, hct, hlf, hpf, hpt, hP1, hw⟩ := dbl_plat_add_road_ok E P hP u v w P1 hadd
  rw [hu] at hpf
  rw [hv] at hpt
  have e1 : lu = lf := Option.some.inj hpf
  have e2 : lv = lt2 := Option.some.inj hpt
  subst e1 e2
  have hlen : P1.road_length u v = lu.plane_.distance_to E lv.plane_ := by
    rw [hP1]
    exact dbl_plat_add_road_length E P u v ct lu lv.plane_
  have hframe := (dbl_plat_set_frame P (town_of u) ct
    ⟨ct.id_, ct.name_, umap_set ct.places_ u (lu.add_road E v lv.plane_)⟩ hct
    (fun x y => x ≠ u ∨ y ≠ v)
    (dbl_city_set_add_road_frame E ct u v lv.plane_ lu hlf).1
    (dbl_city_set_add_road_frame E ct u v lv.plane_ lu hlf).2).2
  rw [← hP1] at hframe
  obtain ⟨ruv, rvt, rut, s, h1, h2, h3, p1, p2, p3, h4, h5, h6⟩ :=
    dbl_distance_triangle E hs lu.plane_ lv.plane_ lt.plane_ huv hvt hut
  refine ⟨?_, ?_, ?_, ?_, hlen, ⟨ruv, rvt, rut, s, ?_, h2, h3, p1, p2, p3, h4, ?_, h6⟩,
    dbl_heuristic_self E hs _ hvt.2.1,
    fun Q pl path x0 => dbl_heuristic_admissible E hs Q pl t path x0⟩
  · rw [hframe u, hu]
    rfl
  · rw [hframe v, hv]
    rfl
  · rw [hframe t, ht]
    rfl
  · rw [hP1]
    unfold dbl.plat.has_road
    rw [dbl_plat_place_set_same P (town_of u) _ u rfl]
    simp [dbl.city.place, umap_find_set_same, dbl_has_road_to_add_road]
  · rw [hlen]
    exact h1
  · rw [hlen]
    exact h5

/-! ## Certificates for single roundings -/

theorem round_even_tie (x : ℚ) (f n : ℤ) (hx : x = (f : ℚ) + 1 / 2)
    (hn : (n = f ∧ f % 2 = 0) ∨ (n = f + 1 ∧ f % 2 = 1)) : round_even x = n := by
  have hf : ⌊x⌋ = f := by
    rw [Int.floor_eq_iff, hx]
    constructor <;> linarith
  unfold round_even
  rw [hf]
  have e : x - (f : ℚ) = 1 / 2 := by rw [hx]; ring
  rw [e]
  simp only [lt_self_iff_false, if_false]
  rcases hn with ⟨h1, h2⟩ | ⟨h1, h2⟩
  · rw [if_pos h2, h1]
  · rw [if_neg (by omega), h1]

/-- The double nearest to a number a halfway between two doubles. -/
theorem round_abs_eq_tie (a : ℚ) (k e f n : ℤ) (h1 : (2 : ℚ) ^ k ≤ a)
    (h2 : a < (2 : ℚ) ^ (k + 1)) (he : e = max (k - 52) (-1074))
    (hx : a = ((f : ℚ) + 1 / 2) * 2 ^ e)
    (hn : (n = f ∧ f % 2 = 0) ∨ (n = f + 1 ∧ f % 2 = 1)) :
    double.round_abs a = n * 2 ^ e := by
  have hk := log_two_eq a k h1 h2
  have hu : double.ulp_exp a = e := by
    unfold double.ulp_exp
    rw [hk, he]
  unfold double.round_abs
  rw [hu]
  have hp : (0 : ℚ) < 2 ^ e := zpow_pos (by norm_num) _
  rw [round_even_tie (a / 2 ^ e) f n ((div_eq_iff (ne_of_gt hp)).mpr hx) hn]

/-- The double n * 2^e. -/
theorem dyadic_def (n e : ℤ) : double.dyadic n e = .fin ((n : ℚ) * 2 ^ e) := rfl

theorem round_of_abs (q v : ℚ) (h0 : 0 ≤ q) (h : double.round_abs q = v) (hv : v < 2 ^ 53) :
    double.round q = .fin v := by
  rw [round_of_nonneg q h0, h]
  simp [lt_of_lt_of_le hv two_pow_53_le]

theorem dyadic_round_pos (q : ℚ) (k e0 n0 n e : ℤ) (h1 : (2 : ℚ) ^ k ≤ q)
    (h2 : q < (2 : ℚ) ^ (k + 1)) (he : e0 = max (k - 52) (-1074))
    (hn1 : ((n0 : ℚ) - 1 / 2) * 2 ^ e0 < q) (hn2 : q < ((n0 : ℚ) + 1 / 2) * 2 ^ e0)
    (hv : (n : ℚ) * 2 ^ e < 2 ^ 53) (hne : (n : ℚ) * 2 ^ e = n0 * 2 ^ e0) :
    double.round q = double.dyadic n e := by
  have hq : 0 ≤ q := le_trans (le_of_lt (zpow_pos (by norm_num) k)) h1
  rw [dyadic_def, hne]
  rw [hne] at hv
  exact round_of_abs q _ hq (round_abs_eq q k e0 n0 h1 h2 he hn1 hn2) hv

theorem dyadic_round_pos_tie (q : ℚ) (k e0 f n0 n e : ℤ) (h1 : (2 : ℚ) ^ k ≤ q)
    (h2 : q < (2 : ℚ) ^ (k + 1)) (he : e0 = max (k - 52) (-1074))
    (hx : q = ((f : ℚ) + 1 / 2) * 2 ^ e0)
    (hn : (n0 = f ∧ f % 2 = 0) ∨ (n0 = f + 1 ∧ f % 2 = 1))
    (hv : (n : ℚ) * 2 ^ e < 2 ^ 53) (hne : (n : ℚ) * 2 ^ e = n0 * 2 ^ e0) :
    double.round q = double.dyadic n e := by
  have hq : 0 ≤ q := le_trans (le_of_lt (zpow_pos (by norm_num) k)) h1
  rw [dyadic_def, hne]
  rw [hne] at hv
  exact round_of_abs q _ hq (round_abs_eq_tie q k e0 f n0 h1 h2 he hx hn) hv

theorem round_of_neg (q : ℚ) (d : double) (h : double.round (-q) = d) :
    double.round q = d.neg := by
  have := round_neg (-q)
  rw [neg_neg] at this
  rw [this, h]

theorem dyadic_neg (n e m : ℤ) (h : m = -n) : (double.dyadic n e).neg = double.dyadic m e := by
  rw [h, dyadic_def, dyadic_def]
  simp [double.neg]

theorem dyadic_round_neg (q : ℚ) (k e0 n0 n e : ℤ) (h1 : (2 : ℚ) ^ k ≤ -q)
    (h2 : -q < (2 : ℚ) ^ (k + 1)) (he : e0 = max (k - 52) (-1074))
    (hn1 : ((n0 : ℚ) - 1 / 2) * 2 ^ e0 < -q) (hn2 : -q < ((n0 : ℚ) + 1 / 2) * 2 ^ e0)
    (hv : (-n : ℚ) * 2 ^ e < 2 ^ 53) (hne : (-n : ℚ) * 2 ^ e = n0 * 2 ^ e0) :
    double.round q = double.dyadic n e := by
  rw [round_of_neg q _ (dyadic_round_pos (-q) k e0 n0 (-n) e h1 h2 he hn1 hn2
    (by push_cast; exact hv) (by push_cast; exact hne))]
  exact dyadic_neg _ _ _ (by ring)

theorem dyadic_round_neg_tie (q : ℚ) (k e0 f n0 n e : ℤ) (h1 : (2 : ℚ) ^ k ≤ -q)
    (h2 : -q < (2 : ℚ) ^ (k + 1)) (he : e0 = max (k - 52) (-1074))
    (hx : -q = ((f : ℚ) + 1 / 2) * 2 ^ e0)
    (hn : (n0 = f ∧ f % 2 = 0) ∨ (n0 = f + 1 ∧ f % 2 = 1))
    (hv : (-n : ℚ) * 2 ^ e < 2 ^ 53) (hne : (-n : ℚ) * 2 ^ e = n0 * 2 ^ e0) :
    double.round q = double.dyadic n e := by
  rw [round_of_neg q _ (dyadic_round_pos_tie (-q) k e0 f n0 (-n) e h1 h2 he hx hn
    (by push_cast; exact hv) (by push_cast; exact hne))]
  exact dyadic_neg _ _ _ (by ring)

theorem dyadic_round_zero (q : ℚ) (n e : ℤ) (h : q = 0) (hn : n = 0) :
    double.round q = double.dyadic n e := by
  rw [dyadic_def, h, hn, round_zero]
  simp

theorem dyadic_mul (a b c d : ℤ) : double.dyadic a b * double.dyadic c d
    = double.round ((a : ℚ) * 2 ^ b * ((c : ℚ) * 2 ^ d)) := rfl

theorem dyadic_add (a b c d : ℤ) : double.dyadic a b + double.dyadic c d
    = double.round ((a : ℚ) * 2 ^ b + (c : ℚ) * 2 ^ d) := rfl

theorem dyadic_sub (a b c d : ℤ) : double.dyadic a b - double.dyadic c d
    = double.round ((a : ℚ) * 2 ^ b - (c : ℚ) * 2 ^ d) := double_sub_fin _ _

theorem dyadic_div (a b c d : ℤ) (h : c ≠ 0) : double.dyadic a b / double.dyadic c d
    = double.round ((a : ℚ) * 2 ^ b / ((c : ℚ) * 2 ^ d)) :=
  double_div_fin _ _ (mul_ne_zero (by exact_mod_cast h) (zpow_ne_zero _ (by norm_num)))

/-- The sample square root at a positive double, from the binary exponent k of the
argument and the integer square root m of the scaled argument N. -/
theorem dyadic_sqrt_sample (a b k s : ℤ) (N m : ℕ) (h1 : (2 : ℚ) ^ k ≤ (a : ℚ) * 2 ^ b)
    (h2 : (a : ℚ) * 2 ^ b < (2 : ℚ) ^ (k + 1)) (hs : s = 60 - k / 2)
    (hN : (a : ℚ) * 2 ^ b * 4 ^ s = (N : ℚ)) (hm1 : m ^ 2 ≤ N) (hm2 : N < (m + 1) ^ 2) :
    double.sqrt dbl.sample_env.sqrt (double.dyadic a b) = double.round ((m : ℚ) / 2 ^ s) := by
  have hq : 0 < (a : ℚ) * 2 ^ b := lt_of_lt_of_le (zpow_pos (by norm_num) k) h1
  have hk := log_two_eq _ k h1 h2
  rw [dyadic_def]
  show (if (a : ℚ) * 2 ^ b < 0 then double.nan
    else double.round (dbl.sqrt_sample ((a : ℚ) * 2 ^ b))) = _
  rw [if_neg (not_lt.mpr (le_of_lt hq))]
  unfold dbl.sqrt_sample
  rw [if_neg (not_le.mpr hq), hk, ← hs, hN, Nat.floor_natCast]
  have : Nat.sqrt N = m := (Nat.eq_sqrt'.mpr ⟨hm1, hm2⟩).symm
  rw [this]

/-! ## Three places on the equator -/

theorem dyadic_lt_self (a b : ℤ) : (double.dyadic a b).lt (double.dyadic a b) = false := by
  simp [double.dyadic, double.lt]

set_option maxHeartbeats 20000000 in
/-- The projection of the three places on the equator and their distances, computed
operation by operation: for each longitude the zone, then the planar point; the three
distances; the double sum of the first two. Each step s is one rounded operation of the
source, with the certificate of its rounding. -/
theorem equator_values :
    dbl.location.utm_zone (double.lit 114.5) = some 50 ∧
    dbl.location.wgs84_to_utm dbl.sample_env (double.lit 114.5) (double.lit 0)
      = some ⟨double.dyadic 7618397285022876 (-35), double.dyadic 0 0⟩ ∧
    dbl.location.utm_zone (double.lit 114.875) = some 50 ∧
    dbl.location.wgs84_to_utm dbl.sample_env (double.lit 114.875) (double.lit 0)
      = some ⟨double.dyadic 4526669444409303 (-34), double.dyadic 0 0⟩ ∧
    dbl.location.utm_zone (double.lit 119.75) = some 50 ∧
    dbl.location.wgs84_to_utm dbl.sample_env (double.lit 119.75) (double.lit 0)
      = some ⟨double.dyadic 6924548589963050 (-33), double.dyadic 0 0⟩ ∧
    dbl.point2d.distance_to dbl.sample_env ⟨double.dyadic 7618397285022876 (-35), double.dyadic 0 0⟩
      ⟨double.dyadic 4526669444409303 (-34), double.dyadic 0 0⟩ = double.dyadic 5739766415182920 (-37) ∧
    dbl.point2d.distance_to dbl.sample_env ⟨double.dyadic 4526669444409303 (-34), double.dyadic 0 0⟩
      ⟨double.dyadic 6924548589963050 (-33), double.dyadic 0 0⟩ = double.dyadic 4661213867758398 (-33) ∧
    dbl.point2d.distance_to dbl.sample_env ⟨double.dyadic 7618397285022876 (-35), double.dyadic 0 0⟩
      ⟨double.dyadic 6924548589963050 (-33), double.dyadic 0 0⟩ = double.dyadic 5019949268707331 (-33) ∧
    double.dyadic 5739766415182920 (-37) + double.dyadic 4661213867758398 (-33)
      = double.dyadic 5019949268707330 (-33) := by
  have s1 : double.lit 114.5
      = double.dyadic 8057221208342528 (-46) :=
    dyadic_round_pos _ 6 (-46) 8057221208342528 _ _ (by norm_num) (by norm_num) (by norm_num)
      (by norm_num) (by norm_num) (by norm_num) (by norm_num)
  have s2 : double.lit 0
      = double.dyadic 0 0 :=
    dyadic_round_zero _ _ _ (by norm_num) rfl
  have s3 : double.lit 180.0
      = double.dyadic 6333186975989760 (-45) :=
    dyadic_round_pos _ 7 (-45) 6333186975989760 _ _ (by norm_num) (by norm_num) (by norm_num)
      (by norm_num) (by norm_num) (by norm_num) (by norm_num)
  have s4 : double.dyadic 8057221208342528 (-46) + double.dyadic 6333186975989760 (-45)
      = double.dyadic 5180898790080512 (-44) := by
    rw [dyadic_add]
    exact dyadic_round_pos _ 8 (-44) 5180898790080512 _ _ (by norm_num) (by norm_num) (by norm_num)
      (by norm_num) (by norm_num) (by norm_num) (by norm_num)
  have s5 : double.lit 6.0
      = double.dyadic 6755399441055744 (-50) :=
    dyadic_round_pos _ 2 (-50) 6755399441055744 _ _ (by norm_num) (by norm_num) (by norm_num)
      (by norm_num) (by norm_num) (by norm_num) (by norm_num)
  have s6 : double.dyadic 5180898790080512 (-44) / double.dyadic 6755399441055744 (-50)
      = double.dyadic 6907865053440683 (-47) := by
    rw [dyadic_div _ _ _ _ (by norm_num)]
    exact dyadic_round_pos _ 5 (-47) 6907865053440683 _ _ (by norm_num) (by norm_num) (by norm_num)
      (by norm_num) (by norm_num) (by norm_num) (by norm_num)
  have s7 : double.lit 3.1415829535898
      = double.dyadic 7074215909570263 (-51) :=
    dyadic_round_pos _ 1 (-51) 7074215909570263 _ _ (by norm_num) (by norm_num) (by norm_num)
      (by norm_num) (by norm_num) (by norm_num) (by norm_num)
  have s8 : double.lit 0.9996
      = double.dyadic 9003596375039096 (-53) :=
    dyadic_round_pos _ (-1) (-53) 9003596375039096 _ _ (by norm_num) (by norm_num) (by norm_num)
      (by norm_num) (by norm_num) (by norm_num) (by norm_num)
  have s9 : double.lit 6378137.0
      = double.dyadic 6848472456101888 (-30) :=
    dyadic_round_pos _ 22 (-30) 6848472456101888 _ _ (by norm_num) (by norm_num) (by norm_num)
      (by norm_num) (by norm_num) (by norm_num) (by norm_num)
  have s10 : double.lit 0.00669437999013
      = double.dyadic 7718094650630649 (-60) :=
    dyadic_round_pos _ (-8) (-60) 7718094650630649 _ _ (by norm_num) (by norm_num) (by norm_num)
      (by norm_num) (by norm_num) (by norm_num) (by norm_num)
  have s11 : double.dyadic 0 0 * double.dyadic 7074215909570263 (-51)
      = double.dyadic 0 0 := by
    rw [dyadic_mul]
    exact dyadic_round_zero _ _ _ (by norm_num) rfl
  have s12 : double.dyadic 0 0 / double.dyadic 6333186975989760 (-45)
      = double.dyadic 0 0 := by
    rw [dyadic_div _ _ _ _ (by norm_num)]
    exact dyadic_round_zero _ _ _ (by norm_num) rfl
  have s13 : double.dyadic 8057221208342528 (-46) * double.dyadic 7074215909570263 (-51)
      = double.dyadic 6328107200357774 (-44) := by
    rw [dyadic_mul]
    exact dyadic_round_pos _ 8 (-44) 6328107200357774 _ _ (by norm_num) (by norm_num) (by norm_num)
      (by norm_num) (by norm_num) (by norm_num) (by norm_num)
  have s14 : double.dyadic 6328107200357774 (-44) / double.dyadic 6333186975989760 (-45)
      = double.dyadic 8999974684953279 (-52) := by
    rw [dyadic_div _ _ _ _ (by norm_num)]
    exact dyadic_round_pos _ 0 (-52) 8999974684953279 _ _ (by norm_num) (by norm_num) (by norm_num)
      (by norm_num) (by norm_num) (by norm_num) (by norm_num)
  have s15 : double.lit ((50 - 1 : ℤ) : ℚ)
      = double.dyadic 6896136929411072 (-47) :=
    dyadic_round_pos _ 5 (-47) 6896136929411072 _ _ (by norm_num) (by norm_num) (by norm_num)
      (by norm_num) (by norm_num) (by norm_num) (by norm_num)
  have s16 : double.dyadic 6896136929411072 (-47) * double.dyadic 6755399441055744 (-50)
      = double.dyadic 5172102697058304 (-44) := by
    rw [dyadic_mul]
    exact dyadic_round_pos _ 8 (-44) 5172102697058304 _ _ (by norm_num) (by norm_num) (by norm_num)
      (by norm_num) (by norm_num) (by norm_num) (by norm_num)
  have s17 : double.dyadic 5172102697058304 (-44) - double.dyadic 6333186975989760 (-45)
      = double.dyadic 8022036836253696 (-46) := by
    rw [dyadic_sub]
    exact dyadic_round_pos _ 6 (-46) 8022036836253696 _ _ (by norm_num) (by norm_num) (by norm_num)
      (by norm_num) (by norm_num) (by norm_num) (by norm_num)
  have s18 : double.lit 3.0
      = double.dyadic 6755399441055744 (-51) :=
    dyadic_round_pos _ 1 (-51) 6755399441055744 _ _ (by norm_num) (by norm_num) (by norm_num)
      (by norm_num) (by norm_num) (by norm_num) (by norm_num)
  have s19 : double.dyadic 8022036836253696 (-46) + double.dyadic 6755399441055744 (-51)
      = double.dyadic 8233143068786688 (-46) := by
    rw [dyadic_add]
    exact dyadic_round_pos _ 6 (-46) 8233143068786688 _ _ (by norm_num) (by norm_num) (by norm_num)
      (by norm_num) (by norm_num) (by norm_num) (by norm_num)
  have s20 : double.dyadic 8233143068786688 (-46) * double.dyadic 7074215909570263 (-51)
      = double.dyadic 6466275479841569 (-44) := by
    rw [dyadic_mul]
    exact dyadic_round_pos _ 8 (-44) 6466275479841569 _ _ (by norm_num) (by norm_num) (by norm_num)
      (by norm_num) (by norm_num) (by norm_num) (by norm_num)
  have s21 : double.dyadic 6466275479841569 (-44) / double.dyadic 6333186975989760 (-45)
      = double.dyadic 4598240341220671 (-51) := by
    rw [dyadic_div _ _ _ _ (by norm_num)]
    exact dyadic_round_pos _ 1 (-51) 4598240341220671 _ _ (by norm_num) (by norm_num) (by norm_num)
      (by norm_num) (by norm_num) (by norm_num) (by norm_num)
  have s22 : double.dyadic 7718094650630649 (-60) * double.dyadic 7718094650630649 (-60)
      = double.dyadic 6613485874062235 (-67) := by
    rw [dyadic_mul]
    exact dyadic_round_pos _ (-15) (-67) 6613485874062235 _ _ (by norm_num) (by norm_num) (by norm_num)
      (by norm_num) (by norm_num) (by norm_num) (by norm_num)
  have s23 : double.dyadic 6613485874062235 (-67) * double.dyadic 7718094650630649 (-60)
      = double.dyadic 5666968000042194 (-74) := by
    rw [dyadic_mul]
    exact dyadic_round_pos _ (-22) (-74) 5666968000042194 _ _ (by norm_num) (by norm_num) (by norm_num)
      (by norm_num) (by norm_num) (by norm_num) (by norm_num)
  have s24 : double.lit 1
      = double.dyadic 4503599627370496 (-52) :=
    dyadic_round_pos _ 0 (-52) 4503599627370496 _ _ (by norm_num) (by norm_num) (by norm_num)
      (by norm_num) (by norm_num) (by norm_num) (by norm_num)
  have s25 : double.lit 4
      = double.dyadic 4503599627370496 (-50) :=
    dyadic_round_pos _ 2 (-50) 4503599627370496 _ _ (by norm_num) (by norm_num) (by norm_num)
      (by norm_num) (by norm_num) (by norm_num) (by norm_num)
  have s26 : double.dyadic 7718094650630649 (-60) / double.dyadic 4503599627370496 (-50)
      = double.dyadic 7718094650630649 (-62) := by
    rw [dyadic_div _ _ _ _ (by norm_num)]
    exact dyadic_round_pos _ (-10) (-62) 7718094650630649 _ _ (by norm_num) (by norm_num) (by norm_num)
      (by norm_num) (by norm_num) (by norm_num) (by norm_num)
  have s27 : double.dyadic 4503599627370496 (-52) - double.dyadic 7718094650630649 (-62)
      = double.dyadic 8992124851126479 (-53) := by
    rw [dyadic_sub]
    exact dyadic_round_pos _ (-1) (-53) 8992124851126479 _ _ (by norm_num) (by norm_num) (by norm_num)
      (by norm_num) (by norm_num) (by norm_num) (by norm_num)
  have s28 : double.lit 3
      = double.dyadic 6755399441055744 (-51) :=
    dyadic_round_pos _ 1 (-51) 6755399441055744 _ _ (by norm_num) (by norm_num) (by norm_num)
      (by norm_num) (by norm_num) (by norm_num) (by norm_num)
  have s29 : double.dyadic 6755399441055744 (-51) * double.dyadic 6613485874062235 (-67)
      = double.dyadic 4960114405546676 (-65) := by
    rw [dyadic_mul]
    exact dyadic_round_pos _ (-13) (-65) 4960114405546676 _ _ (by norm_num) (by norm_num) (by norm_num)
      (by norm_num) (by norm_num) (by norm_num) (by norm_num)
  have s30 : double.lit 64
      = double.dyadic 4503599627370496 (-46) :=
    dyadic_round_pos _ 6 (-46) 4503599627370496 _ _ (by norm_num) (by norm_num) (by norm_num)
      (by norm_num) (by norm_num) (by norm_num) (by norm_num)
  have s31 : double.dyadic 4960114405546676 (-65) / double.dyadic 4503599627370496 (-46)
      = double.dyadic 4960114405546676 (-71) := by
    rw [dyadic_div _ _ _ _ (by norm_num)]
    exact dyadic_round_pos _ (-19) (-71) 4960114405546676 _ _ (by norm_num) (by norm_num) (by norm_num)
      (by norm_num) (by norm_num) (by norm_num) (by norm_num)
  have s32 : double.dyadic 8992124851126479 (-53) - double.dyadic 4960114405546676 (-71)
      = double.dyadic 8992105929791619 (-53) := by
    rw [dyadic_sub]
    exact dyadic_round_pos _ (-1) (-53) 8992105929791619 _ _ (by norm_num) (by norm_num) (by norm_num)
      (by norm_num) (by norm_num) (by norm_num) (by norm_num)
  have s33 : double.lit 5
      = double.dyadic 5629499534213120 (-50) :=
    dyadic_round_pos _ 2 (-50) 5629499534213120 _ _ (by norm_num) (by norm_num) (by norm_num)
      (by norm_num) (by norm_num) (by norm_num) (by norm_num)
  have s34 : double.dyadic 5629499534213120 (-50) * double.dyadic 5666968000042194 (-74)
      = double.dyadic 7083710000052742 (-72) := by
    rw [dyadic_mul]
    exact dyadic_round_pos_tie _ (-20) (-72) 7083710000052742 7083710000052742 _ _ (by norm_num) (by norm_num) (by norm_num)
      (by norm_num) (Or.inl ⟨rfl, by decide⟩) (by norm_num) (by norm_num)
  have s35 : double.lit 256
      = double.dyadic 4503599627370496 (-44) :=
    dyadic_round_pos _ 8 (-44) 4503599627370496 _ _ (by norm_num) (by norm_num) (by norm_num)
      (by norm_num) (by norm_num) (by norm_num) (by norm_num)
  have s36 : double.dyadic 7083710000052742 (-72) / double.dyadic 4503599627370496 (-44)
      = double.dyadic 7083710000052742 (-80) := by
    rw [dyadic_div _ _ _ _ (by norm_num)]
    exact dyadic_round_pos _ (-28) (-80) 7083710000052742 _ _ (by norm_num) (by norm_num) (by norm_num)
      (by norm_num) (by norm_num) (by norm_num) (by norm_num)
  have s37 : double.dyadic 8992105929791619 (-53) - double.dyadic 7083710000052742 (-80)
      = double.dyadic 8992105877013867 (-53) := by
    rw [dyadic_sub]
    exact dyadic_round_pos _ (-1) (-53) 8992105877013867 _ _ (by norm_num) (by norm_num) (by norm_num)
      (by norm_num) (by norm_num) (by norm_num) (by norm_num)
  have s38 : double.lit 8.0
      = double.dyadic 4503599627370496 (-49) :=
    dyadic_round_pos _ 3 (-49) 4503599627370496 _ _ (by norm_num) (by norm_num) (by norm_num)
      (by norm_num) (by norm_num) (by norm_num) (by norm_num)
  have s39 : double.dyadic 6755399441055744 (-51) / double.dyadic 4503599627370496 (-49)
      = double.dyadic 6755399441055744 (-54) := by
    rw [dyadic_div _ _ _ _ (by norm_num)]
    exact dyadic_round_pos _ (-2) (-54) 6755399441055744 _ _ (by norm_num) (by norm_num) (by norm_num)
      (by norm_num) (by norm_num) (by norm_num) (by norm_num)
  have s40 : double.dyadic 6613485874062235 (-67) / double.dyadic 4503599627370496 (-50)
      = double.dyadic 6613485874062235 (-69) := by
    rw [dyadic_div _ _ _ _ (by norm_num)]
    exact dyadic_round_pos _ (-17) (-69) 6613485874062235 _ _ (by norm_num) (by norm_num) (by norm_num)
      (by norm_num) (by norm_num) (by norm_num) (by norm_num)
  have s41 : double.dyadic 7718094650630649 (-60) + double.dyadic 6613485874062235 (-69)
      = double.dyadic 7731011615228427 (-60) := by
    rw [dyadic_add]
    exact dyadic_round_pos _ (-8) (-60) 7731011615228427 _ _ (by norm_num) (by norm_num) (by norm_num)
      (by norm_num) (by norm_num) (by norm_num) (by norm_num)
  have s42 : double.lit 15
      = double.dyadic 8444249301319680 (-49) :=
    dyadic_round_pos _ 3 (-49) 8444249301319680 _ _ (by norm_num) (by norm_num) (by norm_num)
      (by norm_num) (by norm_num) (by norm_num) (by norm_num)
  have s43 : double.dyadic 8444249301319680 (-49) * double.dyadic 5666968000042194 (-74)
      = double.dyadic 5312782500039557 (-70) := by
    rw [dyadic_mul]
    exact dyadic_round_pos _ (-18) (-70) 5312782500039557 _ _ (by norm_num) (by norm_num) (by norm_num)
      (by norm_num) (by norm_num) (by norm_num) (by norm_num)
  have s44 : double.lit 128
      = double.dyadic 4503599627370496 (-45) :=
    dyadic_round_pos _ 7 (-45) 4503599627370496 _ _ (by norm_num) (by norm_num) (by norm_num)
      (by norm_num) (by norm_num) (by norm_num) (by norm_num)
  have s45 : double.dyadic 5312782500039557 (-70) / double.dyadic 4503599627370496 (-45)
      = double.dyadic 5312782500039557 (-77) := by
    rw [dyadic_div _ _ _ _ (by norm_num)]
    exact dyadic_round_pos _ (-25) (-77) 5312782500039557 _ _ (by norm_num) (by norm_num) (by norm_num)
      (by norm_num) (by norm_num) (by norm_num) (by norm_num)
  have s46 : double.dyadic 7731011615228427 (-60) + double.dyadic 5312782500039557 (-77)
      = double.dyadic 7731052148542179 (-60) := by
    rw [dyadic_add]
    exact dyadic_round_pos _ (-8) (-60) 7731052148542179 _ _ (by norm_num) (by norm_num) (by norm_num)
      (by norm_num) (by norm_num) (by norm_num) (by norm_num)
  have s47 : double.dyadic 6755399441055744 (-54) * double.dyadic 7731052148542179 (-60)
      = double.dyadic 5798289111406634 (-61) := by
    rw [dyadic_mul]
    exact dyadic_round_pos _ (-9) (-61) 5798289111406634 _ _ (by norm_num) (by norm_num) (by norm_num)
      (by norm_num) (by norm_num) (by norm_num) (by norm_num)
  have s48 : double.lit 15.0
      = double.dyadic 8444249301319680 (-49) :=
    dyadic_round_pos _ 3 (-49) 8444249301319680 _ _ (by norm_num) (by norm_num) (by norm_num)
      (by norm_num) (by norm_num) (by norm_num) (by norm_num)
  have s49 : double.lit 256.0
      = double.dyadic 4503599627370496 (-44) :=
    dyadic_round_pos _ 8 (-44) 4503599627370496 _ _ (by norm_num) (by norm_num) (by norm_num)
      (by norm_num) (by norm_num) (by norm_num) (by norm_num)
  have s50 : double.dyadic 8444249301319680 (-49) / double.dyadic 4503599627370496 (-44)
      = double.dyadic 8444249301319680 (-57) := by
    rw [dyadic_div _ _ _ _ (by norm_num)]
    exact dyadic_round_pos _ (-5) (-57) 8444249301319680 _ _ (by norm_num) (by norm_num) (by norm_num)
      (by norm_num) (by norm_num) (by norm_num) (by norm_num)
  have s51 : double.dyadic 6755399441055744 (-51) * double.dyadic 5666968000042194 (-74)
      = double.dyadic 8500452000063291 (-73) := by
    rw [dyadic_mul]
    exact dyadic_round_pos _ (-21) (-73) 8500452000063291 _ _ (by norm_num) (by norm_num) (by norm_num)
      (by norm_num) (by norm_num) (by norm_num) (by norm_num)
  have s52 : double.dyadic 8500452000063291 (-73) / double.dyadic 4503599627370496 (-50)
      = double.dyadic 8500452000063291 (-75) := by
    rw [dyadic_div _ _ _ _ (by norm_num)]
    exact dyadic_round_pos _ (-23) (-75) 8500452000063291 _ _ (by norm_num) (by norm_num) (by norm_num)
      (by norm_num) (by norm_num) (by norm_num) (by norm_num)
  have s53 : double.dyadic 6613485874062235 (-67) + double.dyadic 8500452000063291 (-75)
      = double.dyadic 6646690764687482 (-67) := by
    rw [dyadic_add]
    exact dyadic_round_pos _ (-15) (-67) 6646690764687482 _ _ (by norm_num) (by norm_num) (by norm_num)
      (by norm_num) (by norm_num) (by norm_num) (by norm_num)
  have s54 : double.dyadic 8444249301319680 (-57) * double.dyadic 6646690764687482 (-67)
      = double.dyadic 6231272591894514 (-71) := by
    rw [dyadic_mul]
    exact dyadic_round_pos _ (-19) (-71) 6231272591894514 _ _ (by norm_num) (by norm_num) (by norm_num)
      (by norm_num) (by norm_num) (by norm_num) (by norm_num)
  have s55 : double.lit 35
      = double.dyadic 4925812092436480 (-47) :=
    dyadic_round_pos _ 5 (-47) 4925812092436480 _ _ (by norm_num) (by norm_num) (by norm_num)
      (by norm_num) (by norm_num) (by norm_num) (by norm_num)
  have s56 : double.dyadic 4925812092436480 (-47) * double.dyadic 5666968000042194 (-74)
      = double.dyadic 6198246250046150 (-69) := by
    rw [dyadic_mul]
    exact dyadic_round_pos _ (-17) (-69) 6198246250046150 _ _ (by norm_num) (by norm_num) (by norm_num)
      (by norm_num) (by norm_num) (by norm_num) (by norm_num)
  have s57 : double.lit 3072
      = double.dyadic 6755399441055744 (-41) :=
    dyadic_round_pos _ 11 (-41) 6755399441055744 _ _ (by norm_num) (by norm_num) (by norm_num)
      (by norm_num) (by norm_num) (by norm_num) (by norm_num)
  have s58 : double.dyadic 6198246250046150 (-69) / double.dyadic 6755399441055744 (-41)
      = double.dyadic 8264328333394867 (-81) := by
    rw [dyadic_div _ _ _ _ (by norm_num)]
    exact dyadic_round_pos _ (-29) (-81) 8264328333394867 _ _ (by norm_num) (by norm_num) (by norm_num)
      (by norm_num) (by norm_num) (by norm_num) (by norm_num)
  have s59 : double.dyadic 8992105877013867 (-53) * double.dyadic 0 0
      = double.dyadic 0 0 := by
    rw [dyadic_mul]
    exact dyadic_round_zero _ _ _ (by norm_num) rfl
  have s60 : double.lit 2
      = double.dyadic 4503599627370496 (-51) :=
    dyadic_round_pos _ 1 (-51) 4503599627370496 _ _ (by norm_num) (by norm_num) (by norm_num)
      (by norm_num) (by norm_num) (by norm_num) (by norm_num)
  have s61 : double.dyadic 4503599627370496 (-51) * double.dyadic 0 0
      = double.dyadic 0 0 := by
    rw [dyadic_mul]
    exact dyadic_round_zero _ _ _ (by norm_num) rfl
  have s62 : double.trig dbl.sample_env.sin (double.dyadic 0 0)
      = double.dyadic 0 0 := by
    unfold double.trig double.dyadic
    exact dyadic_round_zero _ _ _ (by norm_num [dbl.sample_env]) rfl
  have s63 : double.dyadic 5798289111406634 (-61) * double.dyadic 0 0
      = double.dyadic 0 0 := by
    rw [dyadic_mul]
    exact dyadic_round_zero _ _ _ (by norm_num) rfl
  have s64 : double.dyadic 0 0 - double.dyadic 0 0
      = double.dyadic 0 0 := by
    rw [dyadic_sub]
    exact dyadic_round_zero _ _ _ (by norm_num) rfl
  have s65 : double.dyadic 4503599627370496 (-50) * double.dyadic 0 0
      = double.dyadic 0 0 := by
    rw [dyadic_mul]
    exact dyadic_round_zero _ _ _ (by norm_num) rfl
  have s66 : double.dyadic 6231272591894514 (-71) * double.dyadic 0 0
      = double.dyadic 0 0 := by
    rw [dyadic_mul]
    exact dyadic_round_zero _ _ _ (by norm_num) rfl
  have s67 : double.dyadic 0 0 + double.dyadic 0 0
      = double.dyadic 0 0 := by
    rw [dyadic_add]
    exact dyadic_round_zero _ _ _ (by norm_num) rfl
  have s68 : double.lit 6
      = double.dyadic 6755399441055744 (-50) :=
    dyadic_round_pos _ 2 (-50) 6755399441055744 _ _ (by norm_num) (by norm_num) (by norm_num)
      (by norm_num) (by norm_num) (by norm_num) (by norm_num)
  have s69 : double.dyadic 6755399441055744 (-50) * double.dyadic 0 0
      = double.dyadic 0 0 := by
    rw [dyadic_mul]
    exact dyadic_round_zero _ _ _ (by norm_num) rfl
  have s70 : double.dyadic 8264328333394867 (-81) * double.dyadic 0 0
      = double.dyadic 0 0 := by
    rw [dyadic_mul]
    exact dyadic_round_zero _ _ _ (by norm_num) rfl
  have s71 : double.dyadic 6848472456101888 (-30) * double.dyadic 0 0
      = double.dyadic 0 0 := by
    rw [dyadic_mul]
    exact dyadic_round_zero _ _ _ (by norm_num) rfl
  have s72 : double.dyadic 7718094650630649 (-60) * double.dyadic 0 0
      = double.dyadic 0 0 := by
    rw [dyadic_mul]
    exact dyadic_round_zero _ _ _ (by norm_num) rfl
  have s73 : double.dyadic 0 0 * double.dyadic 0 0
      = double.dyadic 0 0 := by
    rw [dyadic_mul]
    exact dyadic_round_zero _ _ _ (by norm_num) rfl
  have s74 : double.dyadic 4503599627370496 (-52) - double.dyadic 0 0
      = double.dyadic 4503599627370496 (-52) := by
    rw [dyadic_sub]
    exact dyadic_round_pos _ 0 (-52) 4503599627370496 _ _ (by norm_num) (by norm_num) (by norm_num)
      (by norm_num) (by norm_num) (by norm_num) (by norm_num)
  have s75 : double.sqrt dbl.sample_env.sqrt (double.dyadic 4503599627370496 (-52))
      = double.dyadic 4503599627370496 (-52) := by
    rw [dyadic_sqrt_sample 4503599627370496 (-52) 0 60 1329227995784915872903807060280344576 1152921504606846976 (by norm_num) (by norm_num) (by norm_num)
      (by norm_num) (by norm_num) (by norm_num)]
    exact dyadic_round_pos _ 0 (-52) 4503599627370496 _ _ (by norm_num) (by norm_num) (by norm_num)
      (by norm_num) (by norm_num) (by norm_num) (by norm_num)
  have s76 : double.dyadic 6848472456101888 (-30) / double.dyadic 4503599627370496 (-52)
      = double.dyadic 6848472456101888 (-30) := by
    rw [dyadic_div _ _ _ _ (by norm_num)]
    exact dyadic_round_pos _ 22 (-30) 6848472456101888 _ _ (by norm_num) (by norm_num) (by norm_num)
      (by norm_num) (by norm_num) (by norm_num) (by norm_num)
  have s77 : double.trig dbl.sample_env.tan (double.dyadic 0 0)
      = double.dyadic 0 0 := by
    unfold double.trig double.dyadic
    exact dyadic_round_zero _ _ _ (by norm_num [dbl.sample_env]) rfl
  have s78 : double.dyadic 4503599627370496 (-52) - double.dyadic 7718094650630649 (-60)
      = double.dyadic 8946901640282940 (-53) := by
    rw [dyadic_sub]
    exact dyadic_round_pos _ (-1) (-53) 8946901640282940 _ _ (by norm_num) (by norm_num) (by norm_num)
      (by norm_num) (by norm_num) (by norm_num) (by norm_num)
  have s79 : double.dyadic 7718094650630649 (-60) / double.dyadic 8946901640282940 (-53)
      = double.dyadic 7770110724385067 (-60) := by
    rw [dyadic_div _ _ _ _ (by norm_num)]
    exact dyadic_round_pos _ (-8) (-60) 7770110724385067 _ _ (by norm_num) (by norm_num) (by norm_num)
      (by norm_num) (by norm_num) (by norm_num) (by norm_num)
  have s80 : double.trig dbl.sample_env.cos (double.dyadic 0 0)
      = double.dyadic 4503599627370496 (-52) := by
    unfold double.trig double.dyadic
    exact dyadic_round_pos _ 0 (-52) 4503599627370496 _ _ (by norm_num [dbl.sample_env]) (by norm_num [dbl.sample_env]) (by norm_num)
      (by norm_num [dbl.sample_env]) (by norm_num [dbl.sample_env]) (by norm_num) (by norm_num)
  have s81 : double.dyadic 7770110724385067 (-60) * double.dyadic 4503599627370496 (-52)
      = double.dyadic 7770110724385067 (-60) := by
    rw [dyadic_mul]
    exact dyadic_round_pos _ (-8) (-60) 7770110724385067 _ _ (by norm_num) (by norm_num) (by norm_num)
      (by norm_num) (by norm_num) (by norm_num) (by norm_num)
  have s82 : double.dyadic 8999974684953279 (-52) - double.dyadic 4598240341220671 (-51)
      = double.dyadic (-6288191919618016) (-57) := by
    rw [dyadic_sub]
    exact dyadic_round_neg _ (-5) (-57) 6288191919618016 _ _ (by norm_num) (by norm_num) (by norm_num)
      (by norm_num) (by norm_num) (by norm_num) (by norm_num)
  have s83 : double.dyadic (-6288191919618016) (-57) * double.dyadic 4503599627370496 (-52)
      = double.dyadic (-6288191919618016) (-57) := by
    rw [dyadic_mul]
    exact dyadic_round_neg _ (-5) (-57) 6288191919618016 _ _ (by norm_num) (by norm_num) (by norm_num)
      (by norm_num) (by norm_num) (by norm_num) (by norm_num)
  have s84 : double.dyadic 9003596375039096 (-53) * double.dyadic 6848472456101888 (-30)
      = double.dyadic 6845733067119448 (-30) := by
    rw [dyadic_mul]
    exact dyadic_round_pos _ 22 (-30) 6845733067119448 _ _ (by norm_num) (by norm_num) (by norm_num)
      (by norm_num) (by norm_num) (by norm_num) (by norm_num)
  have s85 : double.dyadic 4503599627370496 (-52) + double.dyadic 7770110724385067 (-60)
      = double.dyadic 4533951622387625 (-52) := by
    rw [dyadic_add]
    exact dyadic_round_pos _ 0 (-52) 4533951622387625 _ _ (by norm_num) (by norm_num) (by norm_num)
      (by norm_num) (by norm_num) (by norm_num) (by norm_num)
  have s86 : double.dyadic 4533951622387625 (-52) * double.dyadic (-6288191919618016) (-57)
      = double.dyadic (-6330571168575018) (-57) := by
    rw [dyadic_mul]
    exact dyadic_round_neg _ (-5) (-57) 6330571168575018 _ _ (by norm_num) (by norm_num) (by norm_num)
      (by norm_num) (by norm_num) (by norm_num) (by norm_num)
  have s87 : double.dyadic (-6330571168575018) (-57) * double.dyadic (-6288191919618016) (-57)
      = double.dyadic 8839117542081045 (-62) := by
    rw [dyadic_mul]
    exact dyadic_round_pos _ (-10) (-62) 8839117542081045 _ _ (by norm_num) (by norm_num) (by norm_num)
      (by norm_num) (by norm_num) (by norm_num) (by norm_num)
  have s88 : double.dyadic 8839117542081045 (-62) * double.dyadic (-6288191919618016) (-57)
      = double.dyadic (-6170849109995201) (-66) := by
    rw [dyadic_mul]
    exact dyadic_round_neg _ (-14) (-66) 6170849109995201 _ _ (by norm_num) (by norm_num) (by norm_num)
      (by norm_num) (by norm_num) (by norm_num) (by norm_num)
  have s89 : double.dyadic (-6170849109995201) (-66) / double.dyadic 6755399441055744 (-50)
      = double.dyadic (-8227798813326935) (-69) := by
    rw [dyadic_div _ _ _ _ (by norm_num)]
    exact dyadic_round_neg _ (-17) (-69) 8227798813326935 _ _ (by norm_num) (by norm_num) (by norm_num)
      (by norm_num) (by norm_num) (by norm_num) (by norm_num)
  have s90 : double.dyadic (-6288191919618016) (-57) + double.dyadic (-8227798813326935) (-69)
      = double.dyadic (-6290200659562676) (-57) := by
    rw [dyadic_add]
    exact dyadic_round_neg _ (-5) (-57) 6290200659562676 _ _ (by norm_num) (by norm_num) (by norm_num)
      (by norm_num) (by norm_num) (by norm_num) (by norm_num)
  have s91 : double.lit 18
      = double.dyadic 5066549580791808 (-48) :=
    dyadic_round_pos _ 4 (-48) 5066549580791808 _ _ (by norm_num) (by norm_num) (by norm_num)
      (by norm_num) (by norm_num) (by norm_num) (by norm_num)
  have s92 : double.dyadic 5066549580791808 (-48) * double.dyadic 0 0
      = double.dyadic 0 0 := by
    rw [dyadic_mul]
    exact dyadic_round_zero _ _ _ (by norm_num) rfl
  have s93 : double.dyadic 5629499534213120 (-50) - double.dyadic 0 0
      = double.dyadic 5629499534213120 (-50) := by
    rw [dyadic_sub]
    exact dyadic_round_pos _ 2 (-50) 5629499534213120 _ _ (by norm_num) (by norm_num) (by norm_num)
      (by norm_num) (by norm_num) (by norm_num) (by norm_num)
  have s94 : double.dyadic 5629499534213120 (-50) + double.dyadic 0 0
      = double.dyadic 5629499534213120 (-50) := by
    rw [dyadic_add]
    exact dyadic_round_pos _ 2 (-50) 5629499534213120 _ _ (by norm_num) (by norm_num) (by norm_num)
      (by norm_num) (by norm_num) (by norm_num) (by norm_num)
  have s95 : double.lit 72
      = double.dyadic 5066549580791808 (-46) :=
    dyadic_round_pos _ 6 (-46) 5066549580791808 _ _ (by norm_num) (by norm_num) (by norm_num)
      (by norm_num) (by norm_num) (by norm_num) (by norm_num)
  have s96 : double.dyadic 5066549580791808 (-46) * double.dyadic 7770110724385067 (-60)
      = double.dyadic 8741374564933200 (-54) := by
    rw [dyadic_mul]
    exact dyadic_round_pos _ (-2) (-54) 8741374564933200 _ _ (by norm_num) (by norm_num) (by norm_num)
      (by norm_num) (by norm_num) (by norm_num) (by norm_num)
  have s97 : double.dyadic 5629499534213120 (-50) + double.dyadic 8741374564933200 (-54)
      = double.dyadic 6175835444521445 (-50) := by
    rw [dyadic_add]
    exact dyadic_round_pos _ 2 (-50) 6175835444521445 _ _ (by norm_num) (by norm_num) (by norm_num)
      (by norm_num) (by norm_num) (by norm_num) (by norm_num)
  have s98 : double.lit 58
      = double.dyadic 8162774324609024 (-47) :=
    dyadic_round_pos _ 5 (-47) 8162774324609024 _ _ (by norm_num) (by norm_num) (by norm_num)
      (by norm_num) (by norm_num) (by norm_num) (by norm_num)
  have s99 : double.dyadic 8162774324609024 (-47) * double.dyadic 7718094650630649 (-60)
      = double.dyadic 6994523277134026 (-54) := by
    rw [dyadic_mul]
    exact dyadic_round_pos _ (-2) (-54) 6994523277134026 _ _ (by norm_num) (by norm_num) (by norm_num)
      (by norm_num) (by norm_num) (by norm_num) (by norm_num)
  have s100 : double.dyadic 6175835444521445 (-50) - double.dyadic 6994523277134026 (-54)
      = double.dyadic 5738677739700568 (-50) := by
    rw [dyadic_sub]
    exact dyadic_round_pos _ 2 (-50) 5738677739700568 _ _ (by norm_num) (by norm_num) (by norm_num)
      (by norm_num) (by norm_num) (by norm_num) (by norm_num)
  have s101 : double.dyadic 5738677739700568 (-50) * double.dyadic (-6288191919618016) (-57)
      = double.dyadic (-8012680961417138) (-55) := by
    rw [dyadic_mul]
    exact dyadic_round_neg _ (-3) (-55) 8012680961417138 _ _ (by norm_num) (by norm_num) (by norm_num)
      (by norm_num) (by norm_num) (by norm_num) (by norm_num)
  have s102 : double.dyadic (-8012680961417138) (-55) * double.dyadic (-6288191919618016) (-57)
      = double.dyadic 5593889315764807 (-59) := by
    rw [dyadic_mul]
    exact dyadic_round_pos _ (-7) (-59) 5593889315764807 _ _ (by norm_num) (by norm_num) (by norm_num)
      (by norm_num) (by norm_num) (by norm_num) (by norm_num)
  have s103 : double.dyadic 5593889315764807 (-59) * double.dyadic (-6288191919618016) (-57)
      = double.dyadic (-7810518808299929) (-64) := by
    rw [dyadic_mul]
    exact dyadic_round_neg _ (-12) (-64) 7810518808299929 _ _ (by norm_num) (by norm_num) (by norm_num)
      (by norm_num) (by norm_num) (by norm_num) (by norm_num)
  have s104 : double.dyadic (-7810518808299929) (-64) * double.dyadic (-6288191919618016) (-57)
      = double.dyadic 5452753943743910 (-68) := by
    rw [dyadic_mul]
    exact dyadic_round_pos _ (-16) (-68) 5452753943743910 _ _ (by norm_num) (by norm_num) (by norm_num)
      (by norm_num) (by norm_num) (by norm_num) (by norm_num)
  have s105 : double.dyadic 5452753943743910 (-68) * double.dyadic (-6288191919618016) (-57)
      = double.dyadic (-7613457262126860) (-73) := by
    rw [dyadic_mul]
    exact dyadic_round_neg _ (-21) (-73) 7613457262126860 _ _ (by norm_num) (by norm_num) (by norm_num)
      (by norm_num) (by norm_num) (by norm_num) (by norm_num)
  have s106 : double.lit 120
      = double.dyadic 8444249301319680 (-46) :=
    dyadic_round_pos _ 6 (-46) 8444249301319680 _ _ (by norm_num) (by norm_num) (by norm_num)
      (by norm_num) (by norm_num) (by norm_num) (by norm_num)
  have s107 : double.dyadic (-7613457262126860) (-73) / double.dyadic 8444249301319680 (-46)
      = double.dyadic (-8121021079601984) (-80) := by
    rw [dyadic_div _ _ _ _ (by norm_num)]
    exact dyadic_round_neg _ (-28) (-80) 8121021079601984 _ _ (by norm_num) (by norm_num) (by norm_num)
      (by norm_num) (by norm_num) (by norm_num) (by norm_num)
  have s108 : double.dyadic (-6290200659562676) (-57) + double.dyadic (-8121021079601984) (-80)
      = double.dyadic (-6290201627663829) (-57) := by
    rw [dyadic_add]
    exact dyadic_round_neg _ (-5) (-57) 6290201627663829 _ _ (by norm_num) (by norm_num) (by norm_num)
      (by norm_num) (by norm_num) (by norm_num) (by norm_num)
  have s109 : double.dyadic 6845733067119448 (-30) * double.dyadic (-6290201627663829) (-57)
      = double.dyadic (-4780735949488562) (-34) := by
    rw [dyadic_mul]
    exact dyadic_round_neg _ 18 (-34) 4780735949488562 _ _ (by norm_num) (by norm_num) (by norm_num)
      (by norm_num) (by norm_num) (by norm_num) (by norm_num)
  have s110 : double.dyadic (-6288191919618016) (-57) * double.dyadic (-6288191919618016) (-57)
      = double.dyadic 8779945130476931 (-62) := by
    rw [dyadic_mul]
    exact dyadic_round_pos _ (-10) (-62) 8779945130476931 _ _ (by norm_num) (by norm_num) (by norm_num)
      (by norm_num) (by norm_num) (by norm_num) (by norm_num)
  have s111 : double.dyadic 8779945130476931 (-62) / double.dyadic 4503599627370496 (-51)
      = double.dyadic 8779945130476931 (-63) := by
    rw [dyadic_div _ _ _ _ (by norm_num)]
    exact dyadic_round_pos _ (-11) (-63) 8779945130476931 _ _ (by norm_num) (by norm_num) (by norm_num)
      (by norm_num) (by norm_num) (by norm_num) (by norm_num)
  have s112 : double.lit 9
      = double.dyadic 5066549580791808 (-49) :=
    dyadic_round_pos _ 3 (-49) 5066549580791808 _ _ (by norm_num) (by norm_num) (by norm_num)
      (by norm_num) (by norm_num) (by norm_num) (by norm_num)
  have s113 : double.dyadic 5066549580791808 (-49) * double.dyadic 7770110724385067 (-60)
      = double.dyadic 8741374564933200 (-57) := by
    rw [dyadic_mul]
    exact dyadic_round_pos _ (-5) (-57) 8741374564933200 _ _ (by norm_num) (by norm_num) (by norm_num)
      (by norm_num) (by norm_num) (by norm_num) (by norm_num)
  have s114 : double.dyadic 5629499534213120 (-50) + double.dyadic 8741374564933200 (-57)
      = double.dyadic 5697791523001661 (-50) := by
    rw [dyadic_add]
    exact dyadic_round_pos _ 2 (-50) 5697791523001661 _ _ (by norm_num) (by norm_num) (by norm_num)
      (by norm_num) (by norm_num) (by norm_num) (by norm_num)
  have s115 : double.dyadic 4503599627370496 (-50) * double.dyadic 7770110724385067 (-60)
      = double.dyadic 7770110724385067 (-58) := by
    rw [dyadic_mul]
    exact dyadic_round_pos _ (-6) (-58) 7770110724385067 _ _ (by norm_num) (by norm_num) (by norm_num)
      (by norm_num) (by norm_num) (by norm_num) (by norm_num)
  have s116 : double.dyadic 7770110724385067 (-58) * double.dyadic 7770110724385067 (-60)
      = double.dyadic 6702929396995997 (-65) := by
    rw [dyadic_mul]
    exact dyadic_round_pos _ (-13) (-65) 6702929396995997 _ _ (by norm_num) (by norm_num) (by norm_num)
      (by norm_num) (by norm_num) (by norm_num) (by norm_num)
  have s117 : double.dyadic 5697791523001661 (-50) + double.dyadic 6702929396995997 (-65)
      = double.dyadic 5697996080173200 (-50) := by
    rw [dyadic_add]
    exact dyadic_round_pos _ 2 (-50) 5697996080173200 _ _ (by norm_num) (by norm_num) (by norm_num)
      (by norm_num) (by norm_num) (by norm_num) (by norm_num)
  have s118 : double.dyadic 5697996080173200 (-50) * double.dyadic (-6288191919618016) (-57)
      = double.dyadic (-7955878824486061) (-55) := by
    rw [dyadic_mul]
    exact dyadic_round_neg _ (-3) (-55) 7955878824486061 _ _ (by norm_num) (by norm_num) (by norm_num)
      (by norm_num) (by norm_num) (by norm_num) (by norm_num)
  have s119 : double.dyadic (-7955878824486061) (-55) * double.dyadic (-6288191919618016) (-57)
      = double.dyadic 5554234065740330 (-59) := by
    rw [dyadic_mul]
    exact dyadic_round_pos _ (-7) (-59) 5554234065740330 _ _ (by norm_num) (by norm_num) (by norm_num)
      (by norm_num) (by norm_num) (by norm_num) (by norm_num)
  have s120 : double.dyadic 5554234065740330 (-59) * double.dyadic (-6288191919618016) (-57)
      = double.dyadic (-7755149804967823) (-64) := by
    rw [dyadic_mul]
    exact dyadic_round_neg _ (-12) (-64) 7755149804967823 _ _ (by norm_num) (by norm_num) (by norm_num)
      (by norm_num) (by norm_num) (by norm_num) (by norm_num)
  have s121 : double.dyadic (-7755149804967823) (-64) * double.dyadic (-6288191919618016) (-57)
      = double.dyadic 5414099206627154 (-68) := by
    rw [dyadic_mul]
    exact dyadic_round_pos _ (-16) (-68) 5414099206627154 _ _ (by norm_num) (by norm_num) (by norm_num)
      (by norm_num) (by norm_num) (by norm_num) (by norm_num)
  have s122 : double.lit 24
      = double.dyadic 6755399441055744 (-48) :=
    dyadic_round_pos _ 4 (-48) 6755399441055744 _ _ (by norm_num) (by norm_num) (by norm_num)
      (by norm_num) (by norm_num) (by norm_num) (by norm_num)
  have s123 : double.dyadic 5414099206627154 (-68) / double.dyadic 6755399441055744 (-48)
      = double.dyadic 7218798942169539 (-73) := by
    rw [dyadic_div _ _ _ _ (by norm_num)]
    exact dyadic_round_pos _ (-21) (-73) 7218798942169539 _ _ (by norm_num) (by norm_num) (by norm_num)
      (by norm_num) (by norm_num) (by norm_num) (by norm_num)
  have s124 : double.dyadic 8779945130476931 (-63) + double.dyadic 7218798942169539 (-73)
      = double.dyadic 8786994738818893 (-63) := by
    rw [dyadic_add]
    exact dyadic_round_pos _ (-11) (-63) 8786994738818893 _ _ (by norm_num) (by norm_num) (by norm_num)
      (by norm_num) (by norm_num) (by norm_num) (by norm_num)
  have s125 : double.lit 61
      = double.dyadic 8584986789675008 (-47) :=
    dyadic_round_pos _ 5 (-47) 8584986789675008 _ _ (by norm_num) (by norm_num) (by norm_num)
      (by norm_num) (by norm_num) (by norm_num) (by norm_num)
  have s126 : double.dyadic 8162774324609024 (-47) * double.dyadic 0 0
      = double.dyadic 0 0 := by
    rw [dyadic_mul]
    exact dyadic_round_zero _ _ _ (by norm_num) rfl
  have s127 : double.dyadic 8584986789675008 (-47) - double.dyadic 0 0
      = double.dyadic 8584986789675008 (-47) := by
    rw [dyadic_sub]
    exact dyadic_round_pos _ 5 (-47) 8584986789675008 _ _ (by norm_num) (by norm_num) (by norm_num)
      (by norm_num) (by norm_num) (by norm_num) (by norm_num)
  have s128 : double.dyadic 8584986789675008 (-47) + double.dyadic 0 0
      = double.dyadic 8584986789675008 (-47) := by
    rw [dyadic_add]
    exact dyadic_round_pos _ 5 (-47) 8584986789675008 _ _ (by norm_num) (by norm_num) (by norm_num)
      (by norm_num) (by norm_num) (by norm_num) (by norm_num)
  have s129 : double.lit 600
      = double.dyadic 5277655813324800 (-43) :=
    dyadic_round_pos _ 9 (-43) 5277655813324800 _ _ (by norm_num) (by norm_num) (by norm_num)
      (by norm_num) (by norm_num) (by norm_num) (by norm_num)
  have s130 : double.dyadic 5277655813324800 (-43) * double.dyadic 7770110724385067 (-60)
      = double.dyadic 4552799252569375 (-50) := by
    rw [dyadic_mul]
    exact dyadic_round_pos _ 2 (-50) 4552799252569375 _ _ (by norm_num) (by norm_num) (by norm_num)
      (by norm_num) (by norm_num) (by norm_num) (by norm_num)
  have s131 : double.dyadic 8584986789675008 (-47) + double.dyadic 4552799252569375 (-50)
      = double.dyadic 4577043348123090 (-46) := by
    rw [dyadic_add]
    exact dyadic_round_pos _ 6 (-46) 4577043348123090 _ _ (by norm_num) (by norm_num) (by norm_num)
      (by norm_num) (by norm_num) (by norm_num) (by norm_num)
  have s132 : double.lit 330
      = double.dyadic 5805421394657280 (-44) :=
    dyadic_round_pos _ 8 (-44) 5805421394657280 _ _ (by norm_num) (by norm_num) (by norm_num)
      (by norm_num) (by norm_num) (by norm_num) (by norm_num)
  have s133 : double.dyadic 5805421394657280 (-44) * double.dyadic 7718094650630649 (-60)
      = double.dyadic 4974553192789285 (-51) := by
    rw [dyadic_mul]
    exact dyadic_round_pos _ 1 (-51) 4974553192789285 _ _ (by norm_num) (by norm_num) (by norm_num)
      (by norm_num) (by norm_num) (by norm_num) (by norm_num)
  have s134 : double.dyadic 4577043348123090 (-46) - double.dyadic 4974553192789285 (-51)
      = double.dyadic 8843177121696850 (-47) := by
    rw [dyadic_sub]
    exact dyadic_round_pos _ 5 (-47) 8843177121696850 _ _ (by norm_num) (by norm_num) (by norm_num)
      (by norm_num) (by norm_num) (by norm_num) (by norm_num)
  have s135 : double.dyadic 8843177121696850 (-47) * double.dyadic (-6288191919618016) (-57)
      = double.dyadic (-6173683222466257) (-51) := by
    rw [dyadic_mul]
    exact dyadic_round_neg _ 1 (-51) 6173683222466257 _ _ (by norm_num) (by norm_num) (by norm_num)
      (by norm_num) (by norm_num) (by norm_num) (by norm_num)
  have s136 : double.dyadic (-6173683222466257) (-51) * double.dyadic (-6288191919618016) (-57)
      = double.dyadic 8620061321139268 (-56) := by
    rw [dyadic_mul]
    exact dyadic_round_pos _ (-4) (-56) 8620061321139268 _ _ (by norm_num) (by norm_num) (by norm_num)
      (by norm_num) (by norm_num) (by norm_num) (by norm_num)
  have s137 : double.dyadic 8620061321139268 (-56) * double.dyadic (-6288191919618016) (-57)
      = double.dyadic (-6017919490086648) (-60) := by
    rw [dyadic_mul]
    exact dyadic_round_neg _ (-8) (-60) 6017919490086648 _ _ (by norm_num) (by norm_num) (by norm_num)
      (by norm_num) (by norm_num) (by norm_num) (by norm_num)
  have s138 : double.dyadic (-6017919490086648) (-60) * double.dyadic (-6288191919618016) (-57)
      = double.dyadic 8402574793836466 (-65) := by
    rw [dyadic_mul]
    exact dyadic_round_pos _ (-13) (-65) 8402574793836466 _ _ (by norm_num) (by norm_num) (by norm_num)
      (by norm_num) (by norm_num) (by norm_num) (by norm_num)
  have s139 : double.dyadic 8402574793836466 (-65) * double.dyadic (-6288191919618016) (-57)
      = double.dyadic (-5866085719684442) (-69) := by
    rw [dyadic_mul]
    exact dyadic_round_neg _ (-17) (-69) 5866085719684442 _ _ (by norm_num) (by norm_num) (by norm_num)
      (by norm_num) (by norm_num) (by norm_num) (by norm_num)
  have s140 : double.dyadic (-5866085719684442) (-69) * double.dyadic (-6288191919618016) (-57)
      = double.dyadic 8190575511669871 (-74) := by
    rw [dyadic_mul]
    exact dyadic_round_pos _ (-22) (-74) 8190575511669871 _ _ (by norm_num) (by norm_num) (by norm_num)
      (by norm_num) (by norm_num) (by norm_num) (by norm_num)
  have s141 : double.lit 720
      = double.dyadic 6333186975989760 (-43) :=
    dyadic_round_pos _ 9 (-43) 6333186975989760 _ _ (by norm_num) (by norm_num) (by norm_num)
      (by norm_num) (by norm_num) (by norm_num) (by norm_num)
  have s142 : double.dyadic 8190575511669871 (-74) / double.dyadic 6333186975989760 (-43)
      = double.dyadic 5824409252743019 (-83) := by
    rw [dyadic_div _ _ _ _ (by norm_num)]
    exact dyadic_round_pos _ (-31) (-83) 5824409252743019 _ _ (by norm_num) (by norm_num) (by norm_num)
      (by norm_num) (by norm_num) (by norm_num) (by norm_num)
  have s143 : double.dyadic 8786994738818893 (-63) + double.dyadic 5824409252743019 (-83)
      = double.dyadic 8787000293408406 (-63) := by
    rw [dyadic_add]
    exact dyadic_round_pos _ (-11) (-63) 8787000293408406 _ _ (by norm_num) (by norm_num) (by norm_num)
      (by norm_num) (by norm_num) (by norm_num) (by norm_num)
  have s144 : double.dyadic 0 0 * double.dyadic 8787000293408406 (-63)
      = double.dyadic 0 0 := by
    rw [dyadic_mul]
    exact dyadic_round_zero _ _ _ (by norm_num) rfl
  have s145 : double.dyadic 9003596375039096 (-53) * double.dyadic 0 0
      = double.dyadic 0 0 := by
    rw [dyadic_mul]
    exact dyadic_round_zero _ _ _ (by norm_num) rfl
  have s146 : double.lit 500000.0
      = double.dyadic 8589934592000000 (-34) :=
    dyadic_round_pos _ 18 (-34) 8589934592000000 _ _ (by norm_num) (by norm_num) (by norm_num)
      (by norm_num) (by norm_num) (by norm_num) (by norm_num)
  have s147 : double.dyadic (-4780735949488562) (-34) + double.dyadic 8589934592000000 (-34)
      = double.dyadic 7618397285022876 (-35) := by
    rw [dyadic_add]
    exact dyadic_round_pos _ 17 (-35) 7618397285022876 _ _ (by norm_num) (by norm_num) (by norm_num)
      (by norm_num) (by norm_num) (by norm_num) (by norm_num)
  have s148 : double.lit 114.875
      = double.dyadic 8083609487409152 (-46) :=
    dyadic_round_pos _ 6 (-46) 8083609487409152 _ _ (by norm_num) (by norm_num) (by norm_num)
      (by norm_num) (by norm_num) (by norm_num) (by norm_num)
  have s149 : double.dyadic 8083609487409152 (-46) + double.dyadic 6333186975989760 (-45)
      = double.dyadic 5187495859847168 (-44) := by
    rw [dyadic_add]
    exact dyadic_round_pos _ 8 (-44) 5187495859847168 _ _ (by norm_num) (by norm_num) (by norm_num)
      (by norm_num) (by norm_num) (by norm_num) (by norm_num)
  have s150 : double.dyadic 5187495859847168 (-44) / double.dyadic 6755399441055744 (-50)
      = double.dyadic 6916661146462891 (-47) := by
    rw [dyadic_div _ _ _ _ (by norm_num)]
    exact dyadic_round_pos _ 5 (-47) 6916661146462891 _ _ (by norm_num) (by norm_num) (by norm_num)
      (by norm_num) (by norm_num) (by norm_num) (by norm_num)
  have s151 : double.dyadic 8083609487409152 (-46) * double.dyadic 7074215909570263 (-51)
      = double.dyadic 6348832442280343 (-44) := by
    rw [dyadic_mul]
    exact dyadic_round_pos _ 8 (-44) 6348832442280343 _ _ (by norm_num) (by norm_num) (by norm_num)
      (by norm_num) (by norm_num) (by norm_num) (by norm_num)
  have s152 : double.dyadic 6348832442280343 (-44) / double.dyadic 6333186975989760 (-45)
      = double.dyadic 4514725292288244 (-51) := by
    rw [dyadic_div _ _ _ _ (by norm_num)]
    exact dyadic_round_pos _ 1 (-51) 4514725292288244 _ _ (by norm_num) (by norm_num) (by norm_num)
      (by norm_num) (by norm_num) (by norm_num) (by norm_num)
  have s153 : double.dyadic 4514725292288244 (-51) - double.dyadic 4598240341220671 (-51)
      = double.dyadic (-5344963131675328) (-57) := by
    rw [dyadic_sub]
    exact dyadic_round_neg _ (-5) (-57) 5344963131675328 _ _ (by norm_num) (by norm_num) (by norm_num)
      (by norm_num) (by norm_num) (by norm_num) (by norm_num)
  have s154 : double.dyadic (-5344963131675328) (-57) * double.dyadic 4503599627370496 (-52)
      = double.dyadic (-5344963131675328) (-57) := by
    rw [dyadic_mul]
    exact dyadic_round_neg _ (-5) (-57) 5344963131675328 _ _ (by norm_num) (by norm_num) (by norm_num)
      (by norm_num) (by norm_num) (by norm_num) (by norm_num)
  have s155 : double.dyadic 4533951622387625 (-52) * double.dyadic (-5344963131675328) (-57)
      = double.dyadic (-5380985493288780) (-57) := by
    rw [dyadic_mul]
    exact dyadic_round_neg _ (-5) (-57) 5380985493288780 _ _ (by norm_num) (by norm_num) (by norm_num)
      (by norm_num) (by norm_num) (by norm_num) (by norm_num)
  have s156 : double.dyadic (-5380985493288780) (-57) * double.dyadic (-5344963131675328) (-57)
      = double.dyadic 6386262424153590 (-62) := by
    rw [dyadic_mul]
    exact dyadic_round_pos _ (-10) (-62) 6386262424153590 _ _ (by norm_num) (by norm_num) (by norm_num)
      (by norm_num) (by norm_num) (by norm_num) (by norm_num)
  have s157 : double.dyadic 6386262424153590 (-62) * double.dyadic (-5344963131675328) (-57)
      = double.dyadic (-7579345419351667) (-67) := by
    rw [dyadic_mul]
    exact dyadic_round_neg _ (-15) (-67) 7579345419351667 _ _ (by norm_num) (by norm_num) (by norm_num)
      (by norm_num) (by norm_num) (by norm_num) (by norm_num)
  have s158 : double.dyadic (-7579345419351667) (-67) / double.dyadic 6755399441055744 (-50)
      = double.dyadic (-5052896946234445) (-69) := by
    rw [dyadic_div _ _ _ _ (by norm_num)]
    exact dyadic_round_neg _ (-17) (-69) 5052896946234445 _ _ (by norm_num) (by norm_num) (by norm_num)
      (by norm_num) (by norm_num) (by norm_num) (by norm_num)
  have s159 : double.dyadic (-5344963131675328) (-57) + double.dyadic (-5052896946234445) (-69)
      = double.dyadic (-5346196749093842) (-57) := by
    rw [dyadic_add]
    exact dyadic_round_neg _ (-5) (-57) 5346196749093842 _ _ (by norm_num) (by norm_num) (by norm_num)
      (by norm_num) (by norm_num) (by norm_num) (by norm_num)
  have s160 : double.dyadic 5738677739700568 (-50) * double.dyadic (-5344963131675328) (-57)
      = double.dyadic (-6810778817204586) (-55) := by
    rw [dyadic_mul]
    exact dyadic_round_neg _ (-3) (-55) 6810778817204586 _ _ (by norm_num) (by norm_num) (by norm_num)
      (by norm_num) (by norm_num) (by norm_num) (by norm_num)
  have s161 : double.dyadic (-6810778817204586) (-55) * double.dyadic (-5344963131675328) (-57)
      = double.dyadic 8083170061280189 (-60) := by
    rw [dyadic_mul]
    exact dyadic_round_pos _ (-8) (-60) 8083170061280189 _ _ (by norm_num) (by norm_num) (by norm_num)
      (by norm_num) (by norm_num) (by norm_num) (by norm_num)
  have s162 : double.dyadic 8083170061280189 (-60) * double.dyadic (-5344963131675328) (-57)
      = double.dyadic (-4796634863147232) (-64) := by
    rw [dyadic_mul]
    exact dyadic_round_neg _ (-12) (-64) 4796634863147232 _ _ (by norm_num) (by norm_num) (by norm_num)
      (by norm_num) (by norm_num) (by norm_num) (by norm_num)
  have s163 : double.dyadic (-4796634863147232) (-64) * double.dyadic (-5344963131675328) (-57)
      = double.dyadic 5692743276692999 (-69) := by
    rw [dyadic_mul]
    exact dyadic_round_pos _ (-17) (-69) 5692743276692999 _ _ (by norm_num) (by norm_num) (by norm_num)
      (by norm_num) (by norm_num) (by norm_num) (by norm_num)
  have s164 : double.dyadic 5692743276692999 (-69) * double.dyadic (-5344963131675328) (-57)
      = double.dyadic (-6756262867394876) (-74) := by
    rw [dyadic_mul]
    exact dyadic_round_neg _ (-22) (-74) 6756262867394876 _ _ (by norm_num) (by norm_num) (by norm_num)
      (by norm_num) (by norm_num) (by norm_num) (by norm_num)
  have s165 : double.dyadic (-6756262867394876) (-74) / double.dyadic 8444249301319680 (-46)
      = double.dyadic (-7206680391887868) (-81) := by
    rw [dyadic_div _ _ _ _ (by norm_num)]
    exact dyadic_round_neg _ (-29) (-81) 7206680391887868 _ _ (by norm_num) (by norm_num) (by norm_num)
      (by norm_num) (by norm_num) (by norm_num) (by norm_num)
  have s166 : double.dyadic (-5346196749093842) (-57) + double.dyadic (-7206680391887868) (-81)
      = double.dyadic (-5346197178645467) (-57) := by
    rw [dyadic_add]
    exact dyadic_round_neg _ (-5) (-57) 5346197178645467 _ _ (by norm_num) (by norm_num) (by norm_num)
      (by norm_num) (by norm_num) (by norm_num) (by norm_num)
  have s167 : double.dyadic 6845733067119448 (-30) * double.dyadic (-5346197178645467) (-57)
      = double.dyadic (-8126530295181394) (-35) := by
    rw [dyadic_mul]
    exact dyadic_round_neg _ 17 (-35) 8126530295181394 _ _ (by norm_num) (by norm_num) (by norm_num)
      (by norm_num) (by norm_num) (by norm_num) (by norm_num)
  have s168 : double.dyadic (-5344963131675328) (-57) * double.dyadic (-5344963131675328) (-57)
      = double.dyadic 6343510356769617 (-62) := by
    rw [dyadic_mul]
    exact dyadic_round_pos _ (-10) (-62) 6343510356769617 _ _ (by norm_num) (by norm_num) (by norm_num)
      (by norm_num) (by norm_num) (by norm_num) (by norm_num)
  have s169 : double.dyadic 6343510356769617 (-62) / double.dyadic 4503599627370496 (-51)
      = double.dyadic 6343510356769617 (-63) := by
    rw [dyadic_div _ _ _ _ (by norm_num)]
    exact dyadic_round_pos _ (-11) (-63) 6343510356769617 _ _ (by norm_num) (by norm_num) (by norm_num)
      (by norm_num) (by norm_num) (by norm_num) (by norm_num)
  have s170 : double.dyadic 5697996080173200 (-50) * double.dyadic (-5344963131675328) (-57)
      = double.dyadic (-6762497000813170) (-55) := by
    rw [dyadic_mul]
    exact dyadic_round_neg _ (-3) (-55) 6762497000813170 _ _ (by norm_num) (by norm_num) (by norm_num)
      (by norm_num) (by norm_num) (by norm_num) (by norm_num)
  have s171 : double.dyadic (-6762497000813170) (-55) * double.dyadic (-5344963131675328) (-57)
      = double.dyadic 8025868224994820 (-60) := by
    rw [dyadic_mul]
    exact dyadic_round_pos _ (-8) (-60) 8025868224994820 _ _ (by norm_num) (by norm_num) (by norm_num)
      (by norm_num) (by norm_num) (by norm_num) (by norm_num)
  have s172 : double.dyadic 8025868224994820 (-60) * double.dyadic (-5344963131675328) (-57)
      = double.dyadic (-4762631373975903) (-64) := by
    rw [dyadic_mul]
    exact dyadic_round_neg _ (-12) (-64) 4762631373975903 _ _ (by norm_num) (by norm_num) (by norm_num)
      (by norm_num) (by norm_num) (by norm_num) (by norm_num)
  have s173 : double.dyadic (-4762631373975903) (-64) * double.dyadic (-5344963131675328) (-57)
      = double.dyadic 5652387247958893 (-69) := by
    rw [dyadic_mul]
    exact dyadic_round_pos _ (-17) (-69) 5652387247958893 _ _ (by norm_num) (by norm_num) (by norm_num)
      (by norm_num) (by norm_num) (by norm_num) (by norm_num)
  have s174 : double.dyadic 5652387247958893 (-69) / double.dyadic 6755399441055744 (-48)
      = double.dyadic 7536516330611857 (-74) := by
    rw [dyadic_div _ _ _ _ (by norm_num)]
    exact dyadic_round_pos _ (-22) (-74) 7536516330611857 _ _ (by norm_num) (by norm_num) (by norm_num)
      (by norm_num) (by norm_num) (by norm_num) (by norm_num)
  have s175 : double.dyadic 6343510356769617 (-63) + double.dyadic 7536516330611857 (-74)
      = double.dyadic 6347190296384174 (-63) := by
    rw [dyadic_add]
    exact dyadic_round_pos _ (-11) (-63) 6347190296384174 _ _ (by norm_num) (by norm_num) (by norm_num)
      (by norm_num) (by norm_num) (by norm_num) (by norm_num)
  have s176 : double.dyadic 8843177121696850 (-47) * double.dyadic (-5344963131675328) (-57)
      = double.dyadic (-5247630739096333) (-51) := by
    rw [dyadic_mul]
    exact dyadic_round_neg _ 1 (-51) 5247630739096333 _ _ (by norm_num) (by norm_num) (by norm_num)
      (by norm_num) (by norm_num) (by norm_num) (by norm_num)
  have s177 : double.dyadic (-5247630739096333) (-51) * double.dyadic (-5344963131675328) (-57)
      = double.dyadic 6227994304523155 (-56) := by
    rw [dyadic_mul]
    exact dyadic_round_pos _ (-4) (-56) 6227994304523155 _ _ (by norm_num) (by norm_num) (by norm_num)
      (by norm_num) (by norm_num) (by norm_num) (by norm_num)
  have s178 : double.dyadic 6227994304523155 (-56) * double.dyadic (-5344963131675328) (-57)
      = double.dyadic (-7391509613698985) (-61) := by
    rw [dyadic_mul]
    exact dyadic_round_neg _ (-9) (-61) 7391509613698985 _ _ (by norm_num) (by norm_num) (by norm_num)
      (by norm_num) (by norm_num) (by norm_num) (by norm_num)
  have s179 : double.dyadic (-7391509613698985) (-61) * double.dyadic (-5344963131675328) (-57)
      = double.dyadic 8772393116950288 (-66) := by
    rw [dyadic_mul]
    exact dyadic_round_pos _ (-14) (-66) 8772393116950288 _ _ (by norm_num) (by norm_num) (by norm_num)
      (by norm_num) (by norm_num) (by norm_num) (by norm_num)
  have s180 : double.dyadic 8772393116950288 (-66) * double.dyadic (-5344963131675328) (-57)
      = double.dyadic (-5205626794808816) (-70) := by
    rw [dyadic_mul]
    exact dyadic_round_neg _ (-18) (-70) 5205626794808816 _ _ (by norm_num) (by norm_num) (by norm_num)
      (by norm_num) (by norm_num) (by norm_num) (by norm_num)
  have s181 : double.dyadic (-5205626794808816) (-70) * double.dyadic (-5344963131675328) (-57)
      = double.dyadic 6178143173832657 (-75) := by
    rw [dyadic_mul]
    exact dyadic_round_pos _ (-23) (-75) 6178143173832657 _ _ (by norm_num) (by norm_num) (by norm_num)
      (by norm_num) (by norm_num) (by norm_num) (by norm_num)
  have s182 : double.dyadic 6178143173832657 (-75) / double.dyadic 6333186975989760 (-43)
      = double.dyadic 8786692513895334 (-85) := by
    rw [dyadic_div _ _ _ _ (by norm_num)]
    exact dyadic_round_pos _ (-33) (-85) 8786692513895334 _ _ (by norm_num) (by norm_num) (by norm_num)
      (by norm_num) (by norm_num) (by norm_num) (by norm_num)
  have s183 : double.dyadic 6347190296384174 (-63) + double.dyadic 8786692513895334 (-85)
      = double.dyadic 6347192391294918 (-63) := by
    rw [dyadic_add]
    exact dyadic_round_pos _ (-11) (-63) 6347192391294918 _ _ (by norm_num) (by norm_num) (by norm_num)
      (by norm_num) (by norm_num) (by norm_num) (by norm_num)
  have s184 : double.dyadic 0 0 * double.dyadic 6347192391294918 (-63)
      = double.dyadic 0 0 := by
    rw [dyadic_mul]
    exact dyadic_round_zero _ _ _ (by norm_num) rfl
  have s185 : double.dyadic (-8126530295181394) (-35) + double.dyadic 8589934592000000 (-34)
      = double.dyadic 4526669444409303 (-34) := by
    rw [dyadic_add]
    exact dyadic_round_pos _ 18 (-34) 4526669444409303 _ _ (by norm_num) (by norm_num) (by norm_num)
      (by norm_num) (by norm_num) (by norm_num) (by norm_num)
  have s186 : double.lit 119.75
      = double.dyadic 8426657115275264 (-46) :=
    dyadic_round_pos _ 6 (-46) 8426657115275264 _ _ (by norm_num) (by norm_num) (by norm_num)
      (by norm_num) (by norm_num) (by norm_num) (by norm_num)
  have s187 : double.dyadic 8426657115275264 (-46) + double.dyadic 6333186975989760 (-45)
      = double.dyadic 5273257766813696 (-44) := by
    rw [dyadic_add]
    exact dyadic_round_pos _ 8 (-44) 5273257766813696 _ _ (by norm_num) (by norm_num) (by norm_num)
      (by norm_num) (by norm_num) (by norm_num) (by norm_num)
  have s188 : double.dyadic 5273257766813696 (-44) / double.dyadic 6755399441055744 (-50)
      = double.dyadic 7031010355751595 (-47) := by
    rw [dyadic_div _ _ _ _ (by norm_num)]
    exact dyadic_round_pos _ 5 (-47) 7031010355751595 _ _ (by norm_num) (by norm_num) (by norm_num)
      (by norm_num) (by norm_num) (by norm_num) (by norm_num)
  have s189 : double.dyadic 8426657115275264 (-46) * double.dyadic 7074215909570263 (-51)
      = double.dyadic 6618260587273742 (-44) := by
    rw [dyadic_mul]
    exact dyadic_round_pos _ 8 (-44) 6618260587273742 _ _ (by norm_num) (by norm_num) (by norm_num)
      (by norm_num) (by norm_num) (by norm_num) (by norm_num)
  have s190 : double.dyadic 6618260587273742 (-44) / double.dyadic 6333186975989760 (-45)
      = double.dyadic 4706318639839105 (-51) := by
    rw [dyadic_div _ _ _ _ (by norm_num)]
    exact dyadic_round_pos _ 1 (-51) 4706318639839105 _ _ (by norm_num) (by norm_num) (by norm_num)
      (by norm_num) (by norm_num) (by norm_num) (by norm_num)
  have s191 : double.dyadic 4706318639839105 (-51) - double.dyadic 4598240341220671 (-51)
      = double.dyadic 6917011111579776 (-57) := by
    rw [dyadic_sub]
    exact dyadic_round_pos _ (-5) (-57) 6917011111579776 _ _ (by norm_num) (by norm_num) (by norm_num)
      (by norm_num) (by norm_num) (by norm_num) (by norm_num)
  have s192 : double.dyadic 6917011111579776 (-57) * double.dyadic 4503599627370496 (-52)
      = double.dyadic 6917011111579776 (-57) := by
    rw [dyadic_mul]
    exact dyadic_round_pos _ (-5) (-57) 6917011111579776 _ _ (by norm_num) (by norm_num) (by norm_num)
      (by norm_num) (by norm_num) (by norm_num) (by norm_num)
  have s193 : double.dyadic 4533951622387625 (-52) * double.dyadic 6917011111579776 (-57)
      = double.dyadic 6963628285432478 (-57) := by
    rw [dyadic_mul]
    exact dyadic_round_pos _ (-5) (-57) 6963628285432478 _ _ (by norm_num) (by norm_num) (by norm_num)
      (by norm_num) (by norm_num) (by norm_num) (by norm_num)
  have s194 : double.dyadic 6963628285432478 (-57) * double.dyadic 6917011111579776 (-57)
      = double.dyadic 5347666112958968 (-61) := by
    rw [dyadic_mul]
    exact dyadic_round_pos _ (-9) (-61) 5347666112958968 _ _ (by norm_num) (by norm_num) (by norm_num)
      (by norm_num) (by norm_num) (by norm_num) (by norm_num)
  have s195 : double.dyadic 5347666112958968 (-61) * double.dyadic 6917011111579776 (-57)
      = double.dyadic 8213400165403464 (-66) := by
    rw [dyadic_mul]
    exact dyadic_round_pos _ (-14) (-66) 8213400165403464 _ _ (by norm_num) (by norm_num) (by norm_num)
      (by norm_num) (by norm_num) (by norm_num) (by norm_num)
  have s196 : double.dyadic 8213400165403464 (-66) / double.dyadic 6755399441055744 (-50)
      = double.dyadic 5475600110268976 (-68) := by
    rw [dyadic_div _ _ _ _ (by norm_num)]
    exact dyadic_round_pos _ (-16) (-68) 5475600110268976 _ _ (by norm_num) (by norm_num) (by norm_num)
      (by norm_num) (by norm_num) (by norm_num) (by norm_num)
  have s197 : double.dyadic 6917011111579776 (-57) + double.dyadic 5475600110268976 (-68)
      = double.dyadic 6919684744446118 (-57) := by
    rw [dyadic_add]
    exact dyadic_round_pos _ (-5) (-57) 6919684744446118 _ _ (by norm_num) (by norm_num) (by norm_num)
      (by norm_num) (by norm_num) (by norm_num) (by norm_num)
  have s198 : double.dyadic 5738677739700568 (-50) * double.dyadic 6917011111579776 (-57)
      = double.dyadic 8813949057558799 (-55) := by
    rw [dyadic_mul]
    exact dyadic_round_pos _ (-3) (-55) 8813949057558799 _ _ (by norm_num) (by norm_num) (by norm_num)
      (by norm_num) (by norm_num) (by norm_num) (by norm_num)
  have s199 : double.dyadic 8813949057558799 (-55) * double.dyadic 6917011111579776 (-57)
      = double.dyadic 6768606072075335 (-59) := by
    rw [dyadic_mul]
    exact dyadic_round_pos _ (-7) (-59) 6768606072075335 _ _ (by norm_num) (by norm_num) (by norm_num)
      (by norm_num) (by norm_num) (by norm_num) (by norm_num)
  have s200 : double.dyadic 6768606072075335 (-59) * double.dyadic 6917011111579776 (-57)
      = double.dyadic 5197900266923509 (-63) := by
    rw [dyadic_mul]
    exact dyadic_round_pos _ (-11) (-63) 5197900266923509 _ _ (by norm_num) (by norm_num) (by norm_num)
      (by norm_num) (by norm_num) (by norm_num) (by norm_num)
  have s201 : double.dyadic 5197900266923509 (-63) * double.dyadic 6917011111579776 (-57)
      = double.dyadic 7983377049035266 (-68) := by
    rw [dyadic_mul]
    exact dyadic_round_pos _ (-16) (-68) 7983377049035266 _ _ (by norm_num) (by norm_num) (by norm_num)
      (by norm_num) (by norm_num) (by norm_num) (by norm_num)
  have s202 : double.dyadic 7983377049035266 (-68) * double.dyadic 6917011111579776 (-57)
      = double.dyadic 6130774527613780 (-72) := by
    rw [dyadic_mul]
    exact dyadic_round_pos _ (-20) (-72) 6130774527613780 _ _ (by norm_num) (by norm_num) (by norm_num)
      (by norm_num) (by norm_num) (by norm_num) (by norm_num)
  have s203 : double.dyadic 6130774527613780 (-72) / double.dyadic 8444249301319680 (-46)
      = double.dyadic 6539492829454699 (-79) := by
    rw [dyadic_div _ _ _ _ (by norm_num)]
    exact dyadic_round_pos _ (-27) (-79) 6539492829454699 _ _ (by norm_num) (by norm_num) (by norm_num)
      (by norm_num) (by norm_num) (by norm_num) (by norm_num)
  have s204 : double.dyadic 6919684744446118 (-57) + double.dyadic 6539492829454699 (-79)
      = double.dyadic 6919686303582706 (-57) := by
    rw [dyadic_add]
    exact dyadic_round_pos _ (-5) (-57) 6919686303582706 _ _ (by norm_num) (by norm_num) (by norm_num)
      (by norm_num) (by norm_num) (by norm_num) (by norm_num)
  have s205 : double.dyadic 6845733067119448 (-30) * double.dyadic 6919686303582706 (-57)
      = double.dyadic 5259162587926100 (-34) := by
    rw [dyadic_mul]
    exact dyadic_round_pos _ 18 (-34) 5259162587926100 _ _ (by norm_num) (by norm_num) (by norm_num)
      (by norm_num) (by norm_num) (by norm_num) (by norm_num)
  have s206 : double.dyadic 6917011111579776 (-57) * double.dyadic 6917011111579776 (-57)
      = double.dyadic 5311866803938480 (-61) := by
    rw [dyadic_mul]
    exact dyadic_round_pos _ (-9) (-61) 5311866803938480 _ _ (by norm_num) (by norm_num) (by norm_num)
      (by norm_num) (by norm_num) (by norm_num) (by norm_num)
  have s207 : double.dyadic 5311866803938480 (-61) / double.dyadic 4503599627370496 (-51)
      = double.dyadic 5311866803938480 (-62) := by
    rw [dyadic_div _ _ _ _ (by norm_num)]
    exact dyadic_round_pos _ (-10) (-62) 5311866803938480 _ _ (by norm_num) (by norm_num) (by norm_num)
      (by norm_num) (by norm_num) (by norm_num) (by norm_num)
  have s208 : double.dyadic 5697996080173200 (-50) * double.dyadic 6917011111579776 (-57)
      = double.dyadic 8751466706934615 (-55) := by
    rw [dyadic_mul]
    exact dyadic_round_pos _ (-3) (-55) 8751466706934615 _ _ (by norm_num) (by norm_num) (by norm_num)
      (by norm_num) (by norm_num) (by norm_num) (by norm_num)
  have s209 : double.dyadic 8751466706934615 (-55) * double.dyadic 6917011111579776 (-57)
      = double.dyadic 6720623219545719 (-59) := by
    rw [dyadic_mul]
    exact dyadic_round_pos _ (-7) (-59) 6720623219545719 _ _ (by norm_num) (by norm_num) (by norm_num)
      (by norm_num) (by norm_num) (by norm_num) (by norm_num)
  have s210 : double.dyadic 6720623219545719 (-59) * double.dyadic 6917011111579776 (-57)
      = double.dyadic 5161052195205994 (-63) := by
    rw [dyadic_mul]
    exact dyadic_round_pos _ (-11) (-63) 5161052195205994 _ _ (by norm_num) (by norm_num) (by norm_num)
      (by norm_num) (by norm_num) (by norm_num) (by norm_num)
  have s211 : double.dyadic 5161052195205994 (-63) * double.dyadic 6917011111579776 (-57)
      = double.dyadic 7926782648422627 (-68) := by
    rw [dyadic_mul]
    exact dyadic_round_pos _ (-16) (-68) 7926782648422627 _ _ (by norm_num) (by norm_num) (by norm_num)
      (by norm_num) (by norm_num) (by norm_num) (by norm_num)
  have s212 : double.dyadic 7926782648422627 (-68) / double.dyadic 6755399441055744 (-48)
      = double.dyadic 5284521765615085 (-72) := by
    rw [dyadic_div _ _ _ _ (by norm_num)]
    exact dyadic_round_pos _ (-20) (-72) 5284521765615085 _ _ (by norm_num) (by norm_num) (by norm_num)
      (by norm_num) (by norm_num) (by norm_num) (by norm_num)
  have s213 : double.dyadic 5311866803938480 (-62) + double.dyadic 5284521765615085 (-72)
      = double.dyadic 5317027469725213 (-62) := by
    rw [dyadic_add]
    exact dyadic_round_pos _ (-10) (-62) 5317027469725213 _ _ (by norm_num) (by norm_num) (by norm_num)
      (by norm_num) (by norm_num) (by norm_num) (by norm_num)
  have s214 : double.dyadic 8843177121696850 (-47) * double.dyadic 6917011111579776 (-57)
      = double.dyadic 6791051544712842 (-51) := by
    rw [dyadic_mul]
    exact dyadic_round_pos _ 1 (-51) 6791051544712842 _ _ (by norm_num) (by norm_num) (by norm_num)
      (by norm_num) (by norm_num) (by norm_num) (by norm_num)
  have s215 : double.dyadic 6791051544712842 (-51) * double.dyadic 6917011111579776 (-57)
      = double.dyadic 5215137099289194 (-55) := by
    rw [dyadic_mul]
    exact dyadic_round_pos _ (-3) (-55) 5215137099289194 _ _ (by norm_num) (by norm_num) (by norm_num)
      (by norm_num) (by norm_num) (by norm_num) (by norm_num)
  have s216 : double.dyadic 5215137099289194 (-55) * double.dyadic 6917011111579776 (-57)
      = double.dyadic 8009850841305183 (-60) := by
    rw [dyadic_mul]
    exact dyadic_round_pos _ (-8) (-60) 8009850841305183 _ _ (by norm_num) (by norm_num) (by norm_num)
      (by norm_num) (by norm_num) (by norm_num) (by norm_num)
  have s217 : double.dyadic 8009850841305183 (-60) * double.dyadic 6917011111579776 (-57)
      = double.dyadic 6151104877827836 (-64) := by
    rw [dyadic_mul]
    exact dyadic_round_pos _ (-12) (-64) 6151104877827836 _ _ (by norm_num) (by norm_num) (by norm_num)
      (by norm_num) (by norm_num) (by norm_num) (by norm_num)
  have s218 : double.dyadic 6151104877827836 (-64) * double.dyadic 6917011111579776 (-57)
      = double.dyadic 4723694856204353 (-68) := by
    rw [dyadic_mul]
    exact dyadic_round_pos _ (-16) (-68) 4723694856204353 _ _ (by norm_num) (by norm_num) (by norm_num)
      (by norm_num) (by norm_num) (by norm_num) (by norm_num)
  have s219 : double.dyadic 4723694856204353 (-68) * double.dyadic 6917011111579776 (-57)
      = double.dyadic 7255052072014432 (-73) := by
    rw [dyadic_mul]
    exact dyadic_round_pos _ (-21) (-73) 7255052072014432 _ _ (by norm_num) (by norm_num) (by norm_num)
      (by norm_num) (by norm_num) (by norm_num) (by norm_num)
  have s220 : double.dyadic 7255052072014432 (-73) / double.dyadic 6333186975989760 (-43)
      = double.dyadic 5159148140099152 (-82) := by
    rw [dyadic_div _ _ _ _ (by norm_num)]
    exact dyadic_round_pos _ (-30) (-82) 5159148140099152 _ _ (by norm_num) (by norm_num) (by norm_num)
      (by norm_num) (by norm_num) (by norm_num) (by norm_num)
  have s221 : double.dyadic 5317027469725213 (-62) + double.dyadic 5159148140099152 (-82)
      = double.dyadic 5317032389872289 (-62) := by
    rw [dyadic_add]
    exact dyadic_round_pos _ (-10) (-62) 5317032389872289 _ _ (by norm_num) (by norm_num) (by norm_num)
      (by norm_num) (by norm_num) (by norm_num) (by norm_num)
  have s222 : double.dyadic 0 0 * double.dyadic 5317032389872289 (-62)
      = double.dyadic 0 0 := by
    rw [dyadic_mul]
    exact dyadic_round_zero _ _ _ (by norm_num) rfl
  have s223 : double.dyadic 5259162587926100 (-34) + double.dyadic 8589934592000000 (-34)
      = double.dyadic 6924548589963050 (-33) := by
    rw [dyadic_add]
    exact dyadic_round_pos _ 19 (-33) 6924548589963050 _ _ (by norm_num) (by norm_num) (by norm_num)
      (by norm_num) (by norm_num) (by norm_num) (by norm_num)
  have s224 : double.dyadic 4526669444409303 (-34) - double.dyadic 7618397285022876 (-35)
      = double.dyadic 5739766415182920 (-37) := by
    rw [dyadic_sub]
    exact dyadic_round_pos _ 15 (-37) 5739766415182920 _ _ (by norm_num) (by norm_num) (by norm_num)
      (by norm_num) (by norm_num) (by norm_num) (by norm_num)
  have s225 : double.dyadic 5739766415182920 (-37) * double.dyadic 5739766415182920 (-37)
      = double.dyadic 7315241412811211 (-22) := by
    rw [dyadic_mul]
    exact dyadic_round_pos _ 30 (-22) 7315241412811211 _ _ (by norm_num) (by norm_num) (by norm_num)
      (by norm_num) (by norm_num) (by norm_num) (by norm_num)
  have s226 : double.dyadic 7315241412811211 (-22) + double.dyadic 0 0
      = double.dyadic 7315241412811211 (-22) := by
    rw [dyadic_add]
    exact dyadic_round_pos _ 30 (-22) 7315241412811211 _ _ (by norm_num) (by norm_num) (by norm_num)
      (by norm_num) (by norm_num) (by norm_num) (by norm_num)
  have s227 : double.sqrt dbl.sample_env.sqrt (double.dyadic 7315241412811211 (-22))
      = double.dyadic 5739766415182920 (-37) := by
    rw [dyadic_sqrt_sample 7315241412811211 (-22) 30 45 2159078178872478306369483533887471616 1469380202286827568 (by norm_num) (by norm_num) (by norm_num)
      (by norm_num) (by norm_num) (by norm_num)]
    exact dyadic_round_pos _ 15 (-37) 5739766415182920 _ _ (by norm_num) (by norm_num) (by norm_num)
      (by norm_num) (by norm_num) (by norm_num) (by norm_num)
  have s228 : double.dyadic 6924548589963050 (-33) - double.dyadic 4526669444409303 (-34)
      = double.dyadic 4661213867758398 (-33) := by
    rw [dyadic_sub]
    exact dyadic_round_pos_tie _ 19 (-33) 4661213867758398 4661213867758398 _ _ (by norm_num) (by norm_num) (by norm_num)
      (by norm_num) (Or.inl ⟨rfl, by decide⟩) (by norm_num) (by norm_num)
  have s229 : double.dyadic 4661213867758398 (-33) * double.dyadic 4661213867758398 (-33)
      = double.dyadic 4824344195460562 (-14) := by
    rw [dyadic_mul]
    exact dyadic_round_pos _ 38 (-14) 4824344195460562 _ _ (by norm_num) (by norm_num) (by norm_num)
      (by norm_num) (by norm_num) (by norm_num) (by norm_num)
  have s230 : double.dyadic 4824344195460562 (-14) + double.dyadic 0 0
      = double.dyadic 4824344195460562 (-14) := by
    rw [dyadic_add]
    exact dyadic_round_pos _ 38 (-14) 4824344195460562 _ _ (by norm_num) (by norm_num) (by norm_num)
      (by norm_num) (by norm_num) (by norm_num) (by norm_num)
  have s231 : double.sqrt dbl.sample_env.sqrt (double.dyadic 4824344195460562 (-14))
      = double.dyadic 4661213867758398 (-33) := by
    rw [dyadic_sqrt_sample 4824344195460562 (-14) 38 41 1423895083154355148780452602101891072 1193270750146149835 (by norm_num) (by norm_num) (by norm_num)
      (by norm_num) (by norm_num) (by norm_num)]
    exact dyadic_round_pos _ 19 (-33) 4661213867758398 _ _ (by norm_num) (by norm_num) (by norm_num)
      (by norm_num) (by norm_num) (by norm_num) (by norm_num)
  have s232 : double.dyadic 6924548589963050 (-33) - double.dyadic 7618397285022876 (-35)
      = double.dyadic 5019949268707331 (-33) := by
    rw [dyadic_sub]
    exact dyadic_round_pos _ 19 (-33) 5019949268707331 _ _ (by norm_num) (by norm_num) (by norm_num)
      (by norm_num) (by norm_num) (by norm_num) (by norm_num)
  have s233 : double.dyadic 5019949268707331 (-33) * double.dyadic 5019949268707331 (-33)
      = double.dyadic 5595499765841453 (-14) := by
    rw [dyadic_mul]
    exact dyadic_round_pos _ 38 (-14) 5595499765841453 _ _ (by norm_num) (by norm_num) (by norm_num)
      (by norm_num) (by norm_num) (by norm_num) (by norm_num)
  have s234 : double.dyadic 5595499765841453 (-14) + double.dyadic 0 0
      = double.dyadic 5595499765841453 (-14) := by
    rw [dyadic_add]
    exact dyadic_round_pos _ 38 (-14) 5595499765841453 _ _ (by norm_num) (by norm_num) (by norm_num)
      (by norm_num) (by norm_num) (by norm_num) (by norm_num)
  have s235 : double.sqrt dbl.sample_env.sqrt (double.dyadic 5595499765841453 (-14))
      = double.dyadic 5019949268707331 (-33) := by
    rw [dyadic_sqrt_sample 5595499765841453 (-14) 38 41 1651500034319664110186215897215008768 1285107012789076686 (by norm_num) (by norm_num) (by norm_num)
      (by norm_num) (by norm_num) (by norm_num)]
    exact dyadic_round_pos _ 19 (-33) 5019949268707331 _ _ (by norm_num) (by norm_num) (by norm_num)
      (by norm_num) (by norm_num) (by norm_num) (by norm_num)
  have s236 : double.dyadic 5739766415182920 (-37) + double.dyadic 4661213867758398 (-33)
      = double.dyadic 5019949268707330 (-33) := by
    rw [dyadic_add]
    exact dyadic_round_pos_tie _ 19 (-33) 5019949268707330 5019949268707330 _ _ (by norm_num) (by norm_num) (by norm_num)
      (by norm_num) (Or.inl ⟨rfl, by decide⟩) (by norm_num) (by norm_num)
  have zone_u : dbl.location.utm_zone (double.lit 114.5) = some 50 := by
    have ht : (double.lit 114.5 + double.lit 180.0) / double.lit 6.0
        = double.dyadic 6907865053440683 (-47) := by
      rw [s1, s3, s4, s5, s6]
    exact utm_zone_some _ _ 49 ht (by norm_num) (by norm_num) (by norm_num)
      (by norm_num)
  have plane_u : ∀ lon lat : double, lon = double.dyadic 8057221208342528 (-46) →
      lat = double.dyadic 0 0 → dbl.location.utm_zone lon = some 50 →
      dbl.location.wgs84_to_utm dbl.sample_env lon lat
        = some ⟨double.dyadic 7618397285022876 (-35), double.dyadic 0 0⟩ := by
    intro lon lat hlon hlat hz
    unfold dbl.location.wgs84_to_utm
    simp only [hz]
    rw [hlon, hlat]
    simp only [
      s1, s2, s3, s4, s5, s6, s7, s8, s9, s10, s11, s12, s13, s14, s15, s16, s17, s18, s19,
      s20, s21, s22, s23, s24, s25, s26, s27, s28, s29, s30, s31, s32, s33, s34, s35, s36, s37,
      s38, s39, s40, s41, s42, s43, s44, s45, s46, s47, s48, s49, s50, s51, s52, s53, s54, s55,
      s56, s57, s58, s59, s60, s61, s62, s63, s64, s65, s66, s67, s68, s69, s70, s71, s72, s73,
      s74, s75, s76, s77, s78, s79, s80, s81, s82, s83, s84, s85, s86, s87, s88, s89, s90, s91,
      s92, s93, s94, s95, s96, s97, s98, s99, s100, s101, s102, s103, s104, s105, s106, s107,
      s108, s109, s110, s111, s112, s113, s114, s115, s116, s117, s118, s119, s120, s121, s122,
      s123, s124, s125, s126, s127, s128, s129, s130, s131, s132, s133, s134, s135, s136, s137,
      s138, s139, s140, s141, s142, s143, s144, s145, s146, s147,
      dyadic_lt_self]
    rfl
  have zone_v : dbl.location.utm_zone (double.lit 114.875) = some 50 := by
    have ht : (double.lit 114.875 + double.lit 180.0) / double.lit 6.0
        = double.dyadic 6916661146462891 (-47) := by
      rw [s148, s3, s149, s5, s150]
    exact utm_zone_some _ _ 49 ht (by norm_num) (by norm_num) (by norm_num)
      (by norm_num)
  have plane_v : ∀ lon lat : double, lon = double.dyadic 8083609487409152 (-46) →
      lat = double.dyadic 0 0 → dbl.location.utm_zone lon = some 50 →
      dbl.location.wgs84_to_utm dbl.sample_env lon lat
        = some ⟨double.dyadic 4526669444409303 (-34), double.dyadic 0 0⟩ := by
    intro lon lat hlon hlat hz
    unfold dbl.location.wgs84_to_utm
    simp only [hz]
    rw [hlon, hlat]
    simp only [
      s148, s2, s3, s149, s5, s150, s7, s8, s9, s10, s11, s12, s151, s152, s15, s16, s17, s18,
      s19, s20, s21, s22, s23, s24, s25, s26, s27, s28, s29, s30, s31, s32, s33, s34, s35, s36,
      s37, s38, s39, s40, s41, s42, s43, s44, s45, s46, s47, s48, s49, s50, s51, s52, s53, s54,
      s55, s56, s57, s58, s59, s60, s61, s62, s63, s64, s65, s66, s67, s68, s69, s70, s71, s72,
      s73, s74, s75, s76, s77, s78, s79, s80, s81, s153, s154, s84, s85, s155, s156, s157,
      s158, s159, s91, s92, s93, s94, s95, s96, s97, s98, s99, s100, s160, s161, s162, s163,
      s164, s106, s165, s166, s167, s168, s169, s112, s113, s114, s115, s116, s117, s170, s171,
      s172, s173, s122, s174, s175, s125, s126, s127, s128, s129, s130, s131, s132, s133, s134,
      s176, s177, s178, s179, s180, s181, s141, s182, s183, s184, s145, s146, s185,
      dyadic_lt_self]
    rfl
  have zone_t : dbl.location.utm_zone (double.lit 119.75) = some 50 := by
    have ht : (double.lit 119.75 + double.lit 180.0) / double.lit 6.0
        = double.dyadic 7031010355751595 (-47) := by
      rw [s186, s3, s187, s5, s188]
    exact utm_zone_some _ _ 49 ht (by norm_num) (by norm_num) (by norm_num)
      (by norm_num)
  have plane_t : ∀ lon lat : double, lon = double.dyadic 8426657115275264 (-46) →
      lat = double.dyadic 0 0 → dbl.location.utm_zone lon = some 50 →
      dbl.location.wgs84_to_utm dbl.sample_env lon lat
        = some ⟨double.dyadic 6924548589963050 (-33), double.dyadic 0 0⟩ := by
    intro lon lat hlon hlat hz
    unfold dbl.location.wgs84_to_utm
    simp only [hz]
    rw [hlon, hlat]
    simp only [
      s186, s2, s3, s187, s5, s188, s7, s8, s9, s10, s11, s12, s189, s190, s15, s16, s17, s18,
      s19, s20, s21, s22, s23, s24, s25, s26, s27, s28, s29, s30, s31, s32, s33, s34, s35, s36,
      s37, s38, s39, s40, s41, s42, s43, s44, s45, s46, s47, s48, s49, s50, s51, s52, s53, s54,
      s55, s56, s57, s58, s59, s60, s61, s62, s63, s64, s65, s66, s67, s68, s69, s70, s71, s72,
      s73, s74, s75, s76, s77, s78, s79, s80, s81, s191, s192, s84, s85, s193, s194, s195,
      s196, s197, s91, s92, s93, s94, s95, s96, s97, s98, s99, s100, s198, s199, s200, s201,
      s202, s106, s203, s204, s205, s206, s207, s112, s113, s114, s115, s116, s117, s208, s209,
      s210, s211, s122, s212, s213, s125, s126, s127, s128, s129, s130, s131, s132, s133, s134,
      s214, s215, s216, s217, s218, s219, s141, s220, s221, s222, s145, s146, s223,
      dyadic_lt_self]
    rfl
  have dist_uv : dbl.point2d.distance_to dbl.sample_env
      ⟨double.dyadic 7618397285022876 (-35), double.dyadic 0 0⟩
      ⟨double.dyadic 4526669444409303 (-34), double.dyadic 0 0⟩ = double.dyadic 5739766415182920 (-37) := by
    rw [dbl_distance_to_eq]
    show double.sqrt dbl.sample_env.sqrt
      ((double.dyadic 4526669444409303 (-34) - double.dyadic 7618397285022876 (-35))
          * (double.dyadic 4526669444409303 (-34) - double.dyadic 7618397285022876 (-35))
        + (double.dyadic 0 0 - double.dyadic 0 0) * (double.dyadic 0 0 - double.dyadic 0 0)) = _
    simp only [
      s224, s64, s225, s73, s226, s227]
  have dist_vt : dbl.point2d.distance_to dbl.sample_env
      ⟨double.dyadic 4526669444409303 (-34), double.dyadic 0 0⟩
      ⟨double.dyadic 6924548589963050 (-33), double.dyadic 0 0⟩ = double.dyadic 4661213867758398 (-33) := by
    rw [dbl_distance_to_eq]
    show double.sqrt dbl.sample_env.sqrt
      ((double.dyadic 6924548589963050 (-33) - double.dyadic 4526669444409303 (-34))
          * (double.dyadic 6924548589963050 (-33) - double.dyadic 4526669444409303 (-34))
        + (double.dyadic 0 0 - double.dyadic 0 0) * (double.dyadic 0 0 - double.dyadic 0 0)) = _
    simp only [
      s228, s64, s229, s73, s230, s231]
  have dist_ut : dbl.point2d.distance_to dbl.sample_env
      ⟨double.dyadic 7618397285022876 (-35), double.dyadic 0 0⟩
      ⟨double.dyadic 6924548589963050 (-33), double.dyadic 0 0⟩ = double.dyadic 5019949268707331 (-33) := by
    rw [dbl_distance_to_eq]
    show double.sqrt dbl.sample_env.sqrt
      ((double.dyadic 6924548589963050 (-33) - double.dyadic 7618397285022876 (-35))
          * (double.dyadic 6924548589963050 (-33) - double.dyadic 7618397285022876 (-35))
        + (double.dyadic 0 0 - double.dyadic 0 0) * (double.dyadic 0 0 - double.dyadic 0 0)) = _
    simp only [
      s232, s64, s233, s73, s234, s235]
  exact ⟨zone_u, plane_u _ _ s1 s2 zone_u, zone_v, plane_v _ _ s148 s2 zone_v, zone_t,
    plane_t _ _ s186 s2 zone_t, dist_uv, dist_vt, dist_ut, s236⟩

/-- Two points with numbers as coordinates are in range where each coordinate difference is
0 or of a magnitude from 1 to 2^20. -/
theorem in_range_of_bounds (ax ay bx by_ : ℚ) (hx : bx - ax = 0 ∨ 1 ≤ |bx - ax|)
    (hx2 : |bx - ax| ≤ 2 ^ (20 : ℤ)) (hy : by_ - ay = 0 ∨ 1 ≤ |by_ - ay|)
    (hy2 : |by_ - ay| ≤ 2 ^ (20 : ℤ)) :
    dbl.point2d.in_range ⟨.fin ax, .fin ay⟩ ⟨.fin bx, .fin by_⟩ := by
  have h1 : (2 : ℚ) ^ (-500 : ℤ) ≤ 1 := by
    have := two_zpow_le (-500) 0 (by norm_num)
    simpa using this
  have h2 : (2 : ℚ) ^ (20 : ℤ) ≤ 2 ^ (500 : ℤ) := two_zpow_le _ _ (by norm_num)
  refine ⟨rfl, rfl, ?_, le_trans hx2 h2, ?_, le_trans hy2 h2⟩
  · rcases hx with h | h
    · exact Or.inl h
    · exact Or.inr (le_trans h1 h)
  · rcases hy with h | h
    · exact Or.inl h
    · exact Or.inr (le_trans h1 h)

/-- The network equator_net is what add_town(1, "Equator") and three calls of
add_local_place with the latitude 0 and the longitudes 114.5, 114.875 and 119.75 build. -/
theorem equator_net_built :
    dbl.plat.empty.add_town 1 "Equator" = (.ok ⟨1, "Equator", []⟩, ⟨[(1, ⟨1, "Equator", []⟩)]⟩) ∧
    (⟨1, "Equator", []⟩ : dbl.city).add_local_place dbl.sample_env 1 "U"
      ⟨double.lit 0, double.lit 114.5⟩
      = some (.ok dbl.equator_u, ⟨1, "Equator", [(city.place_id 1 1, dbl.equator_u)]⟩) ∧
    (⟨1, "Equator", [(city.place_id 1 1, dbl.equator_u)]⟩ : dbl.city).add_local_place
      dbl.sample_env 2 "V" ⟨double.lit 0, double.lit 114.875⟩
      = some (.ok dbl.equator_v, ⟨1, "Equator", [(city.place_id 1 1, dbl.equator_u),
        (city.place_id 1 2, dbl.equator_v)]⟩) ∧
    (⟨1, "Equator", [(city.place_id 1 1, dbl.equator_u),
        (city.place_id 1 2, dbl.equator_v)]⟩ : dbl.city).add_local_place
      dbl.sample_env 3 "T" ⟨double.lit 0, double.lit 119.75⟩
      = some (.ok dbl.equator_t, dbl.equator_town) ∧
    (dbl.plat.mk [(1, ⟨1, "Equator", []⟩)]).set_town 1 dbl.equator_town = dbl.equator_net := by
  refine ⟨rfl, ?_, ?_, ?_, rfl⟩
  · exact dbl_add_local_place_ok dbl.sample_env ⟨1, "Equator", []⟩ 1 "U"
      ⟨double.lit 0, double.lit 114.5⟩ _ rfl equator_values.2.1 (by decide)
  · exact dbl_add_local_place_ok dbl.sample_env
      ⟨1, "Equator", [(city.place_id 1 1, dbl.equator_u)]⟩ 2 "V"
      ⟨double.lit 0, double.lit 114.875⟩ _ rfl equator_values.2.2.2.1 (by decide)
  · exact dbl_add_local_place_ok dbl.sample_env
      ⟨1, "Equator", [(city.place_id 1 1, dbl.equator_u), (city.place_id 1 2, dbl.equator_v)]⟩
      3 "T" ⟨double.lit 0, double.lit 119.75⟩ _ rfl equator_values.2.2.2.2.2.1 (by decide)

theorem dbl_equator_net_wf : dbl.equator_net.wf := by decide

/-- The planar points of the three places are pairwise in range. -/
theorem equator_in_range :
    dbl.equator_u.plane_.in_range dbl.equator_v.plane_ ∧
    dbl.equator_v.plane_.in_range dbl.equator_t.plane_ ∧
    dbl.equator_u.plane_.in_range dbl.equator_t.plane_ := by
  refine ⟨?_, ?_, ?_⟩ <;>
  · apply in_range_of_bounds
    · exact Or.inr (le_abs.mpr (Or.inl (by norm_num)))
    · rw [abs_le]
      constructor <;> norm_num
    · exact Or.inl (by norm_num)
    · rw [abs_le]
      constructor <;> norm_num

/-! ## The heuristic is not consistent on doubles -/

/-- The planar points of the three places of zone 1 "Capital" are pairwise in range. -/
theorem capital_in_range :
    dbl.capital_a.plane_.in_range dbl.capital_b.plane_ ∧
    dbl.capital_b.plane_.in_range dbl.capital_c.plane_ ∧
    dbl.capital_a.plane_.in_range dbl.capital_c.plane_ := by
  refine ⟨?_, ?_, ?_⟩ <;>
  · apply in_range_of_bounds
    · exact Or.inr (le_abs.mpr (Or.inl (by norm_num)))
    · rw [abs_le]
      constructor <;> norm_num
    · exact Or.inr (le_abs.mpr (Or.inr (by norm_num)))
    · rw [abs_le]
      constructor <;> norm_num

theorem heuristic_consistent_rounded_witness :
    ∃ ruv rvt rut s : ℚ,
      (dbl.capital_net.add_road dbl.sample_env (city.place_id 1 1)
        (city.place_id 1 2)).2.road_length (city.place_id 1 1) (city.place_id 1 2) = .fin ruv ∧
      dbl.astar_node.heuristic dbl.sample_env dbl.capital_b.plane_ dbl.capital_c.plane_
        = .fin rvt ∧
      dbl.astar_node.heuristic dbl.sample_env dbl.capital_a.plane_ dbl.capital_c.plane_
        = .fin rut ∧
      0 ≤ ruv ∧ 0 ≤ rvt ∧ 0 ≤ rut ∧ rut ≤ (1 + 2 ^ (-49 : ℤ)) * (ruv + rvt) ∧
      (dbl.capital_net.add_road dbl.sample_env (city.place_id 1 1)
        (city.place_id 1 2)).2.road_length (city.place_id 1 1) (city.place_id 1 2)
        + dbl.astar_node.heuristic dbl.sample_env dbl.capital_b.plane_ dbl.capital_c.plane_
        = .fin s ∧
      rut ≤ (1 + 2 ^ (-49 : ℤ)) * s :=
  (heuristic_consistent_rounded dbl.sample_env dbl_sqrt_sample_accurate dbl.capital_net
    dbl_capital_net_wf (city.place_id 1 1) (city.place_id 1 2) (city.place_id 1 3)
    dbl.capital_a dbl.capital_b dbl.capital_c _ _ rfl rfl rfl rfl capital_in_range.1
    capital_in_range.2.1 capital_in_range.2.2).2.2.2.2.2.1

/-- C32, as stated, fails: zone 1 "Equator" with the places U, V and T added by
add_local_place at the latitude 0 and the longitudes 114.5, 114.875 and 119.75, all in
UTM zone 50, on a platform whose sqrt is accurate and whose sin, cos and tan are exact at
0, the only argument they receive here. The planar points are (221724.54..., 0),
(263486.84..., 0) and (806123.55..., 0), pairwise in range. After add_road(U, V),
road_length(U, V) =
41762.297152184474, heuristic(plane(V), plane(T)) = 542636.71251926548 and
heuristic(plane(U), plane(T)) = 584399.00967145001, which is larger than the sum of the
two, taken exactly, and larger than the sum as the double addition gives it,
584399.00967144989: the comparison heuristic(U, T) <= road_length(U, V) + heuristic(V, T)
is false. -/
theorem heuristic_consistent_counterexample :
    dbl.sample_env.sqrt_accurate ∧
    dbl.equator_u.plane_.in_range dbl.equator_v.plane_ ∧
    dbl.equator_v.plane_.in_range dbl.equator_t.plane_ ∧
    dbl.equator_u.plane_.in_range dbl.equator_t.plane_ ∧
    (⟨1, "Equator", []⟩ : dbl.city).add_local_place dbl.sample_env 1 "U"
      ⟨double.lit 0, double.lit 114.5⟩
      = some (.ok dbl.equator_u, ⟨1, "Equator", [(city.place_id 1 1, dbl.equator_u)]⟩) ∧
    (⟨1, "Equator", [(city.place_id 1 1, dbl.equator_u)]⟩ : dbl.city).add_local_place
      dbl.sample_env 2 "V" ⟨double.lit 0, double.lit 114.875⟩
      = some (.ok dbl.equator_v, ⟨1, "Equator", [(city.place_id 1 1, dbl.equator_u),
        (city.place_id 1 2, dbl.equator_v)]⟩) ∧
    (⟨1, "Equator", [(city.place_id 1 1, dbl.equator_u),
        (city.place_id 1 2, dbl.equator_v)]⟩ : dbl.city).add_local_place
      dbl.sample_env 3 "T" ⟨double.lit 0, double.lit 119.75⟩
      = some (.ok dbl.equator_t, dbl.equator_town) ∧
    dbl.equator_net = ⟨[(1, dbl.equator_town)]⟩ ∧
    dbl.equator_net.place (city.place_id 1 1) = some dbl.equator_u ∧
    dbl.equator_net.place (city.place_id 1 2) = some dbl.equator_v ∧
    dbl.equator_net.place (city.place_id 1 3) = some dbl.equator_t ∧
    (dbl.equator_net.add_road dbl.sample_env (city.place_id 1 1) (city.place_id 1 2)).1
      = .ok (double.dyadic 5739766415182920 (-37)) ∧
    (dbl.equator_net.add_road dbl.sample_env (city.place_id 1 1)
      (city.place_id 1 2)).2.road_length (city.place_id 1 1) (city.place_id 1 2)
      = double.dyadic 5739766415182920 (-37) ∧
    dbl.astar_node.heuristic dbl.sample_env dbl.equator_v.plane_ dbl.equator_t.plane_
      = double.dyadic 4661213867758398 (-33) ∧
    dbl.astar_node.heuristic dbl.sample_env dbl.equator_u.plane_ dbl.equator_t.plane_
      = double.dyadic 5019949268707331 (-33) ∧
    (5739766415182920 : ℚ) * 2 ^ (-37 : ℤ) + (4661213867758398 : ℚ) * 2 ^ (-33 : ℤ)
      < (5019949268707331 : ℚ) * 2 ^ (-33 : ℤ) ∧
    (dbl.equator_net.add_road dbl.sample_env (city.place_id 1 1)
      (city.place_id 1 2)).2.road_length (city.place_id 1 1) (city.place_id 1 2)
      + dbl.astar_node.heuristic dbl.sample_env dbl.equator_v.plane_ dbl.equator_t.plane_
      = double.dyadic 5019949268707330 (-33) ∧
    (dbl.astar_node.heuristic dbl.sample_env dbl.equator_u.plane_ dbl.equator_t.plane_).le
      ((dbl.equator_net.add_road dbl.sample_env (city.place_id 1 1)
        (city.place_id 1 2)).2.road_length (city.place_id 1 1) (city.place_id 1 2)
        + dbl.astar_node.heuristic dbl.sample_env dbl.equator_v.plane_ dbl.equator_t.plane_)
      = false := by
  have hadd : dbl.equator_net.add_road dbl.sample_env (city.place_id 1 1) (city.place_id 1 2)
      = (.ok (dbl.equator_u.plane_.distance_to dbl.sample_env dbl.equator_v.plane_),
        ⟨[(1, ⟨1, "Equator", [(city.place_id 1 1,
          dbl.equator_u.add_road dbl.sample_env (city.place_id 1 2) dbl.equator_v.plane_),
          (city.place_id 1 2, dbl.equator_v), (city.place_id 1 3, dbl.equator_t)]⟩)]⟩) := by
    have e1 : town_of (city.place_id 1 1) = 1 := by decide
    have e2 : town_of (city.place_id 1 2) = 1 := by decide
    have e3 : city.place_id 1 1 ≠ city.place_id 1 2 := by decide
    have e4 : dbl.equator_v.id_ = city.place_id 1 2 := rfl
    simp [dbl.plat.add_road, e1, e2, e3, e4, dbl.plat.town, umap_find, umap_set,
      dbl.city.add_road, dbl.city.place, dbl.equator_net, dbl.equator_town,
      dbl_road_length_to_add_road]
  have hlen : (dbl.equator_net.add_road dbl.sample_env (city.place_id 1 1)
      (city.place_id 1 2)).2.road_length (city.place_id 1 1) (city.place_id 1 2)
      = double.dyadic 5739766415182920 (-37) := by
    rw [hadd]
    have e1 : town_of (city.place_id 1 1) = 1 := by decide
    simp only [dbl.plat.road_length, dbl.plat.place, e1, umap_find, if_true, dbl.city.place,
      dbl_road_length_to_add_road]
    exact equator_values.2.2.2.2.2.2.1
  have hvt : dbl.astar_node.heuristic dbl.sample_env dbl.equator_v.plane_ dbl.equator_t.plane_
      = double.dyadic 4661213867758398 (-33) := equator_values.2.2.2.2.2.2.2.1
  have hut : dbl.astar_node.heuristic dbl.sample_env dbl.equator_u.plane_ dbl.equator_t.plane_
      = double.dyadic 5019949268707331 (-33) := equator_values.2.2.2.2.2.2.2.2.1
  refine ⟨dbl_sqrt_sample_accurate, equator_in_range.1, equator_in_range.2.1,
    equator_in_range.2.2, equator_net_built.2.1, equator_net_built.2.2.1,
    equator_net_built.2.2.2.1, rfl, rfl, rfl, rfl, ?_, hlen, hvt, hut, by norm_num, ?_, ?_⟩
  · rw [hadd]
    exact congrArg Except.ok equator_values.2.2.2.2.2.2.1
  · rw [hlen, hvt]
    exact equator_values.2.2.2.2.2.2.2.2.2
  · rw [hlen, hvt, hut, equator_values.2.2.2.2.2.2.2.2.2]
    simp only [double.le, double.lt, double.eq, dyadic_def, Bool.or_eq_false_iff,
      decide_eq_false_iff_not]
    constructor <;> norm_num

end chr
